import Mathlib

/-!
# GLSL ES generator (`sl_GeneratorGLES.cpp`)

A shallow embedding of `sl::GLESGenerator` and theorems about it.

Conventions of the embedding

* A C string that the code tests against `nullptr` is an `Option String`; a
  linked list (`nextStatement`, `nextExpression`, `nextField`,
  `nextArgument`) is a `List`, the null pointer being `[]`.
* The members of `GLESGenerator` that emission only reads are the structure
  `GLESGenerator`; the members that emission writes (`writer`, `hasError`)
  are the structure `GenState`, threaded through every emitting function.
* A function returns `none` where the C++ code dereferences a null pointer.
* `DVASSERT` does not stop execution and is not modelled.
* What the translation unit takes from headers that are not part of the
  sources at hand (`rhi::MAX_RENDER_TARGET_COUNT`, the size of the name
  buffers, the platform macro, the indentation width of the code writer) is
  the parameter `BuildConfig`.

The namespace `DAVA` holds the embedding of `ActionSystemImpl::BindSet` and
`ActionSystemImpl::UnbindAllSets` (`ActionSystemImpl.cpp`), with the bound
sets and the two maps of action states as explicit state.
-/

namespace sl

/-! ## Build-time parameters -/

/-- The four platform families selected by `__DAVAENGINE_IPHONE__`,
`__DAVAENGINE_ANDROID__`, `__DAVAENGINE_MACOS__` and the fallback branch. -/
inductive Platform where
  | IPHONE
  | ANDROID
  | MACOS
  | OTHER
  deriving DecidableEq, Repr

/-- Constants that come from headers and compiler flags. -/
structure BuildConfig where
  platform : Platform
  MAX_RENDER_TARGET_COUNT : Nat
  nameBufferLength : Nat
  spacesPerIndent : Nat

inductive GLSLVersion where
  | GLSL_100
  | GLSL_300
  deriving DecidableEq, Repr

inductive Target where
  | TARGET_VERTEX
  | TARGET_FRAGMENT
  deriving DecidableEq, Repr

/-! ## Tree data model (`sl_Tree.h`) -/

inductive HLSLBaseType where
  | Unknown | Void
  | Float | Float2 | Float3 | Float4 | Float3x3 | Float4x4
  | Half | Half2 | Half3 | Half4 | Half3x3 | Half4x4
  | Bool
  | Int | Int2 | Int3 | Int4
  | Uint | Uint2 | Uint3 | Uint4
  | Texture | Sampler | Sampler2D | Sampler2DShadow | Sampler3D | SamplerCube
  | UserDefined
  deriving DecidableEq, Repr

/-- The two bits of `HLSLType::flags` that the generator tests
(`HLSLTypeFlag_Const`, `HLSLTypeFlag_Property`). -/
structure HLSLTypeFlags where
  Const : Bool
  Property : Bool
  deriving DecidableEq, Repr

inductive HLSLUnaryOp where
  | Negative | Positive | Not | PreIncrement | PreDecrement | PostIncrement | PostDecrement
  | Other
  deriving DecidableEq, Repr

inductive HLSLBinaryOp where
  | Add | Sub | Mul | Div | Less | Greater | LessEqual | GreaterEqual | Equal | NotEqual
  | Assign | AddAssign | SubAssign | MulAssign | DivAssign | And | Or
  | Other
  deriving DecidableEq, Repr

mutual
/-- `HLSLType`: base type, name of a user-defined type, array flag, array size
expression and flags. -/
inductive HLSLType where
  | mk (baseType : HLSLBaseType) (typeName : Option String) (array : Bool)
      (arraySize : Option HLSLExpression) (flags : HLSLTypeFlags)
/-- `HLSLExpression` and its subclasses, one constructor per `nodeType` that
`OutputExpression` distinguishes. A float literal carries the text that
`String_FormatFloat` produces for `fValue`. A function call carries the name
of `function` and the types of the chain `function->argument`. -/
inductive HLSLExpression where
  | IdentifierExpression (expressionType : HLSLType) (name : String)
  | ConstructorExpression (expressionType : HLSLType) (type : HLSLType)
      (argument : List HLSLExpression)
  | CastingExpression (expressionType : HLSLType) (type : HLSLType)
      (expression : HLSLExpression)
  | LiteralExpression (expressionType : HLSLType) (type : HLSLBaseType) (bValue : Bool)
      (fValue : String) (iValue : Int)
  | UnaryExpression (expressionType : HLSLType) (unaryOp : HLSLUnaryOp)
      (expression : HLSLExpression)
  | BinaryExpression (expressionType : HLSLType) (binaryOp : HLSLBinaryOp)
      (expression1 : HLSLExpression) (expression2 : HLSLExpression)
  | ConditionalExpression (expressionType : HLSLType) (condition : HLSLExpression)
      (trueExpression : HLSLExpression) (falseExpression : HLSLExpression)
  | MemberAccess (expressionType : HLSLType) (object : HLSLExpression) (field : String)
  | ArrayAccess (expressionType : HLSLType) (array : HLSLExpression) (index : HLSLExpression)
  | FunctionCall (expressionType : HLSLType) (functionName : String)
      (functionArgument : List HLSLType) (argument : List HLSLExpression)
  | Other (expressionType : HLSLType)
end

def HLSLType.baseType : HLSLType → HLSLBaseType
  | .mk b _ _ _ _ => b

def HLSLType.typeName : HLSLType → Option String
  | .mk _ n _ _ _ => n

def HLSLType.array : HLSLType → Bool
  | .mk _ _ a _ _ => a

def HLSLType.arraySize : HLSLType → Option HLSLExpression
  | .mk _ _ _ z _ => z

def HLSLType.flags : HLSLType → HLSLTypeFlags
  | .mk _ _ _ _ f => f

/-- The constructor `HLSLType(HLSLBaseType)`: a plain, non-array type. -/
def HLSLType.ofBase (b : HLSLBaseType) : HLSLType :=
  .mk b none false none { Const := false, Property := false }

def HLSLExpression.expressionType : HLSLExpression → HLSLType
  | .IdentifierExpression t _ => t
  | .ConstructorExpression t _ _ => t
  | .CastingExpression t _ _ => t
  | .LiteralExpression t _ _ _ _ => t
  | .UnaryExpression t _ _ => t
  | .BinaryExpression t _ _ _ => t
  | .ConditionalExpression t _ _ _ => t
  | .MemberAccess t _ _ => t
  | .ArrayAccess t _ _ => t
  | .FunctionCall t _ _ _ => t
  | .Other t => t

inductive StructUsage where
  | struct_Generic | struct_VertexIn | struct_VertexOut | struct_FragmentIn | struct_FragmentOut
  deriving DecidableEq, Repr

structure HLSLAttribute where
  attrText : String

structure HLSLStructField where
  name : String
  type : HLSLType
  semantic : Option String
  attribute_ : Option HLSLAttribute

structure HLSLStruct where
  name : String
  field : List HLSLStructField
  usage : StructUsage

/-- `HLSLDeclaration`; `assignment` is the chain of initialiser expressions. -/
structure HLSLDeclaration where
  name : String
  type : HLSLType
  registerName : Option String
  annotationText : Option String
  assignment : List HLSLExpression

structure HLSLBuffer where
  field : HLSLDeclaration

inductive HLSLArgumentModifier where
  | None | In | Inout | Other
  deriving DecidableEq, Repr

structure HLSLArgument where
  name : String
  type : HLSLType
  modifier : HLSLArgumentModifier
  semantic : Option String

/-- `HLSLStatement` and its subclasses; every statement has the `hidden` flag. -/
inductive HLSLStatement where
  | Declaration (hidden : Bool) (declaration : HLSLDeclaration)
  | Struct (hidden : Bool) (structure_ : HLSLStruct)
  | Buffer (hidden : Bool) (buffer : HLSLBuffer)
  | Function (hidden : Bool) (name : String) (returnType : HLSLType)
      (semantic : Option String) (argument : List HLSLArgument)
      (statement : List HLSLStatement)
  | ExpressionStatement (hidden : Bool) (expression : HLSLExpression)
  | ReturnStatement (hidden : Bool) (expression : Option HLSLExpression)
  | DiscardStatement (hidden : Bool)
  | BreakStatement (hidden : Bool)
  | ContinueStatement (hidden : Bool)
  | IfStatement (hidden : Bool) (condition : HLSLExpression)
      (statement : List HLSLStatement) (elseStatement : List HLSLStatement)
  | ForStatement (hidden : Bool) (initialization : HLSLDeclaration)
      (condition : HLSLExpression) (increment : HLSLExpression)
      (statement : List HLSLStatement)
  | BlockStatement (hidden : Bool) (statement : List HLSLStatement)
  | Other (hidden : Bool)

/-- The fields of an `HLSLFunction` node. -/
structure HLSLFunction where
  name : String
  returnType : HLSLType
  semantic : Option String
  argument : List HLSLArgument
  statement : List HLSLStatement

/-- `HLSLRoot::statement` together with the token-containment query of the
tree, which is a capability of the tree and not computed by the generator. -/
structure HLSLTree where
  root : List HLSLStatement
  containsString : String → Bool

/-! ## C library and `sl_Common` helpers -/

/-- Modelled from the spec: `String_Equal` is declared in a header that is
not part of the sources at hand, so its body is an assumption of this
development. It is taken as a comparison that holds of two equal C strings
and fails for two strings that differ in more than letter case, which both
readings of it give; for two strings that differ in letter case only it is
taken to fail, as its name beside `String_EqualNoCase` and `stricmp` says,
although the specification calls the lookup of the intrinsics
case-insensitive. What the code does for a name that differs from a compared
name in letter case only is therefore not settled here: the theorems of the
claims concern the exact spellings. -/
def String_Equal (a b : String) : Bool :=
  decide (a = b)

/-- ASCII lower-casing of every character, as the case-insensitive C
comparisons do before they compare. -/
def asciiLower (a : String) : String :=
  String.mk (a.data.map Char.toLower)

/-- `stricmp`: `0` exactly when the two strings are equal up to ASCII letter
case. The generator only ever tests the result against `0`, so the sign of a
non-zero result is not modelled. -/
def stricmp (a b : String) : Int :=
  if asciiLower a = asciiLower b then 0 else 1

/-- Modelled from the spec: `String_EqualNoCase`, declared in the same
header: the comparison up to ASCII letter case. -/
def String_EqualNoCase (a b : String) : Bool :=
  decide (asciiLower a = asciiLower b)

/-- `strcmp`, tested against `0` only. -/
def strcmp (a b : String) : Int :=
  if a = b then 0 else 1

/-- The conversion `%d` of `printf` for an `int` argument. -/
def fmt_d (i : Int) : String :=
  toString i

/-- The value `printf("%d", u)` shows for a `uint32_t` argument `u`: the bits
read as a two's complement `int`. -/
def uint32AsInt (u : Nat) : Int :=
  if u % 4294967296 < 2147483648 then ((u % 4294967296 : Nat) : Int)
  else ((u % 4294967296 : Nat) : Int) - 4294967296

/-- The cast `uint32_t(i)` of an `int`. -/
def intAsUint32 (i : Int) : Nat :=
  (i % 4294967296).toNat

/-- The digits at the start of a character list, as `%d` of `sscanf` reads them. -/
def scanDigits : List Char → Nat → Nat
  | [], acc => acc
  | c :: cs, acc => if c.isDigit then scanDigits cs (acc * 10 + (c.toNat - 48)) else acc

/-- The conversion `%d` of `sscanf` on the rest of the input: optional white
space, an optional sign and at least one digit; `none` when nothing matches. -/
def scanInt (cs : List Char) : Option Int :=
  match cs.dropWhile Char.isWhitespace with
  | '-' :: d :: ds => if d.isDigit then some (-(scanDigits (d :: ds) 0 : Int)) else none
  | '+' :: d :: ds => if d.isDigit then some (scanDigits (d :: ds) 0 : Int) else none
  | d :: ds => if d.isDigit then some (scanDigits (d :: ds) 0 : Int) else none
  | [] => none

/-- The call `sscanf(registerName, "s%d", &reg)` with `reg` initialised to
`-1`: the value of `reg` afterwards. -/
def sscanf_s_d (registerName : String) : Int :=
  match registerName.data with
  | 's' :: cs => (scanInt cs).getD (-1)
  | _ => -1

/-- `Snprintf(dst, dstLength, "%s%d", base, i)`: the text left in `dst`, cut
to `dstLength - 1` characters. -/
def Snprintf_s_d (dstLength : Nat) (base : String) (i : Nat) : String :=
  String.mk ((base ++ toString i).data.take (dstLength - 1))

/-! ## Tables of the translation unit -/

def FRAGMENT_OUTPUT_NAME : GLSLVersion → String
  | .GLSL_100 => "gl_FragColor"
  | .GLSL_300 => "out_FragColor0"

/-- `FRAGMENT_MRT_OUTPUT_NAME[version]` applied to its one `%d` argument. -/
def FRAGMENT_MRT_OUTPUT_NAME (version : GLSLVersion) (d : Int) : String :=
  match version with
  | .GLSL_100 => "gl_FragData[" ++ fmt_d d ++ "]"
  | .GLSL_300 => "out_FragColor" ++ fmt_d d

def ReservedWord : List String :=
  ["output", "input", "mod", "mix", "fract"]

def _builtInSemantics : List (String × String) :=
  [("SV_POSITION", "gl_Position"), ("DEPTH", "gl_FragDepth")]

def GetTypeName (type : HLSLType) : String :=
  match type.baseType with
  | .Void => "void"
  | .Float => "float"
  | .Float2 => "vec2"
  | .Float3 => "vec3"
  | .Float4 => "vec4"
  | .Float3x3 => "mat3"
  | .Float4x4 => "mat4"
  | .Half => "float"
  | .Half2 => "vec2"
  | .Half3 => "vec3"
  | .Half4 => "vec4"
  | .Half3x3 => "mat3"
  | .Half4x4 => "mat4"
  | .Bool => "bool"
  | .Int => "int"
  | .Int2 => "ivec2"
  | .Int3 => "ivec3"
  | .Int4 => "ivec4"
  | .Uint => "uint"
  | .Uint2 => "uvec2"
  | .Uint3 => "uvec3"
  | .Uint4 => "uvec4"
  | .Texture => "texture"
  | .Sampler => "sampler"
  | .Sampler2D => "sampler2D"
  | .Sampler2DShadow => "sampler2DShadow"
  | .Sampler3D => "sampler3D"
  | .SamplerCube => "samplerCube"
  | .UserDefined => type.typeName.getD "(null)"
  | .Unknown => "?"

def GetCanImplicitCast (srcType dstType : HLSLType) : Bool :=
  decide (srcType.baseType = dstType.baseType)

def GetBuiltInSemantic (semantic : String) : Option String :=
  (_builtInSemantics.find? (fun p => String_EqualNoCase semantic p.1)).map Prod.snd

/-- The text `"SV_TARGETX"` with `X` replaced by `char('0' + index)`; a zero
byte ends the C string. -/
def GetFragmentOutTargetSemantic (index : Nat) : String :=
  if (48 + index) % 256 = 0 then "SV_TARGET"
  else "SV_TARGET".push (Char.ofNat ((48 + index) % 256))

/-- The number of arguments that `GetFunctionArguments` returns. -/
def GetFunctionArguments (argument : List HLSLExpression) : Nat :=
  argument.length

/-! ## Tree queries -/

def FindFunction (root : List HLSLStatement) (name : String) : Option HLSLFunction :=
  match root with
  | [] => none
  | .Function _ fname returnType semantic argument statement :: rest =>
    if String_Equal fname name then
      some { name := fname, returnType := returnType, semantic := semantic,
             argument := argument, statement := statement }
    else FindFunction rest name
  | _ :: rest => FindFunction rest name

def FindStruct (root : List HLSLStatement) (name : String) : Option HLSLStruct :=
  match root with
  | [] => none
  | .Struct _ structDeclaration :: rest =>
    if String_Equal structDeclaration.name name then some structDeclaration
    else FindStruct rest name
  | _ :: rest => FindStruct rest name

/-- Modelled from the spec: `HLSLTree::FindGlobalStruct` is not part of the
sources at hand; it is the "find-global-struct-by-name" capability of the
tree, the first top-level struct with the given name, as `FindStruct` of the
generator computes it. A null name finds nothing. -/
def HLSLTree.FindGlobalStruct (tree : HLSLTree) (name : Option String) : Option HLSLStruct :=
  match name with
  | none => none
  | some n => FindStruct tree.root n

/-- The first top-level declaration with the given name. -/
def FindDeclaration (root : List HLSLStatement) (name : String) : Option HLSLDeclaration :=
  match root with
  | [] => none
  | .Declaration _ declaration :: rest =>
    if String_Equal declaration.name name then some declaration
    else FindDeclaration rest name
  | _ :: rest => FindDeclaration rest name

/-- Modelled from the spec: `HLSLTree::FindGlobalDeclaration` is not part of
the sources at hand; it is taken to be the lookup by name among the top-level
declarations, like the struct and function lookups. -/
def HLSLTree.FindGlobalDeclaration (tree : HLSLTree) (name : String) : Option HLSLDeclaration :=
  FindDeclaration tree.root name

def HLSLTree.GetContainsString (tree : HLSLTree) (text : String) : Bool :=
  tree.containsString text

/-! ## Generator state -/

/-- The members of `GLESGenerator` that statement and expression emission
reads and never writes. -/
structure GLESGenerator where
  tree : HLSLTree
  entryName : String
  version : GLSLVersion
  target : Target
  mrtUsed : Bool
  matrixRowFunction : String
  clipFunction : String
  tex2DlodFunction : String
  tex2DbiasFunction : String
  tex3DlodFunction : String
  texCUBEbiasFunction : String
  scalarSwizzle2Function : String
  scalarSwizzle3Function : String
  scalarSwizzle4Function : String
  sinCosFunction : String
  reservedWord : List String
  inAttribPrefix : String
  outAttribPrefix : String

/-- The members that emission writes: the text accumulated by `writer`, the
sticky flag `hasError`, and the messages handed to `DAVA::Logger::Error`. -/
structure GenState where
  code : String
  hasError : Bool
  log : List String
  deriving DecidableEq

/-- Modelled from the spec: `CodeWriter` is not part of the sources at hand;
it is the append-only text builder of the design notes, without source line
bookkeeping. `Write` appends the formatted text. -/
def GenState.Write (s : GenState) (text : String) : GenState :=
  { s with code := s.code ++ text }

/-- Modelled from the spec: the indentation that begins a line. -/
def indentText (cfg : BuildConfig) (indent : Nat) : String :=
  String.mk (List.replicate (indent * cfg.spacesPerIndent) ' ')

/-- Modelled from the spec: `CodeWriter::BeginLine` (and `WriteIdent`). -/
def GenState.BeginLine (s : GenState) (cfg : BuildConfig) (indent : Nat) : GenState :=
  s.Write (indentText cfg indent)

/-- Modelled from the spec: `CodeWriter::EndLine`. -/
def GenState.EndLine (s : GenState) (text : String) : GenState :=
  s.Write (text ++ "\n")

/-- Modelled from the spec: `CodeWriter::WriteLine` and
`WriteLineWithNumber`: one whole line at the given indentation. -/
def GenState.WriteLine (s : GenState) (cfg : BuildConfig) (indent : Nat) (text : String) :
    GenState :=
  (s.BeginLine cfg indent).EndLine text

/-- `GLESGenerator::Error`: the first message is logged (cut to the 1024 byte
buffer) and raises the flag, every later one is dropped. -/
def GenState.Error (s : GenState) (message : String) : GenState :=
  if s.hasError then s
  else { s with hasError := true, log := s.log ++ [String.mk (message.data.take 1022)] }

def GetSafeIdentifierName (g : GLESGenerator) (name : String) : String :=
  match (ReservedWord.zip g.reservedWord).find? (fun p => String_Equal p.1 name) with
  | some p => p.2
  | none => name

def OutputIdentifier (cfg : BuildConfig) (g : GLESGenerator) (s : GenState) (name : String) :
    GenState :=
  let name :=
    if String_Equal name "tex2D" then
      (if g.version = .GLSL_100 then "texture2D" else "texture")
    else if String_Equal name "tex2Dcmp" then
      (if g.version = .GLSL_100 then "shadow2D" else "texture")
    else if String_Equal name "tex2Dproj" then
      (if g.version = .GLSL_100 then "texture2DProj" else "textureProj")
    else if String_Equal name "texCUBE" then
      (if g.version = .GLSL_100 then "textureCube" else "texture")
    else if String_Equal name "texCUBElod" then
      (if g.version = .GLSL_100 then "textureCubeLod" else "textureLod")
    else if String_Equal name "tex2Dgrad" then "textureGrad"
    else if String_Equal name "tex2Dsize" then "textureSize"
    else if String_Equal name "clip" then g.clipFunction
    else if String_Equal name "tex2Dlod" then
      (if g.version = .GLSL_100 then "texture2DLod" else "textureLod")
    else if String_Equal name "texCUBEbias" then g.texCUBEbiasFunction
    else if String_Equal name "atan2" then "atan"
    else if String_Equal name "sincos" then g.sinCosFunction
    else if String_Equal name "fmod" then "mod"
    else if String_Equal name "lerp" then
      (if cfg.platform = .MACOS then "lerp" else "mix")
    else if String_Equal name "frac" then "fract"
    else if String_Equal name "ddx" then "dFdx"
    else if String_Equal name "ddy" then "dFdy"
    else GetSafeIdentifierName g name
  s.Write name

set_option linter.unusedVariables false

/-! ## Expression emission -/

/-- The local `cast` of `OutputExpression`: a destination type is given, the
base types differ, and the node is not a casting expression. -/
def OutputExpression.cast (expression : HLSLExpression) (dstType : Option HLSLType) : Bool :=
  match expression with
  | .CastingExpression _ _ _ => false
  | _ =>
    match dstType with
    | some d => !GetCanImplicitCast expression.expressionType d
    | none => false

/-- The `switch` over `unaryOp`: the operator text, whether it is written
before the operand, and whether the operand gets the type of the unary
expression as destination type. -/
def OutputExpression.unaryOp : HLSLUnaryOp → String × Bool × Bool
  | .Negative => ("-", true, false)
  | .Positive => ("+", true, false)
  | .Not => ("!", true, true)
  | .PreIncrement => ("++", true, false)
  | .PreDecrement => ("--", true, false)
  | .PostIncrement => ("++", false, false)
  | .PostDecrement => ("--", false, false)
  | .Other => ("?", true, false)

/-- The `switch` over `binaryOp`: the operator text and whether `dstType1`,
`dstType2` are set to the type of the binary expression. -/
def OutputExpression.binaryOp : HLSLBinaryOp → String × Bool × Bool
  | .Add => (" + ", true, true)
  | .Sub => (" - ", true, true)
  | .Mul => (" * ", false, false)
  | .Div => (" / ", false, false)
  | .Less => (" < ", false, false)
  | .Greater => (" > ", false, false)
  | .LessEqual => (" <= ", false, false)
  | .GreaterEqual => (" >= ", false, false)
  | .Equal => (" == ", false, false)
  | .NotEqual => (" != ", false, false)
  | .Assign => (" = ", false, true)
  | .AddAssign => (" += ", false, true)
  | .SubAssign => (" -= ", false, true)
  | .MulAssign => (" *= ", false, true)
  | .DivAssign => (" /= ", false, true)
  | .And => (" && ", true, true)
  | .Or => (" || ", true, true)
  | .Other => ("?", false, false)

/-- The literal case of `OutputExpression`. -/
def OutputExpression.literal (s : GenState) (type : HLSLBaseType) (bValue : Bool)
    (fValue : String) (iValue : Int) : GenState :=
  match type with
  | .Half => s.Write fValue
  | .Float => s.Write fValue
  | .Int => s.Write (fmt_d iValue)
  | .Uint => s.Write (fmt_d iValue)
  | .Bool => s.Write (if bValue then "true" else "false")
  | _ => s

/-- What the member access case writes for a field `f` of a vertex-out or
fragment-out struct. -/
def OutputExpression.outField (cfg : BuildConfig) (g : GLESGenerator) (s : GenState)
    (f : HLSLStructField) : GenState :=
  let isSem := fun (t : String) =>
    match f.semantic with
    | some sem => decide (stricmp sem t = 0)
    | none => false
  if isSem "SV_POSITION" then s.Write "gl_Position"
  else if isSem "SV_TARGET" || isSem "SV_TARGET0" || isSem "SV_TARGET1" || isSem "SV_TARGET2"
      || isSem "SV_TARGET3" || isSem "SV_TARGET4" || isSem "SV_TARGET5" then
    if g.mrtUsed then
      let s1 := if isSem "SV_TARGET" then s.WriteLine cfg 0 (FRAGMENT_MRT_OUTPUT_NAME g.version 0)
        else s
      let s2 :=
        match (List.range cfg.MAX_RENDER_TARGET_COUNT).find?
            (fun outIndex => isSem (GetFragmentOutTargetSemantic outIndex)) with
        | some outIndex => s1.WriteLine cfg 0 (FRAGMENT_MRT_OUTPUT_NAME g.version outIndex)
        | none => s1
      if f.type.baseType = .Float then s2.Write ".x"
      else if f.type.baseType = .Float2 then s2.Write ".xy"
      else if f.type.baseType = .Float3 then s2.Write ".xyz"
      else s2
    else s.Write (FRAGMENT_OUTPUT_NAME g.version)
  else s.Write ("var_" ++ f.name)

/-- The first part of the member access case: the lookup of the field among
the fields of a stage input or output struct. The result is the state and the
flag `do_out_exspr`. -/
def OutputExpression.memberBinding (cfg : BuildConfig) (g : GLESGenerator) (s : GenState)
    (object : HLSLExpression) (field : String) : Option (GenState × Bool) :=
  match object with
  | .IdentifierExpression identType _ =>
    let usage : StructUsage :=
      if identType.baseType = .UserDefined then
        match g.tree.FindGlobalStruct identType.typeName with
        | some st => st.usage
        | none => .struct_Generic
      else .struct_Generic
    if usage = .struct_VertexOut ∨ usage = .struct_FragmentOut then
      match g.tree.FindGlobalStruct identType.typeName with
      | none => none
      | some out_struct =>
        match out_struct.field.find? (fun f => decide (strcmp f.name field = 0)) with
        | some f => some (OutputExpression.outField cfg g s f, false)
        | none => some (s, true)
    else if usage = .struct_VertexIn then
      match g.tree.FindGlobalStruct identType.typeName with
      | none => none
      | some in_struct =>
        match in_struct.field.find? (fun f => decide (strcmp f.name field = 0)) with
        | some f => some (s.Write ("attr_" ++ f.name), false)
        | none => some (s, true)
    else if usage = .struct_FragmentIn then
      match g.tree.FindGlobalStruct identType.typeName with
      | none => none
      | some in_struct =>
        match in_struct.field.find? (fun f => decide (strcmp f.name field = 0)) with
        | some f => some (s.Write ("var_" ++ f.name), false)
        | none => some (s, true)
    else some (s, true)
  | _ => some (s, true)

/-- The scalar base types on which a member access is a swizzle of a scalar. -/
def OutputExpression.isScalar (b : HLSLBaseType) : Bool :=
  decide (b = .Half) || decide (b = .Float) || decide (b = .Int) || decide (b = .Uint)

/-- The helper name written for a swizzle of a scalar of the given length. -/
def OutputExpression.swizzleName (g : GLESGenerator) (swizzleLength : Nat) : String :=
  if swizzleLength = 2 then g.scalarSwizzle2Function
  else if swizzleLength = 3 then g.scalarSwizzle3Function
  else if swizzleLength = 4 then g.scalarSwizzle4Function
  else ""

/-- The sampler identifier case of `OutputExpression`. -/
def OutputExpression.samplerIdentifier (g : GLESGenerator) (s : GenState) (name : String) :
    Option GenState :=
  match g.tree.FindGlobalDeclaration name with
  | none => none
  | some declaration =>
    let reg : Int :=
      match declaration.registerName with
      | some r => sscanf_s_d r
      | none => -1
    let tname := if (g.tree.FindGlobalStruct (some "vertex_in")).isSome then "Vertex" else "Fragment"
    some (s.Write (tname ++ "Texture" ++ fmt_d reg))

/-- The end of `OutputExpression`: the parenthesis that closes the cast. -/
def GenState.closeCast (s : GenState) (cast : Bool) : GenState :=
  if cast then s.Write ")" else s

mutual
/-- `GLESGenerator::OutputExpression(expression, dstType)`: the decision on
the cast and the text written before the node; the rest of the function body
is `OutputExpression.node`. -/
def OutputExpression (cfg : BuildConfig) (g : GLESGenerator) (s : GenState)
    (expression : HLSLExpression) (dstType : Option HLSLType) : Option GenState :=
  match OutputExpression.cast expression dstType, dstType with
  | true, some d => do
    let s ← OutputDeclarationT cfg g s d ""
    OutputExpression.node cfg g (s.Write "(") expression true
  | _, _ => OutputExpression.node cfg g s expression false
termination_by 2 * sizeOf expression + 1 +
  (match dstType with
   | none => 0
   | some t => 2 * sizeOf t.arraySize)
decreasing_by
  all_goals simp_wf
  all_goals omega
/-- The body of `OutputExpression` after the cast has been opened: the
dispatch on the node type and, unless the function returns early after an
error, the closing parenthesis of the cast. -/
def OutputExpression.node (cfg : BuildConfig) (g : GLESGenerator) (s : GenState) :
    HLSLExpression → Bool → Option GenState
  | .IdentifierExpression identType name, cast =>
    if identType.baseType = .Sampler2D ∨ identType.baseType = .SamplerCube
        ∨ identType.baseType = .Sampler2DShadow then
      (OutputExpression.samplerIdentifier g s name).map (fun s1 => s1.closeCast cast)
    else some ((OutputIdentifier cfg g s name).closeCast cast)
  | .ConstructorExpression exprType type argument, cast => do
    let s ← OutputExpressionList cfg g (s.Write (GetTypeName type ++ "(")) argument [] 0
    some ((s.Write ")").closeCast cast)
  | .CastingExpression exprType type inner, cast => do
    let s ← OutputDeclarationT cfg g s type ""
    let s ← OutputExpression cfg g (s.Write "(") inner none
    some ((s.Write ")").closeCast cast)
  | .LiteralExpression _ type bValue fValue iValue, cast =>
    some ((OutputExpression.literal s type bValue fValue iValue).closeCast cast)
  | .UnaryExpression unaryType unaryOp inner, cast =>
    match OutputExpression.unaryOp unaryOp with
    | (op, true, hint) => do
      let s ← OutputExpression cfg g ((s.Write "(").Write op) inner
        (if hint then some unaryType else none)
      some ((s.Write ")").closeCast cast)
    | (op, false, hint) => do
      let s ← OutputExpression cfg g (s.Write "(") inner (if hint then some unaryType else none)
      some (((s.Write op).Write ")").closeCast cast)
  | .BinaryExpression binaryType binaryOp expression1 expression2, cast =>
    match OutputExpression.binaryOp binaryOp with
    | (op, hint1, hint2) => do
      let s ← OutputExpression cfg g (s.Write "(") expression1
        (if hint1 then some binaryType else none)
      let s ← OutputExpression cfg g (s.Write op) expression2
        (if hint2 then some binaryType else none)
      some ((s.Write ")").closeCast cast)
  | .ConditionalExpression exprType condition trueExpression falseExpression, cast => do
    let s ← OutputExpression cfg g (s.Write "((") condition (some (HLSLType.ofBase .Bool))
    let s ← OutputExpression cfg g (s.Write ")?(") trueExpression none
    let s ← OutputExpression cfg g (s.Write "):(") falseExpression none
    some ((s.Write "))").closeCast cast)
  | .MemberAccess _ object field, cast =>
    match OutputExpression.memberBinding cfg g s object field with
    | none => none
    | some (s, false) => some (s.closeCast cast)
    | some (s, true) =>
      if OutputExpression.isScalar object.expressionType.baseType then do
        let s := s.Write (OutputExpression.swizzleName g field.length)
        let s ← OutputExpression cfg g (s.Write "(") object none
        some ((s.Write ")").closeCast cast)
      else do
        let s ← OutputExpression cfg g (s.Write "(") object none
        some (((s.Write ")").Write ("." ++ field)).closeCast cast)
  | .ArrayAccess _ array index, cast => do
    let s ← OutputExpression cfg g s array none
    let s ← OutputExpression cfg g (s.Write "[") index none
    some ((s.Write "]").closeCast cast)
  | .FunctionCall _ functionName functionArgument argument, cast =>
    if String_Equal functionName "mul" then
      match argument with
      | [argument0, argument1] =>
        match functionArgument with
        | type0 :: type1 :: _ => do
          let s ← OutputExpression cfg g (s.Write "((") argument1 (some type1)
          let s ← OutputExpression cfg g (s.Write ") * (") argument0 (some type0)
          some ((s.Write "))").closeCast cast)
        | _ => none
      | _ => some (s.Error "mul expects 2 arguments")
    else if String_Equal functionName "saturate" then
      match argument with
      | [argument0] => do
        let s ← OutputExpression cfg g (s.Write "clamp(") argument0 none
        some ((s.Write ", 0.0, 1.0)").closeCast cast)
      | _ => some (s.Error "saturate expects 1 argument")
    else if g.version = .GLSL_300 ∧ String_Equal functionName "FramebufferFetch" = true then
      match argument with
      | [.LiteralExpression _ .Int _ _ iValue] =>
        some ((s.Write (FRAGMENT_MRT_OUTPUT_NAME g.version iValue)).closeCast cast)
      | _ => some (s.Error "FramebufferFetch expects 1 integer argument")
    else do
      let s := (OutputIdentifier cfg g s functionName).Write "("
      let s ← OutputExpressionList cfg g s argument functionArgument 0
      some ((s.Write ")").closeCast cast)
  | .Other _, cast => some ((s.Write "<unknown expression>").closeCast cast)
termination_by expression _ => 2 * sizeOf expression
decreasing_by
  all_goals simp_wf
  all_goals
    have key : ∀ u : HLSLType, sizeOf u.arraySize < sizeOf u := by
      intro u; cases u; simp [HLSLType.arraySize]; omega
    first
    | omega
    | (have h1 := key exprType; have h2 := key type; omega)
    | (have h1 := key exprType; simp [HLSLType.ofBase, HLSLType.arraySize]; omega)
    | (have h1 := key unaryType; cases hint <;> simp <;> omega)
    | (have h1 := key binaryType; cases hint1 <;> simp <;> omega)
    | (have h1 := key binaryType; cases hint2 <;> simp <;> omega)
    | (have h1 := key type0; have h2 := key type1; omega)
/-- `GLESGenerator::OutputExpressionList(expression, argument)`; the types of
the chain `argument` are the expected types. -/
def OutputExpressionList (cfg : BuildConfig) (g : GLESGenerator) (s : GenState) :
    List HLSLExpression → List HLSLType → Nat → Option GenState
  | [], _, _ => some s
  | e :: rest, [], numExpressions => do
    let s ← OutputExpression cfg g (if numExpressions > 0 then s.Write ", " else s) e none
    OutputExpressionList cfg g s rest [] (numExpressions + 1)
  | e :: rest, expectedType :: nextArgument, numExpressions => do
    let s ← OutputExpression cfg g (if numExpressions > 0 then s.Write ", " else s) e
      (some expectedType)
    OutputExpressionList cfg g s rest nextArgument (numExpressions + 1)
termination_by expression argument _ => 2 * sizeOf expression + 2 * sizeOf argument
decreasing_by
  all_goals simp_wf
  all_goals
    have key : ∀ u : HLSLType, sizeOf u.arraySize < sizeOf u := by
      intro u; cases u; simp [HLSLType.arraySize]; omega
    first
    | omega
    | (have h1 := key expectedType; omega)
/-- `GLESGenerator::OutputDeclaration(const HLSLType& type, const char* name)`. -/
def OutputDeclarationT (cfg : BuildConfig) (g : GLESGenerator) (s : GenState) :
    HLSLType → String → Option GenState
  | .mk b n false z f, name =>
    some (s.Write (GetTypeName (.mk b n false z f) ++ " " ++ GetSafeIdentifierName g name))
  | .mk b n true none f, name =>
    some ((s.Write (GetTypeName (.mk b n true none f) ++ " "
      ++ GetSafeIdentifierName g name ++ "[")).Write "]")
  | .mk b n true (some size) f, name => do
    let s ← OutputExpression cfg g
      (s.Write (GetTypeName (.mk b n true (some size) f) ++ " "
        ++ GetSafeIdentifierName g name ++ "[")) size none
    some (s.Write "]")
termination_by type _ => 2 * sizeOf type.arraySize
decreasing_by
  all_goals simp_wf
  all_goals simp [HLSLType.arraySize]
  all_goals omega
end

/-! ## Declarations and statements -/

/-- Modelled from the spec: `IsSamplerType` is declared in `sl_Tree.h`, which
is not part of the sources at hand; it holds of the sampler base types. -/
def IsSamplerType (type : HLSLType) : Bool :=
  decide (type.baseType = .Sampler) || decide (type.baseType = .Sampler2D)
    || decide (type.baseType = .Sampler2DShadow) || decide (type.baseType = .Sampler3D)
    || decide (type.baseType = .SamplerCube)

/-- `strstr(haystack, needle) != nullptr` on character lists. -/
def strstr : List Char → List Char → Bool
  | [], needle => needle.isEmpty
  | c :: cs, needle => needle.isPrefixOf (c :: cs) || strstr cs needle

/-- The sampler type text of `OutputDeclaration`; the null pointer that is
left for the other sampler types prints as `(null)`. -/
def OutputDeclaration.samplerType (cfg : BuildConfig) (b : HLSLBaseType) : String :=
  let mobile := decide (cfg.platform = .IPHONE) || decide (cfg.platform = .ANDROID)
  if b = .Sampler2D then (if mobile then "lowp sampler2D" else "sampler2D")
  else if b = .SamplerCube then (if mobile then "lowp samplerCube" else "samplerCube")
  else if b = .Sampler2DShadow then (if mobile then "lowp sampler2DShadow" else "sampler2DShadow")
  else "(null)"

/-- `GLESGenerator::OutputDeclaration(HLSLDeclaration* declaration)`. -/
def OutputDeclaration (cfg : BuildConfig) (g : GLESGenerator) (s : GenState)
    (declaration : HLSLDeclaration) : Option GenState :=
  if declaration.type.flags.Property then
    if (!declaration.assignment.isEmpty) && declaration.type.array then do
      let s := ((s.Write ("#define " ++ declaration.name ++ " ")).Write "(").Write
        (GetTypeName declaration.type ++ "[")
      let s ← (match declaration.type.arraySize with
        | some size => OutputExpression cfg g s size none
        | none => some s)
      let s ← OutputExpressionList cfg g (s.Write "](") declaration.assignment [] 0
      some ((s.Write ")").Write ")")
    else some s
  else if IsSamplerType declaration.type then
    let reg : Int :=
      match declaration.registerName with
      | some r => sscanf_s_d r
      | none => -1
    let tname := if (g.tree.FindGlobalStruct (some "vertex_in")).isSome then "Vertex" else "Fragment"
    some (s.Write (OutputDeclaration.samplerType cfg declaration.type.baseType ++ " " ++ tname
      ++ "Texture" ++ fmt_d reg))
  else do
    let s ← OutputDeclarationT cfg g s declaration.type (GetSafeIdentifierName g declaration.name)
    match declaration.assignment with
    | [] => some s
    | first :: rest =>
      if declaration.type.array then do
        let s := (s.Write " = ").Write (GetTypeName declaration.type ++ "[")
        let s ← (match declaration.type.arraySize with
          | some size => OutputExpression cfg g s size none
          | none => some s)
        let s ← OutputExpressionList cfg g (s.Write "]( ") (first :: rest) [] 0
        some (s.Write " )")
      else OutputExpression cfg g (s.Write " = ") first (some declaration.type)

/-- `GLESGenerator::OutputArguments`. -/
def OutputArguments (cfg : BuildConfig) (g : GLESGenerator) (s : GenState) :
    List HLSLArgument → Nat → Option GenState
  | [], _ => some s
  | argument :: nextArgument, numArgs => do
    let s := if numArgs > 0 then s.Write ", " else s
    let s :=
      match argument.modifier with
      | .In => s.Write "in "
      | .Inout => s.Write "inout "
      | _ => s
    let s ← OutputDeclarationT cfg g s argument.type argument.name
    OutputArguments cfg g s nextArgument (numArgs + 1)

/-- The field lines of a generic struct in `OutputStatements`. -/
def OutputStatements.structFields (cfg : BuildConfig) (g : GLESGenerator) (s : GenState)
    (indent : Nat) : List HLSLStructField → Option GenState
  | [] => some s
  | field :: nextField => do
    let s ← OutputDeclarationT cfg g (s.BeginLine cfg (indent + 1)) field.type field.name
    OutputStatements.structFields cfg g ((s.Write ";").EndLine "") indent nextField

/-- The buffer case of `OutputStatements`. -/
def OutputStatements.buffer (cfg : BuildConfig) (s : GenState) (indent : Nat)
    (buffer : HLSLBuffer) : Option GenState :=
  let decl := buffer.field
  match decl.type.arraySize with
  | some (.LiteralExpression _ _ _ _ iValue) =>
    let isBigArray :=
      match decl.annotationText with
      | some a => strstr a.data "bigarray".data
      | none => false
    let s := s.WriteLine cfg indent ("uniform " ++ GetTypeName decl.type ++ " "
      ++ (if isBigArray then decl.registerName.getD "(null)" else decl.name)
      ++ "[" ++ fmt_d iValue ++ "];")
    some (if isBigArray then
        s.WriteLine cfg indent ("#define " ++ decl.name ++ " " ++ decl.registerName.getD "(null)")
      else s)
  | _ => none

/-- The declaration case of `OutputStatements`. -/
def OutputStatements.declaration (cfg : BuildConfig) (g : GLESGenerator) (s : GenState)
    (indent : Nat) (declaration : HLSLDeclaration) : Option GenState :=
  if strcmp declaration.name "output" ≠ 0 then
    if declaration.type.baseType ≠ .Texture then do
      let s := s.BeginLine cfg indent
      let s :=
        if indent = 0 then
          (if declaration.type.flags.Const then s.Write "const "
           else if !declaration.type.flags.Property then s.Write "uniform "
           else s)
        else s
      let s ← OutputDeclaration cfg g s declaration
      some (if declaration.type.flags.Property then s.EndLine "" else s.EndLine ";")
    else some s
  else some s

/-- The return statement case of `OutputStatements`. -/
def OutputStatements.returnStatement (cfg : BuildConfig) (g : GLESGenerator) (s : GenState)
    (indent : Nat) (expression : Option HLSLExpression) (returnType : Option HLSLType) :
    Option GenState :=
  match expression with
  | some e =>
    let do_out_expr : Bool :=
      match e with
      | .IdentifierExpression _ name => !decide (strcmp name "output" = 0)
      | _ => true
    if do_out_expr then do
      let s ← OutputExpression cfg g ((s.BeginLine cfg indent).Write "return ") e returnType
      some (s.EndLine ";")
    else some s
  | none => some (s.WriteLine cfg indent "return;")

mutual
/-- `GLESGenerator::OutputStatements(indent, statement, returnType)`: the
`while` loop over the chain of statements. -/
def OutputStatements (cfg : BuildConfig) (g : GLESGenerator) (s : GenState) (indent : Nat) :
    List HLSLStatement → Option HLSLType → Option GenState
  | [], _ => some s
  | statement :: nextStatement, returnType => do
    let s ← OutputStatements.body cfg g s indent statement returnType
    OutputStatements cfg g s indent nextStatement returnType
/-- The body of the loop of `OutputStatements` for one statement. -/
def OutputStatements.body (cfg : BuildConfig) (g : GLESGenerator) (s : GenState)
    (indent : Nat) : HLSLStatement → Option HLSLType → Option GenState
  | .Declaration hidden declaration, _ =>
    if hidden then some s else OutputStatements.declaration cfg g s indent declaration
  | .Struct hidden structure_, _ =>
    if hidden then some s
    else if structure_.usage = .struct_Generic then do
      let s := s.WriteLine cfg indent ("struct " ++ structure_.name ++ " \x7b")
      let s ← OutputStatements.structFields cfg g s indent structure_.field
      some (s.WriteLine cfg indent "\x7d;")
    else some s
  | .Buffer hidden buffer, _ =>
    if hidden then some s else OutputStatements.buffer cfg s indent buffer
  | .Function hidden name functionReturnType _ argument statement, _ =>
    if hidden then some s
    else if String_Equal name g.entryName then some s
    else do
      let s := (s.BeginLine cfg indent).Write
        (GetTypeName functionReturnType ++ " " ++ GetSafeIdentifierName g name ++ "(")
      let s ← OutputArguments cfg g s argument 0
      let s := (s.Write ") \x7b").EndLine ""
      let s ← OutputStatements cfg g s (indent + 1) statement (some functionReturnType)
      some (s.WriteLine cfg indent "\x7d")
  | .ExpressionStatement hidden expression, _ =>
    if hidden then some s
    else do
      let s ← OutputExpression cfg g (s.BeginLine cfg indent) expression none
      some (s.EndLine ";")
  | .ReturnStatement hidden expression, returnType =>
    if hidden then some s
    else OutputStatements.returnStatement cfg g s indent expression returnType
  | .DiscardStatement hidden, _ =>
    if hidden then some s
    else if g.target = .TARGET_FRAGMENT then some (s.WriteLine cfg indent "discard;")
    else some s
  | .BreakStatement hidden, _ =>
    if hidden then some s else some (s.WriteLine cfg indent "break;")
  | .ContinueStatement hidden, _ =>
    if hidden then some s else some (s.WriteLine cfg indent "continue;")
  | .IfStatement hidden condition statement elseStatement, returnType =>
    if hidden then some s
    else do
      let s := (s.WriteLine cfg indent "").Write "if ("
      let s ← OutputExpression cfg g s condition (some (HLSLType.ofBase .Bool))
      let s := (s.Write ") \x7b").EndLine ""
      let s ← OutputStatements cfg g s (indent + 1) statement returnType
      let s := s.WriteLine cfg indent "\x7d"
      match elseStatement with
      | [] => some s
      | e :: es => do
        let s := s.WriteLine cfg indent "else \x7b"
        let s ← OutputStatements cfg g s (indent + 1) (e :: es) returnType
        some (s.WriteLine cfg indent "\x7d")
  | .ForStatement hidden initialization condition increment statement, returnType =>
    if hidden then some s
    else do
      let s := (s.BeginLine cfg indent).Write "for ("
      let s ← OutputDeclaration cfg g s initialization
      let s ← OutputExpression cfg g (s.Write "; ") condition (some (HLSLType.ofBase .Bool))
      let s ← OutputExpression cfg g (s.Write "; ") increment none
      let s := (s.Write ") \x7b").EndLine ""
      let s ← OutputStatements cfg g s (indent + 1) statement returnType
      some (s.WriteLine cfg indent "\x7d")
  | .BlockStatement hidden statement, _ =>
    if hidden then some s
    else do
      let s := s.WriteLine cfg indent "\x7b"
      let s ← OutputStatements cfg g s (indent + 1) statement none
      some (s.WriteLine cfg indent "\x7d")
  | .Other _, _ => some s
end

/-! ## Generate -/

/-- The loop of `ChooseUniqueName`: `remaining` iterations are left, `i` is
the loop counter and `dst` the content of the destination buffer. -/
def ChooseUniqueName.loop (tree : HLSLTree) (base : String) (dstLength : Nat) :
    Nat → Nat → String → Bool × String
  | 0, _, dst => (false, dst)
  | remaining + 1, i, _ =>
    if !tree.GetContainsString (Snprintf_s_d dstLength base i) then
      (true, Snprintf_s_d dstLength base i)
    else ChooseUniqueName.loop tree base dstLength remaining (i + 1)
      (Snprintf_s_d dstLength base i)

/-- `GLESGenerator::ChooseUniqueName(base, dst, dstLength)`: the returned flag
and the text left in `dst`. The first iteration overwrites `dst`, so its
earlier content does not matter. -/
def ChooseUniqueName (tree : HLSLTree) (base : String) (dstLength : Nat) : Bool × String :=
  ChooseUniqueName.loop tree base dstLength 1024 0 ""

/-- The pre-scan for `mrtUsed` at the start of `Generate`. -/
def Generate.mrtUsed (cfg : BuildConfig) (tree : HLSLTree) : Bool :=
  match tree.FindGlobalStruct (some "fragment_out") with
  | none => false
  | some fragment_out =>
    fragment_out.field.any (fun f =>
      match f.semantic with
      | none => false
      | some semantic =>
        (List.range' 1 (cfg.MAX_RENDER_TARGET_COUNT - 1)).any (fun outIndex =>
          decide (stricmp semantic (GetFragmentOutTargetSemantic outIndex) = 0)))

/-- The lines that `Generate` writes before it chooses the unique names. -/
def Generate.preamble (cfg : BuildConfig) (tree : HLSLTree) (version : GLSLVersion)
    (target : Target) : List String :=
  let usesTex2Dlod := tree.GetContainsString "tex2Dlod" || tree.GetContainsString "texCUBElod"
  (match cfg.platform with
   | .IPHONE =>
     (if version = .GLSL_300 then
        ["#version 300 es"]
          ++ (if target = .TARGET_FRAGMENT then
                ["#extension GL_EXT_shader_framebuffer_fetch : enable"] else [])
      else
        ["#version 100",
         "#extension GL_EXT_shader_framebuffer_fetch : enable",
         "#extension GL_EXT_shader_texture_lod : enable",
         "#extension GL_OES_standard_derivatives : enable",
         "#extension GL_EXT_shadow_samplers : enable",
         "#define shadow2D shadow2DEXT"]
          ++ (if usesTex2Dlod && decide (target = .TARGET_FRAGMENT) then
                ["#extension GL_EXT_shader_texture_lod : enable",
                 "#define texture2DLod texture2DLodEXT",
                 "#define textureCubeLod textureCubeLodEXT"] else [])
          ++ ["#define textureGrad(s, uv, dx, dy) texture2D(s, uv)",
              "#define FramebufferFetch(i) gl_LastFragData[i]"])
       ++ ["#define FP_SHADOW(t) (t)", "precision highp float;"]
   | .ANDROID =>
     (if version = .GLSL_300 then
        ["#version 300 es"]
          ++ (if target = .TARGET_FRAGMENT then
                ["#extension GL_EXT_shader_framebuffer_fetch : enable"] else [])
      else
        ["#version 100",
         "#extension GL_EXT_shader_texture_lod : enable",
         "#extension GL_OES_standard_derivatives : enable",
         "#extension GL_EXT_shadow_samplers : enable"]
          ++ (if target = .TARGET_FRAGMENT then
                ["#extension GL_EXT_shader_framebuffer_fetch : enable",
                 "#define FramebufferFetch(i) gl_LastFragData[i]"] else [])
          ++ ["#define textureCubeLod textureCubeLodEXT",
              "#define shadow2D shadow2DEXT"])
       ++ ["#define FP_SHADOW(t) (t)", "precision highp float;"]
   | .MACOS =>
     ["#version 120",
      "#extension GL_ARB_shader_texture_lod : enable",
      "#extension GL_EXT_gpu_shader4 : enable",
      "#define textureGrad texture2DGrad",
      "#define highp ",
      "#define mediump ",
      "#define lowp ",
      "#define FP_SHADOW(t) (t).x",
      "#define lerp(a,b,t) ( ( (b) - (a) ) * (t) + (a) )"]
   | .OTHER =>
     [(if version = .GLSL_100 then "#version 130" else "#version 330"),
      "#extension GL_ARB_shader_texture_lod : enable",
      "#define highp ",
      "#define mediump ",
      "#define lowp ",
      (if version = .GLSL_100 then "#define FP_SHADOW(t) (t).x" else "#define FP_SHADOW(t) (t)")])
    ++ ["#define FP_A8(t)       (t).a",
        "",
        "// per api bindings",
        "#define ndcToUvMapping vec4(0.5, 0.5, 0.5, 0.5)",
        "#define centerPixelMapping vec2(0.0, 0.0)",
        ""]

/-- A sequence of `writer.WriteLine(0, line)` calls. -/
def GenState.WriteLines (s : GenState) (cfg : BuildConfig) (lines : List String) : GenState :=
  lines.foldl (fun s1 line => s1.WriteLine cfg 0 line) s

/-- The members of the generator as `Generate` sets them before it looks for
the entry point: the arguments, `mrtUsed`, the names chosen by
`ChooseUniqueName` and the attribute prefixes. -/
def Generate.members (cfg : BuildConfig) (tree : HLSLTree) (version : GLSLVersion)
    (target : Target) (entryName : String) : GLESGenerator :=
  { tree := tree
    entryName := entryName
    version := version
    target := target
    mrtUsed := Generate.mrtUsed cfg tree
    matrixRowFunction := (ChooseUniqueName tree "matrix_row" cfg.nameBufferLength).2
    clipFunction := (ChooseUniqueName tree "clip" cfg.nameBufferLength).2
    tex2DlodFunction := (ChooseUniqueName tree "tex2Dlod" cfg.nameBufferLength).2
    tex2DbiasFunction := (ChooseUniqueName tree "tex2Dbias" cfg.nameBufferLength).2
    tex3DlodFunction := (ChooseUniqueName tree "tex3Dlod" cfg.nameBufferLength).2
    texCUBEbiasFunction := (ChooseUniqueName tree "texCUBEbias" cfg.nameBufferLength).2
    reservedWord := ReservedWord.map (fun w => (ChooseUniqueName tree w cfg.nameBufferLength).2)
    scalarSwizzle2Function := (ChooseUniqueName tree "m_scalar_swizzle2" cfg.nameBufferLength).2
    scalarSwizzle3Function := (ChooseUniqueName tree "m_scalar_swizzle3" cfg.nameBufferLength).2
    scalarSwizzle4Function := (ChooseUniqueName tree "m_scalar_swizzle4" cfg.nameBufferLength).2
    sinCosFunction := (ChooseUniqueName tree "sincos" cfg.nameBufferLength).2
    inAttribPrefix := if target = .TARGET_VERTEX then "" else "frag_"
    outAttribPrefix := if target = .TARGET_VERTEX then "frag_" else "rast_" }

/-- The test `semantic && stricmp(semantic, text) == 0`. -/
def semanticIs (semantic : Option String) (text : String) : Bool :=
  match semantic with
  | some sem => decide (stricmp sem text = 0)
  | none => false

/-- The line that `Generate` writes for one field of the input struct of the
entry function when the tree has a struct `vertex_in`. -/
def Generate.attributeLine (version : GLSLVersion) (field : HLSLStructField) : String :=
  let tname := GetTypeName field.type
  let tname :=
    if semanticIs field.semantic "COLOR" || semanticIs field.semantic "COLOR0"
        || semanticIs field.semantic "COLOR1" then "vec4" else tname
  let tname := if semanticIs field.semantic "POSITION" then "vec4" else tname
  if version = .GLSL_100 then "attribute " ++ tname ++ " attr_" ++ field.name ++ ";"
  else "in " ++ tname ++ " attr_" ++ field.name ++ ";"

/-- The precision text that `Generate` computes for a field of the input
struct of the entry function (the fragment stage input). -/
def Generate.inputPrecision (field : HLSLStructField) : String :=
  match field.attribute_ with
  | some a => if stricmp a.attrText "lowp" = 0 then "lowp" else ""
  | none =>
    if field.type.baseType = .Half ∨ field.type.baseType = .Half2
        ∨ field.type.baseType = .Half3 ∨ field.type.baseType = .Half4
        ∨ field.type.baseType = .Half3x3 ∨ field.type.baseType = .Half4x4 then "mediump"
    else ""

/-- The precision text that `Generate` computes for a field of the struct
returned by the vertex stage. -/
def Generate.outputPrecision (field : HLSLStructField) : String :=
  match field.attribute_ with
  | some a => if stricmp a.attrText "lowp" = 0 then "lowp" else ""
  | none =>
    if field.type.baseType = .Half ∨ field.type.baseType = .Half2
        ∨ field.type.baseType = .Half3 ∨ field.type.baseType = .Half4 then "mediump"
    else ""

/-- The line written for one field of the input struct when the tree has no
struct `vertex_in`. -/
def Generate.varyingInLine (version : GLSLVersion) (field : HLSLStructField) : String :=
  (if version = .GLSL_100 then "varying " else "in ")
    ++ Generate.inputPrecision field ++ " " ++ GetTypeName field.type ++ " var_"
    ++ field.name ++ ";"

/-- The declarations for the input struct of the entry function. -/
def Generate.inputDeclarations (cfg : BuildConfig) (tree : HLSLTree) (version : GLSLVersion)
    (s : GenState) (entryFunction : HLSLFunction) : GenState :=
  let in_struct : Option HLSLStruct :=
    match entryFunction.argument with
    | [] => none
    | arg :: _ => tree.FindGlobalStruct arg.type.typeName
  match in_struct with
  | none => s
  | some in_struct =>
    if (tree.FindGlobalStruct (some "vertex_in")).isSome then
      s.WriteLines cfg (in_struct.field.map (Generate.attributeLine version))
    else
      s.WriteLines cfg (in_struct.field.map (Generate.varyingInLine version))

/-- The loop over the fields of the struct returned by the vertex stage; a
field without semantic makes `stricmp` read a null pointer. -/
def Generate.varyingOutFields (cfg : BuildConfig) (version : GLSLVersion) (s : GenState) :
    List HLSLStructField → Option GenState
  | [] => some s
  | field :: nextField =>
    match field.semantic with
    | none => none
    | some semantic =>
      if stricmp semantic "SV_POSITION" ≠ 0 ∧ stricmp semantic "SV_TARGET" ≠ 0 then
        Generate.varyingOutFields cfg version
          (s.WriteLine cfg 0 ((if version = .GLSL_100 then "varying " else "out ")
            ++ Generate.outputPrecision field ++ " " ++ GetTypeName field.type ++ " var_"
            ++ field.name ++ ";")) nextField
      else Generate.varyingOutFields cfg version s nextField

/-- The loop over the statements of the entry function in the vertex stage:
every return statement declares the fields of the returned struct. -/
def Generate.vertexOutDeclarations (cfg : BuildConfig) (tree : HLSLTree)
    (version : GLSLVersion) (s : GenState) : List HLSLStatement → Option GenState
  | [] => some s
  | .ReturnStatement _ expression :: nextStatement =>
    match expression with
    | none => none
    | some e =>
      match tree.FindGlobalStruct e.expressionType.typeName with
      | none => none
      | some out_struct => do
        let s ← Generate.varyingOutFields cfg version s out_struct.field
        Generate.vertexOutDeclarations cfg tree version s nextStatement
  | _ :: nextStatement => Generate.vertexOutDeclarations cfg tree version s nextStatement

/-! ### Framebuffer fetch units: a `std::set<uint32_t>` as an ascending list -/

def fbSet.insert (x : Nat) : List Nat → List Nat
  | [] => [x]
  | y :: ys => if x < y then x :: y :: ys else if x = y then y :: ys else y :: fbSet.insert x ys

def fbSet.count (x : Nat) (units : List Nat) : Nat :=
  if x ∈ units then 1 else 0

def fbSet.erase (x : Nat) (units : List Nat) : List Nat :=
  units.filter (fun y => decide (y ≠ x))

/-! ### The calls found by `HLSLTree::FindFunctionCall` -/

mutual
/-- The argument chains of the calls to `name` inside one expression. -/
def FindFunctionCall.expression (name : String) : HLSLExpression → List (List HLSLExpression)
  | .IdentifierExpression _ _ => []
  | .ConstructorExpression _ _ argument => FindFunctionCall.expressions name argument
  | .CastingExpression _ _ e => FindFunctionCall.expression name e
  | .LiteralExpression _ _ _ _ _ => []
  | .UnaryExpression _ _ e => FindFunctionCall.expression name e
  | .BinaryExpression _ _ e1 e2 =>
    FindFunctionCall.expression name e1 ++ FindFunctionCall.expression name e2
  | .ConditionalExpression _ c e1 e2 =>
    FindFunctionCall.expression name c ++ FindFunctionCall.expression name e1
      ++ FindFunctionCall.expression name e2
  | .MemberAccess _ object _ => FindFunctionCall.expression name object
  | .ArrayAccess _ array index =>
    FindFunctionCall.expression name array ++ FindFunctionCall.expression name index
  | .FunctionCall _ functionName _ argument =>
    (if String_Equal functionName name then [argument] else [])
      ++ FindFunctionCall.expressions name argument
  | .Other _ => []
/-- The argument chains of the calls to `name` inside a chain of expressions. -/
def FindFunctionCall.expressions (name : String) :
    List HLSLExpression → List (List HLSLExpression)
  | [] => []
  | e :: es => FindFunctionCall.expression name e ++ FindFunctionCall.expressions name es
end

mutual
/-- The argument chains of the calls to `name` inside a chain of statements. -/
def FindFunctionCall.statements (name : String) :
    List HLSLStatement → List (List HLSLExpression)
  | [] => []
  | st :: rest => FindFunctionCall.statement name st ++ FindFunctionCall.statements name rest
/-- The argument chains of the calls to `name` inside one statement. -/
def FindFunctionCall.statement (name : String) : HLSLStatement → List (List HLSLExpression)
  | .Declaration _ declaration => FindFunctionCall.expressions name declaration.assignment
  | .Struct _ _ => []
  | .Buffer _ buffer => FindFunctionCall.expressions name buffer.field.assignment
  | .Function _ _ _ _ _ statement => FindFunctionCall.statements name statement
  | .ExpressionStatement _ expression => FindFunctionCall.expression name expression
  | .ReturnStatement _ (some expression) => FindFunctionCall.expression name expression
  | .ReturnStatement _ none => []
  | .DiscardStatement _ => []
  | .BreakStatement _ => []
  | .ContinueStatement _ => []
  | .IfStatement _ condition statement elseStatement =>
    FindFunctionCall.expression name condition ++ FindFunctionCall.statements name statement
      ++ FindFunctionCall.statements name elseStatement
  | .ForStatement _ initialization condition increment statement =>
    FindFunctionCall.expressions name initialization.assignment
      ++ FindFunctionCall.expression name condition
      ++ FindFunctionCall.expression name increment
      ++ FindFunctionCall.statements name statement
  | .BlockStatement _ statement => FindFunctionCall.statements name statement
  | .Other _ => []
end

/-- Modelled from the spec: `HLSLTree::FindFunctionCall` is not part of the
sources at hand; it is the "find-all-calls-to-named-function" capability of
the tree: every call node of the tree whose callee has the given name, each
given by its chain of arguments. -/
def HLSLTree.FindFunctionCall (tree : HLSLTree) (name : String) : List (List HLSLExpression) :=
  FindFunctionCall.statements name tree.root

/-! ### Fragment outputs of the GLSL_300 fragment stage -/

/-- The loop that fills `fbFetchUnits` from the calls to `FramebufferFetch`. -/
def Generate.fetchUnits : List (List HLSLExpression) → List Nat → List Nat
  | [], units => units
  | [.LiteralExpression _ .Int _ _ iValue] :: calls, units =>
    Generate.fetchUnits calls (fbSet.insert (intAsUint32 iValue) units)
  | _ :: calls, units => Generate.fetchUnits calls units

/-- The text of one `layout` declaration. -/
def Generate.layoutLine (version : GLSLVersion) (location : String) (qualifier : String)
    (index : Int) : String :=
  "layout (location = " ++ location ++ ") " ++ qualifier ++ " vec4 "
    ++ FRAGMENT_MRT_OUTPUT_NAME version index ++ ";"

/-- The body of the loop over the fields of `fragment_out`: the state of the
writer and of `fbFetchUnits` after one field. -/
def Generate.fragmentOutField (cfg : BuildConfig) (version : GLSLVersion)
    (st : GenState × List Nat) (f : HLSLStructField) : GenState × List Nat :=
  match f.semantic with
  | none => st
  | some semantic =>
    if stricmp semantic "SV_TARGET" = 0 then
      (st.1.WriteLine cfg 0 (Generate.layoutLine version "0"
          (if fbSet.count 0 st.2 ≠ 0 then "inout" else "out") 0),
        fbSet.erase 0 st.2)
    else
      match (List.range cfg.MAX_RENDER_TARGET_COUNT).find? (fun outIndex =>
          decide (stricmp semantic (GetFragmentOutTargetSemantic outIndex) = 0)) with
      | some outIndex =>
        (st.1.WriteLine cfg 0 (Generate.layoutLine version (fmt_d (uint32AsInt outIndex))
            (if fbSet.count outIndex st.2 ≠ 0 then "inout" else "out") (uint32AsInt outIndex)),
          fbSet.erase outIndex st.2)
      | none => st

/-- The loop over the units that are only used for framebuffer fetch. -/
def Generate.fetchOnlyUnits (cfg : BuildConfig) (version : GLSLVersion) (s : GenState)
    (units : List Nat) : GenState :=
  units.foldl (fun s1 unitIndex =>
    s1.WriteLine cfg 0 (Generate.layoutLine version (fmt_d (uint32AsInt unitIndex)) "inout"
      (uint32AsInt unitIndex))) s

/-- The branch of `Generate` for the GLSL_300 fragment stage. -/
def Generate.fragmentOutDeclarations (cfg : BuildConfig) (tree : HLSLTree)
    (version : GLSLVersion) (s : GenState) : GenState :=
  match tree.FindGlobalStruct (some "fragment_out") with
  | none => s
  | some fragment_out =>
    let st := fragment_out.field.foldl (Generate.fragmentOutField cfg version)
      (s, Generate.fetchUnits (tree.FindFunctionCall "FramebufferFetch") [])
    Generate.fetchOnlyUnits cfg version st.1 st.2

/-- The loop of `Generate` that writes the property declarations at the
start of `main`. -/
def Generate.properties (cfg : BuildConfig) (g : GLESGenerator) (s : GenState) :
    List HLSLStatement → Option GenState
  | [] => some s
  | .Declaration hidden declaration :: nextStatement =>
    if !hidden && declaration.type.flags.Property && !declaration.type.array then do
      let s ← OutputDeclarationT cfg g (s.BeginLine cfg 1) declaration.type
        (GetSafeIdentifierName g declaration.name)
      let s ← (match declaration.assignment with
        | [] => some s
        | first :: _ => OutputExpression cfg g (s.Write " = ") first (some declaration.type))
      Generate.properties cfg g ((s.Write ";").EndLine "") nextStatement
    else Generate.properties cfg g s nextStatement
  | _ :: nextStatement => Generate.properties cfg g s nextStatement

/-- The message of the missing entry point. -/
def Generate.entryPointMessage (entryName : String) : String :=
  "Entry point \x27" ++ entryName ++ "\x27 doesn\x27t exist"

/-- `GLESGenerator::Generate(tree, version, target, entryName, code)`. The
argument `s` is the state of the writer and of `hasError` before the call;
the result is the returned flag and the state after the call, whose `code` is
the text written to `*code`. -/
def Generate (cfg : BuildConfig) (s : GenState) (tree : HLSLTree) (version : GLSLVersion)
    (target : Target) (entryName : String) : Option (Bool × GenState) :=
  let g := Generate.members cfg tree version target entryName
  let s : GenState := { s with code := "" }
  let s := s.WriteLines cfg (Generate.preamble cfg tree version target)
  match FindFunction tree.root entryName with
  | none => some (false, s.Error (Generate.entryPointMessage entryName))
  | some entryFunction => do
    let s := Generate.inputDeclarations cfg tree version s entryFunction
    let s ← (if target = .TARGET_VERTEX then
        Generate.vertexOutDeclarations cfg tree version s entryFunction.statement
      else if version = .GLSL_300 then some (Generate.fragmentOutDeclarations cfg tree version s)
      else some s)
    let s ← OutputStatements cfg g s 0 tree.root none
    let s := ((s.WriteLine cfg 0 "void main()").WriteLine cfg 0 "\x7b").WriteLine cfg 1
      "//properties"
    let s ← Generate.properties cfg g s tree.root
    let s := s.WriteLine cfg 1 ""
    let s ← OutputStatements cfg g s 1 entryFunction.statement none
    let s := s.WriteLine cfg 0 "\x7d"
    some (!s.hasError, s)

/-! ## Vocabulary of the stated properties -/

/-- The matrix base types. -/
def isMatrixBase (b : HLSLBaseType) : Bool :=
  decide (b = .Float3x3) || decide (b = .Float4x4) || decide (b = .Half3x3)
    || decide (b = .Half4x4)

/-- The float and half vector base types. -/
def isVectorBase (b : HLSLBaseType) : Bool :=
  decide (b = .Float2) || decide (b = .Float3) || decide (b = .Float4)
    || decide (b = .Half2) || decide (b = .Half3) || decide (b = .Half4)

/-- The node is a casting expression. -/
def HLSLExpression.isCasting : HLSLExpression → Bool
  | .CastingExpression _ _ _ => true
  | _ => false

/-- The argument chain of a `FramebufferFetch` call is one integer literal. -/
def isOneIntLiteral : List HLSLExpression → Bool
  | [.LiteralExpression _ .Int _ _ _] => true
  | _ => false

/-- The node is one at which `OutputExpression` reports an error and returns
before it closes the cast: a call of `mul` without exactly two arguments, of
`saturate` without exactly one, or, for GLSL_300, of `FramebufferFetch`
without exactly one integer literal. -/
def OutputExpression.returnsEarly (g : GLESGenerator) : HLSLExpression → Bool
  | .FunctionCall _ functionName _ argument =>
    if String_Equal functionName "mul" then decide (GetFunctionArguments argument ≠ 2)
    else if String_Equal functionName "saturate" then decide (GetFunctionArguments argument ≠ 1)
    else if g.version = .GLSL_300 ∧ String_Equal functionName "FramebufferFetch" = true then
      !isOneIntLiteral argument
    else false
  | _ => false

/-- The base names for which `Generate` calls `ChooseUniqueName`, in the
order of the calls. -/
def sanitizerBases : List String :=
  ["matrix_row", "clip", "tex2Dlod", "tex2Dbias", "tex3Dlod", "texCUBEbias"]
    ++ ReservedWord ++ ["m_scalar_swizzle2", "m_scalar_swizzle3", "m_scalar_swizzle4", "sincos"]

/-- The names that the generator holds after these calls, in the same order. -/
def GLESGenerator.aliases (g : GLESGenerator) : List String :=
  [g.matrixRowFunction, g.clipFunction, g.tex2DlodFunction, g.tex2DbiasFunction,
    g.tex3DlodFunction, g.texCUBEbiasFunction]
    ++ g.reservedWord ++ [g.scalarSwizzle2Function, g.scalarSwizzle3Function,
      g.scalarSwizzle4Function, g.sinCosFunction]

/-- The render target slot that a semantic denotes, in the words of the
specification: `SV_TARGET` is slot 0 and `SV_TARGETn` is slot `n`, for the
slots below the number of render targets; letter case does not matter. -/
def targetSlot (maxTargets : Nat) (semantic : String) : Option Nat :=
  if asciiLower semantic = "sv_target" then some 0
  else (List.range maxTargets).find?
    (fun n => decide (asciiLower semantic = "sv_target" ++ toString n))

/-- The declaration of the fragment output of a slot with a qualifier. -/
def layoutText (slot : Nat) (qualifier : String) : String :=
  "layout (location = " ++ toString slot ++ ") " ++ qualifier ++ " vec4 out_FragColor"
    ++ toString slot ++ ";"

/-- The resolver of the specification: for the semantics of the fields in
struct order and the fetch set, the declarations of the fields that denote a
slot (`inout` when the slot is in the fetch set at that moment, else `out`),
and the fetch set that is left when every declared slot has been removed. -/
def resolveOutputs (maxTargets : Nat) : List (Option String) → List Nat → List String × List Nat
  | [], fetch => ([], fetch)
  | none :: rest, fetch => resolveOutputs maxTargets rest fetch
  | some semantic :: rest, fetch =>
    match targetSlot maxTargets semantic with
    | none => resolveOutputs maxTargets rest fetch
    | some n =>
      (layoutText n (if n ∈ fetch then "inout" else "out")
          :: (resolveOutputs maxTargets rest (fetch.filter fun k => decide (k ≠ n))).1,
        (resolveOutputs maxTargets rest (fetch.filter fun k => decide (k ≠ n))).2)

/-- The slots that the fields of a struct declare. -/
def declaredSlots (maxTargets : Nat) (semantics : List (Option String)) : List Nat :=
  semantics.filterMap fun o => o.bind (targetSlot maxTargets)

/-- The result of an emitting function, if there is one, has the error flag
raised. -/
def Raised (r : Option GenState) : Prop :=
  ∀ s1, r = some s1 → s1.hasError = true

/-! ### Expressions that the emitter reaches

`Emits cfg g e d x` says that `OutputExpression(e, d)` hands the node `x` to
`OutputExpression`: `x` is `e` itself or is reached through the recursive
calls that the function makes on `e` and on the array size of the type of a
cast. The relations below follow the calls of the statement emitter and of
`Generate` in the same way. -/

/-- The expected types that `OutputExpressionList` hands to `OutputExpression`
with the expressions of the chain. -/
def OutputExpressionList.hints :
    List HLSLExpression → List HLSLType → List (HLSLExpression × Option HLSLType)
  | [], _ => []
  | e :: rest, [] => (e, none) :: OutputExpressionList.hints rest []
  | e :: rest, expectedType :: nextArgument =>
    (e, some expectedType) :: OutputExpressionList.hints rest nextArgument

/-- The array size that `OutputDeclaration(type, name)` hands to
`OutputExpression`. -/
def HLSLType.emittedSize (t : HLSLType) : Option HLSLExpression :=
  if t.array then t.arraySize else none

/-- The expressions that `OutputExpression(e, d)` reaches. -/
inductive Emits (cfg : BuildConfig) (g : GLESGenerator) :
    HLSLExpression → Option HLSLType → HLSLExpression → Prop
  | here (e : HLSLExpression) (d : Option HLSLType) : Emits cfg g e d e
  | castSize (e : HLSLExpression) (d : HLSLType) (size x : HLSLExpression) :
    OutputExpression.cast e (some d) = true → d.emittedSize = some size →
    Emits cfg g size none x → Emits cfg g e (some d) x
  | constructorArgument (t : HLSLType) (type : HLSLType) (argument : List HLSLExpression)
    (d : Option HLSLType) (a x : HLSLExpression) :
    a ∈ argument → Emits cfg g a none x →
    Emits cfg g (.ConstructorExpression t type argument) d x
  | castingSize (t type : HLSLType) (inner : HLSLExpression) (d : Option HLSLType)
    (size x : HLSLExpression) :
    type.emittedSize = some size → Emits cfg g size none x →
    Emits cfg g (.CastingExpression t type inner) d x
  | castingInner (t type : HLSLType) (inner : HLSLExpression) (d : Option HLSLType)
    (x : HLSLExpression) :
    Emits cfg g inner none x → Emits cfg g (.CastingExpression t type inner) d x
  | unaryOperand (t : HLSLType) (op : HLSLUnaryOp) (inner : HLSLExpression)
    (d : Option HLSLType) (x : HLSLExpression) :
    Emits cfg g inner (if (OutputExpression.unaryOp op).2.2 then some t else none) x →
    Emits cfg g (.UnaryExpression t op inner) d x
  | binaryLeft (t : HLSLType) (op : HLSLBinaryOp) (e1 e2 : HLSLExpression)
    (d : Option HLSLType) (x : HLSLExpression) :
    Emits cfg g e1 (if (OutputExpression.binaryOp op).2.1 then some t else none) x →
    Emits cfg g (.BinaryExpression t op e1 e2) d x
  | binaryRight (t : HLSLType) (op : HLSLBinaryOp) (e1 e2 : HLSLExpression)
    (d : Option HLSLType) (x : HLSLExpression) :
    Emits cfg g e2 (if (OutputExpression.binaryOp op).2.2 then some t else none) x →
    Emits cfg g (.BinaryExpression t op e1 e2) d x
  | condition (t : HLSLType) (c e1 e2 : HLSLExpression) (d : Option HLSLType)
    (x : HLSLExpression) :
    Emits cfg g c (some (HLSLType.ofBase .Bool)) x →
    Emits cfg g (.ConditionalExpression t c e1 e2) d x
  | conditionTrue (t : HLSLType) (c e1 e2 : HLSLExpression) (d : Option HLSLType)
    (x : HLSLExpression) :
    Emits cfg g e1 none x → Emits cfg g (.ConditionalExpression t c e1 e2) d x
  | conditionFalse (t : HLSLType) (c e1 e2 : HLSLExpression) (d : Option HLSLType)
    (x : HLSLExpression) :
    Emits cfg g e2 none x → Emits cfg g (.ConditionalExpression t c e1 e2) d x
  | memberObject (t : HLSLType) (object : HLSLExpression) (field : String)
    (d : Option HLSLType) (x : HLSLExpression) :
    (∀ s, OutputExpression.memberBinding cfg g s object field = some (s, true)) →
    Emits cfg g object none x → Emits cfg g (.MemberAccess t object field) d x
  | arrayObject (t : HLSLType) (array index : HLSLExpression) (d : Option HLSLType)
    (x : HLSLExpression) :
    Emits cfg g array none x → Emits cfg g (.ArrayAccess t array index) d x
  | arrayIndex (t : HLSLType) (array index : HLSLExpression) (d : Option HLSLType)
    (x : HLSLExpression) :
    Emits cfg g index none x → Emits cfg g (.ArrayAccess t array index) d x
  | mulSecond (t : HLSLType) (functionName : String) (type0 type1 : HLSLType)
    (rest : List HLSLType) (argument0 argument1 : HLSLExpression) (d : Option HLSLType)
    (x : HLSLExpression) :
    String_Equal functionName "mul" = true → Emits cfg g argument1 (some type1) x →
    Emits cfg g (.FunctionCall t functionName (type0 :: type1 :: rest) [argument0, argument1])
      d x
  | mulFirst (t : HLSLType) (functionName : String) (type0 type1 : HLSLType)
    (rest : List HLSLType) (argument0 argument1 : HLSLExpression) (d : Option HLSLType)
    (x : HLSLExpression) :
    String_Equal functionName "mul" = true → Emits cfg g argument0 (some type0) x →
    Emits cfg g (.FunctionCall t functionName (type0 :: type1 :: rest) [argument0, argument1])
      d x
  | saturateArgument (t : HLSLType) (functionName : String) (functionArgument : List HLSLType)
    (argument0 : HLSLExpression) (d : Option HLSLType) (x : HLSLExpression) :
    String_Equal functionName "mul" = false → String_Equal functionName "saturate" = true →
    Emits cfg g argument0 none x →
    Emits cfg g (.FunctionCall t functionName functionArgument [argument0]) d x
  | callArgument (t : HLSLType) (functionName : String) (functionArgument : List HLSLType)
    (argument : List HLSLExpression) (d : Option HLSLType) (a : HLSLExpression)
    (hint : Option HLSLType) (x : HLSLExpression) :
    String_Equal functionName "mul" = false → String_Equal functionName "saturate" = false →
    ¬ (g.version = .GLSL_300 ∧ String_Equal functionName "FramebufferFetch" = true) →
    (a, hint) ∈ OutputExpressionList.hints argument functionArgument →
    Emits cfg g a hint x →
    Emits cfg g (.FunctionCall t functionName functionArgument argument) d x

/-- `OutputDeclaration(type, name)` reaches `x`: through the array size. -/
def TypeEmits (cfg : BuildConfig) (g : GLESGenerator) (t : HLSLType) (x : HLSLExpression) :
    Prop :=
  ∃ size, t.emittedSize = some size ∧ Emits cfg g size none x

/-- `OutputDeclaration(declaration)` reaches `x`. -/
def DeclarationEmits (cfg : BuildConfig) (g : GLESGenerator) (declaration : HLSLDeclaration)
    (x : HLSLExpression) : Prop :=
  if declaration.type.flags.Property then
    ((!declaration.assignment.isEmpty) && declaration.type.array) = true ∧
      ((∃ size, declaration.type.arraySize = some size ∧ Emits cfg g size none x) ∨
        ∃ a ∈ declaration.assignment, Emits cfg g a none x)
  else if IsSamplerType declaration.type then False
  else
    TypeEmits cfg g declaration.type x ∨
      (declaration.assignment ≠ [] ∧
        if declaration.type.array then
          (∃ size, declaration.type.arraySize = some size ∧ Emits cfg g size none x) ∨
            ∃ a ∈ declaration.assignment, Emits cfg g a none x
        else ∃ first, declaration.assignment.head? = some first ∧
          Emits cfg g first (some declaration.type) x)

/-- The flag `do_out_expr` of the return statement. -/
def OutputStatements.returnsValue : HLSLExpression → Bool
  | .IdentifierExpression _ name => !decide (strcmp name "output" = 0)
  | _ => true

/-- `OutputStatements` reaches `x` in the statement, called with the given
return type. -/
inductive StatementEmits (cfg : BuildConfig) (g : GLESGenerator) :
    HLSLStatement → Option HLSLType → HLSLExpression → Prop
  | declaration (declaration : HLSLDeclaration) (rt : Option HLSLType) (x : HLSLExpression) :
    strcmp declaration.name "output" ≠ 0 → declaration.type.baseType ≠ .Texture →
    DeclarationEmits cfg g declaration x →
    StatementEmits cfg g (.Declaration false declaration) rt x
  | structField (structure_ : HLSLStruct) (rt : Option HLSLType) (f : HLSLStructField)
    (x : HLSLExpression) :
    structure_.usage = .struct_Generic → f ∈ structure_.field → TypeEmits cfg g f.type x →
    StatementEmits cfg g (.Struct false structure_) rt x
  | functionArgument (name : String) (functionReturnType : HLSLType)
    (semantic : Option String) (argument : List HLSLArgument)
    (statement : List HLSLStatement) (rt : Option HLSLType) (a : HLSLArgument)
    (x : HLSLExpression) :
    String_Equal name g.entryName = false → a ∈ argument → TypeEmits cfg g a.type x →
    StatementEmits cfg g (.Function false name functionReturnType semantic argument statement)
      rt x
  | functionBody (name : String) (functionReturnType : HLSLType)
    (semantic : Option String) (argument : List HLSLArgument)
    (statement : List HLSLStatement) (rt : Option HLSLType) (st : HLSLStatement)
    (x : HLSLExpression) :
    String_Equal name g.entryName = false → st ∈ statement →
    StatementEmits cfg g st (some functionReturnType) x →
    StatementEmits cfg g (.Function false name functionReturnType semantic argument statement)
      rt x
  | expression (e : HLSLExpression) (rt : Option HLSLType) (x : HLSLExpression) :
    Emits cfg g e none x → StatementEmits cfg g (.ExpressionStatement false e) rt x
  | returnValue (e : HLSLExpression) (rt : Option HLSLType) (x : HLSLExpression) :
    OutputStatements.returnsValue e = true → Emits cfg g e rt x →
    StatementEmits cfg g (.ReturnStatement false (some e)) rt x
  | ifCondition (c : HLSLExpression) (statement elseStatement : List HLSLStatement)
    (rt : Option HLSLType) (x : HLSLExpression) :
    Emits cfg g c (some (HLSLType.ofBase .Bool)) x →
    StatementEmits cfg g (.IfStatement false c statement elseStatement) rt x
  | ifThen (c : HLSLExpression) (statement elseStatement : List HLSLStatement)
    (rt : Option HLSLType) (st : HLSLStatement) (x : HLSLExpression) :
    st ∈ statement → StatementEmits cfg g st rt x →
    StatementEmits cfg g (.IfStatement false c statement elseStatement) rt x
  | ifElse (c : HLSLExpression) (statement elseStatement : List HLSLStatement)
    (rt : Option HLSLType) (st : HLSLStatement) (x : HLSLExpression) :
    st ∈ elseStatement → StatementEmits cfg g st rt x →
    StatementEmits cfg g (.IfStatement false c statement elseStatement) rt x
  | forInitialization (initialization : HLSLDeclaration) (c increment : HLSLExpression)
    (statement : List HLSLStatement) (rt : Option HLSLType) (x : HLSLExpression) :
    DeclarationEmits cfg g initialization x →
    StatementEmits cfg g (.ForStatement false initialization c increment statement) rt x
  | forCondition (initialization : HLSLDeclaration) (c increment : HLSLExpression)
    (statement : List HLSLStatement) (rt : Option HLSLType) (x : HLSLExpression) :
    Emits cfg g c (some (HLSLType.ofBase .Bool)) x →
    StatementEmits cfg g (.ForStatement false initialization c increment statement) rt x
  | forIncrement (initialization : HLSLDeclaration) (c increment : HLSLExpression)
    (statement : List HLSLStatement) (rt : Option HLSLType) (x : HLSLExpression) :
    Emits cfg g increment none x →
    StatementEmits cfg g (.ForStatement false initialization c increment statement) rt x
  | forBody (initialization : HLSLDeclaration) (c increment : HLSLExpression)
    (statement : List HLSLStatement) (rt : Option HLSLType) (st : HLSLStatement)
    (x : HLSLExpression) :
    st ∈ statement → StatementEmits cfg g st rt x →
    StatementEmits cfg g (.ForStatement false initialization c increment statement) rt x
  | block (statement : List HLSLStatement) (rt : Option HLSLType) (st : HLSLStatement)
    (x : HLSLExpression) :
    st ∈ statement → StatementEmits cfg g st none x →
    StatementEmits cfg g (.BlockStatement false statement) rt x

/-- The property loop of `Generate` reaches `x`: in the initial value of a
property that is not hidden and not an array. -/
def PropertiesEmit (cfg : BuildConfig) (g : GLESGenerator) (root : List HLSLStatement)
    (x : HLSLExpression) : Prop :=
  ∃ declaration first, HLSLStatement.Declaration false declaration ∈ root ∧
    declaration.type.flags.Property = true ∧ declaration.type.array = false ∧
    declaration.assignment.head? = some first ∧
    Emits cfg g first (some declaration.type) x

/-- `Generate` reaches `x`: the entry function exists and `x` is reached from
a global statement, from the loop over the properties, or from the body of the
entry function. -/
def GenerateEmits (cfg : BuildConfig) (tree : HLSLTree) (version : GLSLVersion)
    (target : Target) (entryName : String) (x : HLSLExpression) : Prop :=
  ∃ entryFunction, FindFunction tree.root entryName = some entryFunction ∧
    ((∃ st ∈ tree.root,
        StatementEmits cfg (Generate.members cfg tree version target entryName) st none x) ∨
      PropertiesEmit cfg (Generate.members cfg tree version target entryName) tree.root x ∨
      ∃ st ∈ entryFunction.statement,
        StatementEmits cfg (Generate.members cfg tree version target entryName) st none x)

/-- The call is one of `mul` without exactly two arguments or of `saturate`
without exactly one. -/
def wrongArgumentCount : HLSLExpression → Bool
  | .FunctionCall _ functionName _ argument =>
    if String_Equal functionName "mul" then decide (GetFunctionArguments argument ≠ 2)
    else if String_Equal functionName "saturate" then decide (GetFunctionArguments argument ≠ 1)
    else false
  | _ => false

/-- The call is one of `FramebufferFetch` whose argument chain is not one
integer literal. -/
def wrongFetchArguments : HLSLExpression → Bool
  | .FunctionCall _ functionName _ argument =>
    String_Equal functionName "FramebufferFetch" && !isOneIntLiteral argument
  | _ => false

/-- The line that `Generate` writes for one field of the struct returned by
the vertex stage. -/
def Generate.varyingOutLine (version : GLSLVersion) (field : HLSLStructField) : String :=
  (if version = .GLSL_100 then "varying " else "out ")
    ++ Generate.outputPrecision field ++ " " ++ GetTypeName field.type ++ " var_"
    ++ field.name ++ ";"

/-- The test of the loop over the fields of the struct returned by the vertex
stage: the semantic is neither `SV_POSITION` nor `SV_TARGET`. -/
def Generate.isVarying (field : HLSLStructField) : Bool :=
  match field.semantic with
  | some semantic =>
    decide (stricmp semantic "SV_POSITION" ≠ 0 ∧ stricmp semantic "SV_TARGET" ≠ 0)
  | none => false

/-- The first word of a line: the text before the first blank. -/
def firstWord (line : String) : String :=
  String.mk (line.data.takeWhile fun c => c != ' ')

/-- The semantic is a render target semantic, in the words of the
specification: `SV_TARGET` or `SV_TARGETn` for a number `n`, in any letter
case. -/
def isTargetSemantic (semantic : String) : Prop :=
  asciiLower semantic = "sv_target" ∨ ∃ n : Nat, asciiLower semantic = "sv_target" ++ toString n

/-- The component selection that follows the name of a render target when
several render targets are used. -/
def targetSwizzle : HLSLBaseType → String
  | .Float => ".x"
  | .Float2 => ".xy"
  | .Float3 => ".xyz"
  | _ => ""

/-- The remap table of the specification: the name of an intrinsic, the name
written for GLSL_100 and the name written for the newer dialect. The entry of
`lerp` depends on the platform family, the entries of `clip`, `sincos` and
`texCUBEbias` are the aliases that the generator holds for them. -/
def remapTable (cfg : BuildConfig) (g : GLESGenerator) : List (String × String × String) :=
  [("tex2D", "texture2D", "texture"),
   ("tex2Dcmp", "shadow2D", "texture"),
   ("tex2Dproj", "texture2DProj", "textureProj"),
   ("texCUBE", "textureCube", "texture"),
   ("texCUBElod", "textureCubeLod", "textureLod"),
   ("tex2Dlod", "texture2DLod", "textureLod"),
   ("tex2Dgrad", "textureGrad", "textureGrad"),
   ("tex2Dsize", "textureSize", "textureSize"),
   ("atan2", "atan", "atan"),
   ("fmod", "mod", "mod"),
   ("frac", "fract", "fract"),
   ("ddx", "dFdx", "dFdx"),
   ("ddy", "dFdy", "dFdy"),
   ("lerp", if cfg.platform = .MACOS then "lerp" else "mix",
     if cfg.platform = .MACOS then "lerp" else "mix"),
   ("clip", g.clipFunction, g.clipFunction),
   ("sincos", g.sinCosFunction, g.sinCosFunction),
   ("texCUBEbias", g.texCUBEbiasFunction, g.texCUBEbiasFunction)]

/-- The name that the specification gives for an identifier: the entry of
the remap table for the dialect when the name is in the table, and the
sanitized name otherwise. -/
def referenceRemap (cfg : BuildConfig) (g : GLESGenerator) (name : String) : String :=
  match (remapTable cfg g).find? (fun entry => entry.1 == name) with
  | some entry => if g.version = .GLSL_100 then entry.2.1 else entry.2.2
  | none => GetSafeIdentifierName g name

/-- The line enables a texture-LOD extension. -/
def isLodExtension (line : String) : Bool :=
  decide (line = "#extension GL_EXT_shader_texture_lod : enable")
    || decide (line = "#extension GL_ARB_shader_texture_lod : enable")

/-- The Feature Scanner found a texture-LOD intrinsic: the token query of the
tree finds `tex2Dlod` or `texCUBElod`. -/
def usesTexLod (tree : HLSLTree) : Bool :=
  tree.GetContainsString "tex2Dlod" || tree.GetContainsString "texCUBElod"

/-- A property of the state of the writer that no write and no error report
destroys. -/
structure Stable (Q : GenState → Prop) : Prop where
  write : ∀ (s : GenState) (t : String), Q s → Q (s.Write t)
  error : ∀ (s : GenState) (m : String), Q s → Q (s.Error m)

/-- The result of an emitting function, if there is one, has the property. -/
def Holds (Q : GenState → Prop) (r : Option GenState) : Prop :=
  ∀ s1, r = some s1 → Q s1

/-- The text written so far begins with the given text. -/
def GenState.startsWith (s : GenState) (p : String) : Prop :=
  ∃ rest : String, s.code = p ++ rest

/-- The version pragma of the specification for a platform family and a
dialect. -/
def versionPragma (platform : Platform) (version : GLSLVersion) : String :=
  match platform with
  | .IPHONE => if version = .GLSL_100 then "#version 100" else "#version 300 es"
  | .ANDROID => if version = .GLSL_100 then "#version 100" else "#version 300 es"
  | .MACOS => "#version 120"
  | .OTHER => if version = .GLSL_100 then "#version 130" else "#version 330"

/-- A relation between the states of two runs that writing the same text and
reporting the same error on both sides keep. -/
structure StableRel (R : GenState → GenState → Prop) : Prop where
  write : ∀ (s t : GenState) (text : String), R s t → R (s.Write text) (t.Write text)
  error : ∀ (s t : GenState) (m : String), R s t → R (s.Error m) (t.Error m)

/-- The results of two runs of an emitting function agree: both runs end
without result, or both have one and the results are related. -/
def Agree (R : GenState → GenState → Prop) : Option GenState → Option GenState → Prop
  | some a, some b => R a b
  | none, none => True
  | _, _ => False

/-- The two states hold the same text. -/
def GenState.sameText (s t : GenState) : Prop :=
  s.code = t.code

/-- The two states hold the same text and the same error flag. -/
def GenState.sameOutcome (s t : GenState) : Prop :=
  s.code = t.code ∧ s.hasError = t.hasError

/-- The slots and qualifiers of the `layout` declarations in the words of the
specification, in the order of the output: every field whose semantic denotes
a slot declares it, as `inout` (`true`) when the slot is in the fetch set at
that moment, after which the slot leaves the set, else as `out` (`false`);
the slots left in the fetch set follow as `inout`. -/
def resolveSlots (maxTargets : Nat) : List (Option String) → List Nat → List (Nat × Bool)
  | [], fetch => fetch.map fun k => (k, true)
  | none :: rest, fetch => resolveSlots maxTargets rest fetch
  | some semantic :: rest, fetch =>
    match targetSlot maxTargets semantic with
    | none => resolveSlots maxTargets rest fetch
    | some n =>
      (n, decide (n ∈ fetch)) :: resolveSlots maxTargets rest (fetch.filter fun k => decide (k ≠ n))

/-- The `layout` declaration of a slot with its qualifier, the slot printed
as `%d` prints it. -/
def slotLine (p : Nat × Bool) : String :=
  Generate.layoutLine .GLSL_300 (fmt_d (uint32AsInt p.1)) (if p.2 then "inout" else "out")
    (uint32AsInt p.1)

end sl

/-! ## The action system (`ActionSystemImpl.cpp`)

The types of `ActionSystem.h` and `ActionSystemImpl.h` are reduced to the
members that `BindSet` and `UnbindAllSets` read and write. `FastName` is a
string, `uint32` device ids are natural numbers; the type `α` stands for the
analog state of an action. -/

namespace DAVA

/-- `DigitalBinding`: the members that `BindSet` reads. -/
structure DigitalBinding (α : Type) where
  actionId : String
  outputAnalogState : α

/-- `AnalogBinding`: the member that `BindSet` reads. -/
structure AnalogBinding where
  actionId : String

/-- `ActionSet`. -/
structure ActionSet (α : Type) where
  name : String
  digitalBindings : List (DigitalBinding α)
  analogBindings : List AnalogBinding

/-- `BoundActionSet`: the bindings of a set and the devices it is bound to;
an empty device list stands for a set that is not bound to specific devices.
The containers of the bindings are kept as the sequences of the inserted
bindings. -/
structure BoundActionSet (α : Type) where
  name : String
  digitalBindings : List (DigitalBinding α)
  analogBindings : List AnalogBinding
  devices : List Nat

/-- `Action`: the id and the analog state; `triggeredDevice` is left at its
initial value by `BindSet`. -/
structure Action (α : Type) where
  actionId : String
  analogState : α

/-- `ActionState`. -/
structure ActionState (α : Type) where
  active : Bool
  action : Action α

/-- The members of `ActionSystemImpl` that `BindSet` and `UnbindAllSets`
write; the two maps are association lists with one entry per key. -/
structure ActionSystemImpl (α : Type) where
  boundSets : List (BoundActionSet α)
  digitalActionsStates : List (String × ActionState α)
  analogActionsStates : List (String × ActionState α)

/-- The assignment `map[key] = value`. -/
def mapAssign {β : Type} (m : List (String × β)) (key : String) (value : β) :
    List (String × β) :=
  if m.any (fun p => p.1 == key) then m.map (fun p => if p.1 == key then (key, value) else p)
  else m ++ [(key, value)]

/-- The statement `devices.erase(std::remove(begin, end, deviceId), end)`. -/
def BindSet.removeDevice (devices : List Nat) (deviceId : Nat) : List Nat :=
  devices.filter (fun d => decide (d ≠ deviceId))

/-- The `while` loop of `BindSet` over `boundSets`: every set that is bound to
specific devices loses the given devices and is erased when none is left. -/
def BindSet.unbind {α : Type} (devices : List Nat) :
    List (BoundActionSet α) → List (BoundActionSet α)
  | [] => []
  | boundSet :: rest =>
    if boundSet.devices.length > 0 then
      let boundSet : BoundActionSet α :=
        { boundSet with devices := devices.foldl BindSet.removeDevice boundSet.devices }
      if boundSet.devices.length = 0 then BindSet.unbind devices rest
      else boundSet :: BindSet.unbind devices rest
    else boundSet :: BindSet.unbind devices rest

/-- The bound set that `BindSet` appends. -/
def BindSet.boundSet {α : Type} (set : ActionSet α) (devices : List Nat) : BoundActionSet α :=
  { name := set.name, digitalBindings := set.digitalBindings,
    analogBindings := set.analogBindings, devices := devices }

/-- `ActionSystemImpl::BindSet(set, devices)`. The analog state of the entry
written for an analog binding is the one of a default-constructed
`ActionState`. -/
def ActionSystemImpl.BindSet {α : Type} [Inhabited α] (self : ActionSystemImpl α)
    (set : ActionSet α) (devices : List Nat) : ActionSystemImpl α :=
  let boundSets :=
    if devices.length > 0 then BindSet.unbind devices self.boundSets else self.boundSets
  let digitalActionsStates := set.digitalBindings.foldl (fun m digitalBinding =>
    mapAssign m digitalBinding.actionId
      { active := false
        action := { actionId := digitalBinding.actionId
                    analogState := digitalBinding.outputAnalogState } })
    self.digitalActionsStates
  let analogActionsStates := set.analogBindings.foldl (fun m analogBinding =>
    mapAssign m analogBinding.actionId
      { active := false
        action := { actionId := analogBinding.actionId, analogState := default } })
    self.analogActionsStates
  { boundSets := boundSets ++ [BindSet.boundSet set devices]
    digitalActionsStates := digitalActionsStates
    analogActionsStates := analogActionsStates }

/-- `ActionSystemImpl::UnbindAllSets()`. -/
def ActionSystemImpl.UnbindAllSets {α : Type} (self : ActionSystemImpl α) :
    ActionSystemImpl α :=
  { boundSets := [], digitalActionsStates := [], analogActionsStates := [] }

/-- The state of a newly constructed `ActionSystemImpl`: the three containers
are empty. -/
def ActionSystemImpl.initial {α : Type} : ActionSystemImpl α :=
  { boundSets := [], digitalActionsStates := [], analogActionsStates := [] }

/-- A call of one of the two member functions. -/
inductive BindCall (α : Type) where
  | BindSet (set : ActionSet α) (devices : List Nat)
  | UnbindAllSets

/-- The state after one call. -/
def ActionSystemImpl.call {α : Type} [Inhabited α] (self : ActionSystemImpl α) :
    BindCall α → ActionSystemImpl α
  | .BindSet set devices => self.BindSet set devices
  | .UnbindAllSets => self.UnbindAllSets

/-- The state after a sequence of calls. -/
def ActionSystemImpl.run {α : Type} [Inhabited α] (self : ActionSystemImpl α)
    (calls : List (BindCall α)) : ActionSystemImpl α :=
  calls.foldl ActionSystemImpl.call self

/-- No device id occurs in the device lists of two different bound sets. -/
def Exclusive {α : Type} (boundSets : List (BoundActionSet α)) : Prop :=
  boundSets.Pairwise fun a b => ∀ d, d ∈ a.devices → d ∉ b.devices

/-- An action set without bindings. -/
def exampleSet (name : String) : ActionSet Nat :=
  { name := name, digitalBindings := [], analogBindings := [] }

end DAVA

namespace sl

/-- The number of round parentheses that are open after the characters have
been read, starting with `d` open ones; `none` when a closing parenthesis has
no partner. -/
def parenDepth : List Char → Nat → Option Nat
  | [], d => some d
  | c :: cs, d =>
    if c = '(' then parenDepth cs (d + 1)
    else if c = ')' then
      (match d with
       | 0 => none
       | k + 1 => parenDepth cs k)
    else parenDepth cs d

/-- Balanced round parentheses: every prefix of the text has at least as many
`(` as `)`, and the text has as many `(` as `)`. -/
def Balanced (t : String) : Prop :=
  (∀ n, (t.data.take n).count ')' ≤ (t.data.take n).count '(')
    ∧ t.data.count '(' = t.data.count ')'

/-- The text contains no round parenthesis. -/
def parenFree (t : String) : Bool :=
  !t.data.contains '(' && !t.data.contains ')'

mutual
/-- The name of the type and the names in its array size contain no round
parenthesis. -/
inductive TypeNoParens : HLSLType → Prop
  | mk (b : HLSLBaseType) (n : Option String) (a : Bool) (z : Option HLSLExpression)
      (f : HLSLTypeFlags) :
    (∀ name, n = some name → parenFree name = true) →
    (∀ size, z = some size → ExprNoParens size) → TypeNoParens (.mk b n a z f)
/-- The identifier names, field names, function names, formatted float
literals and the names of the types that can be written for a node of the
expression contain no round parenthesis. -/
inductive ExprNoParens : HLSLExpression → Prop
  | identifier (t : HLSLType) (name : String) :
    parenFree name = true → ExprNoParens (.IdentifierExpression t name)
  | constructor (t type : HLSLType) (argument : List HLSLExpression) :
    TypeNoParens type → (∀ a, a ∈ argument → ExprNoParens a) →
    ExprNoParens (.ConstructorExpression t type argument)
  | casting (t type : HLSLType) (inner : HLSLExpression) :
    TypeNoParens type → ExprNoParens inner → ExprNoParens (.CastingExpression t type inner)
  | literal (t : HLSLType) (type : HLSLBaseType) (bValue : Bool) (fValue : String)
      (iValue : Int) :
    parenFree fValue = true → ExprNoParens (.LiteralExpression t type bValue fValue iValue)
  | unary (t : HLSLType) (op : HLSLUnaryOp) (inner : HLSLExpression) :
    TypeNoParens t → ExprNoParens inner → ExprNoParens (.UnaryExpression t op inner)
  | binary (t : HLSLType) (op : HLSLBinaryOp) (e1 e2 : HLSLExpression) :
    TypeNoParens t → ExprNoParens e1 → ExprNoParens e2 →
    ExprNoParens (.BinaryExpression t op e1 e2)
  | conditional (t : HLSLType) (c e1 e2 : HLSLExpression) :
    ExprNoParens c → ExprNoParens e1 → ExprNoParens e2 →
    ExprNoParens (.ConditionalExpression t c e1 e2)
  | member (t : HLSLType) (object : HLSLExpression) (field : String) :
    ExprNoParens object → parenFree field = true → ExprNoParens (.MemberAccess t object field)
  | array (t : HLSLType) (array index : HLSLExpression) :
    ExprNoParens array → ExprNoParens index → ExprNoParens (.ArrayAccess t array index)
  | call (t : HLSLType) (functionName : String) (functionArgument : List HLSLType)
      (argument : List HLSLExpression) :
    parenFree functionName = true → (∀ ty, ty ∈ functionArgument → TypeNoParens ty) →
    (∀ a, a ∈ argument → ExprNoParens a) →
    ExprNoParens (.FunctionCall t functionName functionArgument argument)
  | other (t : HLSLType) : ExprNoParens (.Other t)
end

/-- The names that the generator holds for helpers and reserved words contain
no round parenthesis. -/
def GLESGenerator.noParens (g : GLESGenerator) : Prop :=
  parenFree g.clipFunction = true ∧ parenFree g.texCUBEbiasFunction = true
    ∧ parenFree g.sinCosFunction = true ∧ parenFree g.scalarSwizzle2Function = true
    ∧ parenFree g.scalarSwizzle3Function = true ∧ parenFree g.scalarSwizzle4Function = true
    ∧ ∀ w, w ∈ g.reservedWord → parenFree w = true

/-- With respect to the text `base`, the state has written a text after which
`d` round parentheses are open, unless an error has been raised. -/
def ParenInv (base : String) (d : Nat) (s : GenState) : Prop :=
  s.hasError = false → ∃ t, s.code = base ++ t ∧ parenDepth t.data 0 = some d

/-! ## Concrete inputs used in the examples -/

/-- A desktop build with four render targets, 64 byte name buffers and four
spaces of indentation. -/
def exampleConfig : BuildConfig :=
  { platform := .OTHER, MAX_RENDER_TARGET_COUNT := 4, nameBufferLength := 64,
    spacesPerIndent := 4 }

/-- The state of a generator on which no error has been raised. -/
def freshState : GenState :=
  { code := "", hasError := false, log := [] }

/-- A tree without statements whose token query finds nothing. -/
def emptyTree : HLSLTree :=
  { root := [], containsString := fun _ => false }

/-- The generator members that `Generate` sets for the empty tree, GLSL_300,
fragment stage and entry point `main`. -/
def exampleGenerator : GLESGenerator :=
  Generate.members exampleConfig emptyTree .GLSL_300 .TARGET_FRAGMENT "main"

/-- The call `saturate()` without arguments, of type `float`. -/
def saturateNoArguments : HLSLExpression :=
  .FunctionCall (HLSLType.ofBase .Float) "saturate" [HLSLType.ofBase .Float] []

/-- The 1024 candidates `sincos0` .. `sincos1023`. -/
def crowdedPool : List String :=
  (List.range 1024).map (Snprintf_s_d 64 "sincos")

/-- A tree without statements whose token query finds exactly the 1024
candidate names for `sincos`. -/
def crowdedTree : HLSLTree :=
  { root := [], containsString := fun t => decide (t ∈ crowdedPool) }

/-- The statement `FramebufferFetch(slot);`. -/
def exampleFetchStatement (slot : Int) : HLSLStatement :=
  .ExpressionStatement false
    (.FunctionCall (HLSLType.ofBase .Float4) "FramebufferFetch" [HLSLType.ofBase .Int]
      [.LiteralExpression (HLSLType.ofBase .Int) .Int false "" slot])

/-- A `float4` struct field with a semantic. -/
def exampleField (name semantic : String) : HLSLStructField :=
  { name := name, type := HLSLType.ofBase .Float4, semantic := some semantic,
    attribute_ := none }

/-- A tree with a struct `fragment_out` that has the given fields and an
entry function `fp_main` whose body is the one statement
`FramebufferFetch(slot);`. -/
def exampleFragmentTree (fields : List HLSLStructField) (slot : Int) : HLSLTree :=
  { root :=
      [.Struct false { name := "fragment_out", field := fields, usage := .struct_FragmentOut },
       .Function false "fp_main" (HLSLType.ofBase .Void) none [] [exampleFetchStatement slot]]
    containsString := fun _ => false }

/-- Outputs `SV_TARGET0` and `SV_TARGET1`, and a fetch of slot 0. -/
def mrtTree : HLSLTree :=
  exampleFragmentTree [exampleField "color0" "SV_TARGET0", exampleField "color1" "SV_TARGET1"] 0

/-- One output `SV_TARGET0`, and a fetch of slot 2. -/
def fetchOnlyTree : HLSLTree :=
  exampleFragmentTree [exampleField "color0" "SV_TARGET0"] 2

/-- A tree whose only statement is the entry function `main`, the body of
which is the one statement `e;`. -/
def exampleEntryTree (e : HLSLExpression) : HLSLTree :=
  { root :=
      [.Function false "main" (HLSLType.ofBase .Void) none [] [.ExpressionStatement false e]]
    containsString := fun _ => false }

/-- The call `FramebufferFetch()` without arguments. -/
def fetchNoArguments : HLSLExpression :=
  .FunctionCall (HLSLType.ofBase .Float4) "FramebufferFetch" [HLSLType.ofBase .Int] []

/-- A user-defined struct type with the given name. -/
def structType (name : String) : HLSLType :=
  .mk .UserDefined (some name) false none { Const := false, Property := false }

/-- A tree whose only statement is a struct with the given name, usage tag and
fields; its token query finds nothing. -/
def structTree (name : String) (usage : StructUsage) (fields : List HLSLStructField) :
    HLSLTree :=
  { root := [.Struct false { name := name, field := fields, usage := usage }]
    containsString := fun _ => false }

/-- The member access `output.field`, of the given base type, on the
identifier `output` of the struct type with the given name. -/
def exampleAccess (structName field : String) (t : HLSLBaseType) : HLSLExpression :=
  .MemberAccess (HLSLType.ofBase t) (.IdentifierExpression (structType structName) "output")
    field

/-- A struct field of the given type with a semantic. -/
def typedField (name : String) (t : HLSLBaseType) (semantic : String) : HLSLStructField :=
  { name := name, type := HLSLType.ofBase t, semantic := some semantic, attribute_ := none }

/-- The members that `Generate` sets for a tree with one struct, in the
build of `exampleConfig`. -/
def structGenerator (name : String) (usage : StructUsage) (fields : List HLSLStructField)
    (version : GLSLVersion) (target : Target) : GLESGenerator :=
  Generate.members exampleConfig (structTree name usage fields) version target "main"

/-- The call `name(x)` of type `float` with the one `float` argument `x`. -/
def exampleCall (name : String) : HLSLExpression :=
  .FunctionCall (HLSLType.ofBase .Float) name [HLSLType.ofBase .Float]
    [.IdentifierExpression (HLSLType.ofBase .Float) "x"]

/-- A declaration `t name` without register, annotation and initialiser. -/
def exampleDeclaration (name : String) (t : HLSLBaseType) : HLSLDeclaration :=
  { name := name, type := HLSLType.ofBase t, registerName := none, annotationText := none,
    assignment := [] }

/-- The declaration `sampler2D name` with the given register annotation. -/
def samplerDeclaration (name : String) (registerName : Option String) : HLSLDeclaration :=
  { name := name, type := HLSLType.ofBase .Sampler2D, registerName := registerName,
    annotationText := none, assignment := [] }

/-- A tree with the one visible top-level declaration `d` and an entry
function `main` without arguments and statements; its token query finds
nothing. -/
def declarationTree (d : HLSLDeclaration) : HLSLTree :=
  { root :=
      [.Declaration false d, .Function false "main" (HLSLType.ofBase .Void) none [] []]
    containsString := fun _ => false }

/-- A property-flagged declaration `t name` that is not an array and has no
initialiser. -/
def propertyDeclaration (name : String) (t : HLSLBaseType) : HLSLDeclaration :=
  { name := name, type := .mk t none false none { Const := false, Property := true },
    registerName := none, annotationText := none, assignment := [] }
/-- The float literal with the given text. -/
def floatLiteral (text : String) : HLSLExpression :=
  .LiteralExpression (HLSLType.ofBase .Float) .Float false text 0

/-- The integer literal with the given value. -/
def intLiteral (value : Int) : HLSLExpression :=
  .LiteralExpression (HLSLType.ofBase .Int) .Int false "" value

/-- The property-flagged array `float k[2] = { 1.0, 2.0 }`. -/
def propertyArray : HLSLDeclaration :=
  { name := "k",
    type := .mk .Float none true (some (intLiteral 2)) { Const := false, Property := true },
    registerName := none, annotationText := none,
    assignment := [floatLiteral "1.0", floatLiteral "2.0"] }

/-- The state in which the failed run on the empty tree (no entry point)
leaves a fresh generator. -/
def failedState : GenState :=
  (GenState.WriteLines freshState exampleConfig
    (Generate.preamble exampleConfig emptyTree .GLSL_100 .TARGET_FRAGMENT)).Error
    (Generate.entryPointMessage "main")

/-- A generator without raised error whose writer and log hold older content. -/
def usedState : GenState :=
  { code := "stale text", hasError := false, log := ["an older message"] }

/-- Outputs `SV_TARGET` and `SV_TARGET0`, which both denote slot 0, and a
fetch of slot 0. -/
def sharedSlotTree : HLSLTree :=
  exampleFragmentTree [exampleField "color" "SV_TARGET", exampleField "color0" "SV_TARGET0"] 0

/-- The sum `i + x` of type `float` of an `int` identifier `i` and a `float`
identifier `x`. -/
def exampleSum : HLSLExpression :=
  .BinaryExpression (HLSLType.ofBase .Float) .Add
    (.IdentifierExpression (HLSLType.ofBase .Int) "i")
    (.IdentifierExpression (HLSLType.ofBase .Float) "x")

/-! ## Basic facts about the writer -/

@[simp] theorem GenState.Write_hasError (s : GenState) (t : String) :
    (s.Write t).hasError = s.hasError := rfl

@[simp] theorem GenState.Write_log (s : GenState) (t : String) :
    (s.Write t).log = s.log := rfl

@[simp] theorem GenState.Write_code (s : GenState) (t : String) :
    (s.Write t).code = s.code ++ t := rfl

@[simp] theorem GenState.WriteLine_hasError (s : GenState) (cfg : BuildConfig) (n : Nat)
    (t : String) : (s.WriteLine cfg n t).hasError = s.hasError := rfl

@[simp] theorem GenState.WriteLine_log (s : GenState) (cfg : BuildConfig) (n : Nat)
    (t : String) : (s.WriteLine cfg n t).log = s.log := rfl

theorem GenState.WriteLine_code (s : GenState) (cfg : BuildConfig) (n : Nat) (t : String) :
    (s.WriteLine cfg n t).code = s.code ++ indentText cfg n ++ (t ++ "\n") := rfl

@[simp] theorem GenState.WriteLines_hasError (cfg : BuildConfig) (lines : List String)
    (s : GenState) : (s.WriteLines cfg lines).hasError = s.hasError := by
  induction lines generalizing s with
  | nil => rfl
  | cons l ls ih => simp [GenState.WriteLines, List.foldl] at ih ⊢; rw [ih]; rfl

@[simp] theorem GenState.WriteLines_log (cfg : BuildConfig) (lines : List String)
    (s : GenState) : (s.WriteLines cfg lines).log = s.log := by
  induction lines generalizing s with
  | nil => rfl
  | cons l ls ih => simp [GenState.WriteLines, List.foldl] at ih ⊢; rw [ih]; rfl

/-- The text written by `WriteLines` does not depend on the flag or the log. -/
theorem GenState.WriteLines_code_congr (cfg : BuildConfig) (lines : List String)
    (s t : GenState) (h : s.code = t.code) :
    (s.WriteLines cfg lines).code = (t.WriteLines cfg lines).code := by
  induction lines generalizing s t with
  | nil => exact h
  | cons l ls ih =>
    simp only [GenState.WriteLines, List.foldl] at ih ⊢
    apply ih
    simp [GenState.WriteLine_code, h]

theorem GenState.eq_of_fields (s t : GenState) (hc : s.code = t.code)
    (he : s.hasError = t.hasError) (hl : s.log = t.log) : s = t := by
  cases s; cases t; simp_all

theorem FindFunction_eq_none (root : List HLSLStatement) (name : String)
    (h : ∀ hidden fname returnType semantic argument statement,
      HLSLStatement.Function hidden fname returnType semantic argument statement ∈ root →
      fname ≠ name) :
    FindFunction root name = none := by
  induction root with
  | nil => rfl
  | cons st rest ih =>
    have ih1 := ih (fun hidden fname returnType semantic argument statement hm =>
      h hidden fname returnType semantic argument statement (List.mem_cons_of_mem _ hm))
    cases st <;> simp only [FindFunction, ih1]
    case Function hidden fname returnType semantic argument statement =>
      have := h hidden fname returnType semantic argument statement (List.mem_cons_self _ _)
      simp [String_Equal, this]

/-! ## C1: a missing entry point -/

/-- C1: when no top-level function of the tree is named `entryName`, then for
every dialect and stage `Generate`, called on a generator whose error flag is
not raised, returns `false` and records exactly one message, the entry point
message; the same call repeated on the resulting generator returns `false`
again and leaves the identical state (still that one message). -/
theorem Generate_missing_entry (cfg : BuildConfig) (s : GenState) (tree : HLSLTree)
    (version : GLSLVersion) (target : Target) (entryName : String)
    (hfresh : s.hasError = false)
    (habsent : ∀ hidden fname returnType semantic argument statement,
      HLSLStatement.Function hidden fname returnType semantic argument statement ∈ tree.root →
      fname ≠ entryName) :
    ∃ s1 : GenState,
      Generate cfg s tree version target entryName = some (false, s1)
      ∧ s1.hasError = true
      ∧ s1.log = s.log ++ [String.mk ((Generate.entryPointMessage entryName).data.take 1022)]
      ∧ Generate cfg s1 tree version target entryName = some (false, s1) := by
  have hnone := FindFunction_eq_none tree.root entryName habsent
  refine ⟨(GenState.WriteLines { s with code := "" } cfg
      (Generate.preamble cfg tree version target)).Error
      (Generate.entryPointMessage entryName), ?_, ?_, ?_, ?_⟩
  · simp only [Generate, hnone]
  · simp [GenState.Error, hfresh]
  · simp [GenState.Error, hfresh]
  · simp only [Generate, hnone]
    refine congrArg (fun x => some (false, x)) ?_
    apply GenState.eq_of_fields
    · simp only [GenState.Error, GenState.WriteLines_hasError, hfresh]
      simp only [Bool.false_eq_true, if_false, if_true]
      exact GenState.WriteLines_code_congr cfg _ _ _ rfl
    · simp [GenState.Error, hfresh]
    · simp [GenState.Error, hfresh]

/-- C1 at a concrete input: the empty tree has no function `main`. -/
theorem Generate_missing_entry_witness :
    ∃ s1 : GenState,
      Generate exampleConfig freshState emptyTree .GLSL_100 .TARGET_FRAGMENT "main"
        = some (false, s1)
      ∧ s1.hasError = true
      ∧ s1.log = freshState.log
          ++ [String.mk ((Generate.entryPointMessage "main").data.take 1022)]
      ∧ Generate exampleConfig s1 emptyTree .GLSL_100 .TARGET_FRAGMENT "main"
        = some (false, s1) :=
  Generate_missing_entry exampleConfig freshState emptyTree .GLSL_100 .TARGET_FRAGMENT "main"
    rfl (by simp [emptyTree])

/-! ## Unfolding of expression emission -/

theorem OutputExpression_none (cfg : BuildConfig) (g : GLESGenerator) (s : GenState)
    (e : HLSLExpression) :
    OutputExpression cfg g s e none = OutputExpression.node cfg g s e false := by
  rw [OutputExpression]
  cases e <;> simp [OutputExpression.cast]

theorem OutputExpression_of_cast_false (cfg : BuildConfig) (g : GLESGenerator) (s : GenState)
    (e : HLSLExpression) (dstType : Option HLSLType)
    (h : OutputExpression.cast e dstType = false) :
    OutputExpression cfg g s e dstType = OutputExpression.node cfg g s e false := by
  rw [OutputExpression]
  intro d hc _
  rw [h] at hc
  exact absurd hc (by simp)

theorem OutputExpression_of_cast_true (cfg : BuildConfig) (g : GLESGenerator) (s : GenState)
    (e : HLSLExpression) (d : HLSLType)
    (h : OutputExpression.cast e (some d) = true) :
    OutputExpression cfg g s e (some d)
      = (OutputDeclarationT cfg g s d "").bind
          (fun s1 => OutputExpression.node cfg g (s1.Write "(") e true) := by
  rw [OutputExpression]
  · rfl
  · exact h

theorem GetSafeIdentifierName_of_not_reserved (g : GLESGenerator) (name : String)
    (h : name ∉ ReservedWord) : GetSafeIdentifierName g name = name := by
  unfold GetSafeIdentifierName
  have hfind : (ReservedWord.zip g.reservedWord).find? (fun p => String_Equal p.1 name)
      = none := by
    rw [List.find?_eq_none]
    intro p hp hEq
    have hmem : p.1 ∈ ReservedWord := (List.of_mem_zip (a := p.1) (b := p.2) hp).1
    simp only [String_Equal, decide_eq_true_eq] at hEq
    exact h (hEq ▸ hmem)
  rw [hfind]

theorem OutputExpression_identifier (cfg : BuildConfig) (g : GLESGenerator) (s : GenState)
    (t : HLSLType) (name : String) (dstType : Option HLSLType)
    (hcast : OutputExpression.cast (.IdentifierExpression t name) dstType = false)
    (hs : ¬ (t.baseType = .Sampler2D ∨ t.baseType = .SamplerCube
      ∨ t.baseType = .Sampler2DShadow)) :
    OutputExpression cfg g s (.IdentifierExpression t name) dstType
      = some (OutputIdentifier cfg g s name) := by
  rw [OutputExpression_of_cast_false _ _ _ _ _ hcast, OutputExpression.node]
  simp only [hs, if_false, GenState.closeCast]
  rfl

theorem OutputExpression_mul_eq (cfg : BuildConfig) (g : GLESGenerator) (s : GenState)
    (callType type0 type1 : HLSLType) (rest : List HLSLType) (A B : HLSLExpression)
    (cast : Bool) :
    OutputExpression.node cfg g s
        (.FunctionCall callType "mul" (type0 :: type1 :: rest) [A, B]) cast
      = (OutputExpression cfg g (s.Write "((") B (some type1)).bind (fun sB =>
          (OutputExpression cfg g (sB.Write ") * (") A (some type0)).bind (fun sA =>
            some ((sA.Write "))").closeCast cast))) := by
  rw [OutputExpression.node]
  simp [String_Equal]

/-! ## C2: `mul` -/

/-- C2: a call of `mul` with exactly two arguments `A`, `B` writes `((`, then
`B` with the second declared parameter type as destination type, then
`) * (`, then `A` with the first declared parameter type, then `))`; and for
a matrix identifier `M` and a vector identifier `V` of the declared types
`mul(M, V)` is written exactly as `((V) * (M))`. -/
theorem OutputExpression_mul (cfg : BuildConfig) (g : GLESGenerator) (s : GenState)
    (callType type0 type1 : HLSLType) (rest : List HLSLType) :
    (∀ A B : HLSLExpression,
      OutputExpression cfg g s
          (.FunctionCall callType "mul" (type0 :: type1 :: rest) [A, B]) none
        = (OutputExpression cfg g (s.Write "((") B (some type1)).bind (fun sB =>
            (OutputExpression cfg g (sB.Write ") * (") A (some type0)).bind (fun sA =>
              some (sA.Write "))"))))
    ∧ (isMatrixBase type0.baseType = true → isVectorBase type1.baseType = true →
      OutputExpression cfg g s
          (.FunctionCall callType "mul" (type0 :: type1 :: rest)
            [.IdentifierExpression type0 "M", .IdentifierExpression type1 "V"]) none
        = some { s with code := s.code ++ "((V) * (M))" }) := by
  have hgen : ∀ A B : HLSLExpression,
      OutputExpression cfg g s
          (.FunctionCall callType "mul" (type0 :: type1 :: rest) [A, B]) none
        = (OutputExpression cfg g (s.Write "((") B (some type1)).bind (fun sB =>
            (OutputExpression cfg g (sB.Write ") * (") A (some type0)).bind (fun sA =>
              some (sA.Write "))"))) := by
    intro A B
    rw [OutputExpression_none, OutputExpression_mul_eq]
    rfl
  refine ⟨hgen, ?_⟩
  intro hM hV
  have hV1 : ¬ (type1.baseType = .Sampler2D ∨ type1.baseType = .SamplerCube
      ∨ type1.baseType = .Sampler2DShadow) := by
    intro h
    rcases h with h | h | h <;> rw [h] at hV <;> simp [isVectorBase] at hV
  have hM1 : ¬ (type0.baseType = .Sampler2D ∨ type0.baseType = .SamplerCube
      ∨ type0.baseType = .Sampler2DShadow) := by
    intro h
    rcases h with h | h | h <;> rw [h] at hM <;> simp [isMatrixBase] at hM
  have hidV : ∀ u : GenState, OutputIdentifier cfg g u "V" = u.Write "V" := by
    intro u
    have := GetSafeIdentifierName_of_not_reserved g "V" (by decide)
    simp [OutputIdentifier, String_Equal, this]
  have hidM : ∀ u : GenState, OutputIdentifier cfg g u "M" = u.Write "M" := by
    intro u
    have := GetSafeIdentifierName_of_not_reserved g "M" (by decide)
    simp [OutputIdentifier, String_Equal, this]
  rw [hgen]
  rw [OutputExpression_identifier cfg g _ type1 "V" (some type1)
    (by simp [OutputExpression.cast, GetCanImplicitCast, HLSLExpression.expressionType]) hV1]
  simp only [Option.bind]
  rw [OutputExpression_identifier cfg g _ type0 "M" (some type0)
    (by simp [OutputExpression.cast, GetCanImplicitCast, HLSLExpression.expressionType]) hM1]
  simp only [hidV, hidM, GenState.Write, String.append_assoc]
  rfl

/-- C2 at a concrete input: `mul(M, V)` for a `float4x4` and a `float4`. -/
theorem OutputExpression_mul_witness :
    isMatrixBase (HLSLType.ofBase .Float4x4).baseType = true
    ∧ isVectorBase (HLSLType.ofBase .Float4).baseType = true
    ∧ OutputExpression exampleConfig
        (Generate.members exampleConfig emptyTree .GLSL_300 .TARGET_VERTEX "main") freshState
        (.FunctionCall (HLSLType.ofBase .Float4) "mul"
          [HLSLType.ofBase .Float4x4, HLSLType.ofBase .Float4]
          [.IdentifierExpression (HLSLType.ofBase .Float4x4) "M",
           .IdentifierExpression (HLSLType.ofBase .Float4) "V"]) none
        = some { freshState with code := freshState.code ++ "((V) * (M))" } :=
  ⟨by decide, by decide,
    (OutputExpression_mul exampleConfig _ freshState (HLSLType.ofBase .Float4)
      (HLSLType.ofBase .Float4x4) (HLSLType.ofBase .Float4) []).2 (by decide) (by decide)⟩

/-! ## C3: `saturate` -/

theorem OutputExpression_saturate_eq (cfg : BuildConfig) (g : GLESGenerator) (s : GenState)
    (callType : HLSLType) (functionArgument : List HLSLType) (x : HLSLExpression)
    (cast : Bool) :
    OutputExpression.node cfg g s
        (.FunctionCall callType "saturate" functionArgument [x]) cast
      = (OutputExpression cfg g (s.Write "clamp(") x none).bind (fun sx =>
          some ((sx.Write ", 0.0, 1.0)").closeCast cast)) := by
  rw [OutputExpression.node]
  simp [String_Equal]

/-- C3: a call of `saturate` with exactly one argument `x` writes `clamp(`,
then `x` without destination type, then `, 0.0, 1.0)`; for a float identifier
`x` the text is exactly `clamp(x, 0.0, 1.0)`. -/
theorem OutputExpression_saturate (cfg : BuildConfig) (g : GLESGenerator) (s : GenState)
    (callType : HLSLType) (functionArgument : List HLSLType) :
    (∀ x : HLSLExpression,
      OutputExpression cfg g s (.FunctionCall callType "saturate" functionArgument [x]) none
        = (OutputExpression cfg g (s.Write "clamp(") x none).map
            (fun sx => sx.Write ", 0.0, 1.0)"))
    ∧ OutputExpression cfg g s
        (.FunctionCall callType "saturate" functionArgument
          [.IdentifierExpression (HLSLType.ofBase .Float) "x"]) none
        = some { s with code := s.code ++ "clamp(x, 0.0, 1.0)" } := by
  have hgen : ∀ x : HLSLExpression,
      OutputExpression cfg g s (.FunctionCall callType "saturate" functionArgument [x]) none
        = (OutputExpression cfg g (s.Write "clamp(") x none).map
            (fun sx => sx.Write ", 0.0, 1.0)") := by
    intro x
    rw [OutputExpression_none, OutputExpression_saturate_eq]
    cases OutputExpression cfg g (s.Write "clamp(") x none <;> rfl
  refine ⟨hgen, ?_⟩
  have hid : ∀ u : GenState, OutputIdentifier cfg g u "x" = u.Write "x" := by
    intro u
    have := GetSafeIdentifierName_of_not_reserved g "x" (by decide)
    simp [OutputIdentifier, String_Equal, this]
  rw [hgen, OutputExpression_identifier cfg g _ (HLSLType.ofBase .Float) "x" none
    (by simp [OutputExpression.cast])
    (by simp [HLSLType.ofBase, HLSLType.baseType])]
  simp only [hid, Option.map, GenState.Write, String.append_assoc]
  rfl

/-! ## C7: swizzle of a scalar -/

theorem memberBinding_of_scalar (cfg : BuildConfig) (g : GLESGenerator) (s : GenState)
    (object : HLSLExpression) (field : String)
    (hscalar : OutputExpression.isScalar object.expressionType.baseType = true) :
    OutputExpression.memberBinding cfg g s object field = some (s, true) := by
  cases object <;> try rfl
  case IdentifierExpression t name =>
    have hne : t.baseType ≠ .UserDefined := by
      intro h
      simp [HLSLExpression.expressionType, h, OutputExpression.isScalar] at hscalar
    simp [OutputExpression.memberBinding, hne]

/-- C7: a member access whose base has scalar base type `float`, `half`,
`int` or `uint` and whose field name has length 2, 3 or 4 is written as the
scalar swizzle helper of that length, `(`, the base (once, without
destination type) and `)`; no `.field` is written. The helper names are the
ones that `Generate` chose for `m_scalar_swizzle2/3/4`. -/
theorem OutputExpression_scalar_swizzle (cfg : BuildConfig) (g : GLESGenerator) (s : GenState)
    (t : HLSLType) (object : HLSLExpression) (field : String)
    (hscalar : object.expressionType.baseType = .Float ∨ object.expressionType.baseType = .Half
      ∨ object.expressionType.baseType = .Int ∨ object.expressionType.baseType = .Uint)
    (hlen : field.length = 2 ∨ field.length = 3 ∨ field.length = 4) :
    OutputExpression cfg g s (.MemberAccess t object field) none
      = (OutputExpression cfg g
          ((s.Write (if field.length = 2 then g.scalarSwizzle2Function
              else if field.length = 3 then g.scalarSwizzle3Function
              else g.scalarSwizzle4Function)).Write "(") object none).map
          (fun so => so.Write ")")
    ∧ ∀ (tree : HLSLTree) (version : GLSLVersion) (target : Target) (entryName : String),
        (Generate.members cfg tree version target entryName).scalarSwizzle2Function
          = (ChooseUniqueName tree "m_scalar_swizzle2" cfg.nameBufferLength).2
        ∧ (Generate.members cfg tree version target entryName).scalarSwizzle3Function
          = (ChooseUniqueName tree "m_scalar_swizzle3" cfg.nameBufferLength).2
        ∧ (Generate.members cfg tree version target entryName).scalarSwizzle4Function
          = (ChooseUniqueName tree "m_scalar_swizzle4" cfg.nameBufferLength).2 := by
  refine ⟨?_, fun _ _ _ _ => ⟨rfl, rfl, rfl⟩⟩
  have hsc : OutputExpression.isScalar object.expressionType.baseType = true := by
    rcases hscalar with h | h | h | h <;> simp [h, OutputExpression.isScalar]
  have hname : OutputExpression.swizzleName g field.length
      = (if field.length = 2 then g.scalarSwizzle2Function
          else if field.length = 3 then g.scalarSwizzle3Function
          else g.scalarSwizzle4Function) := by
    rcases hlen with h | h | h <;> simp [OutputExpression.swizzleName, h]
  rw [OutputExpression_none, OutputExpression.node, memberBinding_of_scalar cfg g s object field hsc]
  simp only [hsc, if_true, hname]
  cases OutputExpression cfg g _ object none <;> rfl

/-- C7 at a concrete input: `s.xyz` for a float identifier `s`. -/
theorem OutputExpression_scalar_swizzle_witness :
    ((HLSLExpression.IdentifierExpression (HLSLType.ofBase .Float) "s").expressionType.baseType
        = .Float)
    ∧ "xyz".length = 3
    ∧ OutputExpression exampleConfig
        (Generate.members exampleConfig emptyTree .GLSL_300 .TARGET_FRAGMENT "main") freshState
        (.MemberAccess (HLSLType.ofBase .Float3)
          (.IdentifierExpression (HLSLType.ofBase .Float) "s") "xyz") none
      = (OutputExpression exampleConfig
          (Generate.members exampleConfig emptyTree .GLSL_300 .TARGET_FRAGMENT "main")
          ((freshState.Write (if "xyz".length = 2 then
              (Generate.members exampleConfig emptyTree .GLSL_300 .TARGET_FRAGMENT
                "main").scalarSwizzle2Function
            else if "xyz".length = 3 then
              (Generate.members exampleConfig emptyTree .GLSL_300 .TARGET_FRAGMENT
                "main").scalarSwizzle3Function
            else
              (Generate.members exampleConfig emptyTree .GLSL_300 .TARGET_FRAGMENT
                "main").scalarSwizzle4Function)).Write "(")
          (.IdentifierExpression (HLSLType.ofBase .Float) "s") none).map
          (fun so => so.Write ")") :=
  ⟨rfl, rfl,
    (OutputExpression_scalar_swizzle exampleConfig _ freshState (HLSLType.ofBase .Float3)
      (.IdentifierExpression (HLSLType.ofBase .Float) "s") "xyz" (Or.inl rfl)
      (Or.inr (Or.inl rfl))).1⟩

theorem OutputExpression_node_call (cfg : BuildConfig) (g : GLESGenerator) (s : GenState)
    (t : HLSLType) (functionName : String) (functionArgument : List HLSLType)
    (argument : List HLSLExpression) (cast : Bool) :
    OutputExpression.node cfg g s (.FunctionCall t functionName functionArgument argument) cast
      = if String_Equal functionName "mul" = true then
          match argument with
          | [argument0, argument1] =>
            match functionArgument with
            | type0 :: type1 :: _ =>
              (OutputExpression cfg g (s.Write "((") argument1 (some type1)).bind fun s1 =>
              (OutputExpression cfg g (s1.Write ") * (") argument0 (some type0)).bind fun s2 =>
              some ((s2.Write "))").closeCast cast)
            | _ => none
          | _ => some (s.Error "mul expects 2 arguments")
        else if String_Equal functionName "saturate" = true then
          match argument with
          | [argument0] =>
            (OutputExpression cfg g (s.Write "clamp(") argument0 none).bind fun s1 =>
            some ((s1.Write ", 0.0, 1.0)").closeCast cast)
          | _ => some (s.Error "saturate expects 1 argument")
        else if g.version = .GLSL_300 ∧ String_Equal functionName "FramebufferFetch" = true then
          match argument with
          | [.LiteralExpression _ .Int _ _ iValue] =>
            some ((s.Write (FRAGMENT_MRT_OUTPUT_NAME g.version iValue)).closeCast cast)
          | _ => some (s.Error "FramebufferFetch expects 1 integer argument")
        else
          (OutputExpressionList cfg g ((OutputIdentifier cfg g s functionName).Write "(")
            argument functionArgument 0).bind fun s1 =>
          some ((s1.Write ")").closeCast cast) := by
  rw [OutputExpression.node.eq_def]
  rfl

/-! ## C6: insertion of casts -/

theorem isOneIntLiteral_eq_true (args : List HLSLExpression)
    (h : isOneIntLiteral args = true) :
    ∃ t b f i, args = [.LiteralExpression t .Int b f i] := by
  unfold isOneIntLiteral at h
  split at h
  · exact ⟨_, _, _, _, rfl⟩
  · exact absurd h (by simp)

/-- Without an early return the cast flag only adds the closing parenthesis. -/
theorem OutputExpression_node_true (cfg : BuildConfig) (g : GLESGenerator) (s : GenState)
    (e : HLSLExpression) (h : OutputExpression.returnsEarly g e = false) :
    OutputExpression.node cfg g s e true
      = (OutputExpression.node cfg g s e false).map (fun s1 => s1.Write ")") := by
  cases e with
  | IdentifierExpression t name =>
    simp only [OutputExpression.node]
    split
    · cases OutputExpression.samplerIdentifier g s name <;> rfl
    · rfl
  | ConstructorExpression t ty args =>
    simp only [OutputExpression.node]
    cases OutputExpressionList cfg g _ args [] 0 <;> rfl
  | CastingExpression t ty inner =>
    simp only [OutputExpression.node]
    cases OutputDeclarationT cfg g s ty "" with
    | none => rfl
    | some s1 =>
      simp only [Option.bind_eq_bind, Option.some_bind]
      cases OutputExpression cfg g _ inner none <;> rfl
  | LiteralExpression t ty b f i => simp only [OutputExpression.node]; rfl
  | UnaryExpression t op inner =>
    simp only [OutputExpression.node]
    split
    · cases OutputExpression cfg g _ inner _ <;> rfl
    · cases OutputExpression cfg g _ inner _ <;> rfl
  | BinaryExpression t op e1 e2 =>
    simp only [OutputExpression.node]
    cases OutputExpression cfg g _ e1 _ with
    | none => rfl
    | some s1 =>
      simp only [Option.bind_eq_bind, Option.some_bind]
      cases OutputExpression cfg g _ e2 _ <;> rfl
  | ConditionalExpression t c e1 e2 =>
    simp only [OutputExpression.node]
    cases OutputExpression cfg g _ c _ with
    | none => rfl
    | some s1 =>
      simp only [Option.bind_eq_bind, Option.some_bind]
      cases OutputExpression cfg g _ e1 _ with
      | none => rfl
      | some s2 =>
        simp only [Option.some_bind]
        cases OutputExpression cfg g _ e2 _ <;> rfl
  | MemberAccess t object field =>
    simp only [OutputExpression.node]
    split
    · rfl
    · rfl
    · split
      · cases OutputExpression cfg g _ object _ <;> rfl
      · cases OutputExpression cfg g _ object _ <;> rfl
  | ArrayAccess t a i =>
    simp only [OutputExpression.node]
    cases OutputExpression cfg g _ a _ with
    | none => rfl
    | some s1 =>
      simp only [Option.bind_eq_bind, Option.some_bind]
      cases OutputExpression cfg g _ i _ <;> rfl
  | FunctionCall t name fargs args =>
    rw [OutputExpression_node_call, OutputExpression_node_call]
    simp only [OutputExpression.returnsEarly, GetFunctionArguments] at h
    by_cases hm : String_Equal name "mul" = true
    · rw [if_pos hm] at h
      rw [if_pos hm, if_pos hm]
      have hl : args.length = 2 := by simpa using h
      obtain ⟨a0, a1, rfl⟩ := List.length_eq_two.mp hl
      rcases fargs with _ | ⟨p0, _ | ⟨p1, r⟩⟩
      · rfl
      · rfl
      · simp only []
        cases OutputExpression cfg g _ a1 _ with
        | none => rfl
        | some s1 =>
          simp only [Option.some_bind]
          cases OutputExpression cfg g _ a0 _ <;> rfl
    · rw [if_neg hm] at h
      rw [if_neg hm, if_neg hm]
      by_cases hs : String_Equal name "saturate" = true
      · rw [if_pos hs] at h
        rw [if_pos hs, if_pos hs]
        have hl : args.length = 1 := by simpa using h
        obtain ⟨a0, rfl⟩ := List.length_eq_one.mp hl
        simp only []
        cases OutputExpression cfg g _ a0 _ <;> rfl
      · rw [if_neg hs] at h
        rw [if_neg hs, if_neg hs]
        by_cases hf : g.version = .GLSL_300 ∧ String_Equal name "FramebufferFetch" = true
        · rw [if_pos hf] at h
          rw [if_pos hf, if_pos hf]
          obtain ⟨lt, lb, lf, li, rfl⟩ := isOneIntLiteral_eq_true args (by simpa using h)
          rfl
        · rw [if_neg hf, if_neg hf]
          cases OutputExpressionList cfg g _ args fargs 0 <;> rfl
  | Other t => simp only [OutputExpression.node]; rfl

theorem OutputDeclarationT_not_array (cfg : BuildConfig) (g : GLESGenerator) (s : GenState)
    (t : HLSLType) (name : String) (h : t.array = false) :
    OutputDeclarationT cfg g s t name
      = some (s.Write (GetTypeName t ++ " " ++ GetSafeIdentifierName g name)) := by
  cases t with
  | mk b n a z f =>
    simp only [HLSLType.array] at h
    subst h
    rw [OutputDeclarationT]

theorem GenState.Write_Write (s : GenState) (a b : String) :
    (s.Write a).Write b = s.Write (a ++ b) := by
  simp [GenState.Write, String.append_assoc]

/-- The cast that is opened for a destination type that is not an array, at
a node without early return. -/
theorem OutputExpression_wrapped (cfg : BuildConfig) (g : GLESGenerator) (s : GenState)
    (e : HLSLExpression) (d : HLSLType) (hcast : OutputExpression.cast e (some d) = true)
    (harray : d.array = false) (hearly : OutputExpression.returnsEarly g e = false) :
    OutputExpression cfg g s e (some d)
      = (OutputExpression cfg g (s.Write (GetTypeName d ++ " (")) e none).map
          (fun s1 => s1.Write ")") := by
  rw [OutputExpression_of_cast_true cfg g s e d hcast,
    OutputDeclarationT_not_array cfg g s d "" harray,
    GetSafeIdentifierName_of_not_reserved g "" (by decide)]
  simp only [Option.some_bind]
  rw [OutputExpression_node_true cfg g _ e hearly, OutputExpression_none, GenState.Write_Write]
  simp [String.append_assoc]

theorem OutputExpression_cast_iff (e : HLSLExpression) (dstType : Option HLSLType) :
    OutputExpression.cast e dstType = true
      ↔ ∃ d, dstType = some d ∧ e.expressionType.baseType ≠ d.baseType
          ∧ e.isCasting = false := by
  cases dstType with
  | none => cases e <;> simp [OutputExpression.cast]
  | some d =>
    cases e <;>
      simp [OutputExpression.cast, GetCanImplicitCast, HLSLExpression.isCasting]

theorem OutputExpression_assign (cfg : BuildConfig) (g : GLESGenerator) (s : GenState)
    (t : HLSLType) (lhs rhs : HLSLExpression) :
    OutputExpression cfg g s (.BinaryExpression t .Assign lhs rhs) none
      = (OutputExpression cfg g (s.Write "(") lhs none).bind fun s1 =>
          (OutputExpression cfg g (s1.Write " = ") rhs (some t)).map fun s2 => s2.Write ")" := by
  rw [OutputExpression_none, OutputExpression.node]
  simp only [OutputExpression.binaryOp, GenState.closeCast, Option.bind_eq_bind, if_true,
    Bool.false_eq_true, if_false]
  cases OutputExpression cfg g (s.Write "(") lhs none with
  | none => rfl
  | some s1 =>
    simp only [Option.some_bind]
    cases OutputExpression cfg g (s1.Write " = ") rhs (some t) <;> rfl

theorem GetTypeName_float (t : HLSLType) (h : t.baseType = .Float) : GetTypeName t = "float" := by
  simp [GetTypeName, h]

/-- C6 fails as stated: for the call `saturate()` without arguments, of type
`float`, and the destination type `int` a cast is due, the node alone is
written as the empty text, and the text written with the destination type is
`int (` without the closing parenthesis, not `int ()`. -/
theorem OutputExpression_cast_counterexample :
    OutputExpression.cast saturateNoArguments (some (HLSLType.ofBase .Int)) = true
    ∧ (OutputExpression exampleConfig exampleGenerator freshState saturateNoArguments
        none).map (fun s1 => s1.code) = some ""
    ∧ (OutputExpression exampleConfig exampleGenerator freshState saturateNoArguments
        (some (HLSLType.ofBase .Int))).map (fun s1 => s1.code) = some "int ("
    ∧ "int (" ≠ GetTypeName (HLSLType.ofBase .Int) ++ " (" ++ "" ++ ")" := by
  refine ⟨by decide, ?_, ?_, by decide⟩
  · rw [OutputExpression_none, saturateNoArguments, OutputExpression_node_call]
    simp [String_Equal, GenState.Error, freshState]
  · rw [OutputExpression_of_cast_true _ _ _ _ _ (by decide),
      OutputDeclarationT_not_array _ _ _ _ _ (by rfl),
      GetSafeIdentifierName_of_not_reserved _ "" (by decide)]
    simp only [Option.some_bind, saturateNoArguments]
    rw [OutputExpression_node_call]
    simp [String_Equal, GenState.Error, freshState, GenState.Write, GetTypeName,
      HLSLType.ofBase, HLSLType.baseType]

/-- C6, amended: a cast is due exactly when a destination type is given, the
base types differ and the node is not a casting expression. Without a cast
the node is written as without destination type. With a cast, for a
destination type that is not an array and a node at which the function does
not return early after an argument error, the text is the type name, ` (`,
the node as written without destination type, and `)`. An assignment of type
`float2` whose right-hand side has type `float2` writes the right-hand side
without cast, and an assignment of (non-array) type `float` whose right-hand
side is an integer literal writes it as `float (` literal `)`. -/
theorem OutputExpression_cast_law (cfg : BuildConfig) (g : GLESGenerator) (s : GenState)
    (e : HLSLExpression) (dstType : Option HLSLType) :
    (OutputExpression.cast e dstType = true
      ↔ ∃ d, dstType = some d ∧ e.expressionType.baseType ≠ d.baseType ∧ e.isCasting = false)
    ∧ (OutputExpression.cast e dstType = false →
        OutputExpression cfg g s e dstType = OutputExpression cfg g s e none)
    ∧ (∀ d, dstType = some d → OutputExpression.cast e dstType = true → d.array = false →
        OutputExpression.returnsEarly g e = false →
        OutputExpression cfg g s e dstType
          = (OutputExpression cfg g (s.Write (GetTypeName d ++ " (")) e none).map
              (fun s1 => s1.Write ")"))
    ∧ (∀ (t : HLSLType) (lhs : HLSLExpression), t.baseType = .Float2 →
        e.expressionType.baseType = .Float2 →
        OutputExpression cfg g s (.BinaryExpression t .Assign lhs e) none
          = (OutputExpression cfg g (s.Write "(") lhs none).bind fun s1 =>
              (OutputExpression cfg g (s1.Write " = ") e none).map fun s2 => s2.Write ")")
    ∧ (∀ (t literalType : HLSLType) (lhs : HLSLExpression) (bValue : Bool) (fValue : String)
        (iValue : Int), t.baseType = .Float → t.array = false →
        literalType.baseType = .Int →
        OutputExpression cfg g s
            (.BinaryExpression t .Assign lhs
              (.LiteralExpression literalType .Int bValue fValue iValue)) none
          = (OutputExpression cfg g (s.Write "(") lhs none).map fun s1 =>
              s1.Write (" = float (" ++ fmt_d iValue ++ "))")) := by
  refine ⟨OutputExpression_cast_iff e dstType, ?_, ?_, ?_, ?_⟩
  · intro h
    rw [OutputExpression_of_cast_false cfg g s e dstType h, OutputExpression_none]
  · intro d hd hcast harray hearly
    subst hd
    exact OutputExpression_wrapped cfg g s e d hcast harray hearly
  · intro t lhs ht he
    rw [OutputExpression_assign]
    have hc : OutputExpression.cast e (some t) = false := by
      cases hcast : OutputExpression.cast e (some t) with
      | false => rfl
      | true =>
        obtain ⟨d, hd, hne, _⟩ := (OutputExpression_cast_iff e (some t)).mp hcast
        cases hd
        exact absurd (he.trans ht.symm) hne
    congr 1
    funext s1
    rw [OutputExpression_of_cast_false cfg g _ e (some t) hc, OutputExpression_none]
  · intro t literalType lhs bValue fValue iValue ht harray hl
    rw [OutputExpression_assign]
    have hc : OutputExpression.cast (.LiteralExpression literalType .Int bValue fValue iValue)
        (some t) = true := by
      simp [OutputExpression.cast, GetCanImplicitCast, HLSLExpression.expressionType, hl, ht]
    cases OutputExpression cfg g (s.Write "(") lhs none with
    | none => rfl
    | some s1 =>
      simp only [Option.some_bind, Option.map_some']
      rw [OutputExpression_wrapped cfg g _ _ t hc harray rfl, OutputExpression_none,
        OutputExpression.node, GetTypeName_float t ht]
      simp only [OutputExpression.literal, GenState.closeCast, Option.map_some',
        GenState.Write_Write, Bool.false_eq_true, if_false]
      simp [String.append_assoc]

/-- C6 at concrete inputs: the identifier `i` of type `int` with destination
type `float`, and the assignment `x = 5` of type `float`. -/
theorem OutputExpression_cast_law_witness :
    (OutputExpression.cast (.IdentifierExpression (HLSLType.ofBase .Int) "i")
        (some (HLSLType.ofBase .Float)) = true
      ∧ (HLSLType.ofBase .Float).array = false
      ∧ OutputExpression.returnsEarly exampleGenerator
          (.IdentifierExpression (HLSLType.ofBase .Int) "i") = false
      ∧ OutputExpression exampleConfig exampleGenerator freshState
          (.IdentifierExpression (HLSLType.ofBase .Int) "i") (some (HLSLType.ofBase .Float))
        = (OutputExpression exampleConfig exampleGenerator
            (freshState.Write (GetTypeName (HLSLType.ofBase .Float) ++ " ("))
            (.IdentifierExpression (HLSLType.ofBase .Int) "i") none).map
            (fun s1 => s1.Write ")"))
    ∧ ((HLSLType.ofBase .Float).baseType = .Float
      ∧ (HLSLType.ofBase .Int).baseType = .Int
      ∧ OutputExpression exampleConfig exampleGenerator freshState
          (.BinaryExpression (HLSLType.ofBase .Float) .Assign
            (.IdentifierExpression (HLSLType.ofBase .Float) "x")
            (.LiteralExpression (HLSLType.ofBase .Int) .Int false "" 5)) none
        = (OutputExpression exampleConfig exampleGenerator (freshState.Write "(")
            (.IdentifierExpression (HLSLType.ofBase .Float) "x") none).map fun s1 =>
              s1.Write (" = float (" ++ fmt_d 5 ++ "))")) :=
  ⟨⟨by decide, rfl, rfl,
      (OutputExpression_cast_law exampleConfig exampleGenerator freshState
        (.IdentifierExpression (HLSLType.ofBase .Int) "i")
        (some (HLSLType.ofBase .Float))).2.2.1 _ rfl (by decide) rfl rfl⟩,
    ⟨rfl, rfl,
      (OutputExpression_cast_law exampleConfig exampleGenerator freshState
        (.IdentifierExpression (HLSLType.ofBase .Int) "i")
        (some (HLSLType.ofBase .Float))).2.2.2.2 (HLSLType.ofBase .Float)
        (HLSLType.ofBase .Int) (.IdentifierExpression (HLSLType.ofBase .Float) "x") false "" 5
        rfl rfl rfl⟩⟩

/-! ## C8: the names chosen by the sanitizer -/

theorem ChooseUniqueName_loop_true (tree : HLSLTree) (base : String) (dstLength : Nat)
    (remaining i : Nat) (dst : String)
    (h : (ChooseUniqueName.loop tree base dstLength remaining i dst).1 = true) :
    tree.GetContainsString (ChooseUniqueName.loop tree base dstLength remaining i dst).2
      = false := by
  induction remaining generalizing i dst with
  | zero => simp [ChooseUniqueName.loop] at h
  | succ n ih =>
    simp only [ChooseUniqueName.loop] at h ⊢
    by_cases hc : tree.GetContainsString (Snprintf_s_d dstLength base i) = true
    · simp only [hc, Bool.not_true, Bool.false_eq_true, if_false] at h ⊢
      exact ih _ _ h
    · simp only [Bool.not_eq_true] at hc
      simp [hc]

theorem ChooseUniqueName_loop_all_taken (tree : HLSLTree) (base : String) (dstLength : Nat)
    (n i : Nat) (dst : String)
    (h : ∀ k, k < n + 1 → tree.GetContainsString (Snprintf_s_d dstLength base (i + k)) = true) :
    ChooseUniqueName.loop tree base dstLength (n + 1) i dst
      = (false, Snprintf_s_d dstLength base (i + n)) := by
  induction n generalizing i dst with
  | zero =>
    have h0 := h 0 (Nat.succ_pos 0)
    simp only [Nat.add_zero] at h0
    simp [ChooseUniqueName.loop, h0]
  | succ n ih =>
    have h0 := h 0 (Nat.succ_pos _)
    simp only [Nat.add_zero] at h0
    have hrest : ∀ k, k < n + 1 →
        tree.GetContainsString (Snprintf_s_d dstLength base (i + 1 + k)) = true := by
      intro k hk
      have := h (k + 1) (Nat.succ_lt_succ hk)
      rwa [show i + (k + 1) = i + 1 + k by omega] at this
    rw [ChooseUniqueName.loop]
    simp only [h0, Bool.not_true, Bool.false_eq_true, if_false]
    rw [ih (i + 1) _ hrest, show i + 1 + n = i + (n + 1) by omega]

theorem ChooseUniqueName_eq_loop (tree : HLSLTree) (base : String) (dstLength : Nat) :
    ChooseUniqueName tree base dstLength
      = ChooseUniqueName.loop tree base dstLength (1023 + 1) 0 "" := rfl

theorem Generate_members_sinCosFunction (cfg : BuildConfig) (tree : HLSLTree)
    (version : GLSLVersion) (target : Target) (entryName : String) :
    (Generate.members cfg tree version target entryName).sinCosFunction
      = (ChooseUniqueName tree "sincos" cfg.nameBufferLength).2 := rfl

/-- C8 fails as stated: in a tree that contains the 1024 names `sincos0` ..
`sincos1023` the helper name that `Generate` keeps for `sincos` is
`sincos1023`, for which the token query of the tree returns true. -/
theorem Generate_alias_counterexample :
    (Generate.members exampleConfig crowdedTree .GLSL_300 .TARGET_FRAGMENT "main").sinCosFunction
      = Snprintf_s_d 64 "sincos" 1023
    ∧ crowdedTree.GetContainsString
        (Generate.members exampleConfig crowdedTree .GLSL_300 .TARGET_FRAGMENT
          "main").sinCosFunction = true := by
  have hall : ∀ k, k < 1023 + 1 →
      crowdedTree.GetContainsString (Snprintf_s_d 64 "sincos" (0 + k)) = true := by
    intro k hk
    simp only [HLSLTree.GetContainsString, crowdedTree, crowdedPool, decide_eq_true_eq,
      Nat.zero_add]
    exact List.mem_map.mpr ⟨k, List.mem_range.mpr hk, rfl⟩
  have hname : (Generate.members exampleConfig crowdedTree .GLSL_300 .TARGET_FRAGMENT
      "main").sinCosFunction = Snprintf_s_d 64 "sincos" 1023 := by
    have hlen : exampleConfig.nameBufferLength = 64 := rfl
    rw [Generate_members_sinCosFunction, ChooseUniqueName_eq_loop, hlen,
      ChooseUniqueName_loop_all_taken crowdedTree "sincos" 64 1023 0 "" hall]
  refine ⟨hname, ?_⟩
  rw [hname]
  exact hall 1023 (by omega)

/-- C8, amended: the names that the generator holds after the sanitizer step
are the texts left by `ChooseUniqueName` for the fixed base names, and each
of them for which `ChooseUniqueName` returned true (a candidate among the
1024 probed ones was free) is a string for which the token query of the tree
returns false. -/
theorem Generate_alias_unused (cfg : BuildConfig) (tree : HLSLTree) (version : GLSLVersion)
    (target : Target) (entryName : String) :
    (Generate.members cfg tree version target entryName).aliases
      = sanitizerBases.map (fun base => (ChooseUniqueName tree base cfg.nameBufferLength).2)
    ∧ ∀ base, base ∈ sanitizerBases →
        (ChooseUniqueName tree base cfg.nameBufferLength).1 = true →
        tree.GetContainsString (ChooseUniqueName tree base cfg.nameBufferLength).2 = false := by
  refine ⟨rfl, ?_⟩
  intro base _ h
  exact ChooseUniqueName_loop_true tree base cfg.nameBufferLength 1024 0 "" h

/-- C8 at a concrete input: in the empty tree the first candidate for `clip`
is free. -/
theorem Generate_alias_unused_witness :
    "clip" ∈ sanitizerBases
    ∧ (ChooseUniqueName emptyTree "clip" exampleConfig.nameBufferLength).1 = true
    ∧ emptyTree.GetContainsString
        (ChooseUniqueName emptyTree "clip" exampleConfig.nameBufferLength).2 = false :=
  ⟨by decide, rfl,
    (Generate_alias_unused exampleConfig emptyTree .GLSL_300 .TARGET_FRAGMENT "main").2 "clip"
      (by decide) rfl⟩

/-! ## C9 and C10: fragment outputs and framebuffer fetch -/

theorem find?_congr_of_mem {α : Type} (l : List α) (p q : α → Bool)
    (h : ∀ x, x ∈ l → p x = q x) : l.find? p = l.find? q := by
  induction l with
  | nil => rfl
  | cons a l ih =>
    have ha := h a (List.mem_cons_self _ _)
    have ih1 := ih fun x hx => h x (List.mem_cons_of_mem _ hx)
    simp only [List.find?, ha, ih1]

theorem asciiLower_targetSemantic (n : Nat) (h : n < 10) :
    asciiLower (GetFragmentOutTargetSemantic n) = "sv_target" ++ toString n := by
  interval_cases n <;> decide

theorem stricmp_eq_zero (a b : String) : stricmp a b = 0 ↔ asciiLower a = asciiLower b := by
  unfold stricmp
  split <;> simp_all

theorem uint32AsInt_of_lt (n : Nat) (h : n < 2147483648) : uint32AsInt n = (n : Int) := by
  have hm : n % 4294967296 = n := Nat.mod_eq_of_lt (by omega)
  simp [uint32AsInt, hm, h]

theorem layoutLine_eq_layoutText (n : Nat) (qualifier : String) (h : n < 2147483648) :
    Generate.layoutLine .GLSL_300 (fmt_d (uint32AsInt n)) qualifier (uint32AsInt n)
      = layoutText n qualifier := by
  rw [uint32AsInt_of_lt n h]
  have hd : fmt_d (n : Int) = toString n := rfl
  simp only [Generate.layoutLine, FRAGMENT_MRT_OUTPUT_NAME, layoutText, hd]
  simp [String.ext_iff, String.data_append, List.append_assoc]

theorem layoutLine_zero (qualifier : String) :
    Generate.layoutLine .GLSL_300 "0" qualifier 0 = layoutText 0 qualifier := by
  have h := layoutLine_eq_layoutText 0 qualifier (by omega)
  have h0 : uint32AsInt 0 = 0 := by decide
  have hd : fmt_d 0 = "0" := by decide
  rw [h0, hd] at h
  exact h

theorem fbSet_count_ne_zero (n : Nat) (units : List Nat) :
    fbSet.count n units ≠ 0 ↔ n ∈ units := by
  unfold fbSet.count
  split <;> simp_all

/-- The body of the loop over the fields of `fragment_out` in the words of
the specification. -/
theorem fragmentOutField_eq (cfg : BuildConfig) (hmax : cfg.MAX_RENDER_TARGET_COUNT ≤ 10)
    (s : GenState) (units : List Nat) (f : HLSLStructField) :
    Generate.fragmentOutField cfg .GLSL_300 (s, units) f
      = match f.semantic.bind (targetSlot cfg.MAX_RENDER_TARGET_COUNT) with
        | none => (s, units)
        | some n =>
          (s.WriteLine cfg 0 (layoutText n (if n ∈ units then "inout" else "out")),
            units.filter fun k => decide (k ≠ n)) := by
  unfold Generate.fragmentOutField
  cases hsem : f.semantic with
  | none => rfl
  | some semantic =>
    simp only [Option.some_bind]
    by_cases h0 : stricmp semantic "SV_TARGET" = 0
    · have hl : asciiLower semantic = "sv_target" := by
        have := (stricmp_eq_zero _ _).mp h0
        rwa [show asciiLower "SV_TARGET" = "sv_target" by decide] at this
      simp only [h0, if_true, targetSlot, hl, layoutLine_zero, fbSet_count_ne_zero,
        fbSet.erase]
    · have hl : ¬ asciiLower semantic = "sv_target" := by
        intro hl
        apply h0
        rw [stricmp_eq_zero, hl]
        decide
      have hfind : (List.range cfg.MAX_RENDER_TARGET_COUNT).find?
            (fun outIndex =>
              decide (stricmp semantic (GetFragmentOutTargetSemantic outIndex) = 0))
          = (List.range cfg.MAX_RENDER_TARGET_COUNT).find?
            (fun n => decide (asciiLower semantic = "sv_target" ++ toString n)) := by
        apply find?_congr_of_mem
        intro x hx
        have hx10 : x < 10 := lt_of_lt_of_le (List.mem_range.mp hx) hmax
        have := stricmp_eq_zero semantic (GetFragmentOutTargetSemantic x)
        rw [asciiLower_targetSemantic x hx10] at this
        simp only [this]
      simp only [h0, if_false, targetSlot, hl, hfind]
      cases hf : (List.range cfg.MAX_RENDER_TARGET_COUNT).find?
          (fun n => decide (asciiLower semantic = "sv_target" ++ toString n)) with
      | none => rfl
      | some n =>
        have hn : n < 10 :=
          lt_of_lt_of_le (List.mem_range.mp (List.mem_of_find?_eq_some hf)) hmax
        simp only [layoutLine_eq_layoutText n _ (by omega), fbSet_count_ne_zero, fbSet.erase]

theorem GenState.WriteLines_cons (s : GenState) (cfg : BuildConfig) (line : String)
    (lines : List String) :
    s.WriteLines cfg (line :: lines) = (s.WriteLine cfg 0 line).WriteLines cfg lines := rfl

theorem GenState.WriteLines_append (s : GenState) (cfg : BuildConfig) (l1 l2 : List String) :
    s.WriteLines cfg (l1 ++ l2) = (s.WriteLines cfg l1).WriteLines cfg l2 := by
  simp [GenState.WriteLines, List.foldl_append]

theorem fragmentOut_fold (cfg : BuildConfig) (hmax : cfg.MAX_RENDER_TARGET_COUNT ≤ 10)
    (fields : List HLSLStructField) (s : GenState) (units : List Nat) :
    fields.foldl (Generate.fragmentOutField cfg .GLSL_300) (s, units)
      = (s.WriteLines cfg
          (resolveOutputs cfg.MAX_RENDER_TARGET_COUNT (fields.map fun f => f.semantic) units).1,
        (resolveOutputs cfg.MAX_RENDER_TARGET_COUNT (fields.map fun f => f.semantic) units).2)
    := by
  induction fields generalizing s units with
  | nil => rfl
  | cons f rest ih =>
    rw [List.foldl_cons, fragmentOutField_eq cfg hmax]
    cases hsem : f.semantic with
    | none =>
      simp only [Option.none_bind, List.map_cons, hsem, resolveOutputs]
      exact ih s units
    | some semantic =>
      simp only [Option.some_bind, List.map_cons, hsem, resolveOutputs]
      cases hslot : targetSlot cfg.MAX_RENDER_TARGET_COUNT semantic with
      | none => exact ih s units
      | some n =>
        simp only []
        rw [ih, GenState.WriteLines_cons]

theorem fragmentOutDeclarations_eq (cfg : BuildConfig)
    (hmax : cfg.MAX_RENDER_TARGET_COUNT ≤ 10) (tree : HLSLTree) (s : GenState)
    (fragment_out : HLSLStruct)
    (hstruct : tree.FindGlobalStruct (some "fragment_out") = some fragment_out) :
    Generate.fragmentOutDeclarations cfg tree .GLSL_300 s
      = Generate.fetchOnlyUnits cfg .GLSL_300
          (s.WriteLines cfg
            (resolveOutputs cfg.MAX_RENDER_TARGET_COUNT
              (fragment_out.field.map fun f => f.semantic)
              (Generate.fetchUnits (tree.FindFunctionCall "FramebufferFetch") [])).1)
          (resolveOutputs cfg.MAX_RENDER_TARGET_COUNT
            (fragment_out.field.map fun f => f.semantic)
            (Generate.fetchUnits (tree.FindFunctionCall "FramebufferFetch") [])).2 := by
  unfold Generate.fragmentOutDeclarations
  rw [hstruct]
  simp only [fragmentOut_fold cfg hmax]

theorem fbSet_mem_insert (x y : Nat) (units : List Nat) :
    y ∈ fbSet.insert x units ↔ y = x ∨ y ∈ units := by
  induction units with
  | nil => simp [fbSet.insert]
  | cons z zs ih =>
    simp only [fbSet.insert]
    split
    · simp
    · split
      · rename_i h1 h2
        subst h2
        simp
      · simp only [List.mem_cons, ih]
        tauto

theorem fbSet_insert_sorted (x : Nat) (units : List Nat) (h : List.Sorted (· < ·) units) :
    List.Sorted (· < ·) (fbSet.insert x units) := by
  induction units with
  | nil => simp [fbSet.insert]
  | cons z zs ih =>
    have hz := List.sorted_cons.mp h
    simp only [fbSet.insert]
    split
    · rename_i hlt
      refine List.sorted_cons.mpr ⟨?_, h⟩
      intro b hb
      rcases List.mem_cons.mp hb with hb | hb
      · exact hb ▸ hlt
      · exact lt_trans hlt (hz.1 b hb)
    · split
      · exact h
      · rename_i h1 h2
        refine List.sorted_cons.mpr ⟨?_, ih hz.2⟩
        intro b hb
        rcases (fbSet_mem_insert x b zs).mp hb with hb | hb
        · subst hb
          omega
        · exact hz.1 b hb

theorem fetchUnits_sorted (calls : List (List HLSLExpression)) (units : List Nat)
    (h : List.Sorted (· < ·) units) : List.Sorted (· < ·) (Generate.fetchUnits calls units) := by
  induction calls generalizing units with
  | nil => exact h
  | cons call rest ih =>
    unfold Generate.fetchUnits
    split
    · exact h
    · rename_i heq
      cases heq
      exact ih _ (fbSet_insert_sorted _ _ h)
    · rename_i hne heq
      cases heq
      exact ih _ h

theorem resolveOutputs_snd (maxTargets : Nat) (semantics : List (Option String))
    (fetch : List Nat) :
    (resolveOutputs maxTargets semantics fetch).2
      = fetch.filter fun k => decide (k ∉ declaredSlots maxTargets semantics) := by
  induction semantics generalizing fetch with
  | nil => simp [resolveOutputs, declaredSlots]
  | cons o rest ih =>
    cases o with
    | none =>
      simp only [resolveOutputs, ih]
      simp [declaredSlots]
    | some semantic =>
      simp only [resolveOutputs]
      cases hslot : targetSlot maxTargets semantic with
      | none =>
        simp only [ih]
        simp [declaredSlots, hslot]
      | some n =>
        simp only [ih, List.filter_filter]
        apply List.filter_congr
        intro k _
        simp [declaredSlots, hslot]
        exact Bool.and_comm _ _

theorem resolveOutputs_fst_mem (maxTargets : Nat) (semantics : List (Option String))
    (fetch : List Nat) (line : String)
    (h : line ∈ (resolveOutputs maxTargets semantics fetch).1) :
    ∃ n, n ∈ declaredSlots maxTargets semantics ∧
      (line = layoutText n "inout" ∨ line = layoutText n "out") := by
  induction semantics generalizing fetch with
  | nil => simp [resolveOutputs] at h
  | cons o rest ih =>
    cases o with
    | none =>
      simp only [resolveOutputs] at h
      obtain ⟨n, hn, hl⟩ := ih fetch h
      exact ⟨n, by simpa [declaredSlots] using hn, hl⟩
    | some semantic =>
      simp only [resolveOutputs] at h
      cases hslot : targetSlot maxTargets semantic with
      | none =>
        rw [hslot] at h
        obtain ⟨n, hn, hl⟩ := ih fetch h
        refine ⟨n, ?_, hl⟩
        simp only [declaredSlots, List.filterMap_cons, Option.some_bind, hslot]
        exact hn
      | some m =>
        rw [hslot] at h
        simp only [List.mem_cons] at h
        rcases h with h | h
        · refine ⟨m, ?_, ?_⟩
          · simp [declaredSlots, hslot]
          · by_cases hm : m ∈ fetch
            · left; simpa [hm] using h
            · right; simpa [hm] using h
        · obtain ⟨n, hn, hl⟩ := ih _ h
          refine ⟨n, ?_, hl⟩
          simp only [declaredSlots, List.filterMap_cons, Option.some_bind, hslot,
            List.mem_cons]
          exact Or.inr hn

theorem fetchOnlyUnits_eq (cfg : BuildConfig) (version : GLSLVersion) (s : GenState)
    (units : List Nat) :
    Generate.fetchOnlyUnits cfg version s units
      = s.WriteLines cfg (units.map fun k =>
          Generate.layoutLine version (fmt_d (uint32AsInt k)) "inout" (uint32AsInt k)) := by
  simp [Generate.fetchOnlyUnits, GenState.WriteLines, List.foldl_map]

/-- C10: in the GLSL_300 fragment stage with a struct `fragment_out`, the
text written is the lines of the declared output fields followed by one line
`layout (location = k) inout vec4 out_FragColork;` for every slot `k` of the
fetch set that no field declares, in strictly ascending order of `k` (so each
such slot once); `k` is printed as `%d` prints it, the plain decimal for
`k < 2^31`. A fetched slot that no field declares has exactly one such line
and no line among the field declarations. A fetch of slot 2 with the single
output `SV_TARGET0` gives the `out` line of slot 0 followed by the `inout`
line of slot 2. The number of render targets is at most 10. -/
theorem Generate_fetch_only_units (cfg : BuildConfig) (tree : HLSLTree) (s : GenState)
    (fragment_out : HLSLStruct) (hmax : cfg.MAX_RENDER_TARGET_COUNT ≤ 10)
    (hstruct : tree.FindGlobalStruct (some "fragment_out") = some fragment_out) :
    Generate.fragmentOutDeclarations cfg tree .GLSL_300 s
      = s.WriteLines cfg
          ((resolveOutputs cfg.MAX_RENDER_TARGET_COUNT
              (fragment_out.field.map fun f => f.semantic)
              (Generate.fetchUnits (tree.FindFunctionCall "FramebufferFetch") [])).1
            ++ ((Generate.fetchUnits (tree.FindFunctionCall "FramebufferFetch") []).filter
                fun k => decide (k ∉ declaredSlots cfg.MAX_RENDER_TARGET_COUNT
                  (fragment_out.field.map fun f => f.semantic))).map fun k =>
                Generate.layoutLine .GLSL_300 (fmt_d (uint32AsInt k)) "inout" (uint32AsInt k))
    ∧ List.Sorted (· < ·)
        ((Generate.fetchUnits (tree.FindFunctionCall "FramebufferFetch") []).filter
          fun k => decide (k ∉ declaredSlots cfg.MAX_RENDER_TARGET_COUNT
            (fragment_out.field.map fun f => f.semantic)))
    ∧ (∀ k, k < 2147483648 →
        Generate.layoutLine .GLSL_300 (fmt_d (uint32AsInt k)) "inout" (uint32AsInt k)
          = layoutText k "inout")
    ∧ (∀ k, k ∈ Generate.fetchUnits (tree.FindFunctionCall "FramebufferFetch") [] →
        k ∉ declaredSlots cfg.MAX_RENDER_TARGET_COUNT
          (fragment_out.field.map fun f => f.semantic) →
        ((Generate.fetchUnits (tree.FindFunctionCall "FramebufferFetch") []).filter
          fun j => decide (j ∉ declaredSlots cfg.MAX_RENDER_TARGET_COUNT
            (fragment_out.field.map fun f => f.semantic))).count k = 1
        ∧ ∀ line, line ∈ (resolveOutputs cfg.MAX_RENDER_TARGET_COUNT
              (fragment_out.field.map fun f => f.semantic)
              (Generate.fetchUnits (tree.FindFunctionCall "FramebufferFetch") [])).1 →
            ∃ n, n ≠ k ∧ (line = layoutText n "inout" ∨ line = layoutText n "out"))
    ∧ Generate.fragmentOutDeclarations exampleConfig fetchOnlyTree .GLSL_300 s
        = s.WriteLines exampleConfig
            ["layout (location = 0) out vec4 out_FragColor0;",
             "layout (location = 2) inout vec4 out_FragColor2;"] := by
  have hsorted : List.Sorted (· < ·)
      ((Generate.fetchUnits (tree.FindFunctionCall "FramebufferFetch") []).filter
        fun k => decide (k ∉ declaredSlots cfg.MAX_RENDER_TARGET_COUNT
          (fragment_out.field.map fun f => f.semantic))) :=
    (fetchUnits_sorted _ [] List.sorted_nil).filter _
  refine ⟨?_, hsorted, fun k hk => layoutLine_eq_layoutText k "inout" hk, ?_, ?_⟩
  · rw [fragmentOutDeclarations_eq cfg hmax tree s fragment_out hstruct, fetchOnlyUnits_eq,
      resolveOutputs_snd, GenState.WriteLines_append]
  · intro k hk hnot
    refine ⟨List.count_eq_one_of_mem hsorted.nodup ?_, ?_⟩
    · exact List.mem_filter.mpr ⟨hk, by simpa using hnot⟩
    · intro line hline
      obtain ⟨n, hn, hl⟩ := resolveOutputs_fst_mem _ _ _ line hline
      exact ⟨n, fun h => hnot (h ▸ hn), hl⟩
  · have hres : resolveOutputs exampleConfig.MAX_RENDER_TARGET_COUNT
        ([exampleField "color0" "SV_TARGET0"].map fun f => f.semantic)
        (Generate.fetchUnits (fetchOnlyTree.FindFunctionCall "FramebufferFetch") [])
        = (["layout (location = 0) out vec4 out_FragColor0;"], [2]) := by
      decide
    rw [fragmentOutDeclarations_eq exampleConfig (by decide) fetchOnlyTree s
      { name := "fragment_out"
        field := [exampleField "color0" "SV_TARGET0"]
        usage := .struct_FragmentOut } rfl]
    simp only [hres]
    rfl

/-- C10 at a concrete input: the tree with the output `SV_TARGET0` and a
fetch of slot 2, in a build with four render targets. -/
theorem Generate_fetch_only_units_witness :
    exampleConfig.MAX_RENDER_TARGET_COUNT ≤ 10
    ∧ fetchOnlyTree.FindGlobalStruct (some "fragment_out")
        = some { name := "fragment_out"
                 field := [exampleField "color0" "SV_TARGET0"]
                 usage := .struct_FragmentOut }
    ∧ Generate.fragmentOutDeclarations exampleConfig fetchOnlyTree .GLSL_300 freshState
        = freshState.WriteLines exampleConfig
            ["layout (location = 0) out vec4 out_FragColor0;",
             "layout (location = 2) inout vec4 out_FragColor2;"] :=
  ⟨by decide, rfl,
    (Generate_fetch_only_units exampleConfig fetchOnlyTree freshState _ (by decide)
      rfl).2.2.2.2⟩

/-! ## The error flag is sticky -/

@[simp] theorem GenState.Error_hasError (s : GenState) (m : String) :
    (s.Error m).hasError = true := by
  unfold GenState.Error
  split <;> simp_all

@[simp] theorem GenState.closeCast_hasError (s : GenState) (c : Bool) :
    (s.closeCast c).hasError = s.hasError := by
  cases c <;> rfl

@[simp] theorem GenState.BeginLine_hasError (s : GenState) (cfg : BuildConfig) (n : Nat) :
    (s.BeginLine cfg n).hasError = s.hasError := rfl

@[simp] theorem GenState.EndLine_hasError (s : GenState) (t : String) :
    (s.EndLine t).hasError = s.hasError := rfl

@[simp] theorem OutputIdentifier_hasError (cfg : BuildConfig) (g : GLESGenerator)
    (s : GenState) (name : String) : (OutputIdentifier cfg g s name).hasError = s.hasError := rfl

@[simp] theorem OutputExpression_literal_hasError (s : GenState) (type : HLSLBaseType)
    (b : Bool) (f : String) (i : Int) :
    (OutputExpression.literal s type b f i).hasError = s.hasError := by
  cases type <;> rfl

@[simp] theorem Raised_none : Raised none := by
  intro s1 h
  cases h

@[simp] theorem Raised_some (s : GenState) : Raised (some s) ↔ s.hasError = true := by
  constructor
  · intro h
    exact h s rfl
  · intro h s1 hs
    cases hs
    exact h

theorem Raised_bind (o : Option GenState) (f : GenState → Option GenState)
    (h1 : Raised o) (h2 : ∀ s1, s1.hasError = true → Raised (f s1)) : Raised (o.bind f) := by
  cases o with
  | none => simp
  | some s1 => exact h2 s1 (h1 s1 rfl)

theorem Raised_map (o : Option GenState) (f : GenState → GenState)
    (h1 : Raised o) (h2 : ∀ s1, (f s1).hasError = s1.hasError) : Raised (o.map f) := by
  cases o with
  | none => simp
  | some s1 => simpa [h2] using h1 s1 rfl

@[simp] theorem OutputExpression_outField_hasError (cfg : BuildConfig) (g : GLESGenerator)
    (s : GenState) (f : HLSLStructField) :
    (OutputExpression.outField cfg g s f).hasError = s.hasError := by
  simp only [OutputExpression.outField]
  repeat' split
  all_goals simp

theorem memberBinding_hasError (cfg : BuildConfig) (g : GLESGenerator) (s s1 : GenState)
    (object : HLSLExpression) (field : String) (b : Bool)
    (h : OutputExpression.memberBinding cfg g s object field = some (s1, b)) :
    s1.hasError = s.hasError := by
  have key : ∀ (o : Option HLSLStruct) (w : HLSLStructField → GenState),
      (∀ f, (w f).hasError = s.hasError) →
      (match o with
        | none => none
        | some st =>
          match st.field.find? (fun f => decide (strcmp f.name field = 0)) with
          | some f => some (w f, false)
          | none => some (s, true)) = some (s1, b) → s1.hasError = s.hasError := by
    intro o w hw hm
    cases o with
    | none => cases hm
    | some st =>
      simp only at hm
      cases hfind : st.field.find? (fun f => decide (strcmp f.name field = 0)) with
      | none =>
        rw [hfind] at hm
        simp only [Option.some.injEq, Prod.mk.injEq] at hm
        rw [← hm.1]
      | some f =>
        rw [hfind] at hm
        simp only [Option.some.injEq, Prod.mk.injEq] at hm
        rw [← hm.1]
        exact hw f
  cases object with
  | IdentifierExpression t name =>
    simp only [OutputExpression.memberBinding] at h
    split_ifs at h
    all_goals first
      | exact key _ _ (fun f => by simp) h
      | (simp only [Option.some.injEq, Prod.mk.injEq] at h
         rw [← h.1])
  | _ =>
    simp only [OutputExpression.memberBinding, Option.some.injEq, Prod.mk.injEq] at h
    rw [← h.1]

theorem samplerIdentifier_raised (g : GLESGenerator) (s : GenState) (name : String)
    (hs : s.hasError = true) : Raised (OutputExpression.samplerIdentifier g s name) := by
  unfold OutputExpression.samplerIdentifier
  split
  · simp
  · simp [hs]

theorem OutputExpression_raised_all (cfg : BuildConfig) (g : GLESGenerator) :
    (∀ (s : GenState) (e : HLSLExpression) (d : Option HLSLType),
      s.hasError = true → Raised (OutputExpression cfg g s e d))
    ∧ (∀ (s : GenState) (e : HLSLExpression) (c : Bool),
      s.hasError = true → Raised (OutputExpression.node cfg g s e c))
    ∧ (∀ (s : GenState) (t : HLSLType) (n : String),
      s.hasError = true → Raised (OutputDeclarationT cfg g s t n))
    ∧ (∀ (s : GenState) (l : List HLSLExpression) (a : List HLSLType) (k : Nat),
      s.hasError = true → Raised (OutputExpressionList cfg g s l a k)) := by
  apply OutputExpression.mutual_induct cfg g
    (fun s e d => s.hasError = true → Raised (OutputExpression cfg g s e d))
    (fun s e c => s.hasError = true → Raised (OutputExpression.node cfg g s e c))
    (fun s t n => s.hasError = true → Raised (OutputDeclarationT cfg g s t n))
    (fun s l a k => s.hasError = true → Raised (OutputExpressionList cfg g s l a k))
  all_goals intros
  all_goals rename_i hs
  all_goals try simp only [GenState.Write_hasError, dite_eq_ite] at *
  all_goals try (first
    | (rw [OutputExpression]
       all_goals try assumption
       all_goals try simp only [*, Option.bind_eq_bind]
       all_goals repeat' (first
         | exact Raised_none
         | (rw [Raised_some]; simp [*]; done)
         | (apply_assumption; assumption)
         | (refine Raised_bind _ _ ?_ (fun s1 h1 => ?_))
         | split)
       done)
    | (rw [OutputExpression.node]
       all_goals try assumption
       all_goals try simp only [*, Option.bind_eq_bind]
       all_goals repeat' (first
         | exact Raised_none
         | (rw [Raised_some]; simp [*]; done)
         | (apply_assumption; assumption)
         | (refine Raised_bind _ _ ?_ (fun s1 h1 => ?_))
         | split)
       done)
    | (rw [OutputDeclarationT]
       all_goals try assumption
       all_goals try simp only [*, Option.bind_eq_bind]
       all_goals repeat' (first
         | exact Raised_none
         | (rw [Raised_some]; simp [*]; done)
         | (apply_assumption; assumption)
         | (refine Raised_bind _ _ ?_ (fun s1 h1 => ?_))
         | split)
       done)
    | (rw [OutputExpressionList]
       all_goals try assumption
       all_goals try simp only [*, Option.bind_eq_bind]
       all_goals repeat' (first
         | exact Raised_none
         | (rw [Raised_some]; simp [*]; done)
         | (apply_assumption; assumption)
         | (refine Raised_bind _ _ ?_ (fun s1 h1 => ?_))
         | split)
       done)
    )
  case case3 =>
    rw [OutputExpression.node]
    simp only [*, if_true]
    exact Raised_map _ _ (samplerIdentifier_raised g _ _ hs) (fun s1 => by simp)
  case case4 =>
    rw [OutputExpression.node]
    simp [*]
  case case13 =>
    rename_i s0 _ _ _ _ s1 hx
    rw [OutputExpression.node]
    simp only [hx]
    rw [Raised_some]
    simp [memberBinding_hasError _ _ _ _ _ _ _ hx, hs]
  case case14 =>
    rename_i s0 _ _ _ _ s1 hx hsc s2 ih
    rw [OutputExpression.node]
    simp only [hx, hsc, if_true, Option.bind_eq_bind]
    refine Raised_bind _ _ (ih ?_) (fun s3 h3 => ?_)
    · show (s1.Write _).hasError = true
      simp [memberBinding_hasError _ _ _ _ _ _ _ hx, hs]
    · simp [h3]
  case case15 =>
    rename_i s0 _ _ _ _ s1 hx hsc ih
    rw [OutputExpression.node]
    simp only [hx, hsc, if_false, Option.bind_eq_bind]
    refine Raised_bind _ _ (ih ?_) (fun s3 h3 => ?_)
    · simp [memberBinding_hasError _ _ _ _ _ _ _ hx, hs]
    · simp [h3]
  case case19 =>
    rename_i hm hx
    rw [OutputExpression_node_call, if_pos hm]
    split
    · exact absurd rfl (hx _ _)
    · simp
  case case21 =>
    rename_i hm hsat hx
    rw [OutputExpression_node_call, if_neg hm, if_pos hsat]
    split
    · exact absurd rfl (hx _)
    · simp
  case case22 =>
    rename_i hm hsat hf _ _ _ _
    rw [OutputExpression_node_call, if_neg hm, if_neg hsat, if_pos hf]
    simp [hs]
  case case23 =>
    rename_i hm hsat hf hx
    rw [OutputExpression_node_call, if_neg hm, if_neg hsat, if_pos hf]
    split
    · exact absurd rfl (hx _ _ _ _)
    · simp
  case case24 =>
    rename_i hm hsat hf s2 ih
    rw [OutputExpression_node_call, if_neg hm, if_neg hsat, if_neg hf]
    refine Raised_bind _ _ (ih ?_) (fun s3 h3 => ?_)
    · show ((OutputIdentifier cfg g _ _).Write "(").hasError = true
      simp [hs]
    · simp [h3]
  case case30 =>
    rename_i ih2 ih1
    rw [OutputExpressionList]
    refine Raised_bind _ _ (ih2 ?_) (fun s3 h3 => ih1 s3 h3)
    split <;> simp [hs]
  case case31 =>
    rename_i ih2 ih1
    rw [OutputExpressionList]
    refine Raised_bind _ _ (ih2 ?_) (fun s3 h3 => ih1 s3 h3)
    split <;> simp [hs]

theorem OutputExpression_raised (cfg : BuildConfig) (g : GLESGenerator) (s : GenState)
    (e : HLSLExpression) (d : Option HLSLType) (hs : s.hasError = true) :
    Raised (OutputExpression cfg g s e d) :=
  (OutputExpression_raised_all cfg g).1 s e d hs

theorem OutputDeclarationT_raised (cfg : BuildConfig) (g : GLESGenerator) (s : GenState)
    (t : HLSLType) (n : String) (hs : s.hasError = true) :
    Raised (OutputDeclarationT cfg g s t n) :=
  (OutputExpression_raised_all cfg g).2.2.1 s t n hs

theorem OutputExpressionList_raised (cfg : BuildConfig) (g : GLESGenerator) (s : GenState)
    (l : List HLSLExpression) (a : List HLSLType) (k : Nat) (hs : s.hasError = true) :
    Raised (OutputExpressionList cfg g s l a k) :=
  (OutputExpression_raised_all cfg g).2.2.2 s l a k hs

theorem Raised_bind_any (o : Option GenState) (f : GenState → Option GenState)
    (h : ∀ s1, Raised (f s1)) : Raised (o.bind f) := by
  cases o with
  | none => simp
  | some s1 => exact h s1

theorem OutputDeclaration_raised (cfg : BuildConfig) (g : GLESGenerator) (s : GenState)
    (declaration : HLSLDeclaration) (hs : s.hasError = true) :
    Raised (OutputDeclaration cfg g s declaration) := by
  unfold OutputDeclaration
  split
  · split
    · simp only [Option.bind_eq_bind]
      refine Raised_bind _ _ ?_ (fun s1 h1 => Raised_bind _ _
        (OutputExpressionList_raised cfg g _ _ _ _ (by simpa using h1)) (fun s2 h2 => ?_))
      · split
        · exact OutputExpression_raised cfg g _ _ _ (by simpa using hs)
        · simpa using hs
      · simpa using h2
    · simpa using hs
  · split
    · simpa using hs
    · simp only [Option.bind_eq_bind]
      refine Raised_bind _ _ (OutputDeclarationT_raised cfg g _ _ _ hs) (fun s1 h1 => ?_)
      split
      · simpa using h1
      · split
        · refine Raised_bind _ _ ?_ (fun s2 h2 => Raised_bind _ _
            (OutputExpressionList_raised cfg g _ _ _ _ (by simpa using h2)) (fun s3 h3 => ?_))
          · split
            · exact OutputExpression_raised cfg g _ _ _ (by simpa using h1)
            · simpa using h1
          · simpa using h3
        · exact OutputExpression_raised cfg g _ _ _ (by simpa using h1)

theorem OutputArguments_raised (cfg : BuildConfig) (g : GLESGenerator)
    (arguments : List HLSLArgument) (s : GenState) (k : Nat) (hs : s.hasError = true) :
    Raised (OutputArguments cfg g s arguments k) := by
  induction arguments generalizing s k with
  | nil => simpa [OutputArguments] using hs
  | cons a rest ih =>
    simp only [OutputArguments, Option.bind_eq_bind]
    refine Raised_bind _ _ (OutputDeclarationT_raised cfg g _ _ _ ?_) (fun s1 h1 => ih s1 _ h1)
    cases a.modifier <;> split <;> split <;> simp [hs]

theorem structFields_raised (cfg : BuildConfig) (g : GLESGenerator) (indent : Nat)
    (fields : List HLSLStructField) (s : GenState) (hs : s.hasError = true) :
    Raised (OutputStatements.structFields cfg g s indent fields) := by
  induction fields generalizing s with
  | nil => simpa [OutputStatements.structFields] using hs
  | cons f rest ih =>
    simp only [OutputStatements.structFields, Option.bind_eq_bind]
    exact Raised_bind _ _ (OutputDeclarationT_raised cfg g _ _ _ (by simpa using hs))
      (fun s1 h1 => ih _ (by simpa using h1))

theorem buffer_raised (cfg : BuildConfig) (s : GenState) (indent : Nat) (buffer : HLSLBuffer)
    (hs : s.hasError = true) : Raised (OutputStatements.buffer cfg s indent buffer) := by
  unfold OutputStatements.buffer
  dsimp only
  generalize buffer.field.type.arraySize = size
  cases size with
  | none => simp
  | some e =>
    cases e <;> simp only [Raised_none, Raised_some]
    split <;> simp [hs]

theorem declaration_raised (cfg : BuildConfig) (g : GLESGenerator) (s : GenState)
    (indent : Nat) (declaration : HLSLDeclaration) (hs : s.hasError = true) :
    Raised (OutputStatements.declaration cfg g s indent declaration) := by
  unfold OutputStatements.declaration
  split
  · split
    · simp only [Option.bind_eq_bind]
      refine Raised_bind _ _ (OutputDeclaration_raised cfg g _ _ ?_) (fun s1 h1 => ?_)
      · repeat' split
        all_goals simpa using hs
      · split <;> simpa using h1
    · simpa using hs
  · simpa using hs

theorem returnStatement_raised (cfg : BuildConfig) (g : GLESGenerator) (s : GenState)
    (indent : Nat) (expression : Option HLSLExpression) (returnType : Option HLSLType)
    (hs : s.hasError = true) :
    Raised (OutputStatements.returnStatement cfg g s indent expression returnType) := by
  unfold OutputStatements.returnStatement
  cases expression with
  | none => simpa using hs
  | some e =>
    simp only
    split
    · simp only [Option.bind_eq_bind]
      exact Raised_bind _ _ (OutputExpression_raised cfg g _ _ _ (by simpa using hs))
        (fun s1 h1 => by simpa using h1)
    · simpa using hs

/-! ### Unfolding of the statement emitter -/

theorem OutputStatements_nil (cfg : BuildConfig) (g : GLESGenerator) (s : GenState)
    (indent : Nat) (returnType : Option HLSLType) :
    OutputStatements cfg g s indent [] returnType = some s := rfl

theorem OutputStatements_cons (cfg : BuildConfig) (g : GLESGenerator) (s : GenState)
    (indent : Nat) (statement : HLSLStatement) (nextStatement : List HLSLStatement)
    (returnType : Option HLSLType) :
    OutputStatements cfg g s indent (statement :: nextStatement) returnType
      = (OutputStatements.body cfg g s indent statement returnType).bind fun s1 =>
          OutputStatements cfg g s1 indent nextStatement returnType := rfl

theorem OutputStatements_body_declaration (cfg : BuildConfig) (g : GLESGenerator)
    (s : GenState) (indent : Nat) (hidden : Bool) (declaration : HLSLDeclaration)
    (returnType : Option HLSLType) :
    OutputStatements.body cfg g s indent (.Declaration hidden declaration) returnType
      = if hidden then some s else OutputStatements.declaration cfg g s indent declaration :=
  rfl

theorem OutputStatements_body_struct (cfg : BuildConfig) (g : GLESGenerator)
    (s : GenState) (indent : Nat) (hidden : Bool) (structure_ : HLSLStruct)
    (returnType : Option HLSLType) :
    OutputStatements.body cfg g s indent (.Struct hidden structure_) returnType
      = if hidden then some s
        else if structure_.usage = .struct_Generic then
          (OutputStatements.structFields cfg g
            (s.WriteLine cfg indent ("struct " ++ structure_.name ++ " \x7b")) indent
            structure_.field).bind fun s1 => some (s1.WriteLine cfg indent "\x7d;")
        else some s := rfl

theorem OutputStatements_body_buffer (cfg : BuildConfig) (g : GLESGenerator)
    (s : GenState) (indent : Nat) (hidden : Bool) (buffer : HLSLBuffer)
    (returnType : Option HLSLType) :
    OutputStatements.body cfg g s indent (.Buffer hidden buffer) returnType
      = if hidden then some s else OutputStatements.buffer cfg s indent buffer := rfl

theorem OutputStatements_body_function (cfg : BuildConfig) (g : GLESGenerator)
    (s : GenState) (indent : Nat) (hidden : Bool) (name : String)
    (functionReturnType : HLSLType) (semantic : Option String) (argument : List HLSLArgument)
    (statement : List HLSLStatement) (returnType : Option HLSLType) :
    OutputStatements.body cfg g s indent
        (.Function hidden name functionReturnType semantic argument statement) returnType
      = if hidden then some s
        else if String_Equal name g.entryName then some s
        else
          (OutputArguments cfg g ((s.BeginLine cfg indent).Write
            (GetTypeName functionReturnType ++ " " ++ GetSafeIdentifierName g name ++ "("))
            argument 0).bind fun s1 =>
          (OutputStatements cfg g ((s1.Write ") \x7b").EndLine "") (indent + 1) statement
            (some functionReturnType)).bind fun s2 =>
          some (s2.WriteLine cfg indent "\x7d") := rfl

theorem OutputStatements_body_expression (cfg : BuildConfig) (g : GLESGenerator)
    (s : GenState) (indent : Nat) (hidden : Bool) (expression : HLSLExpression)
    (returnType : Option HLSLType) :
    OutputStatements.body cfg g s indent (.ExpressionStatement hidden expression) returnType
      = if hidden then some s
        else (OutputExpression cfg g (s.BeginLine cfg indent) expression none).bind fun s1 =>
          some (s1.EndLine ";") := rfl

theorem OutputStatements_body_return (cfg : BuildConfig) (g : GLESGenerator)
    (s : GenState) (indent : Nat) (hidden : Bool) (expression : Option HLSLExpression)
    (returnType : Option HLSLType) :
    OutputStatements.body cfg g s indent (.ReturnStatement hidden expression) returnType
      = if hidden then some s
        else OutputStatements.returnStatement cfg g s indent expression returnType := rfl

theorem OutputStatements_body_discard (cfg : BuildConfig) (g : GLESGenerator)
    (s : GenState) (indent : Nat) (hidden : Bool) (returnType : Option HLSLType) :
    OutputStatements.body cfg g s indent (.DiscardStatement hidden) returnType
      = if hidden then some s
        else if g.target = .TARGET_FRAGMENT then some (s.WriteLine cfg indent "discard;")
        else some s := rfl

theorem OutputStatements_body_break (cfg : BuildConfig) (g : GLESGenerator)
    (s : GenState) (indent : Nat) (hidden : Bool) (returnType : Option HLSLType) :
    OutputStatements.body cfg g s indent (.BreakStatement hidden) returnType
      = if hidden then some s else some (s.WriteLine cfg indent "break;") := rfl

theorem OutputStatements_body_continue (cfg : BuildConfig) (g : GLESGenerator)
    (s : GenState) (indent : Nat) (hidden : Bool) (returnType : Option HLSLType) :
    OutputStatements.body cfg g s indent (.ContinueStatement hidden) returnType
      = if hidden then some s else some (s.WriteLine cfg indent "continue;") := rfl

theorem OutputStatements_body_if (cfg : BuildConfig) (g : GLESGenerator) (s : GenState)
    (indent : Nat) (hidden : Bool) (condition : HLSLExpression)
    (statement elseStatement : List HLSLStatement) (returnType : Option HLSLType) :
    OutputStatements.body cfg g s indent
        (.IfStatement hidden condition statement elseStatement) returnType
      = if hidden then some s
        else
          (OutputExpression cfg g ((s.WriteLine cfg indent "").Write "if (") condition
            (some (HLSLType.ofBase .Bool))).bind fun s1 =>
          (OutputStatements cfg g ((s1.Write ") \x7b").EndLine "") (indent + 1) statement
            returnType).bind fun s2 =>
          if elseStatement.isEmpty then some (s2.WriteLine cfg indent "\x7d")
          else
            (OutputStatements cfg g
              ((s2.WriteLine cfg indent "\x7d").WriteLine cfg indent "else \x7b") (indent + 1)
              elseStatement returnType).bind fun s3 =>
            some (s3.WriteLine cfg indent "\x7d") := by
  cases elseStatement <;> rfl

theorem OutputStatements_body_for (cfg : BuildConfig) (g : GLESGenerator) (s : GenState)
    (indent : Nat) (hidden : Bool) (initialization : HLSLDeclaration)
    (condition increment : HLSLExpression) (statement : List HLSLStatement)
    (returnType : Option HLSLType) :
    OutputStatements.body cfg g s indent
        (.ForStatement hidden initialization condition increment statement) returnType
      = if hidden then some s
        else
          (OutputDeclaration cfg g ((s.BeginLine cfg indent).Write "for (")
            initialization).bind fun s1 =>
          (OutputExpression cfg g (s1.Write "; ") condition
            (some (HLSLType.ofBase .Bool))).bind fun s2 =>
          (OutputExpression cfg g (s2.Write "; ") increment none).bind fun s3 =>
          (OutputStatements cfg g ((s3.Write ") \x7b").EndLine "") (indent + 1) statement
            returnType).bind fun s4 =>
          some (s4.WriteLine cfg indent "\x7d") := rfl

theorem OutputStatements_body_block (cfg : BuildConfig) (g : GLESGenerator) (s : GenState)
    (indent : Nat) (hidden : Bool) (statement : List HLSLStatement)
    (returnType : Option HLSLType) :
    OutputStatements.body cfg g s indent (.BlockStatement hidden statement) returnType
      = if hidden then some s
        else
          (OutputStatements cfg g (s.WriteLine cfg indent "\x7b") (indent + 1) statement
            none).bind fun s1 =>
          some (s1.WriteLine cfg indent "\x7d") := rfl

theorem OutputStatements_body_other (cfg : BuildConfig) (g : GLESGenerator) (s : GenState)
    (indent : Nat) (hidden : Bool) (returnType : Option HLSLType) :
    OutputStatements.body cfg g s indent (.Other hidden) returnType = some s := rfl

theorem OutputStatements_raised_all (cfg : BuildConfig) (g : GLESGenerator) :
    (∀ (s : GenState) (indent : Nat) (statement : List HLSLStatement)
        (returnType : Option HLSLType), s.hasError = true →
        Raised (OutputStatements cfg g s indent statement returnType)) ∧
    (∀ (s : GenState) (indent : Nat) (statement : HLSLStatement)
        (returnType : Option HLSLType), s.hasError = true →
        Raised (OutputStatements.body cfg g s indent statement returnType)) := by
  refine OutputStatements.mutual_induct cfg g
    (fun _ indent statement returnType => ∀ s0 : GenState, s0.hasError = true →
      Raised (OutputStatements cfg g s0 indent statement returnType))
    (fun _ indent statement returnType => ∀ s0 : GenState, s0.hasError = true →
      Raised (OutputStatements.body cfg g s0 indent statement returnType))
    ?_ ?_ ?_ ?_ ?_ ?_ ?_ ?_ ?_ ?_ ?_ ?_ ?_ ?_ ?_ ?_ ?_ ?_ ?_ ?_ ?_ ?_ ?_ ?_ ?_ ?_ ?_ ?_ ?_ ?_ |>.imp
    (fun h s indent statement returnType hs => h s indent statement returnType s hs)
    (fun h s indent statement returnType hs => h s indent statement returnType s hs)
  all_goals intros
  all_goals simp only [OutputStatements_nil, OutputStatements_cons,
    OutputStatements_body_declaration, OutputStatements_body_struct,
    OutputStatements_body_buffer, OutputStatements_body_function,
    OutputStatements_body_expression, OutputStatements_body_return,
    OutputStatements_body_discard, OutputStatements_body_break,
    OutputStatements_body_continue, OutputStatements_body_if, OutputStatements_body_for,
    OutputStatements_body_block, OutputStatements_body_other]
  all_goals try simp only [*, if_true, if_false, Bool.false_eq_true]
  all_goals intro s0 hs0
  all_goals try dsimp only at *
  all_goals repeat' (first
    | exact Raised_none
    | (rw [Raised_some]; simp [*]; done)
    | (apply declaration_raised; assumption)
    | (apply buffer_raised; assumption)
    | (apply returnStatement_raised; assumption)
    | (apply structFields_raised; simp [*]; done)
    | (apply OutputArguments_raised; simp [*]; done)
    | (apply OutputExpression_raised; simp [*]; done)
    | (apply OutputDeclaration_raised; simp [*]; done)
    | (apply_assumption; simp [*]; done)
    | (refine Raised_bind _ _ ?_ (fun s1 h1 => ?_))
    | split)
  all_goals first
    | (have hh := ‹GenState → ∀ (s0 : GenState), _ → Raised _› s0
       apply hh
       simp [*]
       done)
    | (rename_i elseStatement returnType hh ih2 ih1 sa ha hne
       cases elseStatement with
       | nil => simp at hne
       | cons e es => exact ih1 s0 _ (by simp [*]))

theorem OutputStatements_raised (cfg : BuildConfig) (g : GLESGenerator) (s : GenState)
    (indent : Nat) (statement : List HLSLStatement) (returnType : Option HLSLType)
    (hs : s.hasError = true) :
    Raised (OutputStatements cfg g s indent statement returnType) :=
  (OutputStatements_raised_all cfg g).1 s indent statement returnType hs

theorem OutputStatements_body_raised (cfg : BuildConfig) (g : GLESGenerator) (s : GenState)
    (indent : Nat) (statement : HLSLStatement) (returnType : Option HLSLType)
    (hs : s.hasError = true) :
    Raised (OutputStatements.body cfg g s indent statement returnType) :=
  (OutputStatements_raised_all cfg g).2 s indent statement returnType hs

theorem properties_raised (cfg : BuildConfig) (g : GLESGenerator)
    (statement : List HLSLStatement) (s : GenState) (hs : s.hasError = true) :
    Raised (Generate.properties cfg g s statement) := by
  induction statement generalizing s with
  | nil => simpa [Generate.properties] using hs
  | cons st rest ih =>
    cases st
    case Declaration hidden declaration =>
      simp only [Generate.properties, Option.bind_eq_bind]
      split
      · refine Raised_bind _ _ (OutputDeclarationT_raised cfg g _ _ _ (by simpa using hs))
          (fun s1 h1 => Raised_bind _ _ ?_ (fun s2 h2 => ih _ (by simpa using h2)))
        split
        · simpa using h1
        · exact OutputExpression_raised cfg g _ _ _ (by simpa using h1)
      · exact ih s hs
    all_goals
      simp only [Generate.properties]
      exact ih s hs

/-! ### An error at a reached expression fails the whole run -/

theorem OutputExpression_node_raised (cfg : BuildConfig) (g : GLESGenerator) (s : GenState)
    (e : HLSLExpression) (c : Bool) (hs : s.hasError = true) :
    Raised (OutputExpression.node cfg g s e c) :=
  (OutputExpression_raised_all cfg g).2.1 s e c hs

theorem OutputExpression_of_node (cfg : BuildConfig) (g : GLESGenerator) (e : HLSLExpression)
    (h : ∀ s c, Raised (OutputExpression.node cfg g s e c)) (s : GenState)
    (d : Option HLSLType) : Raised (OutputExpression cfg g s e d) := by
  cases hc : OutputExpression.cast e d with
  | false =>
    rw [OutputExpression_of_cast_false cfg g s e d hc]
    exact h s false
  | true =>
    cases d with
    | none => simp [OutputExpression.cast] at hc; split at hc <;> simp at hc
    | some d1 =>
      rw [OutputExpression_of_cast_true cfg g s e d1 hc]
      exact Raised_bind_any _ _ (fun s1 => h _ true)

theorem OutputDeclarationT_of_size (cfg : BuildConfig) (g : GLESGenerator) (t : HLSLType)
    (size : HLSLExpression) (ht : t.emittedSize = some size)
    (h : ∀ s, Raised (OutputExpression cfg g s size none)) (s : GenState) (n : String) :
    Raised (OutputDeclarationT cfg g s t n) := by
  cases t with
  | mk b tn array arraySize flags =>
    cases array with
    | false => simp [HLSLType.emittedSize, HLSLType.array] at ht
    | true =>
      simp only [HLSLType.emittedSize, HLSLType.array, HLSLType.arraySize, if_true] at ht
      subst ht
      rw [OutputDeclarationT]
      simp only [Option.bind_eq_bind]
      exact Raised_bind _ _ (h _) (fun s1 h1 => by simpa using h1)

theorem OutputExpression_of_size (cfg : BuildConfig) (g : GLESGenerator) (e : HLSLExpression)
    (d : HLSLType) (size : HLSLExpression) (hc : OutputExpression.cast e (some d) = true)
    (hd : d.emittedSize = some size) (h : ∀ s, Raised (OutputExpression cfg g s size none))
    (s : GenState) : Raised (OutputExpression cfg g s e (some d)) := by
  rw [OutputExpression_of_cast_true cfg g s e d hc]
  exact Raised_bind _ _ (OutputDeclarationT_of_size cfg g d size hd h s "")
    (fun s1 h1 => OutputExpression_node_raised cfg g _ e true (by simpa using h1))

theorem OutputExpressionList_of_mem (cfg : BuildConfig) (g : GLESGenerator)
    (a : HLSLExpression) (hint : Option HLSLType)
    (h : ∀ s, Raised (OutputExpression cfg g s a hint)) (argument : List HLSLExpression) :
    ∀ (functionArgument : List HLSLType),
      (a, hint) ∈ OutputExpressionList.hints argument functionArgument →
      ∀ (s : GenState) (k : Nat),
        Raised (OutputExpressionList cfg g s argument functionArgument k) := by
  induction argument with
  | nil => intro fa hm; simp [OutputExpressionList.hints] at hm
  | cons e rest ih =>
    intro fa hm s k
    cases fa with
    | nil =>
      rw [OutputExpressionList]
      simp only [OutputExpressionList.hints, List.mem_cons, Prod.mk.injEq] at hm
      rcases hm with ⟨rfl, rfl⟩ | hm
      · exact Raised_bind _ _ (h _)
          (fun s1 h1 => OutputExpressionList_raised cfg g s1 _ _ _ h1)
      · exact Raised_bind_any _ _ (fun s1 => ih [] hm s1 _)
    | cons t ts =>
      rw [OutputExpressionList]
      simp only [OutputExpressionList.hints, List.mem_cons, Prod.mk.injEq] at hm
      rcases hm with ⟨rfl, rfl⟩ | hm
      · exact Raised_bind _ _ (h _)
          (fun s1 h1 => OutputExpressionList_raised cfg g s1 _ _ _ h1)
      · exact Raised_bind_any _ _ (fun s1 => ih ts hm s1 _)

theorem hints_of_mem (a : HLSLExpression) (argument : List HLSLExpression)
    (h : a ∈ argument) : (a, none) ∈ OutputExpressionList.hints argument [] := by
  induction argument with
  | nil => simp at h
  | cons e rest ih =>
    simp only [OutputExpressionList.hints, List.mem_cons, Prod.mk.injEq, and_true]
    rcases List.mem_cons.1 h with rfl | h1
    · exact Or.inl rfl
    · exact Or.inr (ih h1)

theorem Emits_raised (cfg : BuildConfig) (g : GLESGenerator) (x : HLSLExpression)
    (hx : ∀ s c, Raised (OutputExpression.node cfg g s x c)) (e : HLSLExpression)
    (d : Option HLSLType) (h : Emits cfg g e d x) :
    ∀ s, Raised (OutputExpression cfg g s e d) := by
  induction h with
  | here e d => exact fun s => OutputExpression_of_node cfg g e hx s d
  | castSize e d size x hc hd _ ih => exact OutputExpression_of_size cfg g e d size hc hd (ih hx)
  | constructorArgument t type argument d a x hm _ ih =>
    replace ih := ih hx
    refine fun s => OutputExpression_of_node cfg g _ (fun s c => ?_) s d
    simp only [OutputExpression.node, Option.bind_eq_bind]
    exact Raised_bind _ _
      (OutputExpressionList_of_mem cfg g a none ih argument [] (hints_of_mem a argument hm) _ 0)
      (fun s1 h1 => by simpa using h1)
  | castingSize t type inner d size x hd _ ih =>
    replace ih := ih hx
    refine fun s => OutputExpression_of_node cfg g _ (fun s c => ?_) s d
    simp only [OutputExpression.node, Option.bind_eq_bind]
    exact Raised_bind _ _ (OutputDeclarationT_of_size cfg g type size hd ih s "")
      (fun s1 h1 => Raised_bind _ _ (OutputExpression_raised cfg g _ _ _ (by simpa using h1))
        (fun s2 h2 => by simpa using h2))
  | castingInner t type inner d x _ ih =>
    replace ih := ih hx
    refine fun s => OutputExpression_of_node cfg g _ (fun s c => ?_) s d
    simp only [OutputExpression.node, Option.bind_eq_bind]
    exact Raised_bind_any _ _ (fun s1 => Raised_bind _ _ (ih _)
        (fun s2 h2 => by simpa using h2))
  | unaryOperand t op inner d x _ ih =>
    replace ih := ih hx
    refine fun s => OutputExpression_of_node cfg g _ (fun s c => ?_) s d
    cases op <;> simp only [OutputExpression.node, OutputExpression.unaryOp,
      Option.bind_eq_bind] at ih ⊢ <;>
      exact Raised_bind _ _ (ih _) (fun s2 h2 => by simpa using h2)
  | binaryLeft t op e1 e2 d x _ ih =>
    replace ih := ih hx
    refine fun s => OutputExpression_of_node cfg g _ (fun s c => ?_) s d
    cases op <;> simp only [OutputExpression.node, OutputExpression.binaryOp,
      Option.bind_eq_bind] at ih ⊢ <;>
      exact Raised_bind _ _ (ih _) (fun s1 h1 =>
        Raised_bind _ _ (OutputExpression_raised cfg g _ _ _ (by simpa using h1))
          (fun s2 h2 => by simpa using h2))
  | binaryRight t op e1 e2 d x _ ih =>
    replace ih := ih hx
    refine fun s => OutputExpression_of_node cfg g _ (fun s c => ?_) s d
    cases op <;> simp only [OutputExpression.node, OutputExpression.binaryOp,
      Option.bind_eq_bind] at ih ⊢ <;>
      exact Raised_bind_any _ _ (fun s1 =>
        Raised_bind _ _ (ih _) (fun s2 h2 => by simpa using h2))
  | condition t c e1 e2 d x _ ih =>
    replace ih := ih hx
    refine fun s => OutputExpression_of_node cfg g _ (fun s c => ?_) s d
    simp only [OutputExpression.node, Option.bind_eq_bind]
    exact Raised_bind _ _ (ih _) (fun s1 h1 =>
      Raised_bind _ _ (OutputExpression_raised cfg g _ _ _ (by simpa using h1)) (fun s2 h2 =>
        Raised_bind _ _ (OutputExpression_raised cfg g _ _ _ (by simpa using h2))
          (fun s3 h3 => by simpa using h3)))
  | conditionTrue t c e1 e2 d x _ ih =>
    replace ih := ih hx
    refine fun s => OutputExpression_of_node cfg g _ (fun s c => ?_) s d
    simp only [OutputExpression.node, Option.bind_eq_bind]
    exact Raised_bind_any _ _ (fun s1 =>
      Raised_bind _ _ (ih _) (fun s2 h2 =>
        Raised_bind _ _ (OutputExpression_raised cfg g _ _ _ (by simpa using h2))
          (fun s3 h3 => by simpa using h3)))
  | conditionFalse t c e1 e2 d x _ ih =>
    replace ih := ih hx
    refine fun s => OutputExpression_of_node cfg g _ (fun s c => ?_) s d
    simp only [OutputExpression.node, Option.bind_eq_bind]
    exact Raised_bind_any _ _ (fun s1 => Raised_bind_any _ _ (fun s2 =>
      Raised_bind _ _ (ih _) (fun s3 h3 => by simpa using h3)))
  | memberObject t object field d x hb _ ih =>
    replace ih := ih hx
    refine fun s => OutputExpression_of_node cfg g _ (fun s c => ?_) s d
    simp only [OutputExpression.node, hb, Option.bind_eq_bind]
    split <;> exact Raised_bind _ _ (ih _) (fun s3 h3 => by simpa using h3)
  | arrayObject t array index d x _ ih =>
    replace ih := ih hx
    refine fun s => OutputExpression_of_node cfg g _ (fun s c => ?_) s d
    simp only [OutputExpression.node, Option.bind_eq_bind]
    exact Raised_bind _ _ (ih _) (fun s1 h1 =>
      Raised_bind _ _ (OutputExpression_raised cfg g _ _ _ (by simpa using h1))
        (fun s2 h2 => by simpa using h2))
  | arrayIndex t array index d x _ ih =>
    replace ih := ih hx
    refine fun s => OutputExpression_of_node cfg g _ (fun s c => ?_) s d
    simp only [OutputExpression.node, Option.bind_eq_bind]
    exact Raised_bind_any _ _ (fun s1 =>
      Raised_bind _ _ (ih _) (fun s2 h2 => by simpa using h2))
  | mulSecond t functionName type0 type1 rest argument0 argument1 d x hn _ ih =>
    replace ih := ih hx
    refine fun s => OutputExpression_of_node cfg g _ (fun s c => ?_) s d
    rw [OutputExpression_node_call, if_pos hn]
    exact Raised_bind _ _ (ih _) (fun s1 h1 =>
      Raised_bind _ _ (OutputExpression_raised cfg g _ _ _ (by simpa using h1))
        (fun s2 h2 => by simpa using h2))
  | mulFirst t functionName type0 type1 rest argument0 argument1 d x hn _ ih =>
    replace ih := ih hx
    refine fun s => OutputExpression_of_node cfg g _ (fun s c => ?_) s d
    rw [OutputExpression_node_call, if_pos hn]
    exact Raised_bind_any _ _ (fun s1 =>
      Raised_bind _ _ (ih _) (fun s2 h2 => by simpa using h2))
  | saturateArgument t functionName functionArgument argument0 d x hm hn _ ih =>
    replace ih := ih hx
    refine fun s => OutputExpression_of_node cfg g _ (fun s c => ?_) s d
    rw [OutputExpression_node_call, if_neg (by simp [hm]), if_pos hn]
    exact Raised_bind _ _ (ih _) (fun s2 h2 => by simpa using h2)
  | callArgument t functionName functionArgument argument d a hint x hm hn hf hmem _ ih =>
    replace ih := ih hx
    refine fun s => OutputExpression_of_node cfg g _ (fun s c => ?_) s d
    rw [OutputExpression_node_call, if_neg (by simp [hm]), if_neg (by simp [hn]), if_neg hf]
    exact Raised_bind _ _
      (OutputExpressionList_of_mem cfg g a hint ih argument functionArgument hmem _ 0)
      (fun s2 h2 => by simpa using h2)

theorem TypeEmits_raised (cfg : BuildConfig) (g : GLESGenerator) (x : HLSLExpression)
    (hx : ∀ s c, Raised (OutputExpression.node cfg g s x c)) (t : HLSLType)
    (h : TypeEmits cfg g t x) (s : GenState) (n : String) :
    Raised (OutputDeclarationT cfg g s t n) := by
  obtain ⟨size, hsize, hem⟩ := h
  exact OutputDeclarationT_of_size cfg g t size hsize
    (Emits_raised cfg g x hx size none hem) s n

theorem Emits_list_raised (cfg : BuildConfig) (g : GLESGenerator) (x : HLSLExpression)
    (hx : ∀ s c, Raised (OutputExpression.node cfg g s x c)) (argument : List HLSLExpression)
    (h : ∃ a ∈ argument, Emits cfg g a none x) (s : GenState) (k : Nat) :
    Raised (OutputExpressionList cfg g s argument [] k) := by
  obtain ⟨a, hm, hem⟩ := h
  exact OutputExpressionList_of_mem cfg g a none (Emits_raised cfg g x hx a none hem)
    argument [] (hints_of_mem a argument hm) s k

theorem DeclarationEmits_raised (cfg : BuildConfig) (g : GLESGenerator) (x : HLSLExpression)
    (hx : ∀ s c, Raised (OutputExpression.node cfg g s x c)) (declaration : HLSLDeclaration)
    (h : DeclarationEmits cfg g declaration x) (s : GenState) :
    Raised (OutputDeclaration cfg g s declaration) := by
  unfold DeclarationEmits at h
  unfold OutputDeclaration
  split
  · rename_i hp
    rw [if_pos hp] at h
    obtain ⟨hc, h⟩ := h
    rw [if_pos hc]
    simp only [Option.bind_eq_bind]
    rcases h with ⟨size, hsize, hem⟩ | h
    · rw [hsize]
      exact Raised_bind _ _ (Emits_raised cfg g x hx size none hem _) (fun s1 h1 =>
        Raised_bind _ _ (OutputExpressionList_raised cfg g _ _ _ _ (by simpa using h1))
          (fun s2 h2 => by simpa using h2))
    · exact Raised_bind_any _ _ (fun s1 =>
        Raised_bind _ _ (Emits_list_raised cfg g x hx _ h _ 0)
          (fun s2 h2 => by simpa using h2))
  · rename_i hp
    rw [if_neg hp] at h
    split
    · rename_i hsam
      rw [if_pos hsam] at h
      exact absurd h id
    · rename_i hsam
      rw [if_neg hsam] at h
      simp only [Option.bind_eq_bind]
      rcases h with h | ⟨hne, h⟩
      · refine Raised_bind _ _ (TypeEmits_raised cfg g x hx _ h s _) (fun s1 h1 => ?_)
        split
        · simpa using h1
        · split
          · refine Raised_bind _ _ ?_ (fun s2 h2 => Raised_bind _ _
              (OutputExpressionList_raised cfg g _ _ _ _ (by simpa using h2))
              (fun s3 h3 => by simpa using h3))
            split
            · exact OutputExpression_raised cfg g _ _ _ (by simpa using h1)
            · simpa using h1
          · exact OutputExpression_raised cfg g _ _ _ (by simpa using h1)
      · refine Raised_bind_any _ _ (fun s1 => ?_)
        split
        · rename_i heq
          exact absurd heq hne
        · rename_i first rest heq
          split
          · rename_i harr
            rw [if_pos harr] at h
            rcases h with ⟨size, hsize, hem⟩ | h
            · rw [hsize]
              exact Raised_bind _ _ (Emits_raised cfg g x hx size none hem _) (fun s2 h2 =>
                Raised_bind _ _ (OutputExpressionList_raised cfg g _ _ _ _ (by simpa using h2))
                  (fun s3 h3 => by simpa using h3))
            · rw [heq] at h
              exact Raised_bind_any _ _ (fun s2 =>
                Raised_bind _ _ (Emits_list_raised cfg g x hx _ h _ 0)
                  (fun s3 h3 => by simpa using h3))
          · rename_i harr
            rw [if_neg harr] at h
            obtain ⟨f, hf, hem⟩ := h
            rw [heq] at hf
            simp only [List.head?_cons, Option.some.injEq] at hf
            subst hf
            exact Emits_raised cfg g x hx _ _ hem _

theorem structFields_of_mem (cfg : BuildConfig) (g : GLESGenerator) (x : HLSLExpression)
    (hx : ∀ s c, Raised (OutputExpression.node cfg g s x c)) (indent : Nat)
    (f : HLSLStructField) (hf : TypeEmits cfg g f.type x) (fields : List HLSLStructField)
    (hm : f ∈ fields) (s : GenState) :
    Raised (OutputStatements.structFields cfg g s indent fields) := by
  induction fields generalizing s with
  | nil => simp at hm
  | cons f1 rest ih =>
    simp only [OutputStatements.structFields, Option.bind_eq_bind]
    rcases List.mem_cons.1 hm with rfl | h1
    · exact Raised_bind _ _ (TypeEmits_raised cfg g x hx _ hf _ _)
        (fun s1 h1 => structFields_raised cfg g indent rest _ (by simpa using h1))
    · exact Raised_bind_any _ _ (fun s1 => ih h1 _)

theorem OutputArguments_of_mem (cfg : BuildConfig) (g : GLESGenerator) (x : HLSLExpression)
    (hx : ∀ s c, Raised (OutputExpression.node cfg g s x c))
    (a : HLSLArgument) (ha : TypeEmits cfg g a.type x) (arguments : List HLSLArgument)
    (hm : a ∈ arguments) (s : GenState) (k : Nat) :
    Raised (OutputArguments cfg g s arguments k) := by
  induction arguments generalizing s k with
  | nil => simp at hm
  | cons a1 rest ih =>
    simp only [OutputArguments, Option.bind_eq_bind]
    rcases List.mem_cons.1 hm with rfl | h1
    · exact Raised_bind _ _ (TypeEmits_raised cfg g x hx _ ha _ _)
        (fun s1 h1 => OutputArguments_raised cfg g rest s1 _ h1)
    · exact Raised_bind_any _ _ (fun s1 => ih h1 _ _)

theorem OutputStatements_of_mem (cfg : BuildConfig) (g : GLESGenerator) (indent : Nat)
    (returnType : Option HLSLType) (st : HLSLStatement)
    (h : ∀ s, Raised (OutputStatements.body cfg g s indent st returnType))
    (statement : List HLSLStatement) (hm : st ∈ statement) (s : GenState) :
    Raised (OutputStatements cfg g s indent statement returnType) := by
  induction statement generalizing s with
  | nil => simp at hm
  | cons st1 rest ih =>
    rw [OutputStatements_cons]
    rcases List.mem_cons.1 hm with rfl | h1
    · exact Raised_bind _ _ (h s)
        (fun s1 h1 => OutputStatements_raised cfg g s1 indent rest returnType h1)
    · exact Raised_bind_any _ _ (fun s1 => ih h1 _)

theorem returnStatement_of_emits (cfg : BuildConfig) (g : GLESGenerator) (x : HLSLExpression)
    (hx : ∀ s c, Raised (OutputExpression.node cfg g s x c)) (e : HLSLExpression)
    (rt : Option HLSLType) (hr : OutputStatements.returnsValue e = true)
    (h : Emits cfg g e rt x) (s : GenState) (indent : Nat) :
    Raised (OutputStatements.returnStatement cfg g s indent (some e) rt) := by
  have key : Raised ((OutputExpression cfg g ((s.BeginLine cfg indent).Write "return ") e
      rt).bind fun s1 => some (s1.EndLine ";")) :=
    Raised_bind _ _ (Emits_raised cfg g x hx e rt h _) (fun s1 h1 => by simpa using h1)
  cases e <;>
    first
    | exact key
    | (simp only [OutputStatements.returnsValue] at hr
       simpa [OutputStatements.returnStatement, hr] using key)

theorem StatementEmits_raised (cfg : BuildConfig) (g : GLESGenerator) (x : HLSLExpression)
    (hx : ∀ s c, Raised (OutputExpression.node cfg g s x c)) (st : HLSLStatement)
    (rt : Option HLSLType) (h : StatementEmits cfg g st rt x) :
    ∀ (s : GenState) (indent : Nat), Raised (OutputStatements.body cfg g s indent st rt) := by
  induction h with
  | declaration declaration rt x hn ht hd =>
    intro s indent
    rw [OutputStatements_body_declaration]
    simp only [Bool.false_eq_true, if_false]
    unfold OutputStatements.declaration
    rw [if_pos hn, if_pos ht]
    simp only [Option.bind_eq_bind]
    exact Raised_bind _ _ (DeclarationEmits_raised cfg g x hx declaration hd _)
      (fun s1 h1 => by split <;> simpa using h1)
  | structField structure_ rt f x hu hm hf =>
    intro s indent
    rw [OutputStatements_body_struct]
    simp only [Bool.false_eq_true, if_false, hu, if_true]
    exact Raised_bind _ _ (structFields_of_mem cfg g x hx indent f hf _ hm _)
      (fun s1 h1 => by simpa using h1)
  | functionArgument name frt semantic argument statement rt a x he hm ha =>
    intro s indent
    rw [OutputStatements_body_function]
    simp only [Bool.false_eq_true, if_false, he]
    exact Raised_bind _ _ (OutputArguments_of_mem cfg g x hx a ha argument hm _ 0)
      (fun s1 h1 => Raised_bind _ _
        (OutputStatements_raised cfg g _ _ _ _ (by simpa using h1))
        (fun s2 h2 => by simpa using h2))
  | functionBody name frt semantic argument statement rt st x he hm _ ih =>
    intro s indent
    rw [OutputStatements_body_function]
    simp only [Bool.false_eq_true, if_false, he]
    exact Raised_bind_any _ _ (fun s1 => Raised_bind _ _
      (OutputStatements_of_mem cfg g _ _ st (fun s2 => ih hx s2 _) statement hm _)
      (fun s2 h2 => by simpa using h2))
  | expression e rt x he =>
    intro s indent
    rw [OutputStatements_body_expression]
    simp only [Bool.false_eq_true, if_false]
    exact Raised_bind _ _ (Emits_raised cfg g x hx e none he _)
      (fun s1 h1 => by simpa using h1)
  | returnValue e rt x hr he =>
    intro s indent
    rw [OutputStatements_body_return]
    simp only [Bool.false_eq_true, if_false]
    exact returnStatement_of_emits cfg g x hx e rt hr he s indent
  | ifCondition c statement elseStatement rt x hc =>
    intro s indent
    rw [OutputStatements_body_if]
    simp only [Bool.false_eq_true, if_false]
    refine Raised_bind _ _ (Emits_raised cfg g x hx c _ hc _) (fun s1 h1 => Raised_bind _ _
      (OutputStatements_raised cfg g _ _ _ _ (by simpa using h1)) (fun s2 h2 => ?_))
    split
    · simpa using h2
    · exact Raised_bind _ _ (OutputStatements_raised cfg g _ _ _ _ (by simpa using h2))
        (fun s3 h3 => by simpa using h3)
  | ifThen c statement elseStatement rt st x hm _ ih =>
    intro s indent
    rw [OutputStatements_body_if]
    simp only [Bool.false_eq_true, if_false]
    refine Raised_bind_any _ _ (fun s1 => Raised_bind _ _
      (OutputStatements_of_mem cfg g _ _ st (fun s2 => ih hx s2 _) statement hm _)
      (fun s2 h2 => ?_))
    split
    · simpa using h2
    · exact Raised_bind _ _ (OutputStatements_raised cfg g _ _ _ _ (by simpa using h2))
        (fun s3 h3 => by simpa using h3)
  | ifElse c statement elseStatement rt st x hm _ ih =>
    intro s indent
    rw [OutputStatements_body_if]
    simp only [Bool.false_eq_true, if_false]
    refine Raised_bind_any _ _ (fun s1 => Raised_bind_any _ _ (fun s2 => ?_))
    split
    · rename_i hempty
      rw [List.isEmpty_iff] at hempty
      rw [hempty] at hm
      simp at hm
    · exact Raised_bind _ _
        (OutputStatements_of_mem cfg g _ _ st (fun s3 => ih hx s3 _) elseStatement hm _)
        (fun s3 h3 => by simpa using h3)
  | forInitialization initialization c increment statement rt x hd =>
    intro s indent
    rw [OutputStatements_body_for]
    simp only [Bool.false_eq_true, if_false]
    exact Raised_bind _ _ (DeclarationEmits_raised cfg g x hx initialization hd _)
      (fun s1 h1 => Raised_bind _ _ (OutputExpression_raised cfg g _ _ _ (by simpa using h1))
        (fun s2 h2 => Raised_bind _ _
          (OutputExpression_raised cfg g _ _ _ (by simpa using h2))
          (fun s3 h3 => Raised_bind _ _
            (OutputStatements_raised cfg g _ _ _ _ (by simpa using h3))
            (fun s4 h4 => by simpa using h4))))
  | forCondition initialization c increment statement rt x hc =>
    intro s indent
    rw [OutputStatements_body_for]
    simp only [Bool.false_eq_true, if_false]
    exact Raised_bind_any _ _ (fun s1 =>
      Raised_bind _ _ (Emits_raised cfg g x hx c _ hc _)
        (fun s2 h2 => Raised_bind _ _
          (OutputExpression_raised cfg g _ _ _ (by simpa using h2))
          (fun s3 h3 => Raised_bind _ _
            (OutputStatements_raised cfg g _ _ _ _ (by simpa using h3))
            (fun s4 h4 => by simpa using h4))))
  | forIncrement initialization c increment statement rt x hc =>
    intro s indent
    rw [OutputStatements_body_for]
    simp only [Bool.false_eq_true, if_false]
    exact Raised_bind_any _ _ (fun s1 => Raised_bind_any _ _ (fun s2 =>
      Raised_bind _ _ (Emits_raised cfg g x hx increment _ hc _)
        (fun s3 h3 => Raised_bind _ _
          (OutputStatements_raised cfg g _ _ _ _ (by simpa using h3))
          (fun s4 h4 => by simpa using h4))))
  | forBody initialization c increment statement rt st x hm _ ih =>
    intro s indent
    rw [OutputStatements_body_for]
    simp only [Bool.false_eq_true, if_false]
    exact Raised_bind_any _ _ (fun s1 => Raised_bind_any _ _ (fun s2 =>
      Raised_bind_any _ _ (fun s3 => Raised_bind _ _
        (OutputStatements_of_mem cfg g _ _ st (fun s4 => ih hx s4 _) statement hm _)
        (fun s4 h4 => by simpa using h4))))
  | block statement rt st x hm _ ih =>
    intro s indent
    rw [OutputStatements_body_block]
    simp only [Bool.false_eq_true, if_false]
    exact Raised_bind _ _
      (OutputStatements_of_mem cfg g _ _ st (fun s4 => ih hx s4 _) statement hm _)
      (fun s4 h4 => by simpa using h4)

theorem properties_of_emits (cfg : BuildConfig) (g : GLESGenerator) (x : HLSLExpression)
    (hx : ∀ s c, Raised (OutputExpression.node cfg g s x c)) (root : List HLSLStatement)
    (h : PropertiesEmit cfg g root x) (s : GenState) :
    Raised (Generate.properties cfg g s root) := by
  obtain ⟨declaration, first, hm, hp, ha, hfirst, hem⟩ := h
  induction root generalizing s with
  | nil => simp at hm
  | cons st rest ih =>
    rcases List.mem_cons.1 hm with heq | h1
    · subst heq
      simp only [Generate.properties, hp, ha, Bool.not_false, Bool.and_self, if_true,
        Option.bind_eq_bind]
      refine Raised_bind_any _ _ (fun s1 => Raised_bind _ _ ?_
        (fun s2 h2 => properties_raised cfg g rest _ (by simpa using h2)))
      cases hd : declaration.assignment with
      | nil => rw [hd] at hfirst; simp at hfirst
      | cons f l =>
        rw [hd] at hfirst
        simp only [List.head?_cons, Option.some.injEq] at hfirst
        subst hfirst
        exact Emits_raised cfg g x hx _ _ hem _
    · cases st
      case Declaration hidden d1 =>
        simp only [Generate.properties, Option.bind_eq_bind]
        split
        · exact Raised_bind_any _ _ (fun s1 => Raised_bind_any _ _ (fun s2 => ih _ h1))
        · exact ih s h1
      all_goals
        simp only [Generate.properties]
        exact ih s h1

theorem Generate_of_emits (cfg : BuildConfig) (tree : HLSLTree) (version : GLSLVersion)
    (target : Target) (entryName : String) (x : HLSLExpression)
    (hx : ∀ s c, Raised (OutputExpression.node cfg
      (Generate.members cfg tree version target entryName) s x c))
    (h : GenerateEmits cfg tree version target entryName x) (s : GenState)
    (r : Bool × GenState) (hr : Generate cfg s tree version target entryName = some r) :
    r.1 = false := by
  obtain ⟨entryFunction, hfind, hem⟩ := h
  unfold Generate at hr
  simp only [hfind, Option.bind_eq_bind, Option.bind_eq_some] at hr
  obtain ⟨s1, -, s2, h2, s3, h3, s4, h4, hr⟩ := hr
  have hfinal : s4.hasError = true := by
    rcases hem with ⟨st, hm, hst⟩ | hprop | ⟨st, hm, hst⟩
    · have e2 : s2.hasError = true :=
        OutputStatements_of_mem cfg _ 0 none st
          (fun s0 => StatementEmits_raised cfg _ x hx st none hst s0 0) tree.root hm s1 s2 h2
      have e3 : s3.hasError = true :=
        properties_raised cfg _ tree.root _ (by simpa using e2) s3 h3
      exact OutputStatements_raised cfg _ _ 1 _ none (by simpa using e3) s4 h4
    · have e3 : s3.hasError = true := properties_of_emits cfg _ x hx tree.root hprop _ s3 h3
      exact OutputStatements_raised cfg _ _ 1 _ none (by simpa using e3) s4 h4
    · exact OutputStatements_of_mem cfg _ 1 none st
        (fun s0 => StatementEmits_raised cfg _ x hx st none hst s0 1) _ hm _ s4 h4
  simp only [Option.some.injEq] at hr
  rw [← hr]
  simp [hfinal]

/-! ### The run on a tree with a one-statement entry function -/

theorem Generate_exampleEntryTree (s : GenState) (e : HLSLExpression)
    (version : GLSLVersion) :
    ∃ s1 : GenState, s1.hasError = s.hasError ∧
      Generate exampleConfig s (exampleEntryTree e) version .TARGET_FRAGMENT "main"
        = (OutputExpression exampleConfig
            (Generate.members exampleConfig (exampleEntryTree e) version .TARGET_FRAGMENT
              "main") s1 e none).bind fun s2 =>
            some (!s2.hasError, (s2.EndLine ";").WriteLine exampleConfig 0 "\x7d") := by
  have hfind : FindFunction (exampleEntryTree e).root "main"
      = some { name := "main", returnType := HLSLType.ofBase .Void, semantic := none,
               argument := [], statement := [.ExpressionStatement false e] } := by
    simp [FindFunction, exampleEntryTree, String_Equal]
  have hroot : (exampleEntryTree e).root
      = [.Function false "main" (HLSLType.ofBase .Void) none []
          [.ExpressionStatement false e]] := rfl
  have hentry : String_Equal "main" (Generate.members exampleConfig (exampleEntryTree e)
      version .TARGET_FRAGMENT "main").entryName = true := by
    simp [String_Equal, Generate.members]
  have hout : ∀ s0 : GenState,
      Generate.fragmentOutDeclarations exampleConfig (exampleEntryTree e) version s0 = s0 := by
    intro s0
    simp [Generate.fragmentOutDeclarations, HLSLTree.FindGlobalStruct, FindStruct, hroot]
  have hin : ∀ s0 : GenState,
      Generate.inputDeclarations exampleConfig (exampleEntryTree e) version s0
        { name := "main", returnType := HLSLType.ofBase .Void, semantic := none,
          argument := [], statement := [.ExpressionStatement false e] } = s0 := by
    intro s0
    simp [Generate.inputDeclarations]
  unfold Generate
  simp only [hfind, Option.bind_eq_bind]
  simp only [hroot, OutputStatements_cons, OutputStatements_nil,
    OutputStatements_body_function, OutputStatements_body_expression, hentry,
    Generate.properties, Bool.false_eq_true, if_false, if_true, Option.some_bind,
    Option.bind_some, hout, hin, ite_self, reduceCtorEq]
  refine ⟨(((((({ s with code := "" } : GenState).WriteLines exampleConfig
      (Generate.preamble exampleConfig (exampleEntryTree e) version .TARGET_FRAGMENT)).WriteLine
      exampleConfig 0 "void main()").WriteLine exampleConfig 0 "\x7b").WriteLine
      exampleConfig 1 "//properties").WriteLine exampleConfig 1 "").BeginLine exampleConfig 1,
    by simp, ?_⟩
  generalize OutputExpression _ _ _ e none = o
  cases o <;> simp

theorem exampleEntryTree_emits (e : HLSLExpression) (version : GLSLVersion) :
    GenerateEmits exampleConfig (exampleEntryTree e) version .TARGET_FRAGMENT "main" e :=
  ⟨{ name := "main", returnType := HLSLType.ofBase .Void, semantic := none,
     argument := [], statement := [.ExpressionStatement false e] },
    by simp [FindFunction, exampleEntryTree, String_Equal],
    Or.inr (Or.inr ⟨.ExpressionStatement false e, List.mem_singleton.2 rfl,
      StatementEmits.expression e none e (Emits.here e none)⟩)⟩

theorem GenState.Error_code (s : GenState) (message : String) :
    (s.Error message).code = s.code := by
  unfold GenState.Error
  split <;> rfl

theorem node_of_wrongArgumentCount (cfg : BuildConfig) (g : GLESGenerator) (s : GenState)
    (x : HLSLExpression) (c : Bool) (hx : wrongArgumentCount x = true) :
    OutputExpression.node cfg g s x c = some (s.Error "mul expects 2 arguments")
      ∨ OutputExpression.node cfg g s x c = some (s.Error "saturate expects 1 argument") := by
  cases x <;> simp only [wrongArgumentCount, Bool.false_eq_true] at hx
  rename_i t functionName functionArgument argument
  rw [OutputExpression_node_call]
  split at hx
  · rename_i hm
    rw [if_pos hm]
    left
    split
    · simp [GetFunctionArguments] at hx
    · rfl
  · rename_i hm
    rw [if_neg hm]
    split at hx
    · rename_i hsat
      rw [if_pos hsat]
      right
      split
      · simp [GetFunctionArguments] at hx
      · rfl
    · exact absurd hx (by simp)

theorem node_of_wrongFetchArguments (cfg : BuildConfig) (g : GLESGenerator) (s : GenState)
    (x : HLSLExpression) (c : Bool) (hv : g.version = .GLSL_300)
    (hx : wrongFetchArguments x = true) :
    OutputExpression.node cfg g s x c
      = some (s.Error "FramebufferFetch expects 1 integer argument") := by
  cases x <;> simp only [wrongFetchArguments, Bool.false_eq_true] at hx
  rename_i t functionName functionArgument argument
  simp only [Bool.and_eq_true, Bool.not_eq_true'] at hx
  obtain ⟨hn, harg⟩ := hx
  have hname : functionName = "FramebufferFetch" := by simpa [String_Equal] using hn
  subst hname
  rw [OutputExpression_node_call, if_neg (by decide), if_neg (by decide),
    if_pos ⟨hv, by decide⟩]
  split
  · simp [isOneIntLiteral] at harg
  · rfl

theorem Generate_fails_of_raised (cfg : BuildConfig) (tree : HLSLTree)
    (version : GLSLVersion) (target : Target) (entryName : String) (x : HLSLExpression)
    (hx : ∀ s c, Raised (OutputExpression.node cfg
      (Generate.members cfg tree version target entryName) s x c))
    (h : GenerateEmits cfg tree version target entryName x) (s : GenState)
    (hret : Generate cfg s tree version target entryName ≠ none) :
    ∃ s1, Generate cfg s tree version target entryName = some (false, s1) := by
  cases hg : Generate cfg s tree version target entryName with
  | none => exact absurd hg hret
  | some r =>
    have hr := Generate_of_emits cfg tree version target entryName x hx h s r hg
    obtain ⟨b, s1⟩ := r
    simp only at hr
    subst hr
    exact ⟨s1, rfl⟩

/-! ## C4: `mul` and `saturate` with a wrong number of arguments -/

/-- C4: when `Generate` reaches (through statements that are not hidden and
the recursive calls of the emitter) a call of `mul` without exactly two
arguments or of `saturate` without exactly one, every run that ends without the
dereference of a null pointer returns `false`; and at that call
`OutputExpression` writes nothing, neither the callee nor an argument: the
state after the node is the state before with the error reported. -/
theorem Generate_wrong_argument_count (cfg : BuildConfig) (s : GenState) (tree : HLSLTree)
    (version : GLSLVersion) (target : Target) (entryName : String) (x : HLSLExpression)
    (hx : wrongArgumentCount x = true)
    (hem : GenerateEmits cfg tree version target entryName x)
    (hret : Generate cfg s tree version target entryName ≠ none) :
    (∃ s1, Generate cfg s tree version target entryName = some (false, s1))
    ∧ ∀ (g : GLESGenerator) (s0 : GenState) (c : Bool), ∃ message,
        OutputExpression.node cfg g s0 x c = some (s0.Error message)
        ∧ (message = "mul expects 2 arguments" ∨ message = "saturate expects 1 argument")
        ∧ (s0.Error message).code = s0.code
        ∧ (s0.Error message).hasError = true := by
  refine ⟨Generate_fails_of_raised cfg tree version target entryName x (fun s0 c => ?_) hem s
    hret, fun g s0 c => ?_⟩
  · rcases node_of_wrongArgumentCount cfg _ s0 x c hx with h | h <;> rw [h] <;> simp
  · rcases node_of_wrongArgumentCount cfg g s0 x c hx with h | h
    · exact ⟨_, h, Or.inl rfl, GenState.Error_code _ _, GenState.Error_hasError _ _⟩
    · exact ⟨_, h, Or.inr rfl, GenState.Error_code _ _, GenState.Error_hasError _ _⟩

/-- C4 at a concrete input: the entry function `main` whose body is the
statement `saturate();`. -/
theorem Generate_wrong_argument_count_witness :
    wrongArgumentCount saturateNoArguments = true
    ∧ GenerateEmits exampleConfig (exampleEntryTree saturateNoArguments) .GLSL_100
        .TARGET_FRAGMENT "main" saturateNoArguments
    ∧ Generate exampleConfig freshState (exampleEntryTree saturateNoArguments) .GLSL_100
        .TARGET_FRAGMENT "main" ≠ none
    ∧ ∃ s1, Generate exampleConfig freshState (exampleEntryTree saturateNoArguments) .GLSL_100
        .TARGET_FRAGMENT "main" = some (false, s1) :=
  have hret : Generate exampleConfig freshState (exampleEntryTree saturateNoArguments)
      .GLSL_100 .TARGET_FRAGMENT "main" ≠ none := by
    obtain ⟨s1, -, heq⟩ := Generate_exampleEntryTree freshState saturateNoArguments .GLSL_100
    rw [heq, OutputExpression_of_cast_false exampleConfig _ s1 saturateNoArguments none rfl]
    rcases node_of_wrongArgumentCount exampleConfig
      (Generate.members exampleConfig (exampleEntryTree saturateNoArguments) .GLSL_100
        .TARGET_FRAGMENT "main") s1 saturateNoArguments false (by decide) with h | h <;>
      rw [h] <;> simp
  ⟨by decide, exampleEntryTree_emits saturateNoArguments .GLSL_100, hret,
    (Generate_wrong_argument_count exampleConfig freshState
      (exampleEntryTree saturateNoArguments) .GLSL_100 .TARGET_FRAGMENT "main"
      saturateNoArguments (by decide) (exampleEntryTree_emits saturateNoArguments .GLSL_100)
      hret).1⟩

/-! ## C5: `FramebufferFetch` with a wrong argument list -/

/-- C5, counterexample: for GLSL_100 the entry function `main` whose body is
the statement `FramebufferFetch();`, a call without arguments, is generated
with success: the call is written as an ordinary function call. -/
theorem Generate_fetch_counterexample :
    wrongFetchArguments fetchNoArguments = true
    ∧ (Generate exampleConfig freshState (exampleEntryTree fetchNoArguments) .GLSL_100
        .TARGET_FRAGMENT "main").map Prod.fst = some true := by
  refine ⟨by decide, ?_⟩
  obtain ⟨s1, h1, heq⟩ := Generate_exampleEntryTree freshState fetchNoArguments .GLSL_100
  rw [heq, OutputExpression_of_cast_false exampleConfig _ s1 fetchNoArguments none rfl]
  unfold fetchNoArguments
  rw [OutputExpression_node_call, if_neg (by decide), if_neg (by decide),
    if_neg (by simp [Generate.members]), OutputExpressionList]
  simp [h1, freshState]

/-- C5, amended: for GLSL_300, when `Generate` reaches a call of
`FramebufferFetch` whose argument chain is not exactly one integer literal,
every run that ends without the dereference of a null pointer returns
`false`. -/
theorem Generate_fetch_arguments (cfg : BuildConfig) (s : GenState) (tree : HLSLTree)
    (target : Target) (entryName : String) (x : HLSLExpression)
    (hx : wrongFetchArguments x = true)
    (hem : GenerateEmits cfg tree .GLSL_300 target entryName x)
    (hret : Generate cfg s tree .GLSL_300 target entryName ≠ none) :
    ∃ s1, Generate cfg s tree .GLSL_300 target entryName = some (false, s1) := by
  refine Generate_fails_of_raised cfg tree .GLSL_300 target entryName x (fun s0 c => ?_) hem s
    hret
  rw [node_of_wrongFetchArguments cfg _ s0 x c rfl hx]
  simp

/-- C5, amended, at a concrete input: for GLSL_300 the entry function `main`
whose body is the statement `FramebufferFetch();`. -/
theorem Generate_fetch_arguments_witness :
    wrongFetchArguments fetchNoArguments = true
    ∧ GenerateEmits exampleConfig (exampleEntryTree fetchNoArguments) .GLSL_300
        .TARGET_FRAGMENT "main" fetchNoArguments
    ∧ Generate exampleConfig freshState (exampleEntryTree fetchNoArguments) .GLSL_300
        .TARGET_FRAGMENT "main" ≠ none
    ∧ ∃ s1, Generate exampleConfig freshState (exampleEntryTree fetchNoArguments) .GLSL_300
        .TARGET_FRAGMENT "main" = some (false, s1) :=
  have hret : Generate exampleConfig freshState (exampleEntryTree fetchNoArguments)
      .GLSL_300 .TARGET_FRAGMENT "main" ≠ none := by
    obtain ⟨s1, -, heq⟩ := Generate_exampleEntryTree freshState fetchNoArguments .GLSL_300
    rw [heq, OutputExpression_of_cast_false exampleConfig _ s1 fetchNoArguments none rfl,
      node_of_wrongFetchArguments exampleConfig _ s1 fetchNoArguments false rfl (by decide)]
    simp
  ⟨by decide, exampleEntryTree_emits fetchNoArguments .GLSL_300, hret,
    Generate_fetch_arguments exampleConfig freshState (exampleEntryTree fetchNoArguments)
      .TARGET_FRAGMENT "main" fetchNoArguments (by decide)
      (exampleEntryTree_emits fetchNoArguments .GLSL_300) hret⟩

/-! ## C11: the pre-scan for `mrtUsed` -/

theorem asciiLower_length (a : String) : (asciiLower a).length = a.length := by
  show (List.map Char.toLower a.data).length = a.data.length
  exact List.length_map _ _

theorem GetFragmentOutTargetSemantic_length (index : Nat) :
    (GetFragmentOutTargetSemantic index).length ≤ 10 := by
  unfold GetFragmentOutTargetSemantic
  split
  · decide
  · rw [String.length_push]
    decide

theorem stricmp_ne_of_length (a b : String) (h : a.length ≠ b.length) : stricmp a b ≠ 0 := by
  rw [Ne, stricmp_eq_zero]
  intro heq
  apply h
  rw [← asciiLower_length a, ← asciiLower_length b, heq]

theorem mrtUsed_field_iff (maxTargets : Nat) (hmax : maxTargets ≤ 10) (semantic : String) :
    (List.range' 1 (maxTargets - 1)).any (fun outIndex =>
        decide (stricmp semantic (GetFragmentOutTargetSemantic outIndex) = 0)) = true
      ↔ ∃ N, 1 ≤ N ∧ N < maxTargets ∧ asciiLower semantic = "sv_target" ++ toString N := by
  simp only [List.any_eq_true, List.mem_range', decide_eq_true_eq, stricmp_eq_zero]
  constructor
  · rintro ⟨N, ⟨i, hi, rfl⟩, h⟩
    refine ⟨1 + 1 * i, by omega, by omega, ?_⟩
    rw [h, asciiLower_targetSemantic _ (by omega)]
  · rintro ⟨N, h1, h2, h⟩
    refine ⟨N, ⟨N - 1, by omega, by omega⟩, ?_⟩
    rw [h, asciiLower_targetSemantic _ (by omega)]

/-- C11, counterexample: in a build with four render targets a struct
`fragment_out` whose field has the semantic `SV_TARGET5` leaves `mrtUsed`
false; and whatever the number of render targets is, the semantic
`SV_TARGET10` leaves it false. -/
theorem Generate_mrtUsed_counterexample :
    (exampleFragmentTree [exampleField "color" "SV_TARGET5"] 0).FindGlobalStruct
        (some "fragment_out")
      = some { name := "fragment_out", field := [exampleField "color" "SV_TARGET5"],
               usage := .struct_FragmentOut }
    ∧ Generate.mrtUsed exampleConfig (exampleFragmentTree [exampleField "color" "SV_TARGET5"] 0)
      = false
    ∧ ∀ cfg : BuildConfig,
        Generate.mrtUsed cfg (exampleFragmentTree [exampleField "color" "SV_TARGET10"] 0)
          = false := by
  refine ⟨rfl, by decide, fun cfg => ?_⟩
  have hs : (exampleFragmentTree [exampleField "color" "SV_TARGET10"] 0).FindGlobalStruct
      (some "fragment_out")
      = some { name := "fragment_out", field := [exampleField "color" "SV_TARGET10"],
               usage := .struct_FragmentOut } := rfl
  unfold Generate.mrtUsed
  rw [hs]
  simp only [List.any_cons, List.any_nil, Bool.or_false, exampleField]
  rw [List.any_eq_false]
  intro i _
  have hne := stricmp_ne_of_length "SV_TARGET10" (GetFragmentOutTargetSemantic i)
    (by have h := GetFragmentOutTargetSemantic_length i
        have h11 : ("SV_TARGET10" : String).length = 11 := by decide
        omega)
  simpa using hne

/-- C11, amended: after the pre-scan at the start of `Generate`, `mrtUsed` is
true exactly when a struct `fragment_out` exists and one of its fields has a
semantic that is, up to letter case, `SV_TARGETN` for an `N` with
`1 ≤ N < MAX_RENDER_TARGET_COUNT`; the number of render targets is at most
10. -/
theorem Generate_mrtUsed (cfg : BuildConfig) (tree : HLSLTree) (version : GLSLVersion)
    (target : Target) (entryName : String) (hmax : cfg.MAX_RENDER_TARGET_COUNT ≤ 10) :
    (Generate.members cfg tree version target entryName).mrtUsed = true
      ↔ ∃ fragment_out, tree.FindGlobalStruct (some "fragment_out") = some fragment_out
          ∧ ∃ f ∈ fragment_out.field, ∃ semantic, f.semantic = some semantic
            ∧ ∃ N, 1 ≤ N ∧ N < cfg.MAX_RENDER_TARGET_COUNT
              ∧ asciiLower semantic = "sv_target" ++ toString N := by
  have hm : (Generate.members cfg tree version target entryName).mrtUsed
      = Generate.mrtUsed cfg tree := rfl
  rw [hm]
  unfold Generate.mrtUsed
  cases hs : tree.FindGlobalStruct (some "fragment_out") with
  | none => simp
  | some fragment_out =>
    simp only [List.any_eq_true, Option.some.injEq, exists_eq_left']
    constructor
    · rintro ⟨f, hf, h⟩
      cases hsem : f.semantic with
      | none => rw [hsem] at h; exact absurd h (by simp)
      | some semantic =>
        rw [hsem] at h
        exact ⟨f, hf, semantic, hsem,
          (mrtUsed_field_iff cfg.MAX_RENDER_TARGET_COUNT hmax semantic).1 h⟩
    · rintro ⟨f, hf, semantic, hsem, h⟩
      refine ⟨f, hf, ?_⟩
      rw [hsem]
      exact (mrtUsed_field_iff cfg.MAX_RENDER_TARGET_COUNT hmax semantic).2 h

/-- C11, amended, at a concrete input: four render targets and a field with
the semantic `SV_TARGET1` (see `mrtTree`). -/
theorem Generate_mrtUsed_witness :
    exampleConfig.MAX_RENDER_TARGET_COUNT ≤ 10
    ∧ ((Generate.members exampleConfig mrtTree .GLSL_300 .TARGET_FRAGMENT "fp_main").mrtUsed
        = true
      ↔ ∃ fragment_out, mrtTree.FindGlobalStruct (some "fragment_out") = some fragment_out
          ∧ ∃ f ∈ fragment_out.field, ∃ semantic, f.semantic = some semantic
            ∧ ∃ N, 1 ≤ N ∧ N < exampleConfig.MAX_RENDER_TARGET_COUNT
              ∧ asciiLower semantic = "sv_target" ++ toString N)
    ∧ (Generate.members exampleConfig mrtTree .GLSL_300 .TARGET_FRAGMENT "fp_main").mrtUsed
        = true :=
  ⟨by decide,
    Generate_mrtUsed exampleConfig mrtTree .GLSL_300 .TARGET_FRAGMENT "fp_main" (by decide),
    by decide⟩

/-! ## C12: the qualifiers of the interface declarations -/

theorem firstWord_of_data (line word : String) (rest : List Char)
    (hd : line.data = word.data ++ ' ' :: rest) (h : ∀ c ∈ word.data, c ≠ ' ') :
    firstWord line = word := by
  have h1 : ∀ l : List Char, (∀ c ∈ l, c ≠ ' ') →
      (l ++ ' ' :: rest).takeWhile (fun c => c != ' ') = l := by
    intro l
    induction l with
    | nil => intro _; simp
    | cons a l ih =>
      intro hl
      have hb : (a != ' ') = true := by simpa using hl a (List.mem_cons_self _ _)
      simp [List.takeWhile, hb, ih (fun c hc => hl c (List.mem_cons_of_mem _ hc))]
  unfold firstWord
  rw [hd, h1 word.data h]

theorem attributeLine_firstWord (version : GLSLVersion) (field : HLSLStructField) :
    firstWord (Generate.attributeLine version field)
      = if version = .GLSL_100 then "attribute" else "in" := by
  unfold Generate.attributeLine
  simp only
  split
  · exact firstWord_of_data _ "attribute" _ rfl (by decide)
  · exact firstWord_of_data _ "in" _ rfl (by decide)

theorem varyingInLine_firstWord (version : GLSLVersion) (field : HLSLStructField) :
    firstWord (Generate.varyingInLine version field)
      = if version = .GLSL_100 then "varying" else "in" := by
  unfold Generate.varyingInLine
  split
  · exact firstWord_of_data _ "varying" _ rfl (by decide)
  · exact firstWord_of_data _ "in" _ rfl (by decide)

theorem varyingOutLine_firstWord (version : GLSLVersion) (field : HLSLStructField) :
    firstWord (Generate.varyingOutLine version field)
      = if version = .GLSL_100 then "varying" else "out" := by
  unfold Generate.varyingOutLine
  split
  · exact firstWord_of_data _ "varying" _ rfl (by decide)
  · exact firstWord_of_data _ "out" _ rfl (by decide)

theorem varyingOutFields_eq (cfg : BuildConfig) (version : GLSLVersion)
    (fields : List HLSLStructField) (s : GenState) :
    Generate.varyingOutFields cfg version s fields
      = if fields.all (fun f => f.semantic.isSome) then
          some (s.WriteLines cfg
            ((fields.filter Generate.isVarying).map (Generate.varyingOutLine version)))
        else none := by
  induction fields generalizing s with
  | nil => rfl
  | cons f rest ih =>
    unfold Generate.varyingOutFields
    cases hsem : f.semantic with
    | none => simp [hsem]
    | some semantic =>
      simp only [List.all_cons, hsem, Option.isSome_some, Bool.true_and]
      by_cases hv : stricmp semantic "SV_POSITION" ≠ 0 ∧ stricmp semantic "SV_TARGET" ≠ 0
      · have hvar : Generate.isVarying f = true := by
          simp only [Generate.isVarying, hsem]
          exact decide_eq_true hv
        rw [if_pos hv, ih, List.filter_cons_of_pos hvar, List.map_cons,
          GenState.WriteLines_cons]
        rfl
      · have hvar : Generate.isVarying f = false := by
          simp only [Generate.isVarying, hsem]
          exact decide_eq_false hv
        rw [if_neg hv, ih, List.filter_cons_of_neg (by simp [hvar])]

theorem vertexOutDeclarations_lines (cfg : BuildConfig) (tree : HLSLTree)
    (version : GLSLVersion) (statement : List HLSLStatement) (s s1 : GenState)
    (h : Generate.vertexOutDeclarations cfg tree version s statement = some s1) :
    ∃ fields : List HLSLStructField, (∀ f ∈ fields, Generate.isVarying f = true)
      ∧ s1 = s.WriteLines cfg (fields.map (Generate.varyingOutLine version)) := by
  induction statement generalizing s with
  | nil =>
    simp only [Generate.vertexOutDeclarations, Option.some.injEq] at h
    exact ⟨[], by simp, h ▸ rfl⟩
  | cons st rest ih =>
    cases st
    case ReturnStatement hidden expression =>
      simp only [Generate.vertexOutDeclarations] at h
      cases expression with
      | none => simp at h
      | some e =>
        simp only at h
        cases hs : tree.FindGlobalStruct e.expressionType.typeName with
        | none => rw [hs] at h; simp at h
        | some out_struct =>
          rw [hs] at h
          simp only [Option.bind_eq_bind, varyingOutFields_eq] at h
          split at h
          · simp only [Option.some_bind] at h
            obtain ⟨fields, hf, heq⟩ := ih _ h
            refine ⟨out_struct.field.filter Generate.isVarying ++ fields, ?_, ?_⟩
            · intro f hm
              rcases List.mem_append.1 hm with h1 | h1
              · exact (List.mem_filter.1 h1).2
              · exact hf f h1
            · rw [heq, List.map_append, GenState.WriteLines_append]
          · simp at h
    all_goals
      simp only [Generate.vertexOutDeclarations] at h
      exact ih _ h

theorem inputDeclarations_lines (cfg : BuildConfig) (tree : HLSLTree)
    (version : GLSLVersion) (s : GenState) (entryFunction : HLSLFunction) :
    ∃ fields : List HLSLStructField,
      Generate.inputDeclarations cfg tree version s entryFunction
          = s.WriteLines cfg (fields.map (Generate.attributeLine version))
      ∨ Generate.inputDeclarations cfg tree version s entryFunction
          = s.WriteLines cfg (fields.map (Generate.varyingInLine version)) := by
  unfold Generate.inputDeclarations
  simp only
  split
  · exact ⟨[], Or.inl rfl⟩
  · rename_i in_struct _
    split
    · exact ⟨in_struct.field, Or.inl rfl⟩
    · exact ⟨in_struct.field, Or.inr rfl⟩

theorem fragmentOut_fold_lines (cfg : BuildConfig) (version : GLSLVersion)
    (fields : List HLSLStructField) (st : GenState × List Nat) :
    ∃ lines : List String,
      (fields.foldl (Generate.fragmentOutField cfg version) st).1 = st.1.WriteLines cfg lines
      ∧ ∀ line ∈ lines, ∃ location index,
          line = Generate.layoutLine version location "inout" index
          ∨ line = Generate.layoutLine version location "out" index := by
  induction fields generalizing st with
  | nil => exact ⟨[], rfl, by simp⟩
  | cons f rest ih =>
    rw [List.foldl_cons]
    obtain ⟨lines, heq, hl⟩ := ih (Generate.fragmentOutField cfg version st f)
    have key : ∃ first : List String,
        (Generate.fragmentOutField cfg version st f).1 = st.1.WriteLines cfg first
        ∧ ∀ line ∈ first, ∃ location index,
          line = Generate.layoutLine version location "inout" index
          ∨ line = Generate.layoutLine version location "out" index := by
      unfold Generate.fragmentOutField
      split
      · exact ⟨[], rfl, by simp⟩
      · split
        · refine ⟨[_], rfl, ?_⟩
          intro line hm
          rw [List.mem_singleton] at hm
          subst hm
          split
          · exact ⟨_, _, Or.inl rfl⟩
          · exact ⟨_, _, Or.inr rfl⟩
        · split
          · refine ⟨[_], rfl, ?_⟩
            intro line hm
            rw [List.mem_singleton] at hm
            subst hm
            split
            · exact ⟨_, _, Or.inl rfl⟩
            · exact ⟨_, _, Or.inr rfl⟩
          · exact ⟨[], rfl, by simp⟩
    obtain ⟨first, hfirst, hfl⟩ := key
    refine ⟨first ++ lines, ?_, ?_⟩
    · rw [heq, hfirst, GenState.WriteLines_append]
    · intro line hm
      rcases List.mem_append.1 hm with h1 | h1
      · exact hfl line h1
      · exact hl line h1

theorem fragmentOutDeclarations_lines (cfg : BuildConfig) (tree : HLSLTree)
    (version : GLSLVersion) (s : GenState) :
    ∃ lines : List String,
      Generate.fragmentOutDeclarations cfg tree version s = s.WriteLines cfg lines
      ∧ ∀ line ∈ lines, ∃ location index,
          line = Generate.layoutLine version location "inout" index
          ∨ line = Generate.layoutLine version location "out" index := by
  unfold Generate.fragmentOutDeclarations
  split
  · exact ⟨[], rfl, by simp⟩
  · rename_i fragment_out _
    obtain ⟨lines, heq, hl⟩ := fragmentOut_fold_lines cfg version fragment_out.field
      (s, Generate.fetchUnits (tree.FindFunctionCall "FramebufferFetch") [])
    simp only
    rw [fetchOnlyUnits_eq, heq, ← GenState.WriteLines_append]
    refine ⟨_, rfl, ?_⟩
    intro line hm
    rcases List.mem_append.1 hm with h1 | h1
    · exact hl line h1
    · obtain ⟨k, -, hk⟩ := List.mem_map.1 h1
      exact ⟨_, _, Or.inl hk.symm⟩

/-- C12: the interface declarations that `Generate` writes are, for the
fields of the input struct of the entry function, the lines `attributeLine` or
`varyingInLine`, for the fields of the struct returned by the vertex stage the
lines `varyingOutLine`, and in the GLSL_300 fragment stage the `layout` lines.
For GLSL_100 the first word of each of the former is `attribute` or
`varying`; for GLSL_300 it is `in` or `out`, and every `layout` line starts
with the word `layout` and carries the qualifier `inout` or `out`. -/
theorem Generate_interface_qualifiers (cfg : BuildConfig) (tree : HLSLTree)
    (version : GLSLVersion) (s : GenState) (entryFunction : HLSLFunction) :
    (∃ fields : List HLSLStructField,
      Generate.inputDeclarations cfg tree version s entryFunction
          = s.WriteLines cfg (fields.map (Generate.attributeLine version))
      ∨ Generate.inputDeclarations cfg tree version s entryFunction
          = s.WriteLines cfg (fields.map (Generate.varyingInLine version)))
    ∧ (∀ s1, Generate.vertexOutDeclarations cfg tree version s entryFunction.statement
          = some s1 →
        ∃ fields : List HLSLStructField,
          s1 = s.WriteLines cfg (fields.map (Generate.varyingOutLine version)))
    ∧ (∃ lines : List String,
        Generate.fragmentOutDeclarations cfg tree .GLSL_300 s = s.WriteLines cfg lines
        ∧ ∀ line ∈ lines, ∃ location index,
            line = Generate.layoutLine .GLSL_300 location "inout" index
            ∨ line = Generate.layoutLine .GLSL_300 location "out" index)
    ∧ (∀ field : HLSLStructField,
        firstWord (Generate.attributeLine .GLSL_100 field) = "attribute"
        ∧ firstWord (Generate.varyingInLine .GLSL_100 field) = "varying"
        ∧ firstWord (Generate.varyingOutLine .GLSL_100 field) = "varying")
    ∧ (∀ field : HLSLStructField,
        firstWord (Generate.attributeLine .GLSL_300 field) = "in"
        ∧ firstWord (Generate.varyingInLine .GLSL_300 field) = "in"
        ∧ firstWord (Generate.varyingOutLine .GLSL_300 field) = "out")
    ∧ (∀ (location qualifier : String) (index : Int),
        firstWord (Generate.layoutLine .GLSL_300 location qualifier index) = "layout") := by
  refine ⟨inputDeclarations_lines cfg tree version s entryFunction, ?_,
    fragmentOutDeclarations_lines cfg tree .GLSL_300 s, ?_, ?_, ?_⟩
  · intro s1 h
    obtain ⟨fields, -, heq⟩ := vertexOutDeclarations_lines cfg tree version _ s s1 h
    exact ⟨fields, heq⟩
  · intro field
    exact ⟨attributeLine_firstWord .GLSL_100 field, varyingInLine_firstWord .GLSL_100 field,
      varyingOutLine_firstWord .GLSL_100 field⟩
  · intro field
    exact ⟨attributeLine_firstWord .GLSL_300 field, varyingInLine_firstWord .GLSL_300 field,
      varyingOutLine_firstWord .GLSL_300 field⟩
  · intro location qualifier index
    exact firstWord_of_data _ "layout" _ rfl (by decide)

/-! ## C13 to C16: member access on the stage structs -/

theorem memberBinding_out (cfg : BuildConfig) (g : GLESGenerator) (s : GenState)
    (identType : HLSLType) (name field : String) (st : HLSLStruct) (f : HLSLStructField)
    (hbase : identType.baseType = .UserDefined)
    (hstruct : g.tree.FindGlobalStruct identType.typeName = some st)
    (husage : st.usage = .struct_VertexOut ∨ st.usage = .struct_FragmentOut)
    (hfield : st.field.find? (fun f1 => decide (strcmp f1.name field = 0)) = some f) :
    OutputExpression.memberBinding cfg g s (.IdentifierExpression identType name) field
      = some (OutputExpression.outField cfg g s f, false) := by
  unfold OutputExpression.memberBinding
  simp only [hbase, hstruct, if_true, husage, hfield]

theorem OutputExpression_member_bound (cfg : BuildConfig) (g : GLESGenerator) (s s1 : GenState)
    (t : HLSLType) (object : HLSLExpression) (field : String) (c : Bool)
    (h : OutputExpression.memberBinding cfg g s object field = some (s1, false)) :
    OutputExpression.node cfg g s (.MemberAccess t object field) c
      = some (s1.closeCast c) := by
  rw [OutputExpression.node, h]

theorem outField_position (cfg : BuildConfig) (g : GLESGenerator) (s : GenState)
    (f : HLSLStructField) (h : semanticIs f.semantic "SV_POSITION" = true) :
    OutputExpression.outField cfg g s f = s.Write "gl_Position" := by
  unfold OutputExpression.outField
  unfold semanticIs at h
  simp only
  rw [if_pos h]

/-- C13: a member access `id.f`, where the type of the identifier is a struct
with the usage tag vertex-out or fragment-out and the field `f` of the struct
has the semantic `SV_POSITION` in any letter case, is written as
`gl_Position`; and the loop over the fields of the struct returned by the
vertex stage writes a line only for the fields that pass its test, which such
a field does not. -/
theorem OutputExpression_position (cfg : BuildConfig) (g : GLESGenerator) (s : GenState)
    (t identType : HLSLType) (name field : String) (st : HLSLStruct) (f : HLSLStructField)
    (semantic : String) (c : Bool)
    (hbase : identType.baseType = .UserDefined)
    (hstruct : g.tree.FindGlobalStruct identType.typeName = some st)
    (husage : st.usage = .struct_VertexOut ∨ st.usage = .struct_FragmentOut)
    (hfield : st.field.find? (fun f1 => decide (strcmp f1.name field = 0)) = some f)
    (hsem : f.semantic = some semantic)
    (hpos : asciiLower semantic = "sv_position") :
    OutputExpression.node cfg g s (.MemberAccess t (.IdentifierExpression identType name) field)
        c = some ((s.Write "gl_Position").closeCast c)
    ∧ OutputExpression cfg g s (.MemberAccess t (.IdentifierExpression identType name) field)
        none = some (s.Write "gl_Position")
    ∧ Generate.isVarying f = false
    ∧ (∀ (version : GLSLVersion) (fields : List HLSLStructField) (s0 s1 : GenState),
        Generate.varyingOutFields cfg version s0 fields = some s1 →
        s1 = s0.WriteLines cfg
          ((fields.filter Generate.isVarying).map (Generate.varyingOutLine version)))
    ∧ (∀ (tree : HLSLTree) (version : GLSLVersion) (statement : List HLSLStatement)
        (s0 s1 : GenState),
        Generate.vertexOutDeclarations cfg tree version s0 statement = some s1 →
        ∃ fields : List HLSLStructField, (∀ f1 ∈ fields, Generate.isVarying f1 = true)
          ∧ s1 = s0.WriteLines cfg (fields.map (Generate.varyingOutLine version))) := by
  have hzero : stricmp semantic "SV_POSITION" = 0 := by
    rw [stricmp_eq_zero, hpos]
    decide
  have hs : semanticIs f.semantic "SV_POSITION" = true := by
    simp [semanticIs, hsem, hzero]
  have hnode : ∀ c1, OutputExpression.node cfg g s
      (.MemberAccess t (.IdentifierExpression identType name) field) c1
      = some ((s.Write "gl_Position").closeCast c1) := by
    intro c1
    rw [OutputExpression_member_bound cfg g s _ t _ field c1
      (memberBinding_out cfg g s identType name field st f hbase hstruct husage hfield),
      outField_position cfg g s f hs]
  refine ⟨hnode c, ?_, ?_, ?_, ?_⟩
  · rw [OutputExpression_of_cast_false cfg g s
      (.MemberAccess t (.IdentifierExpression identType name) field) none rfl, hnode false]
    rfl
  · simp [Generate.isVarying, hsem, hzero]
  · intro version fields s0 s1 h
    rw [varyingOutFields_eq] at h
    split at h
    · exact (Option.some.inj h).symm
    · exact absurd h (by simp)
  · intro tree version statement s0 s1 h
    exact vertexOutDeclarations_lines cfg tree version statement s0 s1 h

/-- C13 at a concrete input: the struct `vertex_out` with the field `pos` of
semantic `sv_Position`, and the access `output.pos`. -/
theorem OutputExpression_position_witness :
    (structType "vertex_out").baseType = .UserDefined
    ∧ (structGenerator "vertex_out" .struct_VertexOut
          [typedField "pos" .Float4 "sv_Position"] .GLSL_100 .TARGET_VERTEX).tree.FindGlobalStruct
            (structType "vertex_out").typeName
        = some { name := "vertex_out", field := [typedField "pos" .Float4 "sv_Position"],
                 usage := .struct_VertexOut }
    ∧ asciiLower "sv_Position" = "sv_position"
    ∧ OutputExpression exampleConfig
        (structGenerator "vertex_out" .struct_VertexOut
          [typedField "pos" .Float4 "sv_Position"] .GLSL_100 .TARGET_VERTEX) freshState
        (exampleAccess "vertex_out" "pos" .Float4) none
      = some (freshState.Write "gl_Position") :=
  ⟨rfl, rfl, by decide,
    (OutputExpression_position exampleConfig
      (structGenerator "vertex_out" .struct_VertexOut
        [typedField "pos" .Float4 "sv_Position"] .GLSL_100 .TARGET_VERTEX)
      freshState (HLSLType.ofBase .Float4)
      (structType "vertex_out") "output" "pos"
      { name := "vertex_out", field := [typedField "pos" .Float4 "sv_Position"],
        usage := .struct_VertexOut }
      (typedField "pos" .Float4 "sv_Position") "sv_Position" false rfl rfl (Or.inl rfl)
      rfl rfl (by decide)).2.1⟩

theorem OutputExpression_member_out (cfg : BuildConfig) (g : GLESGenerator) (s : GenState)
    (t identType : HLSLType) (name field : String) (st : HLSLStruct) (f : HLSLStructField)
    (hbase : identType.baseType = .UserDefined)
    (hstruct : g.tree.FindGlobalStruct identType.typeName = some st)
    (husage : st.usage = .struct_VertexOut ∨ st.usage = .struct_FragmentOut)
    (hfield : st.field.find? (fun f1 => decide (strcmp f1.name field = 0)) = some f) :
    OutputExpression cfg g s (.MemberAccess t (.IdentifierExpression identType name) field)
        none = some (OutputExpression.outField cfg g s f) := by
  rw [OutputExpression_of_cast_false cfg g s
      (.MemberAccess t (.IdentifierExpression identType name) field) none rfl,
    OutputExpression_member_bound cfg g s _ t _ field false
      (memberBinding_out cfg g s identType name field st f hbase hstruct husage hfield)]
  rfl

/-- C14, the divergence of the code: `GetBuiltInSemantic` maps `DEPTH` to
`gl_FragDepth`, but the member access `output.depth` on a field of
`fragment_out` with the semantic `DEPTH` is written as `var_depth`, and for a
struct returned by the vertex stage the field is declared as a varying. -/
theorem OutputExpression_depth_divergence :
    GetBuiltInSemantic "DEPTH" = some "gl_FragDepth"
    ∧ OutputExpression exampleConfig
        (structGenerator "fragment_out" .struct_FragmentOut
          [typedField "depth" .Float "DEPTH"] .GLSL_300 .TARGET_FRAGMENT) freshState
        (exampleAccess "fragment_out" "depth" .Float) none
      = some (freshState.Write "var_depth")
    ∧ Generate.varyingOutFields exampleConfig .GLSL_100 freshState
        [typedField "depth" .Float "DEPTH"]
      = some (freshState.WriteLine exampleConfig 0 "varying  float var_depth;") := by
  refine ⟨by decide, ?_, by decide⟩
  rw [exampleAccess, OutputExpression_member_out exampleConfig
    (structGenerator "fragment_out" .struct_FragmentOut
      [typedField "depth" .Float "DEPTH"] .GLSL_300 .TARGET_FRAGMENT) freshState
    (HLSLType.ofBase .Float) (structType "fragment_out") "output" "depth"
    { name := "fragment_out", field := [typedField "depth" .Float "DEPTH"],
      usage := .struct_FragmentOut }
    (typedField "depth" .Float "DEPTH") rfl rfl (Or.inr rfl) rfl]
  decide

theorem strcmp_eq_zero (a b : String) : strcmp a b = 0 ↔ a = b := by
  unfold strcmp
  split <;> simp_all

theorem find?_name (fields : List HLSLStructField) (field : String) (f : HLSLStructField)
    (h : fields.find? (fun f1 => decide (strcmp f1.name field = 0)) = some f) :
    f.name = field := by
  have h1 := List.find?_some h
  simpa [strcmp_eq_zero] using h1

theorem outField_var (cfg : BuildConfig) (g : GLESGenerator) (s : GenState)
    (f : HLSLStructField)
    (h : ∀ semantic, f.semantic = some semantic →
      asciiLower semantic ≠ "sv_position" ∧ ¬ isTargetSemantic semantic) :
    OutputExpression.outField cfg g s f = s.Write ("var_" ++ f.name) := by
  unfold OutputExpression.outField
  cases hsem : f.semantic with
  | none => simp
  | some semantic =>
    obtain ⟨hp, ht⟩ := h semantic hsem
    have h0 : stricmp semantic "SV_POSITION" ≠ 0 := by
      rw [Ne, stricmp_eq_zero]
      exact hp
    have hk : ∀ text : String, (asciiLower text = "sv_target"
        ∨ ∃ n : Nat, asciiLower text = "sv_target" ++ toString n) →
        stricmp semantic text ≠ 0 := by
      intro text htext
      rw [Ne, stricmp_eq_zero]
      intro heq
      apply ht
      rcases htext with h1 | ⟨n, h1⟩
      · exact Or.inl (heq.trans h1)
      · exact Or.inr ⟨n, heq.trans h1⟩
    have t0 := hk "SV_TARGET" (Or.inl (by decide))
    have t1 := hk "SV_TARGET0" (Or.inr ⟨0, by decide⟩)
    have t2 := hk "SV_TARGET1" (Or.inr ⟨1, by decide⟩)
    have t3 := hk "SV_TARGET2" (Or.inr ⟨2, by decide⟩)
    have t4 := hk "SV_TARGET3" (Or.inr ⟨3, by decide⟩)
    have t5 := hk "SV_TARGET4" (Or.inr ⟨4, by decide⟩)
    have t6 := hk "SV_TARGET5" (Or.inr ⟨5, by decide⟩)
    simp [h0, t0, t1, t2, t3, t4, t5, t6]

theorem memberBinding_vertexIn (cfg : BuildConfig) (g : GLESGenerator) (s : GenState)
    (identType : HLSLType) (name field : String) (st : HLSLStruct) (f : HLSLStructField)
    (hbase : identType.baseType = .UserDefined)
    (hstruct : g.tree.FindGlobalStruct identType.typeName = some st)
    (husage : st.usage = .struct_VertexIn)
    (hfield : st.field.find? (fun f1 => decide (strcmp f1.name field = 0)) = some f) :
    OutputExpression.memberBinding cfg g s (.IdentifierExpression identType name) field
      = some (s.Write ("attr_" ++ f.name), false) := by
  unfold OutputExpression.memberBinding
  simp [hbase, hstruct, husage, hfield]

theorem memberBinding_fragmentIn (cfg : BuildConfig) (g : GLESGenerator) (s : GenState)
    (identType : HLSLType) (name field : String) (st : HLSLStruct) (f : HLSLStructField)
    (hbase : identType.baseType = .UserDefined)
    (hstruct : g.tree.FindGlobalStruct identType.typeName = some st)
    (husage : st.usage = .struct_FragmentIn)
    (hfield : st.field.find? (fun f1 => decide (strcmp f1.name field = 0)) = some f) :
    OutputExpression.memberBinding cfg g s (.IdentifierExpression identType name) field
      = some (s.Write ("var_" ++ f.name), false) := by
  unfold OutputExpression.memberBinding
  simp [hbase, hstruct, husage, hfield]

theorem memberBinding_generic (cfg : BuildConfig) (g : GLESGenerator) (s : GenState)
    (identType : HLSLType) (name field : String) (st : HLSLStruct)
    (hbase : identType.baseType = .UserDefined)
    (hstruct : g.tree.FindGlobalStruct identType.typeName = some st)
    (husage : st.usage = .struct_Generic) :
    OutputExpression.memberBinding cfg g s (.IdentifierExpression identType name) field
      = some (s, true) := by
  unfold OutputExpression.memberBinding
  simp [hbase, hstruct, husage]

theorem OutputExpression_member_bound_none (cfg : BuildConfig) (g : GLESGenerator)
    (s s1 : GenState) (t : HLSLType) (object : HLSLExpression) (field : String)
    (h : OutputExpression.memberBinding cfg g s object field = some (s1, false)) :
    OutputExpression cfg g s (.MemberAccess t object field) none = some s1 := by
  rw [OutputExpression_of_cast_false cfg g s (.MemberAccess t object field) none rfl,
    OutputExpression_member_bound cfg g s s1 t object field false h]
  rfl

/-- C15: for a member access `id.f` on an identifier whose type is a
user-defined struct that the tree declares: with the usage tag vertex-in and a
field `f` the text is `attr_f`; with fragment-in it is `var_f`; with vertex-out
or fragment-out and a field whose semantic is neither `SV_POSITION` nor a
render target semantic it is `var_f`; with the tag generic it is
`(` render(id) `).f`, where the identifier is written by `OutputIdentifier`. -/
theorem OutputExpression_member_access (cfg : BuildConfig) (g : GLESGenerator) (s : GenState)
    (t identType : HLSLType) (name field : String) (st : HLSLStruct)
    (hbase : identType.baseType = .UserDefined)
    (hstruct : g.tree.FindGlobalStruct identType.typeName = some st) :
    (st.usage = .struct_VertexIn →
      ∀ f, st.field.find? (fun f1 => decide (strcmp f1.name field = 0)) = some f →
      OutputExpression cfg g s (.MemberAccess t (.IdentifierExpression identType name) field)
        none = some (s.Write ("attr_" ++ field)))
    ∧ (st.usage = .struct_FragmentIn →
      ∀ f, st.field.find? (fun f1 => decide (strcmp f1.name field = 0)) = some f →
      OutputExpression cfg g s (.MemberAccess t (.IdentifierExpression identType name) field)
        none = some (s.Write ("var_" ++ field)))
    ∧ (st.usage = .struct_VertexOut ∨ st.usage = .struct_FragmentOut →
      ∀ f, st.field.find? (fun f1 => decide (strcmp f1.name field = 0)) = some f →
      (∀ semantic, f.semantic = some semantic →
        asciiLower semantic ≠ "sv_position" ∧ ¬ isTargetSemantic semantic) →
      OutputExpression cfg g s (.MemberAccess t (.IdentifierExpression identType name) field)
        none = some (s.Write ("var_" ++ field)))
    ∧ (st.usage = .struct_Generic →
      OutputExpression cfg g s (.MemberAccess t (.IdentifierExpression identType name) field)
        none
      = some (((OutputIdentifier cfg g (s.Write "(") name).Write ")").Write ("." ++ field)))
    := by
  refine ⟨?_, ?_, ?_, ?_⟩
  · intro husage f hfield
    rw [OutputExpression_member_bound_none cfg g s _ t _ field
      (memberBinding_vertexIn cfg g s identType name field st f hbase hstruct husage hfield),
      find?_name st.field field f hfield]
  · intro husage f hfield
    rw [OutputExpression_member_bound_none cfg g s _ t _ field
      (memberBinding_fragmentIn cfg g s identType name field st f hbase hstruct husage hfield),
      find?_name st.field field f hfield]
  · intro husage f hfield hsem
    rw [OutputExpression_member_bound_none cfg g s _ t _ field
      (memberBinding_out cfg g s identType name field st f hbase hstruct husage hfield),
      outField_var cfg g s f hsem, find?_name st.field field f hfield]
  · intro husage
    have hscalar : OutputExpression.isScalar
        (HLSLExpression.IdentifierExpression identType name).expressionType.baseType
        = false := by
      simp [HLSLExpression.expressionType, hbase, OutputExpression.isScalar]
    have hid : OutputExpression cfg g (s.Write "(") (.IdentifierExpression identType name) none
        = some (OutputIdentifier cfg g (s.Write "(") name) := by
      rw [OutputExpression_of_cast_false cfg g _ (.IdentifierExpression identType name) none rfl,
        OutputExpression.node]
      simp [hbase, GenState.closeCast]
    rw [OutputExpression_of_cast_false cfg g s
      (.MemberAccess t (.IdentifierExpression identType name) field) none rfl,
      OutputExpression.node,
      memberBinding_generic cfg g s identType name field st hbase hstruct husage]
    simp only [hscalar, Bool.false_eq_true, if_false, hid, Option.bind_eq_bind,
      Option.some_bind]
    rfl

/-- C15 at a concrete input: the struct `vertex_in` with the field `uv`, and
the access `output.uv`. -/
theorem OutputExpression_member_access_witness :
    (structType "vertex_in").baseType = .UserDefined
    ∧ (structGenerator "vertex_in" .struct_VertexIn [typedField "uv" .Float2 "TEXCOORD0"]
          .GLSL_100 .TARGET_VERTEX).tree.FindGlobalStruct (structType "vertex_in").typeName
        = some { name := "vertex_in", field := [typedField "uv" .Float2 "TEXCOORD0"],
                 usage := .struct_VertexIn }
    ∧ OutputExpression exampleConfig
        (structGenerator "vertex_in" .struct_VertexIn [typedField "uv" .Float2 "TEXCOORD0"]
          .GLSL_100 .TARGET_VERTEX) freshState (exampleAccess "vertex_in" "uv" .Float2) none
      = some (freshState.Write "attr_uv") :=
  ⟨rfl, rfl,
    (OutputExpression_member_access exampleConfig
      (structGenerator "vertex_in" .struct_VertexIn [typedField "uv" .Float2 "TEXCOORD0"]
        .GLSL_100 .TARGET_VERTEX) freshState (HLSLType.ofBase .Float2)
      (structType "vertex_in") "output" "uv"
      { name := "vertex_in", field := [typedField "uv" .Float2 "TEXCOORD0"],
        usage := .struct_VertexIn } rfl rfl).1 rfl (typedField "uv" .Float2 "TEXCOORD0") rfl⟩

theorem GenState.Write_empty (s : GenState) : s.Write "" = s := by
  apply GenState.eq_of_fields
  · simp [GenState.Write]
  · rfl
  · rfl

theorem outField_single (cfg : BuildConfig) (g : GLESGenerator) (s : GenState)
    (f : HLSLStructField) (semantic : String) (hsem : f.semantic = some semantic)
    (hmrt : g.mrtUsed = false)
    (h : asciiLower semantic = "sv_target"
      ∨ ∃ n : Nat, n ≤ 5 ∧ asciiLower semantic = "sv_target" ++ toString n) :
    OutputExpression.outField cfg g s f = s.Write (FRAGMENT_OUTPUT_NAME g.version) := by
  unfold OutputExpression.outField
  simp only [hsem, stricmp_eq_zero, hmrt]
  rcases h with h | ⟨n, hn, h⟩
  · rw [h]
    simp +decide
  · rw [h]
    interval_cases n <;> simp +decide

theorem targetSlot_some (maxTargets : Nat) (semantic : String) (n : Nat)
    (h : targetSlot maxTargets semantic = some n) :
    n < maxTargets ∨ n = 0 := by
  unfold targetSlot at h
  split at h
  · right
    exact (Option.some.inj h).symm
  · left
    have hm := List.mem_of_find?_eq_some h
    exact List.mem_range.1 hm

theorem outField_slot (cfg : BuildConfig) (hmax : cfg.MAX_RENDER_TARGET_COUNT ≤ 10)
    (g : GLESGenerator) (s : GenState) (f : HLSLStructField) (semantic : String)
    (hsem : f.semantic = some semantic) (hmrt : g.mrtUsed = true) (n : Nat)
    (hslot : targetSlot cfg.MAX_RENDER_TARGET_COUNT semantic = some n) (hn : n ≤ 5) :
    OutputExpression.outField cfg g s f
      = (s.WriteLine cfg 0 (FRAGMENT_MRT_OUTPUT_NAME g.version n)).Write
          (targetSwizzle f.type.baseType) := by
  have hswz : ∀ s2 : GenState,
      (if f.type.baseType = .Float then s2.Write ".x"
        else if f.type.baseType = .Float2 then s2.Write ".xy"
        else if f.type.baseType = .Float3 then s2.Write ".xyz"
        else s2) = s2.Write (targetSwizzle f.type.baseType) := by
    intro s2
    cases f.type.baseType <;> simp [targetSwizzle, GenState.Write_empty]
  unfold OutputExpression.outField
  simp only [hsem, stricmp_eq_zero, hmrt, if_true, hswz]
  by_cases h0 : asciiLower semantic = "sv_target"
  · have hn0 : n = 0 := by
      simp only [targetSlot, h0, if_true, Option.some.injEq] at hslot
      exact hslot.symm
    subst hn0
    have hnone : (List.range cfg.MAX_RENDER_TARGET_COUNT).find?
        (fun outIndex => decide (asciiLower semantic
          = asciiLower (GetFragmentOutTargetSemantic outIndex))) = none := by
      rw [List.find?_eq_none]
      intro i hi
      have hi10 : i < 10 := by have := List.mem_range.1 hi; omega
      rw [h0, asciiLower_targetSemantic i hi10]
      interval_cases i <;> decide
    rw [hnone, h0]
    simp +decide
  · have hfind : (List.range cfg.MAX_RENDER_TARGET_COUNT).find?
        (fun outIndex => decide (asciiLower semantic
          = asciiLower (GetFragmentOutTargetSemantic outIndex))) = some n := by
      simp only [targetSlot, h0, if_false] at hslot
      rw [← hslot]
      apply find?_congr_of_mem
      intro i hi
      have hi10 : i < 10 := by have := List.mem_range.1 hi; omega
      rw [asciiLower_targetSemantic i hi10]
    have hl : asciiLower semantic = "sv_target" ++ toString n := by
      simp only [targetSlot, h0, if_false] at hslot
      simpa using List.find?_some hslot
    rw [hfind]
    rw [hl]
    interval_cases n <;> simp +decide

/-- C16, the divergence of the code: with the outputs `SV_TARGET0` and
`SV_TARGET1` (several render targets are used) and GLSL_300, the access to the
`float4` field of `SV_TARGET1` is written as the slot-indexed name
`out_FragColor1` followed by a line break, which is not the name alone. -/
theorem OutputExpression_render_target_divergence :
    (Generate.members exampleConfig mrtTree .GLSL_300 .TARGET_FRAGMENT "fp_main").mrtUsed = true
    ∧ FRAGMENT_MRT_OUTPUT_NAME .GLSL_300 1 = "out_FragColor1"
    ∧ (OutputExpression exampleConfig
        (Generate.members exampleConfig mrtTree .GLSL_300 .TARGET_FRAGMENT "fp_main")
        freshState (exampleAccess "fragment_out" "color1" .Float4) none).map GenState.code
      = some "out_FragColor1\n" := by
  refine ⟨by decide, by decide, ?_⟩
  rw [exampleAccess, OutputExpression_member_out exampleConfig
    (Generate.members exampleConfig mrtTree .GLSL_300 .TARGET_FRAGMENT "fp_main") freshState
    (HLSLType.ofBase .Float4) (structType "fragment_out") "output" "color1"
    { name := "fragment_out"
      field := [exampleField "color0" "SV_TARGET0", exampleField "color1" "SV_TARGET1"]
      usage := .struct_FragmentOut }
    (exampleField "color1" "SV_TARGET1") rfl rfl (Or.inr rfl) rfl]
  decide

/-- What the member access case writes for a field of a stage output struct
whose semantic is a render target semantic. When `mrtUsed` is false and the
semantic is `SV_TARGET` or `SV_TARGETn` with `n ≤ 5`, the text is the fixed
name of the dialect, `gl_FragColor` or `out_FragColor0`. When `mrtUsed` is true
and the semantic denotes the slot `n` with `n ≤ 5` among at most 10 render
targets, the slot-indexed name of the dialect is written with `WriteLine`,
so that a line break follows it, and then `.x`, `.xy` or `.xyz` when the type
of the field is `float`, `float2` or `float3`. -/
theorem OutputExpression_render_target (cfg : BuildConfig) (g : GLESGenerator)
    (s : GenState) (t identType : HLSLType) (name field : String) (st : HLSLStruct)
    (f : HLSLStructField) (semantic : String)
    (hbase : identType.baseType = .UserDefined)
    (hstruct : g.tree.FindGlobalStruct identType.typeName = some st)
    (husage : st.usage = .struct_VertexOut ∨ st.usage = .struct_FragmentOut)
    (hfield : st.field.find? (fun f1 => decide (strcmp f1.name field = 0)) = some f)
    (hsem : f.semantic = some semantic) :
    (g.mrtUsed = false →
      (asciiLower semantic = "sv_target"
        ∨ ∃ n : Nat, n ≤ 5 ∧ asciiLower semantic = "sv_target" ++ toString n) →
      OutputExpression cfg g s (.MemberAccess t (.IdentifierExpression identType name) field)
        none = some (s.Write (FRAGMENT_OUTPUT_NAME g.version)))
    ∧ (g.mrtUsed = true → cfg.MAX_RENDER_TARGET_COUNT ≤ 10 →
      ∀ n, targetSlot cfg.MAX_RENDER_TARGET_COUNT semantic = some n → n ≤ 5 →
      OutputExpression cfg g s (.MemberAccess t (.IdentifierExpression identType name) field)
          none
        = some ((s.WriteLine cfg 0 (FRAGMENT_MRT_OUTPUT_NAME g.version n)).Write
            (targetSwizzle f.type.baseType))
      ∧ ((s.WriteLine cfg 0 (FRAGMENT_MRT_OUTPUT_NAME g.version n)).Write
            (targetSwizzle f.type.baseType)).code
        = s.code ++ FRAGMENT_MRT_OUTPUT_NAME g.version n ++ "\n"
            ++ targetSwizzle f.type.baseType)
    ∧ FRAGMENT_OUTPUT_NAME .GLSL_100 = "gl_FragColor"
    ∧ FRAGMENT_OUTPUT_NAME .GLSL_300 = "out_FragColor0"
    ∧ (∀ n : Nat, FRAGMENT_MRT_OUTPUT_NAME .GLSL_100 n = "gl_FragData[" ++ toString n ++ "]")
    ∧ (∀ n : Nat, FRAGMENT_MRT_OUTPUT_NAME .GLSL_300 n = "out_FragColor" ++ toString n) := by
  have hout := OutputExpression_member_out cfg g s t identType name field st f hbase hstruct
    husage hfield
  refine ⟨?_, ?_, rfl, rfl, fun n => rfl, fun n => rfl⟩
  · intro hmrt h
    rw [hout, outField_single cfg g s f semantic hsem hmrt h]
  · intro hmrt hmax n hslot hn
    refine ⟨?_, ?_⟩
    · rw [hout, outField_slot cfg hmax g s f semantic hsem hmrt n hslot hn]
    · have hi : indentText cfg 0 = "" := by simp [indentText]
      simp [GenState.WriteLine_code, hi, String.append_assoc]

/-- The lemma on the render target names at a concrete input: the outputs
`SV_TARGET0` and `SV_TARGET1`, GLSL_300, and the access to the field of
`SV_TARGET1`. -/
theorem OutputExpression_render_target_witness :
    (structType "fragment_out").baseType = .UserDefined
    ∧ (Generate.members exampleConfig mrtTree .GLSL_300 .TARGET_FRAGMENT
          "fp_main").tree.FindGlobalStruct (structType "fragment_out").typeName
        = some { name := "fragment_out"
                 field := [exampleField "color0" "SV_TARGET0",
                   exampleField "color1" "SV_TARGET1"]
                 usage := .struct_FragmentOut }
    ∧ targetSlot exampleConfig.MAX_RENDER_TARGET_COUNT "SV_TARGET1" = some 1
    ∧ OutputExpression exampleConfig
        (Generate.members exampleConfig mrtTree .GLSL_300 .TARGET_FRAGMENT "fp_main")
        freshState (exampleAccess "fragment_out" "color1" .Float4) none
      = some ((freshState.WriteLine exampleConfig 0 "out_FragColor1").Write "") :=
  ⟨rfl, rfl, by decide,
    ((OutputExpression_render_target exampleConfig
      (Generate.members exampleConfig mrtTree .GLSL_300 .TARGET_FRAGMENT "fp_main")
      freshState (HLSLType.ofBase .Float4) (structType "fragment_out") "output" "color1"
      { name := "fragment_out"
        field := [exampleField "color0" "SV_TARGET0", exampleField "color1" "SV_TARGET1"]
        usage := .struct_FragmentOut }
      (exampleField "color1" "SV_TARGET1") "SV_TARGET1" rfl rfl (Or.inr rfl) rfl rfl).2.1
      (by decide) (by decide) 1 (by decide) (by decide)).1⟩

/-! ## C17: the remap of identifiers -/

theorem OutputIdentifier_eq_reference (cfg : BuildConfig) (g : GLESGenerator) (s : GenState)
    (name : String) :
    OutputIdentifier cfg g s name = s.Write (referenceRemap cfg g name) := by
  by_cases h0 : name = "tex2D"
  · subst h0
    simp +decide [OutputIdentifier, referenceRemap, remapTable, String_Equal]
  by_cases h1 : name = "tex2Dcmp"
  · subst h1
    simp +decide [OutputIdentifier, referenceRemap, remapTable, String_Equal]
  by_cases h2 : name = "tex2Dproj"
  · subst h2
    simp +decide [OutputIdentifier, referenceRemap, remapTable, String_Equal]
  by_cases h3 : name = "texCUBE"
  · subst h3
    simp +decide [OutputIdentifier, referenceRemap, remapTable, String_Equal]
  by_cases h4 : name = "texCUBElod"
  · subst h4
    simp +decide [OutputIdentifier, referenceRemap, remapTable, String_Equal]
  by_cases h5 : name = "tex2Dlod"
  · subst h5
    simp +decide [OutputIdentifier, referenceRemap, remapTable, String_Equal]
  by_cases h6 : name = "tex2Dgrad"
  · subst h6
    simp +decide [OutputIdentifier, referenceRemap, remapTable, String_Equal]
  by_cases h7 : name = "tex2Dsize"
  · subst h7
    simp +decide [OutputIdentifier, referenceRemap, remapTable, String_Equal]
  by_cases h8 : name = "atan2"
  · subst h8
    simp +decide [OutputIdentifier, referenceRemap, remapTable, String_Equal]
  by_cases h9 : name = "fmod"
  · subst h9
    simp +decide [OutputIdentifier, referenceRemap, remapTable, String_Equal]
  by_cases h10 : name = "frac"
  · subst h10
    simp +decide [OutputIdentifier, referenceRemap, remapTable, String_Equal]
  by_cases h11 : name = "ddx"
  · subst h11
    simp +decide [OutputIdentifier, referenceRemap, remapTable, String_Equal]
  by_cases h12 : name = "ddy"
  · subst h12
    simp +decide [OutputIdentifier, referenceRemap, remapTable, String_Equal]
  by_cases h13 : name = "lerp"
  · subst h13
    simp +decide [OutputIdentifier, referenceRemap, remapTable, String_Equal]
  by_cases h14 : name = "clip"
  · subst h14
    simp +decide [OutputIdentifier, referenceRemap, remapTable, String_Equal]
  by_cases h15 : name = "sincos"
  · subst h15
    simp +decide [OutputIdentifier, referenceRemap, remapTable, String_Equal]
  by_cases h16 : name = "texCUBEbias"
  · subst h16
    simp +decide [OutputIdentifier, referenceRemap, remapTable, String_Equal]
  have hfind : (remapTable cfg g).find? (fun entry => entry.1 == name) = none := by
    simp [remapTable, Ne.symm h0, Ne.symm h1, Ne.symm h2, Ne.symm h3, Ne.symm h4, Ne.symm h5, Ne.symm h6, Ne.symm h7, Ne.symm h8, Ne.symm h9, Ne.symm h10, Ne.symm h11, Ne.symm h12, Ne.symm h13, Ne.symm h14, Ne.symm h15, Ne.symm h16]
  unfold OutputIdentifier referenceRemap
  rw [hfind]
  simp [String_Equal, h0, h1, h2, h3, h4, h5, h6, h7, h8, h9, h10, h11, h12, h13, h14, h15, h16]

theorem OutputExpression_call_generic (cfg : BuildConfig) (g : GLESGenerator) (s : GenState)
    (t : HLSLType) (functionName : String) (functionArgument : List HLSLType)
    (argument : List HLSLExpression) (c : Bool)
    (hmul : functionName ≠ "mul") (hsat : functionName ≠ "saturate")
    (hfetch : functionName ≠ "FramebufferFetch") :
    OutputExpression.node cfg g s (.FunctionCall t functionName functionArgument argument) c
      = (OutputExpressionList cfg g ((OutputIdentifier cfg g s functionName).Write "(")
          argument functionArgument 0).bind fun s1 => some ((s1.Write ")").closeCast c) := by
  rw [OutputExpression_node_call, if_neg (by simpa [String_Equal] using hmul),
    if_neg (by simpa [String_Equal] using hsat),
    if_neg (by simp [String_Equal, hfetch])]

theorem OutputIdentifier_unmapped (cfg : BuildConfig) (g : GLESGenerator) (s : GenState)
    (name : String) (htable : ∀ entry ∈ remapTable cfg g, entry.1 ≠ name)
    (hreserved : name ∉ ReservedWord) :
    OutputIdentifier cfg g s name = s.Write name := by
  rw [OutputIdentifier_eq_reference]
  unfold referenceRemap
  have hfind : (remapTable cfg g).find? (fun entry => entry.1 == name) = none := by
    rw [List.find?_eq_none]
    intro entry hm
    simpa using htable entry hm
  rw [hfind, GetSafeIdentifierName_of_not_reserved g name hreserved]

theorem OutputIdentifier_x (cfg : BuildConfig) (g : GLESGenerator) (u : GenState) :
    OutputIdentifier cfg g u "x" = u.Write "x" := by
  have h := GetSafeIdentifierName_of_not_reserved g "x" (by decide)
  simp [OutputIdentifier, String_Equal, h]

theorem exampleCall_text (cfg : BuildConfig) (g : GLESGenerator) (s : GenState)
    (name : String) (hmul : name ≠ "mul") (hsat : name ≠ "saturate")
    (hfetch : name ≠ "FramebufferFetch")
    (htable : ∀ entry ∈ remapTable cfg g, entry.1 ≠ name) (hreserved : name ∉ ReservedWord) :
    OutputExpression cfg g s (exampleCall name) none
      = some ((((s.Write name).Write "(").Write "x").Write ")") := by
  have hlist : ∀ u : GenState, OutputExpressionList cfg g u
      [.IdentifierExpression (HLSLType.ofBase .Float) "x"] [HLSLType.ofBase .Float] 0
      = some (u.Write "x") := by
    intro u
    rw [OutputExpressionList]
    simp only [gt_iff_lt, Nat.lt_irrefl, if_false]
    rw [OutputExpression_identifier cfg g _ (HLSLType.ofBase .Float) "x"
      (some (HLSLType.ofBase .Float)) (by decide) (by decide), OutputIdentifier_x]
    simp [OutputExpressionList]
  rw [exampleCall, OutputExpression_of_cast_false cfg g s
      (.FunctionCall (HLSLType.ofBase .Float) name [HLSLType.ofBase .Float]
        [.IdentifierExpression (HLSLType.ofBase .Float) "x"]) none rfl,
    OutputExpression_call_generic cfg g s _ name _ _ false hmul hsat hfetch,
    OutputIdentifier_unmapped cfg g s name htable hreserved, hlist]
  rfl

theorem exampleCall_saturate (cfg : BuildConfig) (g : GLESGenerator) (s : GenState) :
    OutputExpression cfg g s (exampleCall "saturate") none
      = some (((s.Write "clamp(").Write "x").Write ", 0.0, 1.0)") := by
  rw [exampleCall, OutputExpression_of_cast_false cfg g s
      (.FunctionCall (HLSLType.ofBase .Float) "saturate" [HLSLType.ofBase .Float]
        [.IdentifierExpression (HLSLType.ofBase .Float) "x"]) none rfl,
    OutputExpression_saturate_eq,
    OutputExpression_identifier cfg g _ (HLSLType.ofBase .Float) "x" none (by decide)
      (by decide), OutputIdentifier_x]
  rfl

/-! ## C19 and C20: the preamble -/

/-- C20, counterexample: for a tree in which the token query finds nothing,
the preamble of the vertex stage has a texture-LOD extension line, on the
desktop family as well as on iPhone with GLSL_100. -/
theorem Generate_preamble_lod_counterexample :
    usesTexLod emptyTree = false
    ∧ "#extension GL_ARB_shader_texture_lod : enable"
        ∈ Generate.preamble exampleConfig emptyTree .GLSL_100 .TARGET_VERTEX
    ∧ "#extension GL_EXT_shader_texture_lod : enable"
        ∈ Generate.preamble { exampleConfig with platform := .IPHONE } emptyTree .GLSL_100
            .TARGET_VERTEX := by
  refine ⟨by decide, by decide, by decide⟩

/-- C20, amended: the number of texture-LOD extension lines in the preamble.
On the two desktop families there is always one. On the two mobile families
there is none for GLSL_300 and one for GLSL_100 whatever the tree and the
stage are; on iPhone with GLSL_100 there is a second one exactly when the
Feature Scanner found `tex2Dlod` or `texCUBElod` and the stage is the fragment
stage. -/
theorem Generate_preamble_lod (cfg : BuildConfig) (tree : HLSLTree) (version : GLSLVersion)
    (target : Target) :
    ((Generate.preamble cfg tree version target).filter isLodExtension).length
      = match cfg.platform with
        | .IPHONE =>
          if version = .GLSL_300 then 0
          else if usesTexLod tree = true ∧ target = .TARGET_FRAGMENT then 2 else 1
        | .ANDROID => if version = .GLSL_300 then 0 else 1
        | .MACOS => 1
        | .OTHER => 1 := by
  unfold Generate.preamble usesTexLod
  generalize tree.GetContainsString "tex2Dlod" = b1
  generalize tree.GetContainsString "texCUBElod" = b2
  cases cfg.platform <;> cases version <;> cases target <;> cases b1 <;> cases b2 <;> decide

/-! ### Properties of the writer that emission keeps -/

theorem Holds_none (Q : GenState → Prop) : Holds Q none := by
  intro s1 h
  cases h

theorem Holds_some (Q : GenState → Prop) (s : GenState) : Holds Q (some s) ↔ Q s := by
  constructor
  · intro h
    exact h s rfl
  · intro h s1 hs
    cases hs
    exact h

theorem Holds_bind (Q : GenState → Prop) (o : Option GenState)
    (f : GenState → Option GenState) (h1 : Holds Q o) (h2 : ∀ s1, Q s1 → Holds Q (f s1)) :
    Holds Q (o.bind f) := by
  cases o with
  | none => exact Holds_none Q
  | some s1 => exact h2 s1 (h1 s1 rfl)

theorem Holds_map (Q : GenState → Prop) (o : Option GenState) (f : GenState → GenState)
    (h1 : Holds Q o) (h2 : ∀ s1, Q s1 → Q (f s1)) : Holds Q (o.map f) := by
  cases o with
  | none => exact Holds_none Q
  | some s1 => exact (Holds_some Q _).2 (h2 s1 (h1 s1 rfl))

theorem Stable.closeCast {Q : GenState → Prop} (hQ : Stable Q) (s : GenState) (c : Bool)
    (h : Q s) : Q (s.closeCast c) := by
  cases c
  · exact h
  · exact hQ.write s ")" h

theorem Stable.BeginLine {Q : GenState → Prop} (hQ : Stable Q) (s : GenState)
    (cfg : BuildConfig) (n : Nat) (h : Q s) : Q (s.BeginLine cfg n) :=
  hQ.write s _ h

theorem Stable.EndLine {Q : GenState → Prop} (hQ : Stable Q) (s : GenState) (t : String)
    (h : Q s) : Q (s.EndLine t) :=
  hQ.write s _ h

theorem Stable.WriteLine {Q : GenState → Prop} (hQ : Stable Q) (s : GenState)
    (cfg : BuildConfig) (n : Nat) (t : String) (h : Q s) : Q (s.WriteLine cfg n t) :=
  hQ.write _ _ (hQ.write s _ h)

theorem Stable.WriteLines {Q : GenState → Prop} (hQ : Stable Q) (cfg : BuildConfig)
    (lines : List String) (s : GenState) (h : Q s) : Q (s.WriteLines cfg lines) := by
  induction lines generalizing s with
  | nil => exact h
  | cons l ls ih => exact ih _ (hQ.WriteLine s cfg 0 l h)

theorem Stable.OutputIdentifier {Q : GenState → Prop} (hQ : Stable Q) (cfg : BuildConfig)
    (g : GLESGenerator) (s : GenState) (name : String) (h : Q s) :
    Q (OutputIdentifier cfg g s name) :=
  hQ.write s _ h

theorem Stable.literal {Q : GenState → Prop} (hQ : Stable Q) (s : GenState)
    (type : HLSLBaseType) (b : Bool) (f : String) (i : Int) (h : Q s) :
    Q (OutputExpression.literal s type b f i) := by
  cases type <;> first | exact hQ.write s _ h | exact hQ.error s _ h | exact h

theorem Stable.outField {Q : GenState → Prop} (hQ : Stable Q) (cfg : BuildConfig)
    (g : GLESGenerator) (s : GenState) (f : HLSLStructField) (h : Q s) :
    Q (OutputExpression.outField cfg g s f) := by
  simp only [OutputExpression.outField]
  repeat' split
  all_goals repeat (first | exact h | apply hQ.write | apply hQ.WriteLine)

theorem Stable.memberBinding {Q : GenState → Prop} (hQ : Stable Q) (cfg : BuildConfig)
    (g : GLESGenerator) (s s1 : GenState) (object : HLSLExpression) (field : String)
    (b : Bool) (h : OutputExpression.memberBinding cfg g s object field = some (s1, b))
    (hs : Q s) : Q s1 := by
  have key : ∀ (o : Option HLSLStruct) (w : HLSLStructField → GenState),
      (∀ f, Q (w f)) →
      (match o with
        | none => none
        | some st =>
          match st.field.find? (fun f => decide (strcmp f.name field = 0)) with
          | some f => some (w f, false)
          | none => some (s, true)) = some (s1, b) → Q s1 := by
    intro o w hw hm
    cases o with
    | none => cases hm
    | some st =>
      simp only at hm
      cases hfind : st.field.find? (fun f => decide (strcmp f.name field = 0)) with
      | none =>
        rw [hfind] at hm
        simp only [Option.some.injEq, Prod.mk.injEq] at hm
        rw [← hm.1]
        exact hs
      | some f =>
        rw [hfind] at hm
        simp only [Option.some.injEq, Prod.mk.injEq] at hm
        rw [← hm.1]
        exact hw f
  cases object with
  | IdentifierExpression t name =>
    simp only [OutputExpression.memberBinding] at h
    split_ifs at h
    all_goals first
      | exact key _ _ (fun f => hQ.outField cfg g s f hs) h
      | exact key _ _ (fun f => hQ.write s _ hs) h
      | (simp only [Option.some.injEq, Prod.mk.injEq] at h
         rw [← h.1]
         exact hs)
  | _ =>
    simp only [OutputExpression.memberBinding, Option.some.injEq, Prod.mk.injEq] at h
    rw [← h.1]
    exact hs

theorem Stable.samplerIdentifier {Q : GenState → Prop} (hQ : Stable Q) (g : GLESGenerator)
    (s : GenState) (name : String) (hs : Q s) :
    Holds Q (OutputExpression.samplerIdentifier g s name) := by
  unfold OutputExpression.samplerIdentifier
  split
  · exact Holds_none Q
  · exact (Holds_some Q _).2 (hQ.write s _ hs)
theorem OutputExpression_holds_all (cfg : BuildConfig) (g : GLESGenerator)
    (Q : GenState → Prop) (hQ : Stable Q) :
    (∀ (s : GenState) (e : HLSLExpression) (d : Option HLSLType),
      Q s → Holds Q (OutputExpression cfg g s e d))
    ∧ (∀ (s : GenState) (e : HLSLExpression) (c : Bool),
      Q s → Holds Q (OutputExpression.node cfg g s e c))
    ∧ (∀ (s : GenState) (t : HLSLType) (n : String),
      Q s → Holds Q (OutputDeclarationT cfg g s t n))
    ∧ (∀ (s : GenState) (l : List HLSLExpression) (a : List HLSLType) (k : Nat),
      Q s → Holds Q (OutputExpressionList cfg g s l a k)) := by
  apply OutputExpression.mutual_induct cfg g
    (fun s e d => Q s → Holds Q (OutputExpression cfg g s e d))
    (fun s e c => Q s → Holds Q (OutputExpression.node cfg g s e c))
    (fun s t n => Q s → Holds Q (OutputDeclarationT cfg g s t n))
    (fun s l a k => Q s → Holds Q (OutputExpressionList cfg g s l a k))
  all_goals intros
  all_goals rename_i hs
  all_goals try simp only [dite_eq_ite] at *
  all_goals try (first
    | (rw [OutputExpression]
       all_goals try assumption
       all_goals try simp only [Option.bind_eq_bind]
       all_goals repeat' (first
         | exact Holds_none Q
         | (rw [Holds_some]
            repeat (first | assumption | apply hQ.write | apply hQ.closeCast |
              apply hQ.literal | apply hQ.OutputIdentifier | apply hQ.error)
            done)
         | (apply_assumption
            repeat (first | assumption | apply hQ.write | apply hQ.closeCast)
            done)
         | (refine Holds_bind Q _ _ ?_ (fun s1 h1 => ?_))
         | split)
       done)
    | (rw [OutputExpression.node]
       all_goals try assumption
       all_goals try simp only [*, Option.bind_eq_bind]
       all_goals repeat' (first
         | exact Holds_none Q
         | (rw [Holds_some]
            repeat (first | assumption | apply hQ.write | apply hQ.closeCast |
              apply hQ.literal | apply hQ.OutputIdentifier | apply hQ.error)
            done)
         | (apply_assumption
            repeat (first | assumption | apply hQ.write | apply hQ.closeCast)
            done)
         | (refine Holds_bind Q _ _ ?_ (fun s1 h1 => ?_))
         | split)
       done)
    | (rw [OutputDeclarationT]
       all_goals try assumption
       all_goals try simp only [Option.bind_eq_bind]
       all_goals repeat' (first
         | exact Holds_none Q
         | (rw [Holds_some]
            repeat (first | assumption | apply hQ.write | apply hQ.closeCast)
            done)
         | (apply_assumption
            repeat (first | assumption | apply hQ.write | apply hQ.closeCast)
            done)
         | (refine Holds_bind Q _ _ ?_ (fun s1 h1 => ?_))
         | split)
       done)
    | (rw [OutputExpressionList]
       all_goals try assumption
       all_goals try simp only [Option.bind_eq_bind]
       all_goals repeat' (first
         | exact Holds_none Q
         | (rw [Holds_some]
            repeat (first | assumption | apply hQ.write | apply hQ.closeCast)
            done)
         | (apply_assumption
            repeat (first | assumption | apply hQ.write | apply hQ.closeCast)
            done)
         | (refine Holds_bind Q _ _ ?_ (fun s1 h1 => ?_))
         | split)
       done)
    )
  case case3 =>
    rw [OutputExpression.node]
    simp only [*, if_true]
    exact Holds_map Q _ _ (hQ.samplerIdentifier g _ _ hs) (fun s1 h1 => hQ.closeCast s1 _ h1)
  case case13 =>
    rename_i s0 _ _ _ _ s1 hx
    rw [OutputExpression.node]
    simp only [hx]
    rw [Holds_some]
    exact hQ.closeCast _ _ (hQ.memberBinding cfg g _ _ _ _ _ hx hs)
  case case14 =>
    rename_i s0 _ _ _ _ s1 hx hsc s2 ih
    rw [OutputExpression.node]
    simp only [hx, hsc, if_true, Option.bind_eq_bind]
    refine Holds_bind Q _ _ (ih ?_) (fun s3 h3 => ?_)
    · exact hQ.write _ _ (hQ.write _ _ (hQ.memberBinding cfg g _ _ _ _ _ hx hs))
    · rw [Holds_some]
      exact hQ.closeCast _ _ (hQ.write _ _ h3)
  case case15 =>
    rename_i s0 _ _ _ _ s1 hx hsc ih
    rw [OutputExpression.node]
    simp only [hx, hsc, if_false, Option.bind_eq_bind]
    refine Holds_bind Q _ _ (ih ?_) (fun s3 h3 => ?_)
    · exact hQ.write _ _ (hQ.memberBinding cfg g _ _ _ _ _ hx hs)
    · rw [Holds_some]
      exact hQ.closeCast _ _ (hQ.write _ _ (hQ.write _ _ h3))
  case case19 =>
    rename_i hm hx
    rw [OutputExpression_node_call, if_pos hm]
    split
    · exact absurd rfl (hx _ _)
    · rw [Holds_some]
      exact hQ.error _ _ hs
  case case21 =>
    rename_i hm hsat hx
    rw [OutputExpression_node_call, if_neg hm, if_pos hsat]
    split
    · exact absurd rfl (hx _)
    · rw [Holds_some]
      exact hQ.error _ _ hs
  case case23 =>
    rename_i hm hsat hf hx
    rw [OutputExpression_node_call, if_neg hm, if_neg hsat, if_pos hf]
    split
    · exact absurd rfl (hx _ _ _ _)
    · rw [Holds_some]
      exact hQ.error _ _ hs
  case case24 =>
    rename_i hm hsat hf s2 ih
    rw [OutputExpression_node_call, if_neg hm, if_neg hsat, if_neg hf]
    refine Holds_bind Q _ _ (ih ?_) (fun s3 h3 => ?_)
    · exact hQ.write _ _ (hQ.OutputIdentifier cfg g _ _ hs)
    · rw [Holds_some]
      exact hQ.closeCast _ _ (hQ.write _ _ h3)
  case case30 =>
    rename_i ih2 ih1
    rw [OutputExpressionList]
    refine Holds_bind Q _ _ (ih2 ?_) (fun s3 h3 => ih1 s3 h3)
    split
    · exact hQ.write _ _ hs
    · exact hs
  case case31 =>
    rename_i ih2 ih1
    rw [OutputExpressionList]
    refine Holds_bind Q _ _ (ih2 ?_) (fun s3 h3 => ih1 s3 h3)
    split
    · exact hQ.write _ _ hs
    · exact hs
  case case4 =>
    rename_i hsam
    rw [OutputExpression.node, if_neg hsam, Holds_some]
    exact hQ.closeCast _ _ (hQ.OutputIdentifier cfg g _ _ hs)
  case case22 =>
    rename_i hm hsat hf _ _ _ _
    rw [OutputExpression_node_call, if_neg hm, if_neg hsat, if_pos hf]
    simp only [Holds_some]
    exact hQ.closeCast _ _ (hQ.write _ _ hs)

theorem OutputExpression_holds {Q : GenState → Prop} (hQ : Stable Q) (cfg : BuildConfig)
    (g : GLESGenerator) (s : GenState) (e : HLSLExpression) (d : Option HLSLType)
    (hs : Q s) : Holds Q (OutputExpression cfg g s e d) :=
  (OutputExpression_holds_all cfg g Q hQ).1 s e d hs

theorem OutputDeclarationT_holds {Q : GenState → Prop} (hQ : Stable Q) (cfg : BuildConfig)
    (g : GLESGenerator) (s : GenState) (t : HLSLType) (n : String) (hs : Q s) :
    Holds Q (OutputDeclarationT cfg g s t n) :=
  (OutputExpression_holds_all cfg g Q hQ).2.2.1 s t n hs

theorem OutputExpressionList_holds {Q : GenState → Prop} (hQ : Stable Q)
    (cfg : BuildConfig) (g : GLESGenerator) (s : GenState) (l : List HLSLExpression)
    (a : List HLSLType) (k : Nat) (hs : Q s) :
    Holds Q (OutputExpressionList cfg g s l a k) :=
  (OutputExpression_holds_all cfg g Q hQ).2.2.2 s l a k hs

theorem OutputDeclaration_holds {Q : GenState → Prop} (hQ : Stable Q) (cfg : BuildConfig)
    (g : GLESGenerator) (s : GenState) (declaration : HLSLDeclaration) (hs : Q s) :
    Holds Q (OutputDeclaration cfg g s declaration) := by
  unfold OutputDeclaration
  split
  · split
    · simp only [Option.bind_eq_bind]
      refine Holds_bind Q _ _ ?_ (fun s1 h1 => Holds_bind Q _ _
        (OutputExpressionList_holds hQ cfg g _ _ _ _ (hQ.write _ _ h1)) (fun s2 h2 => ?_))
      · split
        · exact OutputExpression_holds hQ cfg g _ _ _
            (hQ.write _ _ (hQ.write _ _ (hQ.write _ _ hs)))
        · exact (Holds_some Q _).2 (hQ.write _ _ (hQ.write _ _ (hQ.write _ _ hs)))
      · exact (Holds_some Q _).2 (hQ.write _ _ (hQ.write _ _ h2))
    · exact (Holds_some Q _).2 hs
  · split
    · exact (Holds_some Q _).2 (hQ.write _ _ hs)
    · simp only [Option.bind_eq_bind]
      refine Holds_bind Q _ _ (OutputDeclarationT_holds hQ cfg g _ _ _ hs) (fun s1 h1 => ?_)
      split
      · exact (Holds_some Q _).2 h1
      · split
        · refine Holds_bind Q _ _ ?_ (fun s2 h2 => Holds_bind Q _ _
            (OutputExpressionList_holds hQ cfg g _ _ _ _ (hQ.write _ _ h2))
            (fun s3 h3 => (Holds_some Q _).2 (hQ.write _ _ h3)))
          split
          · exact OutputExpression_holds hQ cfg g _ _ _ (hQ.write _ _ (hQ.write _ _ h1))
          · exact (Holds_some Q _).2 (hQ.write _ _ (hQ.write _ _ h1))
        · exact OutputExpression_holds hQ cfg g _ _ _ (hQ.write _ _ h1)

theorem OutputArguments_holds {Q : GenState → Prop} (hQ : Stable Q) (cfg : BuildConfig)
    (g : GLESGenerator) (arguments : List HLSLArgument) (s : GenState) (k : Nat)
    (hs : Q s) : Holds Q (OutputArguments cfg g s arguments k) := by
  induction arguments generalizing s k with
  | nil => exact (Holds_some Q _).2 hs
  | cons a rest ih =>
    simp only [OutputArguments, Option.bind_eq_bind]
    refine Holds_bind Q _ _ (OutputDeclarationT_holds hQ cfg g _ _ _ ?_) (fun s1 h1 => ih s1 _ h1)
    cases a.modifier <;> split <;> split <;>
      repeat (first | exact hs | apply hQ.write)

theorem structFields_holds {Q : GenState → Prop} (hQ : Stable Q) (cfg : BuildConfig)
    (g : GLESGenerator) (indent : Nat) (fields : List HLSLStructField) (s : GenState)
    (hs : Q s) : Holds Q (OutputStatements.structFields cfg g s indent fields) := by
  induction fields generalizing s with
  | nil => exact (Holds_some Q _).2 hs
  | cons f rest ih =>
    simp only [OutputStatements.structFields, Option.bind_eq_bind]
    exact Holds_bind Q _ _ (OutputDeclarationT_holds hQ cfg g _ _ _ (hQ.BeginLine _ _ _ hs))
      (fun s1 h1 => ih _ (hQ.EndLine _ _ (hQ.write _ _ h1)))

theorem buffer_holds {Q : GenState → Prop} (hQ : Stable Q) (cfg : BuildConfig)
    (s : GenState) (indent : Nat) (buffer : HLSLBuffer) (hs : Q s) :
    Holds Q (OutputStatements.buffer cfg s indent buffer) := by
  unfold OutputStatements.buffer
  dsimp only
  generalize buffer.field.type.arraySize = size
  cases size with
  | none => exact Holds_none Q
  | some e =>
    cases e <;> first | exact Holds_none Q | skip
    rw [Holds_some]
    split
    · exact hQ.WriteLine _ _ _ _ (hQ.WriteLine _ _ _ _ hs)
    · exact hQ.WriteLine _ _ _ _ hs

theorem declaration_holds {Q : GenState → Prop} (hQ : Stable Q) (cfg : BuildConfig)
    (g : GLESGenerator) (s : GenState) (indent : Nat) (declaration : HLSLDeclaration)
    (hs : Q s) : Holds Q (OutputStatements.declaration cfg g s indent declaration) := by
  unfold OutputStatements.declaration
  split
  · split
    · simp only [Option.bind_eq_bind]
      refine Holds_bind Q _ _ (OutputDeclaration_holds hQ cfg g _ _ ?_) (fun s1 h1 => ?_)
      · repeat' split
        all_goals repeat (first | exact hs | apply hQ.write | apply hQ.BeginLine)
      · rw [Holds_some]
        split <;> exact hQ.EndLine _ _ h1
    · exact (Holds_some Q _).2 hs
  · exact (Holds_some Q _).2 hs

theorem returnStatement_holds {Q : GenState → Prop} (hQ : Stable Q) (cfg : BuildConfig)
    (g : GLESGenerator) (s : GenState) (indent : Nat) (expression : Option HLSLExpression)
    (returnType : Option HLSLType) (hs : Q s) :
    Holds Q (OutputStatements.returnStatement cfg g s indent expression returnType) := by
  unfold OutputStatements.returnStatement
  cases expression with
  | none => exact (Holds_some Q _).2 (hQ.WriteLine _ _ _ _ hs)
  | some e =>
    dsimp only
    split
    · simp only [Option.bind_eq_bind]
      exact Holds_bind Q _ _
        (OutputExpression_holds hQ cfg g _ _ _ (hQ.write _ _ (hQ.BeginLine _ _ _ hs)))
        (fun s1 h1 => (Holds_some Q _).2 (hQ.EndLine _ _ h1))
    · exact (Holds_some Q _).2 hs

theorem OutputStatements_holds_all (cfg : BuildConfig) (g : GLESGenerator)
    (Q : GenState → Prop) (hQ : Stable Q) :
    (∀ (s : GenState) (indent : Nat) (statement : List HLSLStatement)
        (returnType : Option HLSLType), Q s →
        Holds Q (OutputStatements cfg g s indent statement returnType)) ∧
    (∀ (s : GenState) (indent : Nat) (statement : HLSLStatement)
        (returnType : Option HLSLType), Q s →
        Holds Q (OutputStatements.body cfg g s indent statement returnType)) := by
  refine OutputStatements.mutual_induct cfg g
    (fun _ indent statement returnType => ∀ s0 : GenState, Q s0 →
      Holds Q (OutputStatements cfg g s0 indent statement returnType))
    (fun _ indent statement returnType => ∀ s0 : GenState, Q s0 →
      Holds Q (OutputStatements.body cfg g s0 indent statement returnType))
    ?_ ?_ ?_ ?_ ?_ ?_ ?_ ?_ ?_ ?_ ?_ ?_ ?_ ?_ ?_ ?_ ?_ ?_ ?_ ?_ ?_ ?_ ?_ ?_ ?_ ?_ ?_ ?_ ?_ ?_ |>.imp
    (fun h s indent statement returnType hs => h s indent statement returnType s hs)
    (fun h s indent statement returnType hs => h s indent statement returnType s hs)
  all_goals intros
  all_goals simp only [OutputStatements_nil, OutputStatements_cons,
    OutputStatements_body_declaration, OutputStatements_body_struct,
    OutputStatements_body_buffer, OutputStatements_body_function,
    OutputStatements_body_expression, OutputStatements_body_return,
    OutputStatements_body_discard, OutputStatements_body_break,
    OutputStatements_body_continue, OutputStatements_body_if, OutputStatements_body_for,
    OutputStatements_body_block, OutputStatements_body_other]
  all_goals try simp only [*, if_true, if_false, Bool.false_eq_true]
  all_goals intro s0 hs0
  all_goals try dsimp only at *
  all_goals repeat' (first
    | exact Holds_none Q
    | (rw [Holds_some]
       repeat (first | assumption | apply hQ.write | apply hQ.WriteLine | apply hQ.EndLine)
       done)
    | (apply declaration_holds hQ; assumption)
    | (apply buffer_holds hQ; assumption)
    | (apply returnStatement_holds hQ; assumption)
    | (apply structFields_holds hQ
       repeat (first | assumption | apply hQ.write | apply hQ.WriteLine)
       done)
    | (apply OutputArguments_holds hQ
       repeat (first | assumption | apply hQ.write | apply hQ.BeginLine)
       done)
    | (apply OutputExpression_holds hQ
       repeat (first | assumption | apply hQ.write | apply hQ.WriteLine | apply hQ.BeginLine)
       done)
    | (apply OutputDeclaration_holds hQ
       repeat (first | assumption | apply hQ.write | apply hQ.BeginLine)
       done)
    | (apply_assumption
       repeat (first | assumption | apply hQ.write | apply hQ.WriteLine | apply hQ.EndLine)
       done)
    | (refine Holds_bind Q _ _ ?_ (fun s1 h1 => ?_))
    | split)
  all_goals first
    | (have hh := ‹GenState → ∀ (s0 : GenState), _ → Holds Q _› s0
       apply hh
       repeat (first | assumption | apply hQ.write | apply hQ.WriteLine | apply hQ.EndLine)
       done)
    | (rename_i elseStatement returnType hh ih2 ih1 sa ha hne
       cases elseStatement with
       | nil => simp at hne
       | cons e es =>
         exact ih1 s0 _ (hQ.WriteLine _ _ _ _ (hQ.WriteLine _ _ _ _ ‹Q _›)))

theorem OutputStatements_holds {Q : GenState → Prop} (hQ : Stable Q) (cfg : BuildConfig)
    (g : GLESGenerator) (s : GenState) (indent : Nat) (statement : List HLSLStatement)
    (returnType : Option HLSLType) (hs : Q s) :
    Holds Q (OutputStatements cfg g s indent statement returnType) :=
  (OutputStatements_holds_all cfg g Q hQ).1 s indent statement returnType hs

theorem properties_holds {Q : GenState → Prop} (hQ : Stable Q) (cfg : BuildConfig)
    (g : GLESGenerator) (statement : List HLSLStatement) (s : GenState) (hs : Q s) :
    Holds Q (Generate.properties cfg g s statement) := by
  induction statement generalizing s with
  | nil => exact (Holds_some Q _).2 hs
  | cons st rest ih =>
    cases st
    case Declaration hidden declaration =>
      simp only [Generate.properties, Option.bind_eq_bind]
      split
      · refine Holds_bind Q _ _
          (OutputDeclarationT_holds hQ cfg g _ _ _ (hQ.BeginLine _ _ _ hs))
          (fun s1 h1 => Holds_bind Q _ _ ?_
            (fun s2 h2 => ih _ (hQ.EndLine _ _ (hQ.write _ _ h2))))
        split
        · exact (Holds_some Q _).2 h1
        · exact OutputExpression_holds hQ cfg g _ _ _ (hQ.write _ _ h1)
      · exact ih s hs
    all_goals
      simp only [Generate.properties]
      exact ih s hs

theorem startsWith_stable (p : String) : Stable (fun s => s.startsWith p) where
  write := by
    rintro s t ⟨rest, h⟩
    exact ⟨rest ++ t, by simp [GenState.Write, h, String.append_assoc]⟩
  error := by
    rintro s m ⟨rest, h⟩
    exact ⟨rest, by rw [GenState.Error_code, h]⟩

theorem Generate_holds {Q : GenState → Prop} (hQ : Stable Q) (cfg : BuildConfig)
    (s : GenState) (tree : HLSLTree) (version : GLSLVersion) (target : Target)
    (entryName : String)
    (hs : Q (GenState.WriteLines { s with code := "" } cfg
      (Generate.preamble cfg tree version target)))
    (r : Bool × GenState) (hr : Generate cfg s tree version target entryName = some r) :
    Q r.2 := by
  unfold Generate at hr
  cases hfind : FindFunction tree.root entryName with
  | none =>
    simp only [hfind, Option.some.injEq] at hr
    rw [← hr]
    exact hQ.error _ _ hs
  | some entryFunction =>
    simp only [hfind, Option.bind_eq_bind, Option.bind_eq_some] at hr
    obtain ⟨s1, h1, s2, h2, s3, h3, s4, h4, hr⟩ := hr
    have q0 : Q (Generate.inputDeclarations cfg tree version
        (GenState.WriteLines { s with code := "" } cfg
          (Generate.preamble cfg tree version target)) entryFunction) := by
      obtain ⟨fields, h | h⟩ := inputDeclarations_lines cfg tree version
        (GenState.WriteLines { s with code := "" } cfg
          (Generate.preamble cfg tree version target)) entryFunction
      · rw [h]
        exact hQ.WriteLines cfg _ _ hs
      · rw [h]
        exact hQ.WriteLines cfg _ _ hs
    have q1 : Q s1 := by
      split at h1
      · obtain ⟨fields, -, heq⟩ := vertexOutDeclarations_lines cfg tree version _ _ s1 h1
        rw [heq]
        exact hQ.WriteLines cfg _ _ q0
      · split at h1
        · obtain ⟨lines, heq, -⟩ := fragmentOutDeclarations_lines cfg tree version
            (Generate.inputDeclarations cfg tree version
              (GenState.WriteLines { s with code := "" } cfg
                (Generate.preamble cfg tree version target)) entryFunction)
          rw [← Option.some.inj h1, heq]
          exact hQ.WriteLines cfg _ _ q0
        · rw [← Option.some.inj h1]
          exact q0
    have q2 : Q s2 := OutputStatements_holds hQ cfg _ s1 0 tree.root none q1 s2 h2
    have q3 : Q s3 := properties_holds hQ cfg _ tree.root _
      (hQ.WriteLine _ _ _ _ (hQ.WriteLine _ _ _ _ (hQ.WriteLine _ _ _ _ q2))) s3 h3
    have q4 : Q s4 := OutputStatements_holds hQ cfg _ _ 1 _ none
      (hQ.WriteLine _ _ _ _ q3) s4 h4
    simp only [Option.some.injEq] at hr
    rw [← hr]
    exact hQ.WriteLine _ _ _ _ q4

theorem preamble_head (cfg : BuildConfig) (tree : HLSLTree) (version : GLSLVersion)
    (target : Target) :
    ∃ rest, Generate.preamble cfg tree version target
      = versionPragma cfg.platform version :: rest := by
  unfold Generate.preamble versionPragma
  cases cfg.platform <;> cases version <;> exact ⟨_, rfl⟩

/-- C19: whatever the tree, the stage and the entry name are, and also when
the generation fails, the text that `Generate` leaves begins with the line of
the version pragma, which depends on the platform family and the dialect
only: `#version 100` and `#version 300 es` on the two mobile families,
`#version 120` on desktop-mac, `#version 130` and `#version 330` on
desktop-other. -/
theorem Generate_version_pragma (cfg : BuildConfig) (s : GenState) (tree : HLSLTree)
    (version : GLSLVersion) (target : Target) (entryName : String) (r : Bool × GenState)
    (hr : Generate cfg s tree version target entryName = some r) :
    r.2.startsWith (versionPragma cfg.platform version ++ "\n")
    ∧ versionPragma .IPHONE .GLSL_100 = "#version 100"
    ∧ versionPragma .IPHONE .GLSL_300 = "#version 300 es"
    ∧ versionPragma .ANDROID .GLSL_100 = "#version 100"
    ∧ versionPragma .ANDROID .GLSL_300 = "#version 300 es"
    ∧ versionPragma .MACOS version = "#version 120"
    ∧ versionPragma .OTHER .GLSL_100 = "#version 130"
    ∧ versionPragma .OTHER .GLSL_300 = "#version 330" := by
  refine ⟨?_, rfl, rfl, rfl, rfl, rfl, rfl, rfl⟩
  refine Generate_holds (startsWith_stable _) cfg s tree version target entryName ?_ r hr
  obtain ⟨rest, hp⟩ := preamble_head cfg tree version target
  rw [hp, GenState.WriteLines_cons]
  refine (startsWith_stable _).WriteLines cfg rest _ ⟨"", ?_⟩
  have hi : indentText cfg 0 = "" := by simp [indentText]
  simp [GenState.WriteLine_code, hi]

/-- C19 at a concrete input: the tree without statements, for which the
generation fails, on desktop-other with GLSL_300. -/
theorem Generate_version_pragma_witness :
    Generate exampleConfig freshState emptyTree .GLSL_300 .TARGET_FRAGMENT "main"
      = some (false,
          (GenState.WriteLines { freshState with code := "" } exampleConfig
            (Generate.preamble exampleConfig emptyTree .GLSL_300 .TARGET_FRAGMENT)).Error
            (Generate.entryPointMessage "main"))
    ∧ ((GenState.WriteLines { freshState with code := "" } exampleConfig
            (Generate.preamble exampleConfig emptyTree .GLSL_300 .TARGET_FRAGMENT)).Error
            (Generate.entryPointMessage "main")).startsWith ("#version 330" ++ "\n") :=
  ⟨rfl, (Generate_version_pragma exampleConfig freshState emptyTree .GLSL_300
    .TARGET_FRAGMENT "main" _ rfl).1⟩

/-! ## C29: the probing of `ChooseUniqueName` -/

theorem toDigitsCore_length (fuel : Nat) :
    ∀ (n k : Nat) (ds : List Char), 1 ≤ k → n < 10 ^ k →
      (Nat.toDigitsCore 10 fuel n ds).length ≤ ds.length + k := by
  induction fuel with
  | zero =>
    intro n k ds _ _
    simp [Nat.toDigitsCore]
  | succ fuel ih =>
    intro n k ds hk hn
    simp only [Nat.toDigitsCore]
    split
    · simp only [List.length_cons]
      omega
    · rename_i hne
      have hk2 : 2 ≤ k := by
        by_contra hlt
        have hk1 : k = 1 := by omega
        subst hk1
        exact hne (Nat.div_eq_of_lt (by simpa using hn))
      have hdiv : n / 10 < 10 ^ (k - 1) := by
        rw [Nat.div_lt_iff_lt_mul (by decide)]
        calc n < 10 ^ k := hn
          _ = 10 ^ (k - 1 + 1) := by rw [Nat.sub_add_cancel hk]
          _ = 10 ^ (k - 1) * 10 := Nat.pow_succ _ _
      have h1 := ih (n / 10) (k - 1) (Nat.digitChar (n % 10) :: ds) (by omega) hdiv
      simp only [List.length_cons] at h1
      omega

theorem toString_length_le (i : Nat) (h : i < 1024) : (toString i).length ≤ 4 := by
  have h1 := toDigitsCore_length (i + 1) i 4 [] (by decide) (by omega)
  simpa [toString, Nat.repr, Nat.toDigits, List.asString, String.length] using h1

theorem Snprintf_s_d_fits (dstLength : Nat) (base : String) (i : Nat) (hi : i < 1024)
    (hlen : base.length + 4 < dstLength) : Snprintf_s_d dstLength base i = base ++ toString i := by
  have h1 := toString_length_le i hi
  unfold Snprintf_s_d
  have h2 : (base ++ toString i).data.length ≤ dstLength - 1 := by
    have h3 : (base ++ toString i).length = base.length + (toString i).length :=
      String.length_append _ _
    have h4 : (base ++ toString i).data.length = (base ++ toString i).length := rfl
    omega
  rw [List.take_of_length_le h2]

theorem ChooseUniqueName_loop_first (tree : HLSLTree) (base : String) (dstLength : Nat)
    (m : Nat) : ∀ (n i : Nat) (dst : String), m < n →
      (∀ k, k < m → tree.GetContainsString (Snprintf_s_d dstLength base (i + k)) = true) →
      tree.GetContainsString (Snprintf_s_d dstLength base (i + m)) = false →
      ChooseUniqueName.loop tree base dstLength n i dst
        = (true, Snprintf_s_d dstLength base (i + m)) := by
  induction m with
  | zero =>
    intro n i dst hn _ hfree
    cases n with
    | zero => omega
    | succ n =>
      simp only [Nat.add_zero] at hfree
      simp [ChooseUniqueName.loop, hfree]
  | succ m ih =>
    intro n i dst hn htaken hfree
    cases n with
    | zero => omega
    | succ n =>
      have h0 := htaken 0 (Nat.succ_pos _)
      simp only [Nat.add_zero] at h0
      rw [ChooseUniqueName.loop]
      simp only [h0, Bool.not_true, Bool.false_eq_true, if_false]
      rw [ih n (i + 1) _ (by omega) (fun k hk => by
        have := htaken (k + 1) (by omega)
        rwa [show i + (k + 1) = i + 1 + k by omega] at this)
        (by rwa [show i + 1 + m = i + (m + 1) by omega]),
        show i + 1 + m = i + (m + 1) by omega]

/-- C29: with a destination buffer that holds the base name, four digits and
the terminating zero, `ChooseUniqueName` probes the base name followed by
`0`, `1`, `2`, ... in order. It returns true with the destination holding
the base name followed by the decimal text of the least `i` below 1024 for
which the token query of the tree is false, and it returns false exactly
when the query is true for all 1024 candidates. -/
theorem ChooseUniqueName_probes (tree : HLSLTree) (base : String) (dstLength : Nat)
    (hlen : base.length + 4 < dstLength) :
    (∀ i, i < 1024 →
        (∀ j, j < i → tree.GetContainsString (base ++ toString j) = true) →
        tree.GetContainsString (base ++ toString i) = false →
        ChooseUniqueName tree base dstLength = (true, base ++ toString i))
    ∧ ((ChooseUniqueName tree base dstLength).1 = false
        ↔ ∀ i, i < 1024 → tree.GetContainsString (base ++ toString i) = true) := by
  have hfirst : ∀ i, i < 1024 →
      (∀ j, j < i → tree.GetContainsString (base ++ toString j) = true) →
      tree.GetContainsString (base ++ toString i) = false →
      ChooseUniqueName tree base dstLength = (true, base ++ toString i) := by
    intro i hi htaken hfree
    have h1 := ChooseUniqueName_loop_first tree base dstLength i 1024 0 "" hi
      (fun k hk => by
        rw [Nat.zero_add, Snprintf_s_d_fits dstLength base k (by omega) hlen]
        exact htaken k hk)
      (by rw [Nat.zero_add, Snprintf_s_d_fits dstLength base i hi hlen]; exact hfree)
    rw [Nat.zero_add, Snprintf_s_d_fits dstLength base i hi hlen] at h1
    exact h1
  refine ⟨hfirst, ?_, ?_⟩
  · intro hfalse
    by_contra hex
    have hex1 : ∃ i, i < 1024 ∧ tree.GetContainsString (base ++ toString i) = false := by
      by_contra hno
      apply hex
      intro i hi
      cases hc : tree.GetContainsString (base ++ toString i) with
      | true => rfl
      | false => exact absurd ⟨i, hi, hc⟩ hno
    have hspec := Nat.find_spec hex1
    have hmin : ∀ j, j < Nat.find hex1 →
        tree.GetContainsString (base ++ toString j) = true := by
      intro j hj
      have hnot := Nat.find_min hex1 hj
      cases hc : tree.GetContainsString (base ++ toString j) with
      | true => rfl
      | false => exact absurd ⟨by omega, hc⟩ hnot
    rw [hfirst _ hspec.1 hmin hspec.2] at hfalse
    cases hfalse
  · intro hall
    rw [ChooseUniqueName_eq_loop, ChooseUniqueName_loop_all_taken tree base dstLength 1023 0 ""
      (fun k hk => by
        rw [Nat.zero_add, Snprintf_s_d_fits dstLength base k (by omega) hlen]
        exact hall k (by omega))]

/-- C29 at a concrete input: in the empty tree, with a buffer of 64 bytes,
the first candidate `clip0` is chosen. -/
theorem ChooseUniqueName_probes_witness :
    "clip".length + 4 < 64
    ∧ ChooseUniqueName emptyTree "clip" 64 = (true, "clip" ++ toString 0) :=
  ⟨by decide,
    (ChooseUniqueName_probes emptyTree "clip" 64 (by decide)).1 0 (by decide)
      (fun j hj => absurd hj (Nat.not_lt_zero j)) rfl⟩

/-! ## C30: the destination types of the operands of a binary expression -/

theorem OutputExpression_node_binary (cfg : BuildConfig) (g : GLESGenerator) (s : GenState)
    (t : HLSLType) (op : HLSLBinaryOp) (e1 e2 : HLSLExpression) (c : Bool) :
    OutputExpression.node cfg g s (.BinaryExpression t op e1 e2) c
      = (OutputExpression cfg g (s.Write "(") e1
          (if (OutputExpression.binaryOp op).2.1 then some t else none)).bind fun s1 =>
          (OutputExpression cfg g (s1.Write (OutputExpression.binaryOp op).1) e2
            (if (OutputExpression.binaryOp op).2.2 then some t else none)).map fun s2 =>
              (s2.Write ")").closeCast c := by
  rw [OutputExpression.node]
  simp only [Option.bind_eq_bind]
  cases OutputExpression cfg g (s.Write "(") e1
      (if (OutputExpression.binaryOp op).2.1 then some t else none) with
  | none => rfl
  | some s1 =>
    simp only [Option.some_bind]
    cases OutputExpression cfg g (s1.Write (OutputExpression.binaryOp op).1) e2
      (if (OutputExpression.binaryOp op).2.2 then some t else none) <;> rfl

theorem OutputIdentifier_i (cfg : BuildConfig) (g : GLESGenerator) (u : GenState) :
    OutputIdentifier cfg g u "i" = u.Write "i" := by
  have h := GetSafeIdentifierName_of_not_reserved g "i" (by decide)
  simp [OutputIdentifier, String_Equal, h]

/-- C30 fails as stated: in the product `i * x` of type `float`, whose left
operand `i` has type `int`, the operands are written without destination
type, so the text is `(i * x)` and no cast to `float` is written, although
the base type of `i` differs from the result type. -/
theorem OutputExpression_binary_counterexample :
    OutputExpression.cast (.IdentifierExpression (HLSLType.ofBase .Int) "i")
        (some (HLSLType.ofBase .Float)) = true
    ∧ (OutputExpression exampleConfig exampleGenerator freshState
        (.BinaryExpression (HLSLType.ofBase .Float) .Mul
          (.IdentifierExpression (HLSLType.ofBase .Int) "i")
          (.IdentifierExpression (HLSLType.ofBase .Float) "x")) none).map GenState.code
      = some "(i * x)" := by
  refine ⟨by decide, ?_⟩
  rw [OutputExpression_none, OutputExpression_node_binary]
  simp only [OutputExpression.binaryOp, Bool.false_eq_true, if_false]
  rw [OutputExpression_identifier _ _ _ _ _ none (by decide) (by decide), OutputIdentifier_i]
  simp only [Option.some_bind]
  rw [OutputExpression_identifier _ _ _ _ _ none (by decide) (by decide), OutputIdentifier_x]
  decide

/-- C30, amended: a binary expression is written as `(`, the first operand,
the operator text, the second operand and `)`. Both operands get the type of
the binary expression as destination type exactly for add, subtract, logical
and, logical or; the second operand alone gets it for the five assignment
operators; for multiply, divide and the comparisons neither operand gets a
destination type, and an operand without destination type is written without
cast. An operand that gets the destination type `t`, for which a cast is due
(`t` not an array, no early return at the operand), is written as the name of
`t`, ` (`, the operand as written without destination type, and `)`. -/
theorem OutputExpression_binary_hints (cfg : BuildConfig) (g : GLESGenerator) (s : GenState)
    (t : HLSLType) (op : HLSLBinaryOp) (e1 e2 : HLSLExpression) (c : Bool) :
    OutputExpression.node cfg g s (.BinaryExpression t op e1 e2) c
      = ((OutputExpression cfg g (s.Write "(") e1
          (if (OutputExpression.binaryOp op).2.1 then some t else none)).bind fun s1 =>
          (OutputExpression cfg g (s1.Write (OutputExpression.binaryOp op).1) e2
            (if (OutputExpression.binaryOp op).2.2 then some t else none)).map fun s2 =>
              (s2.Write ")").closeCast c)
    ∧ ((OutputExpression.binaryOp op).2.1 = true
        ↔ op = .Add ∨ op = .Sub ∨ op = .And ∨ op = .Or)
    ∧ ((OutputExpression.binaryOp op).2.2 = true
        ↔ op = .Add ∨ op = .Sub ∨ op = .And ∨ op = .Or ∨ op = .Assign ∨ op = .AddAssign
          ∨ op = .SubAssign ∨ op = .MulAssign ∨ op = .DivAssign)
    ∧ (∀ (u : GenState) (e : HLSLExpression),
        OutputExpression cfg g u e none = OutputExpression.node cfg g u e false)
    ∧ (∀ (u : GenState) (e : HLSLExpression),
        OutputExpression.cast e (some t) = true → t.array = false →
        OutputExpression.returnsEarly g e = false →
        OutputExpression cfg g u e (some t)
          = (OutputExpression cfg g (u.Write (GetTypeName t ++ " (")) e none).map
              (fun s1 => s1.Write ")")) := by
  refine ⟨OutputExpression_node_binary cfg g s t op e1 e2 c, ?_, ?_,
    fun u e => OutputExpression_none cfg g u e,
    fun u e hcast harray hearly => OutputExpression_wrapped cfg g u e t hcast harray hearly⟩
  · cases op <;> simp [OutputExpression.binaryOp]
  · cases op <;> simp [OutputExpression.binaryOp]

/-- C30, amended, at a concrete input: in the sum `i + x` of type `float` the
operand `i` of type `int` gets the destination type `float` and is written
as `float (i)`. -/
theorem OutputExpression_binary_hints_witness :
    (OutputExpression.binaryOp .Add).2.1 = true
    ∧ OutputExpression.cast (.IdentifierExpression (HLSLType.ofBase .Int) "i")
        (some (HLSLType.ofBase .Float)) = true
    ∧ OutputExpression exampleConfig exampleGenerator freshState
        (.IdentifierExpression (HLSLType.ofBase .Int) "i") (some (HLSLType.ofBase .Float))
      = (OutputExpression exampleConfig exampleGenerator
          (freshState.Write (GetTypeName (HLSLType.ofBase .Float) ++ " ("))
          (.IdentifierExpression (HLSLType.ofBase .Int) "i") none).map
          (fun s1 => s1.Write ")") :=
  ⟨rfl, by decide,
    (OutputExpression_binary_hints exampleConfig exampleGenerator freshState
      (HLSLType.ofBase .Float) .Add (.IdentifierExpression (HLSLType.ofBase .Int) "i")
      (.IdentifierExpression (HLSLType.ofBase .Float) "x") false).2.2.2.2 freshState
      (.IdentifierExpression (HLSLType.ofBase .Int) "i") (by decide) rfl rfl⟩

/-! ## C21: the qualifier of a declaration statement -/

theorem GenState.startsWith_self (s : GenState) : s.startsWith s.code :=
  ⟨"", by simp⟩

theorem OutputDeclaration_appends (cfg : BuildConfig) (g : GLESGenerator) (s s1 : GenState)
    (declaration : HLSLDeclaration) (h : OutputDeclaration cfg g s declaration = some s1) :
    ∃ text, s1.code = s.code ++ text :=
  OutputDeclaration_holds (startsWith_stable s.code) cfg g s declaration s.startsWith_self s1 h

theorem GenState.BeginLine_zero (s : GenState) (cfg : BuildConfig) : s.BeginLine cfg 0 = s := by
  have hi : indentText cfg 0 = "" := by simp [indentText]
  rw [GenState.BeginLine, hi, GenState.Write_empty]

theorem declaration_of_texture (cfg : BuildConfig) (g : GLESGenerator) (s : GenState)
    (indent : Nat) (d : HLSLDeclaration) (h : d.type.baseType = .Texture) :
    OutputStatements.declaration cfg g s indent d = some s := by
  unfold OutputStatements.declaration
  split
  · rw [if_neg (by simpa using h)]
  · rfl

theorem declaration_top (cfg : BuildConfig) (g : GLESGenerator) (s : GenState)
    (d : HLSLDeclaration) (hname : d.name ≠ "output") (h : d.type.baseType ≠ .Texture) :
    OutputStatements.declaration cfg g s 0 d
      = (OutputDeclaration cfg g
          (if d.type.flags.Const then s.Write "const "
           else if !d.type.flags.Property then s.Write "uniform " else s) d).map
          (fun s1 => if d.type.flags.Property then s1.EndLine "" else s1.EndLine ";") := by
  have hn : strcmp d.name "output" ≠ 0 := fun h0 => hname ((strcmp_eq_zero _ _).1 h0)
  unfold OutputStatements.declaration
  rw [if_pos hn, if_pos h]
  simp only [GenState.BeginLine_zero, if_true, Option.bind_eq_bind]
  cases OutputDeclaration cfg g
      (if d.type.flags.Const then s.Write "const "
       else if !d.type.flags.Property then s.Write "uniform " else s) d <;> rfl

theorem declaration_nested (cfg : BuildConfig) (g : GLESGenerator) (s : GenState)
    (indent : Nat) (d : HLSLDeclaration) (hname : d.name ≠ "output")
    (h : d.type.baseType ≠ .Texture) (hindent : indent ≠ 0) :
    OutputStatements.declaration cfg g s indent d
      = (OutputDeclaration cfg g (s.BeginLine cfg indent) d).map
          (fun s1 => if d.type.flags.Property then s1.EndLine "" else s1.EndLine ";") := by
  have hn : strcmp d.name "output" ≠ 0 := fun h0 => hname ((strcmp_eq_zero _ _).1 h0)
  unfold OutputStatements.declaration
  rw [if_pos hn, if_pos h]
  simp only [hindent, if_false, Option.bind_eq_bind]
  cases OutputDeclaration cfg g (s.BeginLine cfg indent) d <;> rfl

/-- C21: for a visible declaration statement whose name is not `output`:
with base type texture nothing is written, at any indent. At indent 0 and
with another base type, a declaration that is neither const-flagged nor
property-flagged is written as `uniform `, the declaration as
`OutputDeclaration` writes it, and `;` with the line end, so the text added
is `uniform ` ... `;` and a line break; a const-flagged one is written with
`const ` in the place of `uniform `. At an indent other than 0 the text is the
indentation, the declaration and the line end, and neither qualifier is
written. -/
theorem OutputStatements_declaration_qualifier (cfg : BuildConfig) (g : GLESGenerator)
    (s : GenState) (indent : Nat) (d : HLSLDeclaration) (returnType : Option HLSLType)
    (hname : d.name ≠ "output") :
    (d.type.baseType = .Texture →
      OutputStatements.body cfg g s indent (.Declaration false d) returnType = some s)
    ∧ (d.type.baseType ≠ .Texture → d.type.flags.Const = false →
        d.type.flags.Property = false →
        OutputStatements.body cfg g s 0 (.Declaration false d) returnType
          = (OutputDeclaration cfg g (s.Write "uniform ") d).map (fun s1 => s1.EndLine ";")
        ∧ ∀ s1, OutputStatements.body cfg g s 0 (.Declaration false d) returnType = some s1 →
            ∃ text, s1.code = s.code ++ "uniform " ++ text ++ ";\n")
    ∧ (d.type.baseType ≠ .Texture → d.type.flags.Const = true →
        OutputStatements.body cfg g s 0 (.Declaration false d) returnType
          = (OutputDeclaration cfg g (s.Write "const ") d).map
              (fun s1 => if d.type.flags.Property then s1.EndLine "" else s1.EndLine ";")
        ∧ ∀ s1, OutputStatements.body cfg g s 0 (.Declaration false d) returnType = some s1 →
            ∃ text, s1.code = s.code ++ "const " ++ text ++ "\n")
    ∧ (d.type.baseType ≠ .Texture → indent ≠ 0 →
        OutputStatements.body cfg g s indent (.Declaration false d) returnType
          = (OutputDeclaration cfg g (s.BeginLine cfg indent) d).map
              (fun s1 => if d.type.flags.Property then s1.EndLine "" else s1.EndLine ";")) := by
  simp only [OutputStatements_body_declaration, Bool.false_eq_true, if_false]
  refine ⟨declaration_of_texture cfg g s indent d, ?_, ?_,
    declaration_nested cfg g s indent d hname⟩
  · intro ht hc hp
    have heq := declaration_top cfg g s d hname ht
    simp only [hc, hp, Bool.false_eq_true, if_false, Bool.not_false, if_true] at heq
    refine ⟨heq, ?_⟩
    intro s1 h1
    rw [heq, Option.map_eq_some'] at h1
    obtain ⟨s2, h2, h3⟩ := h1
    obtain ⟨text, htext⟩ := OutputDeclaration_appends cfg g _ s2 d h2
    refine ⟨text, ?_⟩
    rw [← h3]
    simp [GenState.EndLine, htext, String.append_assoc]
  · intro ht hc
    have heq := declaration_top cfg g s d hname ht
    simp only [hc, if_true] at heq
    refine ⟨heq, ?_⟩
    intro s1 h1
    rw [heq, Option.map_eq_some'] at h1
    obtain ⟨s2, h2, h3⟩ := h1
    obtain ⟨text, htext⟩ := OutputDeclaration_appends cfg g _ s2 d h2
    rw [← h3]
    split
    · exact ⟨text, by simp [GenState.EndLine, htext, String.append_assoc]⟩
    · exact ⟨text ++ ";", by simp [GenState.EndLine, htext, String.append_assoc]⟩
theorem OutputDeclaration_exampleDeclaration (cfg : BuildConfig) (g : GLESGenerator)
    (s : GenState) :
    OutputDeclaration cfg g s (exampleDeclaration "x" .Float) = some (s.Write "float x") := by
  have h := GetSafeIdentifierName_of_not_reserved g "x" (by decide)
  unfold OutputDeclaration
  rw [if_neg (by decide), if_neg (by decide)]
  simp only [exampleDeclaration, Option.bind_eq_bind]
  rw [OutputDeclarationT_not_array cfg g s (HLSLType.ofBase .Float) _ rfl, h, h]
  rfl

/-- C21 at a concrete input: the top-level declaration `float x` is written
as the line `uniform float x;`. -/
theorem OutputStatements_declaration_qualifier_witness :
    (exampleDeclaration "x" .Float).name ≠ "output"
    ∧ (OutputStatements.body exampleConfig exampleGenerator freshState 0
        (.Declaration false (exampleDeclaration "x" .Float)) none
      = (OutputDeclaration exampleConfig exampleGenerator (freshState.Write "uniform ")
          (exampleDeclaration "x" .Float)).map (fun s1 => s1.EndLine ";"))
    ∧ ((OutputDeclaration exampleConfig exampleGenerator (freshState.Write "uniform ")
          (exampleDeclaration "x" .Float)).map (fun s1 => s1.EndLine ";")).map GenState.code
      = some "uniform float x;\n" :=
  ⟨by decide,
    ((OutputStatements_declaration_qualifier exampleConfig exampleGenerator freshState 0
      (exampleDeclaration "x" .Float) none (by decide)).2.1 (by decide) rfl rfl).1,
    by rw [OutputDeclaration_exampleDeclaration]; decide⟩

/-! ## C25: struct statements -/

theorem structFields_plain (cfg : BuildConfig) (g : GLESGenerator) (indent : Nat)
    (fields : List HLSLStructField) :
    ∀ (u : GenState), (∀ f ∈ fields, f.type.array = false) →
      OutputStatements.structFields cfg g u indent fields
        = some (fields.foldl (fun s1 f => s1.WriteLine cfg (indent + 1)
            (GetTypeName f.type ++ " " ++ GetSafeIdentifierName g f.name ++ ";")) u) := by
  induction fields with
  | nil =>
    intro u _
    rfl
  | cons f rest ih =>
    intro u h
    have hf := h f (List.mem_cons_self _ _)
    rw [OutputStatements.structFields, OutputDeclarationT_not_array cfg g _ f.type f.name hf]
    simp only [Option.bind_eq_bind, Option.some_bind, List.foldl_cons]
    rw [ih _ (fun f1 h1 => h f1 (List.mem_cons_of_mem _ h1))]
    congr 2
    apply GenState.eq_of_fields
    · simp [GenState.EndLine, GenState.WriteLine, GenState.BeginLine, String.append_assoc]
    · rfl
    · rfl

theorem structFields_appends (cfg : BuildConfig) (g : GLESGenerator) (indent : Nat)
    (fields : List HLSLStructField) (s s1 : GenState)
    (h : OutputStatements.structFields cfg g s indent fields = some s1) :
    ∃ text, s1.code = s.code ++ text :=
  structFields_holds (startsWith_stable s.code) cfg g indent fields s s.startsWith_self s1 h

theorem String.append_ne_self (a b : String) (h : b ≠ "") : a ++ b ≠ a := by
  intro heq
  have hl : (a ++ b).length = a.length := by rw [heq]
  rw [String.length_append] at hl
  have hb : b.length = 0 := by omega
  apply h
  cases b with
  | mk data =>
    simp only [String.length, List.length_eq_zero] at hb
    subst hb
    rfl

/-- C25: a visible struct statement whose usage tag is Generic is written as
the line `struct <name> {`, the lines of the fields in field order and the
line `};`; the line of a field is the indentation, the field as
`OutputDeclaration(type, name)` writes it, `;` and the line end, which for
fields that are not arrays makes the lines `<type> <name>;` (the name as the
sanitizer leaves it). A visible struct statement with another usage tag
writes nothing. So a visible struct statement adds text exactly when its tag
is Generic. -/
theorem OutputStatements_struct (cfg : BuildConfig) (g : GLESGenerator) (s : GenState)
    (indent : Nat) (st : HLSLStruct) (returnType : Option HLSLType) :
    (st.usage = .struct_Generic →
      OutputStatements.body cfg g s indent (.Struct false st) returnType
        = (OutputStatements.structFields cfg g
            (s.WriteLine cfg indent ("struct " ++ st.name ++ " \x7b")) indent st.field).map
            (fun s1 => s1.WriteLine cfg indent "\x7d;"))
    ∧ (st.usage = .struct_Generic → (∀ f ∈ st.field, f.type.array = false) →
      OutputStatements.body cfg g s indent (.Struct false st) returnType
        = some ((st.field.foldl (fun s1 f => s1.WriteLine cfg (indent + 1)
            (GetTypeName f.type ++ " " ++ GetSafeIdentifierName g f.name ++ ";"))
            (s.WriteLine cfg indent ("struct " ++ st.name ++ " \x7b"))).WriteLine cfg indent
              "\x7d;"))
    ∧ (∀ (u : GenState) (f : HLSLStructField) (rest : List HLSLStructField),
      OutputStatements.structFields cfg g u indent (f :: rest)
        = (OutputDeclarationT cfg g (u.BeginLine cfg (indent + 1)) f.type f.name).bind
            fun s1 => OutputStatements.structFields cfg g ((s1.Write ";").EndLine "") indent
              rest)
    ∧ (st.usage ≠ .struct_Generic →
      OutputStatements.body cfg g s indent (.Struct false st) returnType = some s)
    ∧ (∀ s1, OutputStatements.body cfg g s indent (.Struct false st) returnType = some s1 →
      (s1.code ≠ s.code ↔ st.usage = .struct_Generic)) := by
  have hgen : st.usage = .struct_Generic →
      OutputStatements.body cfg g s indent (.Struct false st) returnType
        = (OutputStatements.structFields cfg g
            (s.WriteLine cfg indent ("struct " ++ st.name ++ " \x7b")) indent st.field).map
            (fun s1 => s1.WriteLine cfg indent "\x7d;") := by
    intro h
    rw [OutputStatements_body_struct]
    simp only [Bool.false_eq_true, if_false, h, if_true]
    cases OutputStatements.structFields cfg g
      (s.WriteLine cfg indent ("struct " ++ st.name ++ " \x7b")) indent st.field <;> rfl
  have hother : st.usage ≠ .struct_Generic →
      OutputStatements.body cfg g s indent (.Struct false st) returnType = some s := by
    intro h
    rw [OutputStatements_body_struct]
    simp only [Bool.false_eq_true, if_false, h]
  refine ⟨hgen, ?_, fun u f rest => rfl, hother, ?_⟩
  · intro h hplain
    rw [hgen h, structFields_plain cfg g indent st.field _ hplain]
    rfl
  · intro s1 h1
    by_cases h : st.usage = .struct_Generic
    · simp only [h, iff_true]
      rw [hgen h, Option.map_eq_some'] at h1
      obtain ⟨s2, h2, h3⟩ := h1
      obtain ⟨text, htext⟩ := structFields_appends cfg g indent st.field _ s2 h2
      rw [← h3, GenState.WriteLine_code, htext, GenState.WriteLine_code]
      simp only [String.append_assoc]
      apply String.append_ne_self
      intro hempty
      have hl := congrArg String.length hempty
      simp only [String.length_append] at hl
      have h5 : ("\n" : String).length = 1 := rfl
      have h6 : ("" : String).length = 0 := rfl
      omega
    · simp only [h, iff_false, not_not]
      rw [hother h] at h1
      rw [← Option.some.inj h1]
/-- C25 at a concrete input: the generic struct `S` with the one field
`float x`, at indent 0 with four spaces per indent. -/
theorem OutputStatements_struct_witness :
    (OutputStatements.body exampleConfig exampleGenerator freshState 0
      (.Struct false { name := "S", field := [typedField "x" .Float "TEXCOORD0"],
                       usage := .struct_Generic }) none).map GenState.code
      = some "struct S \x7b\n    float x;\n\x7d;\n" := by
  rw [(OutputStatements_struct exampleConfig exampleGenerator freshState 0
      { name := "S", field := [typedField "x" .Float "TEXCOORD0"], usage := .struct_Generic }
      none).2.1 rfl (by decide)]
  simp only [List.foldl, typedField]
  rw [GetSafeIdentifierName_of_not_reserved _ "x" (by decide)]
  decide

/-! ## C23 and C24: sampler declarations -/

theorem samplerType_eq (cfg : BuildConfig) (t : HLSLType)
    (hbase : t.baseType = .Sampler2D ∨ t.baseType = .SamplerCube
      ∨ t.baseType = .Sampler2DShadow) :
    OutputDeclaration.samplerType cfg t.baseType
      = (if cfg.platform = .IPHONE ∨ cfg.platform = .ANDROID then "lowp " else "")
          ++ GetTypeName t := by
  unfold OutputDeclaration.samplerType GetTypeName
  rcases hbase with h | h | h <;> rw [h] <;> cases cfg.platform <;> rfl

theorem OutputDeclaration_of_sampler (cfg : BuildConfig) (g : GLESGenerator) (s : GenState)
    (d : HLSLDeclaration) (hprop : d.type.flags.Property = false)
    (hbase : d.type.baseType = .Sampler2D ∨ d.type.baseType = .SamplerCube
      ∨ d.type.baseType = .Sampler2DShadow) :
    OutputDeclaration cfg g s d
      = some (s.Write ((if cfg.platform = .IPHONE ∨ cfg.platform = .ANDROID then "lowp " else "")
          ++ GetTypeName d.type ++ " "
          ++ (if (g.tree.FindGlobalStruct (some "vertex_in")).isSome then "Vertex"
              else "Fragment")
          ++ "Texture"
          ++ fmt_d (match d.registerName with
              | some r => sscanf_s_d r
              | none => -1))) := by
  have hs : IsSamplerType d.type = true := by
    unfold IsSamplerType
    rcases hbase with h | h | h <;> simp [h]
  unfold OutputDeclaration
  rw [if_neg (by simp [hprop]), if_pos hs, samplerType_eq cfg d.type hbase] <;> rfl

theorem Generate_declarationTree (s : GenState) (d : HLSLDeclaration)
    (version : GLSLVersion) :
    Generate exampleConfig s (declarationTree d) version .TARGET_FRAGMENT "main"
      = (OutputStatements.declaration exampleConfig
          (Generate.members exampleConfig (declarationTree d) version .TARGET_FRAGMENT "main")
          (GenState.WriteLines { s with code := "" } exampleConfig
            (Generate.preamble exampleConfig (declarationTree d) version .TARGET_FRAGMENT))
          0 d).bind fun s1 =>
        (Generate.properties exampleConfig
          (Generate.members exampleConfig (declarationTree d) version .TARGET_FRAGMENT "main")
          (((s1.WriteLine exampleConfig 0 "void main()").WriteLine exampleConfig 0
            "\x7b").WriteLine exampleConfig 1 "//properties")
          (declarationTree d).root).bind fun s2 =>
          some (!s2.hasError,
            (s2.WriteLine exampleConfig 1 "").WriteLine exampleConfig 0 "\x7d") := by
  have hfind : FindFunction (declarationTree d).root "main"
      = some { name := "main", returnType := HLSLType.ofBase .Void, semantic := none,
               argument := [], statement := [] } := by
    simp [FindFunction, declarationTree, String_Equal]
  have hentry : String_Equal "main" (Generate.members exampleConfig (declarationTree d)
      version .TARGET_FRAGMENT "main").entryName = true := by
    simp [String_Equal, Generate.members]
  have hout : ∀ s0 : GenState,
      Generate.fragmentOutDeclarations exampleConfig (declarationTree d) version s0 = s0 := by
    intro s0
    simp [Generate.fragmentOutDeclarations, HLSLTree.FindGlobalStruct, FindStruct,
      declarationTree]
  have hin : ∀ s0 : GenState,
      Generate.inputDeclarations exampleConfig (declarationTree d) version s0
        { name := "main", returnType := HLSLType.ofBase .Void, semantic := none,
          argument := [], statement := [] } = s0 := by
    intro s0
    simp [Generate.inputDeclarations]
  have hstatements : ∀ s0 : GenState,
      OutputStatements exampleConfig
        (Generate.members exampleConfig (declarationTree d) version .TARGET_FRAGMENT "main")
        s0 0 (declarationTree d).root none
      = OutputStatements.declaration exampleConfig
        (Generate.members exampleConfig (declarationTree d) version .TARGET_FRAGMENT "main")
        s0 0 d := by
    intro s0
    simp only [declarationTree, OutputStatements_cons, OutputStatements_nil,
      OutputStatements_body_function, OutputStatements_body_declaration, hentry,
      Bool.false_eq_true, if_false, if_true]
    cases OutputStatements.declaration exampleConfig _ s0 0 d <;> rfl
  unfold Generate
  simp only [hfind, Option.bind_eq_bind, hstatements, hout, hin, OutputStatements_nil,
    Option.some_bind, reduceCtorEq, if_false, ite_self, GenState.WriteLine_hasError]
theorem sscanf_s_d_other (r : String) (h : r.data.head? ≠ some 's') : sscanf_s_d r = -1 := by
  unfold sscanf_s_d
  split
  · rename_i cs heq
    rw [heq] at h
    exact absurd rfl h
  · rfl

theorem node_of_sampler_identifier (cfg : BuildConfig) (g : GLESGenerator) (s : GenState)
    (t : HLSLType) (name : String) (c : Bool) (d : HLSLDeclaration)
    (hbase : t.baseType = .Sampler2D ∨ t.baseType = .SamplerCube
      ∨ t.baseType = .Sampler2DShadow)
    (hd : g.tree.FindGlobalDeclaration name = some d) :
    OutputExpression.node cfg g s (.IdentifierExpression t name) c
      = some ((s.Write ((if (g.tree.FindGlobalStruct (some "vertex_in")).isSome then "Vertex"
              else "Fragment") ++ "Texture"
          ++ fmt_d (match d.registerName with
              | some r => sscanf_s_d r
              | none => -1))).closeCast c) := by
  rw [OutputExpression.node, if_pos hbase, OutputExpression.samplerIdentifier, hd]
  rfl

theorem declaration_sampler_unregistered (g : GLESGenerator) (u : GenState)
    (hv : g.tree.FindGlobalStruct (some "vertex_in") = none) :
    OutputStatements.declaration exampleConfig g u 0 (samplerDeclaration "albedo" none)
      = some (((u.Write "uniform ").Write "sampler2D FragmentTexture-1").EndLine ";") := by
  rw [declaration_top _ _ _ (samplerDeclaration "albedo" none) (by decide) (by decide),
    if_neg (by decide), if_pos (by decide),
    OutputDeclaration_of_sampler exampleConfig g _ (samplerDeclaration "albedo" none) rfl
      (Or.inl rfl), hv]
  rfl

/-- C24, the divergence of the code: the tree with the top-level declaration
`sampler2D albedo` without register annotation and an empty entry function
`main` is generated with success and without a raised error flag, although
the register index is required; the declaration is written with the
register index `-1`, as the line `uniform sampler2D FragmentTexture-1;`. -/
theorem Generate_sampler_register_divergence :
    (samplerDeclaration "albedo" none).registerName = none
    ∧ (Generate exampleConfig freshState (declarationTree (samplerDeclaration "albedo" none))
        .GLSL_100 .TARGET_FRAGMENT "main").map (fun r => (r.1, r.2.hasError))
      = some (true, false)
    ∧ (OutputStatements.body exampleConfig
        (Generate.members exampleConfig (declarationTree (samplerDeclaration "albedo" none))
          .GLSL_100 .TARGET_FRAGMENT "main") freshState 0
        (.Declaration false (samplerDeclaration "albedo" none)) none).map GenState.code
      = some "uniform sampler2D FragmentTexture-1;\n" := by
  have hprops : ∀ (g : GLESGenerator) (u : GenState), Generate.properties exampleConfig g u
      (declarationTree (samplerDeclaration "albedo" none)).root = some u := fun _ _ => rfl
  refine ⟨rfl, ?_, ?_⟩
  · rw [Generate_declarationTree, declaration_sampler_unregistered
      (Generate.members exampleConfig (declarationTree (samplerDeclaration "albedo" none))
      .GLSL_100 .TARGET_FRAGMENT "main") _ rfl]
    simp only [Option.some_bind, hprops]
    simp [GenState.EndLine, freshState]
  · rw [OutputStatements_body_declaration, if_neg (by decide),
      declaration_sampler_unregistered
      (Generate.members exampleConfig (declarationTree (samplerDeclaration "albedo" none))
      .GLSL_100 .TARGET_FRAGMENT "main") _ rfl]
    decide

/-- What the code does for a sampler without readable register annotation.
For a declaration that is not property-flagged, of type `sampler2D`,
`samplerCube` or `sampler2DShadow`, whose register annotation is missing or
is read by `sscanf(registerName, "s%d", &reg)` as `-1` (as every annotation
that does not begin with `s` is), `OutputDeclaration` writes the sampler
type, `Vertex` or `Fragment`, and `Texture-1`, and leaves the error flag as it
was; an identifier of such a type behind which the tree finds this
declaration is written as `VertexTexture-1` or `FragmentTexture-1`, again
without a change of the error flag. -/
theorem OutputDeclaration_sampler_register (cfg : BuildConfig) (g : GLESGenerator)
    (s : GenState) (d : HLSLDeclaration) (hprop : d.type.flags.Property = false)
    (hbase : d.type.baseType = .Sampler2D ∨ d.type.baseType = .SamplerCube
      ∨ d.type.baseType = .Sampler2DShadow)
    (hreg : d.registerName = none ∨ ∃ r, d.registerName = some r ∧ sscanf_s_d r = -1) :
    (∃ s1, OutputDeclaration cfg g s d = some s1 ∧ s1.hasError = s.hasError
      ∧ s1.code = s.code
          ++ ((if cfg.platform = .IPHONE ∨ cfg.platform = .ANDROID then "lowp " else "")
          ++ GetTypeName d.type ++ " "
          ++ (if (g.tree.FindGlobalStruct (some "vertex_in")).isSome then "Vertex"
              else "Fragment")
          ++ "Texture-1"))
    ∧ (∀ (t : HLSLType) (name : String),
        (t.baseType = .Sampler2D ∨ t.baseType = .SamplerCube ∨ t.baseType = .Sampler2DShadow) →
        g.tree.FindGlobalDeclaration name = some d →
        ∃ s1, OutputExpression cfg g s (.IdentifierExpression t name) none = some s1
          ∧ s1.hasError = s.hasError
          ∧ s1.code = s.code
            ++ ((if (g.tree.FindGlobalStruct (some "vertex_in")).isSome then "Vertex"
                else "Fragment") ++ "Texture-1"))
    ∧ (∀ r : String, r.data.head? ≠ some 's' → sscanf_s_d r = -1) := by
  have hfmt : fmt_d (-1) = "-1" := by decide
  refine ⟨?_, ?_, sscanf_s_d_other⟩
  · refine ⟨_, OutputDeclaration_of_sampler cfg g s d hprop hbase, rfl, ?_⟩
    rw [GenState.Write_code]
    congr 1
    rcases hreg with h | ⟨r, h, hr⟩
    · simp only [h, hfmt, String.append_assoc] <;> rfl
    · simp only [h, hr, hfmt, String.append_assoc] <;> rfl
  · intro t name ht hd
    refine ⟨_, (OutputExpression_none cfg g s _).trans
      (node_of_sampler_identifier cfg g s t name false d ht hd), rfl, ?_⟩
    · simp only [GenState.closeCast, Bool.false_eq_true, if_false, GenState.Write_code]
      congr 1
      rcases hreg with h | ⟨r, h, hr⟩
      · simp only [h, hfmt, String.append_assoc] <;> rfl
      · simp only [h, hr, hfmt, String.append_assoc] <;> rfl

/-- The lemma on samplers without readable register at a concrete input:
`sampler2D albedo` with the register annotation `t0`. -/
theorem OutputDeclaration_sampler_register_witness :
    (samplerDeclaration "albedo" (some "t0")).type.flags.Property = false
    ∧ (∃ r, (samplerDeclaration "albedo" (some "t0")).registerName = some r
        ∧ sscanf_s_d r = -1)
    ∧ ∃ s1, OutputDeclaration exampleConfig exampleGenerator freshState
          (samplerDeclaration "albedo" (some "t0")) = some s1
        ∧ s1.hasError = freshState.hasError
        ∧ s1.code = freshState.code ++ ("" ++ GetTypeName (HLSLType.ofBase .Sampler2D) ++ " "
            ++ "Fragment" ++ "Texture-1") :=
  ⟨rfl, ⟨"t0", rfl, by decide⟩,
    (OutputDeclaration_sampler_register exampleConfig exampleGenerator freshState
      (samplerDeclaration "albedo" (some "t0")) rfl (Or.inl rfl)
      (Or.inr ⟨"t0", rfl, by decide⟩)).1⟩

/-! ## C22: property-flagged declarations -/

theorem OutputExpression_appends (cfg : BuildConfig) (g : GLESGenerator) (s s1 : GenState)
    (e : HLSLExpression) (d : Option HLSLType) (h : OutputExpression cfg g s e d = some s1) :
    ∃ text, s1.code = s.code ++ text :=
  OutputExpression_holds (startsWith_stable s.code) cfg g s e d s.startsWith_self s1 h

theorem OutputExpressionList_appends (cfg : BuildConfig) (g : GLESGenerator) (s s1 : GenState)
    (l : List HLSLExpression) (a : List HLSLType) (k : Nat)
    (h : OutputExpressionList cfg g s l a k = some s1) :
    ∃ text, s1.code = s.code ++ text :=
  OutputExpressionList_holds (startsWith_stable s.code) cfg g s l a k s.startsWith_self s1 h

theorem OutputDeclaration_of_property (cfg : BuildConfig) (g : GLESGenerator) (s : GenState)
    (d : HLSLDeclaration) (hprop : d.type.flags.Property = true)
    (hinit : d.assignment ≠ []) (harray : d.type.array = true) :
    OutputDeclaration cfg g s d
      = ((match d.type.arraySize with
          | some size => OutputExpression cfg g
              (((s.Write ("#define " ++ d.name ++ " ")).Write "(").Write
                (GetTypeName d.type ++ "[")) size none
          | none => some (((s.Write ("#define " ++ d.name ++ " ")).Write "(").Write
                (GetTypeName d.type ++ "["))).bind fun s1 =>
          (OutputExpressionList cfg g (s1.Write "](") d.assignment [] 0).map
            fun (s2 : GenState) => (s2.Write ")").Write ")") := by
  have h1 : ((!d.assignment.isEmpty) && d.type.array) = true := by
    cases hd : d.assignment with
    | nil => exact absurd hd hinit
    | cons x xs => simp [harray]
  unfold OutputDeclaration
  rw [if_pos hprop, if_pos h1]
  simp only [Option.bind_eq_bind]
  cases d.type.arraySize with
  | none =>
    simp only [Option.some_bind]
    cases OutputExpressionList cfg g _ d.assignment [] 0 <;> rfl
  | some size =>
    simp only
    cases OutputExpression cfg g _ size none with
    | none => rfl
    | some s1 =>
      simp only [Option.some_bind]
      cases OutputExpressionList cfg g _ d.assignment [] 0 <;> rfl

theorem OutputDeclaration_of_property_plain (cfg : BuildConfig) (g : GLESGenerator)
    (s : GenState) (d : HLSLDeclaration) (hprop : d.type.flags.Property = true)
    (h : d.assignment = [] ∨ d.type.array = false) :
    OutputDeclaration cfg g s d = some s := by
  have h1 : ¬ ((!d.assignment.isEmpty) && d.type.array) = true := by
    rcases h with h | h
    · simp [h]
    · simp [h]
  unfold OutputDeclaration
  rw [if_pos hprop, if_neg h1]

theorem properties_of_property (cfg : BuildConfig) (g : GLESGenerator) (s : GenState)
    (d : HLSLDeclaration) (rest : List HLSLStatement)
    (hprop : d.type.flags.Property = true) (harray : d.type.array = false) :
    Generate.properties cfg g s (.Declaration false d :: rest)
      = ((match d.assignment with
          | [] => some ((s.BeginLine cfg 1).Write (GetTypeName d.type ++ " "
              ++ GetSafeIdentifierName g (GetSafeIdentifierName g d.name)))
          | first :: _ => OutputExpression cfg g
              (((s.BeginLine cfg 1).Write (GetTypeName d.type ++ " "
                ++ GetSafeIdentifierName g (GetSafeIdentifierName g d.name))).Write " = ")
              first (some d.type)).bind fun s2 =>
          Generate.properties cfg g ((s2.Write ";").EndLine "") rest) := by
  rw [Generate.properties, if_pos (by simp [hprop, harray]),
    OutputDeclarationT_not_array cfg g _ d.type _ harray]
  simp only [Option.bind_eq_bind, Option.some_bind]
  all_goals (cases d.assignment <;> rfl)

theorem properties_of_array (cfg : BuildConfig) (g : GLESGenerator) (s : GenState)
    (d : HLSLDeclaration) (rest : List HLSLStatement) (hidden : Bool)
    (harray : d.type.array = true) :
    Generate.properties cfg g s (.Declaration hidden d :: rest)
      = Generate.properties cfg g s rest := by
  rw [Generate.properties, if_neg (by simp [harray])]

/-- C22 fails as stated: for the visible, property-flagged top-level
declaration `float x` (no array, no initialiser) the statement pass writes an
empty line in its place and no macro, and the start of the synthesized `main`
declares it as the ordinary local variable `float x;`. -/
theorem Generate_property_counterexample :
    (propertyDeclaration "x" .Float).type.flags.Property = true
    ∧ (OutputStatements.body exampleConfig exampleGenerator freshState 0
        (.Declaration false (propertyDeclaration "x" .Float)) none).map GenState.code
      = some "\n"
    ∧ (Generate.properties exampleConfig exampleGenerator freshState
        (declarationTree (propertyDeclaration "x" .Float)).root).map GenState.code
      = some "    float x;\n"
    ∧ (Generate exampleConfig freshState (declarationTree (propertyDeclaration "x" .Float))
        .GLSL_100 .TARGET_FRAGMENT "main").map (fun r => (r.1, r.2.code))
      = some (true,
          (GenState.WriteLines freshState exampleConfig
            (Generate.preamble exampleConfig
              (declarationTree (propertyDeclaration "x" .Float)) .GLSL_100
              .TARGET_FRAGMENT)).code
          ++ "\nvoid main()\n\x7b\n    //properties\n    float x;\n    \n\x7d\n") := by
  have hsafe : ∀ g : GLESGenerator, GetSafeIdentifierName g "x" = "x" := fun g =>
    GetSafeIdentifierName_of_not_reserved g "x" (by decide)
  have hdecl : ∀ (g : GLESGenerator) (u : GenState),
      OutputStatements.declaration exampleConfig g u 0 (propertyDeclaration "x" .Float)
        = some (u.EndLine "") := by
    intro g u
    rw [declaration_top _ _ _ (propertyDeclaration "x" .Float) (by decide) (by decide),
      OutputDeclaration_of_property_plain _ _ _ (propertyDeclaration "x" .Float) rfl
        (Or.inl rfl)]
    rfl
  have hprops : ∀ (g : GLESGenerator) (u : GenState),
      Generate.properties exampleConfig g u (declarationTree (propertyDeclaration "x" .Float)).root
        = some ((((u.BeginLine exampleConfig 1).Write "float x").Write ";").EndLine "") := by
    intro g u
    have hroot : (declarationTree (propertyDeclaration "x" .Float)).root
        = [.Declaration false (propertyDeclaration "x" .Float),
            .Function false "main" (HLSLType.ofBase .Void) none [] []] := rfl
    rw [hroot, properties_of_property _ _ _ (propertyDeclaration "x" .Float) _ rfl rfl]
    simp only [propertyDeclaration, hsafe, Option.some_bind]
    rfl
  refine ⟨rfl, ?_, ?_, ?_⟩
  · rw [OutputStatements_body_declaration, if_neg (by decide), hdecl]
    decide
  · rw [hprops]
    decide
  · rw [Generate_declarationTree, hdecl]
    simp only [Option.some_bind, hprops, Option.map_some']
    have hfresh : ({ freshState with code := "" } : GenState) = freshState := rfl
    rw [hfresh]
    generalize hs0 : GenState.WriteLines freshState exampleConfig _ = s0
    have hflag : s0.hasError = false := by
      rw [← hs0]
      simp [freshState]
    simp only [GenState.WriteLine_code, GenState.Write_code, GenState.EndLine,
      GenState.BeginLine, GenState.Write_hasError, GenState.WriteLine_hasError, hflag,
      String.append_assoc, Bool.not_false]
    congr 3
theorem OutputExpression_floatLiteral (cfg : BuildConfig) (g : GLESGenerator) (s : GenState)
    (text : String) : OutputExpression cfg g s (floatLiteral text) none = some (s.Write text) := by
  rw [OutputExpression_none, floatLiteral, OutputExpression.node]
  rfl

theorem OutputExpression_intLiteral (cfg : BuildConfig) (g : GLESGenerator) (s : GenState)
    (value : Int) :
    OutputExpression cfg g s (intLiteral value) none = some (s.Write (fmt_d value)) := by
  rw [OutputExpression_none, intLiteral, OutputExpression.node]
  rfl

theorem OutputDeclaration_propertyArray (cfg : BuildConfig) (g : GLESGenerator)
    (s : GenState) :
    OutputDeclaration cfg g s propertyArray
      = some ((((((((((s.Write "#define k ").Write "(").Write "float[").Write "2").Write
          "](").Write "1.0").Write ", ").Write "2.0").Write ")").Write ")") := by
  rw [OutputDeclaration_of_property cfg g s propertyArray rfl (by simp [propertyArray]) rfl]
  have hsize : propertyArray.type.arraySize = some (intLiteral 2) := rfl
  have hinit : propertyArray.assignment = [floatLiteral "1.0", floatLiteral "2.0"] := rfl
  rw [hsize, hinit]
  dsimp only
  rw [OutputExpression_intLiteral, Option.some_bind, OutputExpressionList]
  rw [if_neg (by decide : ¬ (0 > 0)), OutputExpression_floatLiteral, Option.bind_eq_bind,
    Option.some_bind, OutputExpressionList]
  rw [if_pos (by decide : 0 + 1 > 0), OutputExpression_floatLiteral, Option.bind_eq_bind,
    Option.some_bind, OutputExpressionList]
  rfl

/-- C22, amended: a visible, property-flagged top-level declaration (not
named `output`, not a texture, not const-flagged) is written in its place
among the top-level statements as what `OutputDeclaration` writes for it and a
line end, without the qualifier `uniform`. For an array with an initialiser
that is the macro `#define <name> (<type>[<size>](<initializer list>))`; for
a declaration without initialiser or one that is not an array it is nothing,
so the line is empty. At the start of the synthesized `main` the loop over
the properties skips the arrays and declares every other visible
property-flagged declaration as an ordinary local variable: the indentation,
`<type> <name>`, ` = ` and the initialiser if there is one, and `;`. -/
theorem Generate_property_declaration (cfg : BuildConfig) (g : GLESGenerator) (s : GenState)
    (d : HLSLDeclaration) (returnType : Option HLSLType) (rest : List HLSLStatement)
    (hprop : d.type.flags.Property = true) :
    (d.name ≠ "output" → d.type.baseType ≠ .Texture → d.type.flags.Const = false →
      OutputStatements.body cfg g s 0 (.Declaration false d) returnType
        = (OutputDeclaration cfg g s d).map (fun s1 => s1.EndLine ""))
    ∧ (d.assignment ≠ [] → d.type.array = true →
      OutputDeclaration cfg g s d
        = ((match d.type.arraySize with
            | some size => OutputExpression cfg g
                (((s.Write ("#define " ++ d.name ++ " ")).Write "(").Write
                  (GetTypeName d.type ++ "[")) size none
            | none => some (((s.Write ("#define " ++ d.name ++ " ")).Write "(").Write
                  (GetTypeName d.type ++ "["))).bind fun s1 =>
            (OutputExpressionList cfg g (s1.Write "](") d.assignment [] 0).map
              fun (s2 : GenState) => (s2.Write ")").Write ")"))
    ∧ (d.assignment ≠ [] → d.type.array = true →
      ∀ s1, OutputDeclaration cfg g s d = some s1 → ∃ size list,
        s1.code = s.code ++ "#define " ++ d.name ++ " (" ++ GetTypeName d.type ++ "["
          ++ size ++ "](" ++ list ++ "))")
    ∧ (d.assignment = [] ∨ d.type.array = false → OutputDeclaration cfg g s d = some s)
    ∧ (d.type.array = true →
      Generate.properties cfg g s (.Declaration false d :: rest)
        = Generate.properties cfg g s rest)
    ∧ (d.type.array = false →
      Generate.properties cfg g s (.Declaration false d :: rest)
        = ((match d.assignment with
            | [] => some ((s.BeginLine cfg 1).Write (GetTypeName d.type ++ " "
                ++ GetSafeIdentifierName g (GetSafeIdentifierName g d.name)))
            | first :: _ => OutputExpression cfg g
                (((s.BeginLine cfg 1).Write (GetTypeName d.type ++ " "
                  ++ GetSafeIdentifierName g (GetSafeIdentifierName g d.name))).Write " = ")
                first (some d.type)).bind fun s2 =>
            Generate.properties cfg g ((s2.Write ";").EndLine "") rest)) := by
  refine ⟨?_, OutputDeclaration_of_property cfg g s d hprop, ?_,
    OutputDeclaration_of_property_plain cfg g s d hprop,
    properties_of_array cfg g s d rest false,
    properties_of_property cfg g s d rest hprop⟩
  · intro hname ht hc
    have heq := declaration_top cfg g s d hname ht
    simp only [hc, hprop, Bool.false_eq_true, if_false, Bool.not_true, if_true] at heq
    rw [OutputStatements_body_declaration, if_neg (by decide), heq]
  · intro hinit harray s1 h1
    rw [OutputDeclaration_of_property cfg g s d hprop hinit harray, Option.bind_eq_some] at h1
    obtain ⟨u1, hu1, h2⟩ := h1
    rw [Option.map_eq_some'] at h2
    obtain ⟨u2, hu2, h3⟩ := h2
    obtain ⟨list, hlist⟩ := OutputExpressionList_appends cfg g _ u2 _ _ _ hu2
    have hsize : ∃ size, u1.code = (((s.Write ("#define " ++ d.name ++ " ")).Write "(").Write
        (GetTypeName d.type ++ "[")).code ++ size := by
      cases hz : d.type.arraySize with
      | none =>
        rw [hz] at hu1
        exact ⟨"", by rw [← Option.some.inj hu1]; simp⟩
      | some size =>
        rw [hz] at hu1
        exact OutputExpression_appends cfg g _ u1 size none hu1
    obtain ⟨size, hsize⟩ := hsize
    refine ⟨size, list, ?_⟩
    rw [← h3]
    simp only [GenState.Write_code, hlist, hsize, String.append_assoc]
    rfl

/-- C22, amended, at concrete inputs: the property-flagged array
`float k[2] = { 1.0, 2.0 }` is written in its place as the macro
`#define k (float[2](1.0, 2.0))`, and the loop at the start of `main` writes
nothing for it. -/
theorem Generate_property_declaration_witness :
    propertyArray.type.flags.Property = true
    ∧ propertyArray.name ≠ "output"
    ∧ (OutputStatements.body exampleConfig exampleGenerator freshState 0
        (.Declaration false propertyArray) none).map GenState.code
      = some "#define k (float[2](1.0, 2.0))\n"
    ∧ Generate.properties exampleConfig exampleGenerator freshState
        [.Declaration false propertyArray] = some freshState := by
  have h := Generate_property_declaration exampleConfig exampleGenerator freshState
    propertyArray none [] rfl
  refine ⟨rfl, by decide, ?_, ?_⟩
  · rw [h.1 (by decide) (by decide) rfl, OutputDeclaration_propertyArray]
    decide
  · rw [h.2.2.2.2.1 rfl]
    rfl

/-! ## C26: the synthesized entry point -/

theorem OutputStatements_appends (cfg : BuildConfig) (g : GLESGenerator) (s s1 : GenState)
    (indent : Nat) (statement : List HLSLStatement) (returnType : Option HLSLType)
    (h : OutputStatements cfg g s indent statement returnType = some s1) :
    ∃ text, s1.code = s.code ++ text :=
  OutputStatements_holds (startsWith_stable s.code) cfg g s indent statement returnType
    s.startsWith_self s1 h

theorem properties_appends (cfg : BuildConfig) (g : GLESGenerator) (s s1 : GenState)
    (statement : List HLSLStatement) (h : Generate.properties cfg g s statement = some s1) :
    ∃ text, s1.code = s.code ++ text :=
  properties_holds (startsWith_stable s.code) cfg g statement s s.startsWith_self s1 h

theorem OutputArguments_appends (cfg : BuildConfig) (g : GLESGenerator) (s s1 : GenState)
    (arguments : List HLSLArgument) (k : Nat)
    (h : OutputArguments cfg g s arguments k = some s1) :
    ∃ text, s1.code = s.code ++ text :=
  OutputArguments_holds (startsWith_stable s.code) cfg g arguments s k s.startsWith_self s1 h

theorem Generate_entry_steps (cfg : BuildConfig) (s : GenState) (tree : HLSLTree)
    (version : GLSLVersion) (target : Target) (entryName : String) (entry : HLSLFunction)
    (r : Bool × GenState) (hfind : FindFunction tree.root entryName = some entry)
    (hr : Generate cfg s tree version target entryName = some r) :
    ∃ s0 s1 s2 s3 : GenState,
      OutputStatements cfg (Generate.members cfg tree version target entryName) s0 0 tree.root
        none = some s1
      ∧ Generate.properties cfg (Generate.members cfg tree version target entryName)
          (((s1.WriteLine cfg 0 "void main()").WriteLine cfg 0 "\x7b").WriteLine cfg 1
            "//properties") tree.root = some s2
      ∧ OutputStatements cfg (Generate.members cfg tree version target entryName)
          (s2.WriteLine cfg 1 "") 1 entry.statement none = some s3
      ∧ r = (!s3.hasError, s3.WriteLine cfg 0 "\x7d") := by
  unfold Generate at hr
  simp only [hfind, Option.bind_eq_bind, Option.bind_eq_some] at hr
  obtain ⟨s0, -, s1, h1, s2, h2, s3, h3, hr⟩ := hr
  refine ⟨s0, s1, s2, s3, h1, h2, h3, ?_⟩
  simp only [Option.some.injEq] at hr
  rw [← hr]
  rfl

/-- C26: when the tree has a top-level function named `entryName` and the
run returns, the text of `Generate` ends with the synthesized entry point:
after the text of the top-level statement pass come the line `void main()`,
the line `{`, the line `//properties` and the text of the loop over the
properties, an empty line at indent 1, the statements of the entry function
as `OutputStatements` writes them at indent 1, and the line `}`. In the
statement pass a visible function whose name is `entryName` writes nothing,
and every other visible function is written in its place as the indentation,
`<return type> <GetSafeIdentifierName(name)>(`, the arguments, `) {`, the
statements of its body at indent + 1 with its return type, and the line `}`. -/
theorem Generate_entry_point (cfg : BuildConfig) (s : GenState) (tree : HLSLTree)
    (version : GLSLVersion) (target : Target) (entryName : String) (entry : HLSLFunction)
    (r : Bool × GenState) (hfind : FindFunction tree.root entryName = some entry)
    (hr : Generate cfg s tree version target entryName = some r) :
    (∃ s0 s1 s2 s3 : GenState,
      OutputStatements cfg (Generate.members cfg tree version target entryName) s0 0 tree.root
        none = some s1
      ∧ Generate.properties cfg (Generate.members cfg tree version target entryName)
          (((s1.WriteLine cfg 0 "void main()").WriteLine cfg 0 "\x7b").WriteLine cfg 1
            "//properties") tree.root = some s2
      ∧ OutputStatements cfg (Generate.members cfg tree version target entryName)
          (s2.WriteLine cfg 1 "") 1 entry.statement none = some s3
      ∧ r = (!s3.hasError, s3.WriteLine cfg 0 "\x7d")
      ∧ ∃ properties body : String,
          s2.code = (((s1.WriteLine cfg 0 "void main()").WriteLine cfg 0 "\x7b").WriteLine cfg 1
            "//properties").code ++ properties
          ∧ s3.code = (s2.WriteLine cfg 1 "").code ++ body
          ∧ r.2.code = s1.code ++ "void main()\n" ++ "\x7b\n" ++ indentText cfg 1
              ++ "//properties\n" ++ properties ++ indentText cfg 1 ++ "\n" ++ body
              ++ "\x7d\n")
    ∧ (∀ (u : GenState) (indent : Nat) (name : String) (functionReturnType : HLSLType)
        (semantic : Option String) (argument : List HLSLArgument)
        (statement : List HLSLStatement) (returnType : Option HLSLType),
        (name = entryName →
          OutputStatements.body cfg (Generate.members cfg tree version target entryName) u
            indent (.Function false name functionReturnType semantic argument statement)
            returnType = some u)
        ∧ (name ≠ entryName →
          OutputStatements.body cfg (Generate.members cfg tree version target entryName) u
            indent (.Function false name functionReturnType semantic argument statement)
            returnType
          = (OutputArguments cfg (Generate.members cfg tree version target entryName)
              ((u.BeginLine cfg indent).Write (GetTypeName functionReturnType ++ " "
                ++ GetSafeIdentifierName (Generate.members cfg tree version target entryName)
                    name ++ "(")) argument 0).bind fun u1 =>
            (OutputStatements cfg (Generate.members cfg tree version target entryName)
              ((u1.Write ") \x7b").EndLine "") (indent + 1) statement
              (some functionReturnType)).bind fun u2 =>
            some (u2.WriteLine cfg indent "\x7d"))) := by
  refine ⟨?_, ?_⟩
  · obtain ⟨s0, s1, s2, s3, h1, h2, h3, h4⟩ :=
      Generate_entry_steps cfg s tree version target entryName entry r hfind hr
    obtain ⟨properties, hp⟩ := properties_appends cfg _ _ s2 _ h2
    obtain ⟨body, hb⟩ := OutputStatements_appends cfg _ _ s3 _ _ _ h3
    refine ⟨s0, s1, s2, s3, h1, h2, h3, h4, properties, body, hp, hb, ?_⟩
    have hi : indentText cfg 0 = "" := by simp [indentText]
    have e1 : ("void main()\n" : String) = "void main()" ++ "\n" := by decide
    have e2 : ("\x7b\n" : String) = "\x7b" ++ "\n" := by decide
    have e3 : ("//properties\n" : String) = "//properties" ++ "\n" := by decide
    have e4 : ("\x7d\n" : String) = "\x7d" ++ "\n" := by decide
    rw [h4, e1, e2, e3, e4]
    simp only [GenState.WriteLine_code, hb, hp, hi, String.append_assoc, String.append_empty,
      String.empty_append]
  · intro u indent name functionReturnType semantic argument statement returnType
    have hentry : (Generate.members cfg tree version target entryName).entryName = entryName :=
      rfl
    rw [OutputStatements_body_function]
    simp only [Bool.false_eq_true, if_false, hentry, String_Equal, decide_eq_true_eq]
    constructor
    · intro h
      rw [if_pos h]
    · intro h
      rw [if_neg h]
theorem Generate_uniformTree :
    Generate exampleConfig freshState (declarationTree (exampleDeclaration "x" .Float))
        .GLSL_100 .TARGET_FRAGMENT "main"
      = some (true,
          ((((((((GenState.WriteLines freshState exampleConfig
            (Generate.preamble exampleConfig (declarationTree (exampleDeclaration "x" .Float))
              .GLSL_100 .TARGET_FRAGMENT)).Write "uniform ").Write "float x").EndLine
            ";").WriteLine exampleConfig 0 "void main()").WriteLine exampleConfig 0
            "\x7b").WriteLine exampleConfig 1 "//properties").WriteLine exampleConfig 1
            "").WriteLine exampleConfig 0 "\x7d") := by
  have hprops : ∀ (g : GLESGenerator) (u : GenState), Generate.properties exampleConfig g u
      (declarationTree (exampleDeclaration "x" .Float)).root = some u := fun _ _ => rfl
  rw [Generate_declarationTree,
    declaration_top _ _ _ (exampleDeclaration "x" .Float) (by decide) (by decide),
    if_neg (by decide), if_pos (by decide), OutputDeclaration_exampleDeclaration]
  have hp : (exampleDeclaration "x" .Float).type.flags.Property = false := rfl
  simp only [Option.map_some', Option.some_bind, hprops, hp, Bool.false_eq_true, if_false]
  have hfresh : ({ freshState with code := "" } : GenState) = freshState := rfl
  rw [hfresh]
  simp [GenState.EndLine, freshState]

/-- C26 at a concrete input: the tree with the declaration `float x` and the
empty entry function `main`. -/
theorem Generate_entry_point_witness :
    FindFunction (declarationTree (exampleDeclaration "x" .Float)).root "main"
      = some { name := "main", returnType := HLSLType.ofBase .Void, semantic := none,
               argument := [], statement := [] }
    ∧ ∃ r, Generate exampleConfig freshState (declarationTree (exampleDeclaration "x" .Float))
        .GLSL_100 .TARGET_FRAGMENT "main" = some r
      ∧ ∃ s1 : GenState, ∃ properties body : String,
          r.2.code = s1.code ++ "void main()\n" ++ "\x7b\n" ++ indentText exampleConfig 1
              ++ "//properties\n" ++ properties ++ indentText exampleConfig 1 ++ "\n" ++ body
              ++ "\x7d\n" := by
  have hfind : FindFunction (declarationTree (exampleDeclaration "x" .Float)).root "main"
      = some { name := "main", returnType := HLSLType.ofBase .Void, semantic := none,
               argument := [], statement := [] } := by
    simp [FindFunction, declarationTree, String_Equal]
  refine ⟨hfind, _, Generate_uniformTree, ?_⟩
  obtain ⟨_, s1, _, _, _, _, _, _, properties, body, _, _, h⟩ :=
    (Generate_entry_point exampleConfig freshState
      (declarationTree (exampleDeclaration "x" .Float)) .GLSL_100 .TARGET_FRAGMENT "main" _ _
      hfind Generate_uniformTree).1
  exact ⟨s1, properties, body, h⟩

/-! ## C27 and C28: two runs of the generator -/

theorem Agree_none (R : GenState → GenState → Prop) : Agree R none none :=
  trivial

theorem Agree_some (R : GenState → GenState → Prop) (a b : GenState) :
    Agree R (some a) (some b) ↔ R a b :=
  Iff.rfl

theorem Agree_bind (R : GenState → GenState → Prop) (o1 o2 : Option GenState)
    (f1 f2 : GenState → Option GenState) (h1 : Agree R o1 o2)
    (h2 : ∀ a b, R a b → Agree R (f1 a) (f2 b)) : Agree R (o1.bind f1) (o2.bind f2) := by
  cases o1 <;> cases o2
  · exact trivial
  · exact h1.elim
  · exact h1.elim
  · exact h2 _ _ h1

theorem Agree_map (R : GenState → GenState → Prop) (o1 o2 : Option GenState)
    (f1 f2 : GenState → GenState) (h1 : Agree R o1 o2)
    (h2 : ∀ a b, R a b → R (f1 a) (f2 b)) : Agree R (o1.map f1) (o2.map f2) := by
  cases o1 <;> cases o2
  · exact trivial
  · exact h1.elim
  · exact h1.elim
  · exact h2 _ _ h1

theorem StableRel.relCloseCast {R : GenState → GenState → Prop} (hR : StableRel R)
    (s t : GenState) (c : Bool) (h : R s t) : R (s.closeCast c) (t.closeCast c) := by
  cases c
  · exact h
  · exact hR.write s t ")" h

theorem StableRel.relBeginLine {R : GenState → GenState → Prop} (hR : StableRel R)
    (s t : GenState) (cfg : BuildConfig) (n : Nat) (h : R s t) :
    R (s.BeginLine cfg n) (t.BeginLine cfg n) :=
  hR.write s t _ h

theorem StableRel.relEndLine {R : GenState → GenState → Prop} (hR : StableRel R)
    (s t : GenState) (text : String) (h : R s t) : R (s.EndLine text) (t.EndLine text) :=
  hR.write s t _ h

theorem StableRel.relWriteLine {R : GenState → GenState → Prop} (hR : StableRel R)
    (s t : GenState) (cfg : BuildConfig) (n : Nat) (text : String) (h : R s t) :
    R (s.WriteLine cfg n text) (t.WriteLine cfg n text) :=
  hR.write _ _ _ (hR.write s t _ h)

theorem StableRel.relWriteLines {R : GenState → GenState → Prop} (hR : StableRel R)
    (cfg : BuildConfig) (lines : List String) (s t : GenState) (h : R s t) :
    R (s.WriteLines cfg lines) (t.WriteLines cfg lines) := by
  induction lines generalizing s t with
  | nil => exact h
  | cons l ls ih => exact ih _ _ (hR.relWriteLine s t cfg 0 l h)

theorem StableRel.relOutputIdentifier {R : GenState → GenState → Prop} (hR : StableRel R)
    (cfg : BuildConfig) (g : GLESGenerator) (s t : GenState) (name : String) (h : R s t) :
    R (OutputIdentifier cfg g s name) (OutputIdentifier cfg g t name) :=
  hR.write s t _ h

theorem StableRel.relLiteral {R : GenState → GenState → Prop} (hR : StableRel R)
    (s t : GenState) (type : HLSLBaseType) (b : Bool) (f : String) (i : Int) (h : R s t) :
    R (OutputExpression.literal s type b f i) (OutputExpression.literal t type b f i) := by
  cases type <;> first | exact hR.write s t _ h | exact h

theorem StableRel.relOutField {R : GenState → GenState → Prop} (hR : StableRel R)
    (cfg : BuildConfig) (g : GLESGenerator) (s t : GenState) (f : HLSLStructField)
    (h : R s t) : R (OutputExpression.outField cfg g s f) (OutputExpression.outField cfg g t f)
    := by
  simp only [OutputExpression.outField]
  repeat' split
  all_goals repeat (first | exact h | apply hR.write | apply hR.relWriteLine)

theorem StableRel.relMemberBinding {R : GenState → GenState → Prop} (hR : StableRel R)
    (cfg : BuildConfig) (g : GLESGenerator) (s t : GenState) (object : HLSLExpression)
    (field : String) (h : R s t) :
    (OutputExpression.memberBinding cfg g s object field = none
      ∧ OutputExpression.memberBinding cfg g t object field = none)
    ∨ ∃ (a b : GenState) (flag : Bool),
        OutputExpression.memberBinding cfg g s object field = some (a, flag)
        ∧ OutputExpression.memberBinding cfg g t object field = some (b, flag)
        ∧ R a b := by
  have key : ∀ (o : Option HLSLStruct) (w : GenState → HLSLStructField → GenState),
      (∀ f, R (w s f) (w t f)) →
      ((match o with
          | none => none
          | some st =>
            match st.field.find? (fun f => decide (strcmp f.name field = 0)) with
            | some f => some (w s f, false)
            | none => some (s, true)) = (none : Option (GenState × Bool))
        ∧ (match o with
          | none => none
          | some st =>
            match st.field.find? (fun f => decide (strcmp f.name field = 0)) with
            | some f => some (w t f, false)
            | none => some (t, true)) = (none : Option (GenState × Bool)))
      ∨ ∃ (a b : GenState) (flag : Bool),
        (match o with
          | none => none
          | some st =>
            match st.field.find? (fun f => decide (strcmp f.name field = 0)) with
            | some f => some (w s f, false)
            | none => some (s, true)) = some (a, flag)
        ∧ (match o with
          | none => none
          | some st =>
            match st.field.find? (fun f => decide (strcmp f.name field = 0)) with
            | some f => some (w t f, false)
            | none => some (t, true)) = some (b, flag)
        ∧ R a b := by
    intro o w hw
    cases o with
    | none => exact Or.inl ⟨rfl, rfl⟩
    | some st =>
      cases hfind : st.field.find? (fun f => decide (strcmp f.name field = 0)) with
      | none => exact Or.inr ⟨s, t, true, by simp [hfind], by simp [hfind], h⟩
      | some f => exact Or.inr ⟨w s f, w t f, false, by simp [hfind], by simp [hfind], hw f⟩
  cases object with
  | IdentifierExpression identType name =>
    simp only [OutputExpression.memberBinding]
    split_ifs
    all_goals first
      | exact key _ (fun u f => OutputExpression.outField cfg g u f)
          (fun f => hR.relOutField cfg g s t f h)
      | exact key _ (fun u f => u.Write ("attr_" ++ f.name)) (fun f => hR.write s t _ h)
      | exact key _ (fun u f => u.Write ("var_" ++ f.name)) (fun f => hR.write s t _ h)
      | exact Or.inr ⟨s, t, true, rfl, rfl, h⟩
  | _ => exact Or.inr ⟨s, t, true, rfl, rfl, h⟩

theorem StableRel.relSamplerIdentifier {R : GenState → GenState → Prop} (hR : StableRel R)
    (g : GLESGenerator) (s t : GenState) (name : String) (h : R s t) :
    Agree R (OutputExpression.samplerIdentifier g s name)
      (OutputExpression.samplerIdentifier g t name) := by
  unfold OutputExpression.samplerIdentifier
  cases g.tree.FindGlobalDeclaration name with
  | none => exact trivial
  | some d => exact hR.write s t _ h

theorem OutputExpression_agree_all (cfg : BuildConfig) (g : GLESGenerator)
    (R : GenState → GenState → Prop) (hR : StableRel R) :
    (∀ (s : GenState) (e : HLSLExpression) (d : Option HLSLType) (t : GenState),
      R s t → Agree R (OutputExpression cfg g s e d) (OutputExpression cfg g t e d))
    ∧ (∀ (s : GenState) (e : HLSLExpression) (c : Bool) (t : GenState),
      R s t → Agree R (OutputExpression.node cfg g s e c) (OutputExpression.node cfg g t e c))
    ∧ (∀ (s : GenState) (ty : HLSLType) (n : String) (t : GenState),
      R s t → Agree R (OutputDeclarationT cfg g s ty n) (OutputDeclarationT cfg g t ty n))
    ∧ (∀ (s : GenState) (l : List HLSLExpression) (a : List HLSLType) (k : Nat)
        (t : GenState),
      R s t → Agree R (OutputExpressionList cfg g s l a k) (OutputExpressionList cfg g t l a k))
    := by
  apply OutputExpression.mutual_induct cfg g
    (fun s e d => ∀ t, R s t →
      Agree R (OutputExpression cfg g s e d) (OutputExpression cfg g t e d))
    (fun s e c => ∀ t, R s t →
      Agree R (OutputExpression.node cfg g s e c) (OutputExpression.node cfg g t e c))
    (fun s ty n => ∀ t, R s t →
      Agree R (OutputDeclarationT cfg g s ty n) (OutputDeclarationT cfg g t ty n))
    (fun s l a k => ∀ t, R s t →
      Agree R (OutputExpressionList cfg g s l a k) (OutputExpressionList cfg g t l a k))
  all_goals intros
  all_goals rename_i t hs
  all_goals try simp only [dite_eq_ite] at *
  all_goals try (first
    | (rw [OutputExpression, OutputExpression]
       all_goals try assumption
       all_goals try simp only [Option.bind_eq_bind]
       all_goals repeat' (first
         | exact Agree_none R
         | (rw [Agree_some]
            repeat (first | assumption | apply hR.write | apply hR.relCloseCast |
              apply hR.relLiteral | apply hR.relOutputIdentifier | apply hR.error)
            done)
         | (apply_assumption
            repeat (first | assumption | apply hR.write | apply hR.relCloseCast)
            done)
         | (refine Agree_bind R _ _ _ _ ?_ (fun a b hab => ?_)))
       done)
    | (rw [OutputExpression.node, OutputExpression.node]
       all_goals try assumption
       all_goals try simp only [*, Option.bind_eq_bind]
       all_goals repeat' (first
         | exact Agree_none R
         | (rw [Agree_some]
            repeat (first | assumption | apply hR.write | apply hR.relCloseCast |
              apply hR.relLiteral | apply hR.relOutputIdentifier | apply hR.error)
            done)
         | (apply_assumption
            repeat (first | assumption | apply hR.write | apply hR.relCloseCast)
            done)
         | (refine Agree_bind R _ _ _ _ ?_ (fun a b hab => ?_)))
       done)
    | (rw [OutputDeclarationT, OutputDeclarationT]
       all_goals try assumption
       all_goals try simp only [Option.bind_eq_bind]
       all_goals repeat' (first
         | exact Agree_none R
         | (rw [Agree_some]
            repeat (first | assumption | apply hR.write | apply hR.relCloseCast)
            done)
         | (apply_assumption
            repeat (first | assumption | apply hR.write | apply hR.relCloseCast)
            done)
         | (refine Agree_bind R _ _ _ _ ?_ (fun a b hab => ?_)))
       done)
    | (rw [OutputExpressionList, OutputExpressionList]
       all_goals try assumption
       all_goals try simp only [Option.bind_eq_bind]
       all_goals repeat' (first
         | exact Agree_none R
         | (rw [Agree_some]
            repeat (first | assumption | apply hR.write | apply hR.relCloseCast)
            done)
         | (apply_assumption
            repeat (first | assumption | apply hR.write | apply hR.relCloseCast)
            done)
         | (refine Agree_bind R _ _ _ _ ?_ (fun a b hab => ?_)))
       done)
    )
  case case3 =>
    rw [OutputExpression.node, OutputExpression.node]
    simp only [*, if_true]
    exact Agree_map R _ _ _ _ (hR.relSamplerIdentifier g _ _ _ hs)
      (fun a b hab => hR.relCloseCast a b _ hab)
  case case4 =>
    rename_i hsam
    rw [OutputExpression.node, OutputExpression.node, if_neg hsam, if_neg hsam, Agree_some]
    exact hR.relCloseCast _ _ _ (hR.relOutputIdentifier cfg g _ _ _ hs)
  case case12 =>
    rename_i s0 _ object field _ hx
    rw [OutputExpression.node, OutputExpression.node]
    rcases hR.relMemberBinding cfg g s0 t object field hs with ⟨h1, h2⟩ | ⟨a, b, flag, h1, h2, hab⟩
    · simp only [h1, h2]
      exact Agree_none R
    · rw [hx] at h1
      cases h1
  case case13 =>
    rename_i s0 _ object field _ s1 hx
    rw [OutputExpression.node, OutputExpression.node]
    rcases hR.relMemberBinding cfg g s0 t object field hs with ⟨h1, h2⟩ | ⟨a, b, flag, h1, h2, hab⟩
    · rw [hx] at h1
      cases h1
    · rw [hx] at h1
      simp only [Option.some.injEq, Prod.mk.injEq] at h1
      obtain ⟨rfl, rfl⟩ := h1
      simp only [hx, h2]
      rw [Agree_some]
      exact hR.relCloseCast _ _ _ hab
  case case14 =>
    rename_i s0 _ object field _ s1 hx hsc s2 ih
    rw [OutputExpression.node, OutputExpression.node]
    rcases hR.relMemberBinding cfg g s0 t object field hs with ⟨h1, h2⟩ | ⟨a, b, flag, h1, h2, hab⟩
    · rw [hx] at h1
      cases h1
    · rw [hx] at h1
      simp only [Option.some.injEq, Prod.mk.injEq] at h1
      obtain ⟨rfl, rfl⟩ := h1
      simp only [hx, h2, hsc, if_true, Option.bind_eq_bind]
      refine Agree_bind R _ _ _ _ (ih _ ?_) (fun a1 b1 hab1 => ?_)
      · exact hR.write _ _ _ (hR.write _ _ _ hab)
      · rw [Agree_some]
        exact hR.relCloseCast _ _ _ (hR.write _ _ _ hab1)
  case case15 =>
    rename_i s0 _ object field _ s1 hx hsc ih
    rw [OutputExpression.node, OutputExpression.node]
    rcases hR.relMemberBinding cfg g s0 t object field hs with ⟨h1, h2⟩ | ⟨a, b, flag, h1, h2, hab⟩
    · rw [hx] at h1
      cases h1
    · rw [hx] at h1
      simp only [Option.some.injEq, Prod.mk.injEq] at h1
      obtain ⟨rfl, rfl⟩ := h1
      simp only [hx, h2, hsc, if_false, Option.bind_eq_bind]
      refine Agree_bind R _ _ _ _ (ih _ ?_) (fun a1 b1 hab1 => ?_)
      · exact hR.write _ _ _ hab
      · rw [Agree_some]
        exact hR.relCloseCast _ _ _ (hR.write _ _ _ (hR.write _ _ _ hab1))
  case case19 =>
    rename_i hm hx
    rw [OutputExpression_node_call, OutputExpression_node_call, if_pos hm, if_pos hm]
    repeat' split
    all_goals first
      | exact absurd rfl (hx _ _)
      | (rw [Agree_some]
         exact hR.error _ _ _ hs)
  case case21 =>
    rename_i hm hsat hx
    rw [OutputExpression_node_call, OutputExpression_node_call, if_neg hm, if_neg hm,
      if_pos hsat, if_pos hsat]
    repeat' split
    all_goals first
      | exact absurd rfl (hx _)
      | (rw [Agree_some]
         exact hR.error _ _ _ hs)
  case case22 =>
    rename_i hm hsat hf _ _ _ _
    rw [OutputExpression_node_call, OutputExpression_node_call, if_neg hm, if_neg hm,
      if_neg hsat, if_neg hsat, if_pos hf, if_pos hf]
    simp only [Agree_some]
    exact hR.relCloseCast _ _ _ (hR.write _ _ _ hs)
  case case23 =>
    rename_i hm hsat hf hx
    rw [OutputExpression_node_call, OutputExpression_node_call, if_neg hm, if_neg hm,
      if_neg hsat, if_neg hsat, if_pos hf, if_pos hf]
    repeat' split
    all_goals first
      | exact absurd rfl (hx _ _ _ _)
      | (rw [Agree_some]
         exact hR.error _ _ _ hs)
  case case24 =>
    rename_i hm hsat hf s2 ih
    rw [OutputExpression_node_call, OutputExpression_node_call, if_neg hm, if_neg hm,
      if_neg hsat, if_neg hsat, if_neg hf, if_neg hf]
    refine Agree_bind R _ _ _ _ (ih _ ?_) (fun a b hab => ?_)
    · exact hR.write _ _ _ (hR.relOutputIdentifier cfg g _ _ _ hs)
    · rw [Agree_some]
      exact hR.relCloseCast _ _ _ (hR.write _ _ _ hab)
  case case30 =>
    rename_i ih2 ih1
    rw [OutputExpressionList, OutputExpressionList]
    refine Agree_bind R _ _ _ _ (ih2 _ ?_) (fun a b hab => ih1 a b hab)
    split_ifs
    · exact hR.write _ _ _ hs
    · exact hs
  case case31 =>
    rename_i ih2 ih1
    rw [OutputExpressionList, OutputExpressionList]
    refine Agree_bind R _ _ _ _ (ih2 _ ?_) (fun a b hab => ih1 a b hab)
    split_ifs
    · exact hR.write _ _ _ hs
    · exact hs
theorem OutputExpression_agree {R : GenState → GenState → Prop} (hR : StableRel R)
    (cfg : BuildConfig) (g : GLESGenerator) (s t : GenState) (e : HLSLExpression)
    (d : Option HLSLType) (h : R s t) :
    Agree R (OutputExpression cfg g s e d) (OutputExpression cfg g t e d) :=
  (OutputExpression_agree_all cfg g R hR).1 s e d t h

theorem OutputDeclarationT_agree {R : GenState → GenState → Prop} (hR : StableRel R)
    (cfg : BuildConfig) (g : GLESGenerator) (s t : GenState) (ty : HLSLType) (n : String)
    (h : R s t) :
    Agree R (OutputDeclarationT cfg g s ty n) (OutputDeclarationT cfg g t ty n) :=
  (OutputExpression_agree_all cfg g R hR).2.2.1 s ty n t h

theorem OutputExpressionList_agree {R : GenState → GenState → Prop} (hR : StableRel R)
    (cfg : BuildConfig) (g : GLESGenerator) (s t : GenState) (l : List HLSLExpression)
    (a : List HLSLType) (k : Nat) (h : R s t) :
    Agree R (OutputExpressionList cfg g s l a k) (OutputExpressionList cfg g t l a k) :=
  (OutputExpression_agree_all cfg g R hR).2.2.2 s l a k t h

theorem OutputDeclaration_agree {R : GenState → GenState → Prop} (hR : StableRel R)
    (cfg : BuildConfig) (g : GLESGenerator) (s t : GenState) (declaration : HLSLDeclaration)
    (h : R s t) :
    Agree R (OutputDeclaration cfg g s declaration) (OutputDeclaration cfg g t declaration) := by
  unfold OutputDeclaration
  split_ifs
  all_goals first
    | exact (Agree_some R _ _).2 h
    | exact (Agree_some R _ _).2 (hR.write _ _ _ h)
    | (simp only [Option.bind_eq_bind]
       refine Agree_bind R _ _ _ _ ?_ (fun a b hab => Agree_bind R _ _ _ _
         (OutputExpressionList_agree hR cfg g _ _ _ _ _ (hR.write _ _ _ hab))
         (fun a1 b1 hab1 => (Agree_some R _ _).2 (hR.write _ _ _ (hR.write _ _ _ hab1))))
       cases declaration.type.arraySize with
       | none =>
         exact (Agree_some R _ _).2 (hR.write _ _ _ (hR.write _ _ _ (hR.write _ _ _ h)))
       | some size =>
         exact OutputExpression_agree hR cfg g _ _ _ _
           (hR.write _ _ _ (hR.write _ _ _ (hR.write _ _ _ h))))
    | (simp only [Option.bind_eq_bind]
       refine Agree_bind R _ _ _ _ (OutputDeclarationT_agree hR cfg g _ _ _ _ h)
         (fun a b hab => ?_)
       cases declaration.assignment with
       | nil => exact (Agree_some R _ _).2 hab
       | cons first rest =>
         simp only
         refine Agree_bind R _ _ _ _ ?_ (fun a1 b1 hab1 => Agree_bind R _ _ _ _
           (OutputExpressionList_agree hR cfg g _ _ _ _ _ (hR.write _ _ _ hab1))
           (fun a2 b2 hab2 => (Agree_some R _ _).2 (hR.write _ _ _ hab2)))
         cases declaration.type.arraySize with
         | none => exact (Agree_some R _ _).2 (hR.write _ _ _ (hR.write _ _ _ hab))
         | some size =>
           exact OutputExpression_agree hR cfg g _ _ _ _
             (hR.write _ _ _ (hR.write _ _ _ hab)))
    | (simp only [Option.bind_eq_bind]
       refine Agree_bind R _ _ _ _ (OutputDeclarationT_agree hR cfg g _ _ _ _ h)
         (fun a b hab => ?_)
       cases declaration.assignment with
       | nil => exact (Agree_some R _ _).2 hab
       | cons first rest =>
         exact OutputExpression_agree hR cfg g _ _ _ _ (hR.write _ _ _ hab))

theorem OutputArguments_agree {R : GenState → GenState → Prop} (hR : StableRel R)
    (cfg : BuildConfig) (g : GLESGenerator) (arguments : List HLSLArgument) (s t : GenState)
    (k : Nat) (h : R s t) :
    Agree R (OutputArguments cfg g s arguments k) (OutputArguments cfg g t arguments k) := by
  induction arguments generalizing s t k with
  | nil => exact (Agree_some R _ _).2 h
  | cons a rest ih =>
    simp only [OutputArguments, Option.bind_eq_bind]
    refine Agree_bind R _ _ _ _ (OutputDeclarationT_agree hR cfg g _ _ _ _ ?_)
      (fun a1 b1 hab => ih a1 b1 _ hab)
    cases a.modifier <;> split_ifs <;>
      repeat (first | exact h | apply hR.write)

theorem structFields_agree {R : GenState → GenState → Prop} (hR : StableRel R)
    (cfg : BuildConfig) (g : GLESGenerator) (indent : Nat) (fields : List HLSLStructField)
    (s t : GenState) (h : R s t) :
    Agree R (OutputStatements.structFields cfg g s indent fields)
      (OutputStatements.structFields cfg g t indent fields) := by
  induction fields generalizing s t with
  | nil => exact (Agree_some R _ _).2 h
  | cons f rest ih =>
    simp only [OutputStatements.structFields, Option.bind_eq_bind]
    exact Agree_bind R _ _ _ _
      (OutputDeclarationT_agree hR cfg g _ _ _ _ (hR.relBeginLine _ _ _ _ h))
      (fun a b hab => ih _ _ (hR.relEndLine _ _ _ (hR.write _ _ _ hab)))

theorem buffer_agree {R : GenState → GenState → Prop} (hR : StableRel R) (cfg : BuildConfig)
    (s t : GenState) (indent : Nat) (buffer : HLSLBuffer) (h : R s t) :
    Agree R (OutputStatements.buffer cfg s indent buffer)
      (OutputStatements.buffer cfg t indent buffer) := by
  unfold OutputStatements.buffer
  dsimp only
  generalize buffer.field.type.arraySize = size
  cases size with
  | none => exact Agree_none R
  | some e =>
    cases e <;> first | exact Agree_none R | skip
    rw [Agree_some]
    split_ifs
    · exact hR.relWriteLine _ _ _ _ _ (hR.relWriteLine _ _ _ _ _ h)
    · exact hR.relWriteLine _ _ _ _ _ h

theorem declaration_agree {R : GenState → GenState → Prop} (hR : StableRel R)
    (cfg : BuildConfig) (g : GLESGenerator) (s t : GenState) (indent : Nat)
    (declaration : HLSLDeclaration) (h : R s t) :
    Agree R (OutputStatements.declaration cfg g s indent declaration)
      (OutputStatements.declaration cfg g t indent declaration) := by
  unfold OutputStatements.declaration
  split_ifs
  all_goals first
    | exact (Agree_some R _ _).2 h
    | (simp only [Option.bind_eq_bind]
       refine Agree_bind R _ _ _ _ (OutputDeclaration_agree hR cfg g _ _ _ ?_)
         (fun a b hab => ?_)
       · repeat (first | exact h | apply hR.write | apply hR.relBeginLine)
       · rw [Agree_some]
         first
           | exact hR.relEndLine _ _ _ hab
           | (split_ifs <;> exact hR.relEndLine _ _ _ hab))

theorem returnStatement_agree {R : GenState → GenState → Prop} (hR : StableRel R)
    (cfg : BuildConfig) (g : GLESGenerator) (s t : GenState) (indent : Nat)
    (expression : Option HLSLExpression) (returnType : Option HLSLType) (h : R s t) :
    Agree R (OutputStatements.returnStatement cfg g s indent expression returnType)
      (OutputStatements.returnStatement cfg g t indent expression returnType) := by
  unfold OutputStatements.returnStatement
  cases expression with
  | none => exact (Agree_some R _ _).2 (hR.relWriteLine _ _ _ _ _ h)
  | some e =>
    dsimp only
    split_ifs
    · simp only [Option.bind_eq_bind]
      exact Agree_bind R _ _ _ _
        (OutputExpression_agree hR cfg g _ _ _ _ (hR.write _ _ _ (hR.relBeginLine _ _ _ _ h)))
        (fun a b hab => (Agree_some R _ _).2 (hR.relEndLine _ _ _ hab))
    · exact (Agree_some R _ _).2 h
theorem OutputStatements_agree_all (cfg : BuildConfig) (g : GLESGenerator)
    (R : GenState → GenState → Prop) (hR : StableRel R) :
    (∀ (s : GenState) (indent : Nat) (statement : List HLSLStatement)
        (returnType : Option HLSLType) (t : GenState), R s t →
        Agree R (OutputStatements cfg g s indent statement returnType)
          (OutputStatements cfg g t indent statement returnType)) ∧
    (∀ (s : GenState) (indent : Nat) (statement : HLSLStatement)
        (returnType : Option HLSLType) (t : GenState), R s t →
        Agree R (OutputStatements.body cfg g s indent statement returnType)
          (OutputStatements.body cfg g t indent statement returnType)) := by
  refine OutputStatements.mutual_induct cfg g
    (fun _ indent statement returnType => ∀ s0 t0 : GenState, R s0 t0 →
      Agree R (OutputStatements cfg g s0 indent statement returnType)
        (OutputStatements cfg g t0 indent statement returnType))
    (fun _ indent statement returnType => ∀ s0 t0 : GenState, R s0 t0 →
      Agree R (OutputStatements.body cfg g s0 indent statement returnType)
        (OutputStatements.body cfg g t0 indent statement returnType))
    ?_ ?_ ?_ ?_ ?_ ?_ ?_ ?_ ?_ ?_ ?_ ?_ ?_ ?_ ?_ ?_ ?_ ?_ ?_ ?_ ?_ ?_ ?_ ?_ ?_ ?_ ?_ ?_ ?_ ?_ |>.imp
    (fun h s indent statement returnType t hs => h s indent statement returnType s t hs)
    (fun h s indent statement returnType t hs => h s indent statement returnType s t hs)
  all_goals intros
  all_goals simp only [OutputStatements_nil, OutputStatements_cons,
    OutputStatements_body_declaration, OutputStatements_body_struct,
    OutputStatements_body_buffer, OutputStatements_body_function,
    OutputStatements_body_expression, OutputStatements_body_return,
    OutputStatements_body_discard, OutputStatements_body_break,
    OutputStatements_body_continue, OutputStatements_body_if, OutputStatements_body_for,
    OutputStatements_body_block, OutputStatements_body_other]
  all_goals try simp only [*, if_true, if_false, Bool.false_eq_true]
  all_goals intro s0 t0 hs0
  all_goals try dsimp only at *
  all_goals repeat' (first
    | exact Agree_none R
    | (rw [Agree_some]
       repeat (first | assumption | apply hR.write | apply hR.relWriteLine | apply hR.relEndLine)
       done)
    | (apply declaration_agree hR; assumption)
    | (apply buffer_agree hR; assumption)
    | (apply returnStatement_agree hR; assumption)
    | (apply structFields_agree hR
       repeat (first | assumption | apply hR.write | apply hR.relWriteLine)
       done)
    | (apply OutputArguments_agree hR
       repeat (first | assumption | apply hR.write | apply hR.relBeginLine)
       done)
    | (apply OutputExpression_agree hR
       repeat (first | assumption | apply hR.write | apply hR.relWriteLine | apply hR.relBeginLine)
       done)
    | (apply OutputDeclaration_agree hR
       repeat (first | assumption | apply hR.write | apply hR.relBeginLine)
       done)
    | (apply_assumption
       repeat (first | assumption | apply hR.write | apply hR.relWriteLine | apply hR.relEndLine)
       done)
    | (refine Agree_bind R _ _ _ _ ?_ (fun a b hab => ?_))
    | split_ifs)
  all_goals
    rename_i elseStatement returnType hh ih2 ih1 a1 b1 hab1 hne
    cases elseStatement with
    | nil => simp at hne
    | cons e es =>
      exact ih1 s0 _ _ (hR.relWriteLine _ _ _ _ _ (hR.relWriteLine _ _ _ _ _ hab))

theorem OutputStatements_agree {R : GenState → GenState → Prop} (hR : StableRel R)
    (cfg : BuildConfig) (g : GLESGenerator) (s t : GenState) (indent : Nat)
    (statement : List HLSLStatement) (returnType : Option HLSLType) (h : R s t) :
    Agree R (OutputStatements cfg g s indent statement returnType)
      (OutputStatements cfg g t indent statement returnType) :=
  (OutputStatements_agree_all cfg g R hR).1 s indent statement returnType t h

theorem properties_agree {R : GenState → GenState → Prop} (hR : StableRel R)
    (cfg : BuildConfig) (g : GLESGenerator) (statement : List HLSLStatement)
    (s t : GenState) (h : R s t) :
    Agree R (Generate.properties cfg g s statement) (Generate.properties cfg g t statement) := by
  induction statement generalizing s t with
  | nil => exact (Agree_some R _ _).2 h
  | cons st rest ih =>
    cases st
    case Declaration hidden declaration =>
      simp only [Generate.properties, Option.bind_eq_bind]
      split_ifs
      · refine Agree_bind R _ _ _ _
          (OutputDeclarationT_agree hR cfg g _ _ _ _ (hR.relBeginLine _ _ _ _ h))
          (fun a b hab => Agree_bind R _ _ _ _ ?_
            (fun a1 b1 hab1 => ih _ _ (hR.relEndLine _ _ _ (hR.write _ _ _ hab1))))
        cases declaration.assignment with
        | nil => exact (Agree_some R _ _).2 hab
        | cons first rest1 => exact OutputExpression_agree hR cfg g _ _ _ _ (hR.write _ _ _ hab)
      · exact ih s t h
    all_goals
      simp only [Generate.properties]
      exact ih s t h

theorem vertexOutDeclarations_agree {R : GenState → GenState → Prop} (hR : StableRel R)
    (cfg : BuildConfig) (tree : HLSLTree) (version : GLSLVersion)
    (statement : List HLSLStatement) (s t : GenState) (h : R s t) :
    Agree R (Generate.vertexOutDeclarations cfg tree version s statement)
      (Generate.vertexOutDeclarations cfg tree version t statement) := by
  induction statement generalizing s t with
  | nil => exact (Agree_some R _ _).2 h
  | cons st rest ih =>
    cases st
    case ReturnStatement hidden expression =>
      simp only [Generate.vertexOutDeclarations]
      cases expression with
      | none => exact Agree_none R
      | some e =>
        simp only
        cases tree.FindGlobalStruct e.expressionType.typeName with
        | none => exact Agree_none R
        | some out_struct =>
          simp only [Option.bind_eq_bind, varyingOutFields_eq]
          split_ifs
          · exact ih _ _ (hR.relWriteLines cfg _ _ _ h)
          · exact Agree_none R
    all_goals
      simp only [Generate.vertexOutDeclarations]
      exact ih s t h

theorem fragmentOutField_agree {R : GenState → GenState → Prop} (hR : StableRel R)
    (cfg : BuildConfig) (version : GLSLVersion) (f : HLSLStructField) (s t : GenState)
    (units : List Nat) (h : R s t) :
    R (Generate.fragmentOutField cfg version (s, units) f).1
        (Generate.fragmentOutField cfg version (t, units) f).1
    ∧ (Generate.fragmentOutField cfg version (s, units) f).2
        = (Generate.fragmentOutField cfg version (t, units) f).2 := by
  unfold Generate.fragmentOutField
  cases f.semantic with
  | none => exact ⟨h, rfl⟩
  | some semantic =>
    simp only
    split_ifs
    all_goals first
      | exact ⟨hR.relWriteLine _ _ _ _ _ h, rfl⟩
      | (cases (List.range cfg.MAX_RENDER_TARGET_COUNT).find? (fun outIndex =>
            decide (stricmp semantic (GetFragmentOutTargetSemantic outIndex) = 0)) with
         | none => exact ⟨h, rfl⟩
         | some outIndex =>
           simp only
           split_ifs <;> first
             | exact ⟨hR.relWriteLine _ _ _ _ _ h, rfl⟩
             | exact ⟨hR.relWriteLine _ _ _ _ _ h, trivial⟩)

theorem fragmentOut_fold_agree {R : GenState → GenState → Prop} (hR : StableRel R)
    (cfg : BuildConfig) (version : GLSLVersion) (fields : List HLSLStructField) :
    ∀ (s t : GenState) (units : List Nat), R s t →
      R (fields.foldl (Generate.fragmentOutField cfg version) (s, units)).1
          (fields.foldl (Generate.fragmentOutField cfg version) (t, units)).1
      ∧ (fields.foldl (Generate.fragmentOutField cfg version) (s, units)).2
          = (fields.foldl (Generate.fragmentOutField cfg version) (t, units)).2 := by
  induction fields with
  | nil =>
    intro s t units h
    exact ⟨h, rfl⟩
  | cons f rest ih =>
    intro s t units h
    obtain ⟨h1, h2⟩ := fragmentOutField_agree hR cfg version f s t units h
    rw [List.foldl_cons, List.foldl_cons]
    have e1 : Generate.fragmentOutField cfg version (s, units) f
        = ((Generate.fragmentOutField cfg version (s, units) f).1,
            (Generate.fragmentOutField cfg version (s, units) f).2) := rfl
    have e2 : Generate.fragmentOutField cfg version (t, units) f
        = ((Generate.fragmentOutField cfg version (t, units) f).1,
            (Generate.fragmentOutField cfg version (s, units) f).2) := by
      rw [h2]
    rw [e1, e2]
    exact ih _ _ _ h1

theorem fetchOnlyUnits_agree {R : GenState → GenState → Prop} (hR : StableRel R)
    (cfg : BuildConfig) (version : GLSLVersion) (units : List Nat) :
    ∀ (s t : GenState), R s t →
      R (Generate.fetchOnlyUnits cfg version s units)
        (Generate.fetchOnlyUnits cfg version t units) := by
  induction units with
  | nil =>
    intro s t h
    exact h
  | cons u rest ih =>
    intro s t h
    exact ih _ _ (hR.relWriteLine _ _ _ _ _ h)

theorem fragmentOutDeclarations_agree {R : GenState → GenState → Prop} (hR : StableRel R)
    (cfg : BuildConfig) (tree : HLSLTree) (version : GLSLVersion) (s t : GenState)
    (h : R s t) :
    R (Generate.fragmentOutDeclarations cfg tree version s)
      (Generate.fragmentOutDeclarations cfg tree version t) := by
  unfold Generate.fragmentOutDeclarations
  cases tree.FindGlobalStruct (some "fragment_out") with
  | none => exact h
  | some fragment_out =>
    simp only
    obtain ⟨h1, h2⟩ := fragmentOut_fold_agree hR cfg version fragment_out.field s t
      (Generate.fetchUnits (tree.FindFunctionCall "FramebufferFetch") []) h
    rw [h2]
    exact fetchOnlyUnits_agree hR cfg version _ _ _ h1

theorem inputDeclarations_agree {R : GenState → GenState → Prop} (hR : StableRel R)
    (cfg : BuildConfig) (tree : HLSLTree) (version : GLSLVersion) (s t : GenState)
    (entryFunction : HLSLFunction) (h : R s t) :
    R (Generate.inputDeclarations cfg tree version s entryFunction)
      (Generate.inputDeclarations cfg tree version t entryFunction) := by
  unfold Generate.inputDeclarations
  simp only
  split
  · exact h
  · split_ifs
    · exact hR.relWriteLines cfg _ _ _ h
    · exact hR.relWriteLines cfg _ _ _ h

theorem Generate_flag (cfg : BuildConfig) (s : GenState) (tree : HLSLTree)
    (version : GLSLVersion) (target : Target) (entryName : String) (r : Bool × GenState)
    (hr : Generate cfg s tree version target entryName = some r) : r.1 = !r.2.hasError := by
  unfold Generate at hr
  cases hfind : FindFunction tree.root entryName with
  | none =>
    simp only [hfind, Option.some.injEq] at hr
    rw [← hr] <;> simp
  | some entryFunction =>
    simp only [hfind, Option.bind_eq_bind, Option.bind_eq_some] at hr
    obtain ⟨s1, -, s2, -, s3, -, s4, -, hr⟩ := hr
    simp only [Option.some.injEq] at hr
    rw [← hr] <;> simp

theorem Generate_agree {R : GenState → GenState → Prop} (hR : StableRel R)
    (cfg : BuildConfig) (s t : GenState) (tree : HLSLTree) (version : GLSLVersion)
    (target : Target) (entryName : String)
    (h : R { s with code := "" } { t with code := "" }) :
    Agree R ((Generate cfg s tree version target entryName).map Prod.snd)
      ((Generate cfg t tree version target entryName).map Prod.snd) := by
  have key : ∀ (o1 o2 : Option GenState) (f1 f2 : GenState → Option (Bool × GenState)),
      Agree R o1 o2 →
      (∀ a b, R a b → Agree R ((f1 a).map Prod.snd) ((f2 b).map Prod.snd)) →
      Agree R ((o1.bind f1).map Prod.snd) ((o2.bind f2).map Prod.snd) := by
    intro o1 o2 f1 f2 h1 h2
    cases o1 <;> cases o2
    · exact trivial
    · exact h1.elim
    · exact h1.elim
    · exact h2 _ _ h1
  have h0 := hR.relWriteLines cfg (Generate.preamble cfg tree version target) _ _ h
  unfold Generate
  cases hfind : FindFunction tree.root entryName with
  | none => exact hR.error _ _ _ h0
  | some entryFunction =>
    simp only [Option.bind_eq_bind]
    have h1 := inputDeclarations_agree hR cfg tree version _ _ entryFunction h0
    refine key _ _ _ _ ?_ (fun a b hab => key _ _ _ _
      (OutputStatements_agree hR cfg _ _ _ 0 tree.root none hab)
      (fun a1 b1 hab1 => key _ _ _ _
        (properties_agree hR cfg _ tree.root _ _
          (hR.relWriteLine _ _ _ _ _ (hR.relWriteLine _ _ _ _ _ (hR.relWriteLine _ _ _ _ _ hab1))))
        (fun a2 b2 hab2 => key _ _ _ _
          (OutputStatements_agree hR cfg _ _ _ 1 entryFunction.statement none
            (hR.relWriteLine _ _ _ _ _ hab2))
          (fun a3 b3 hab3 => hR.relWriteLine _ _ _ _ _ hab3))))
    split_ifs
    · exact vertexOutDeclarations_agree hR cfg tree version _ _ _ h1
    · exact fragmentOutDeclarations_agree hR cfg tree version _ _ h1
    · exact h1

theorem sameText_stable : StableRel GenState.sameText where
  write := by
    intro s t text h
    simp only [GenState.sameText, GenState.Write_code] at h ⊢
    rw [h]
  error := by
    intro s t m h
    simp only [GenState.sameText, GenState.Error_code] at h ⊢
    exact h

theorem sameOutcome_stable : StableRel GenState.sameOutcome where
  write := by
    rintro s t text ⟨h1, h2⟩
    exact ⟨by simp only [GenState.Write_code, h1], by simpa using h2⟩
  error := by
    rintro s t m ⟨h1, h2⟩
    exact ⟨by simp only [GenState.Error_code, h1], by simp⟩

theorem Generate_raised (cfg : BuildConfig) (s : GenState) (tree : HLSLTree)
    (version : GLSLVersion) (target : Target) (entryName : String) (r : Bool × GenState)
    (hs : s.hasError = true)
    (hr : Generate cfg s tree version target entryName = some r) : r.2.hasError = true := by
  have hQ : Stable (fun u : GenState => u.hasError = true) :=
    { write := fun u text hu => by simpa using hu
      error := fun u m _ => GenState.Error_hasError u m }
  refine Generate_holds hQ cfg s tree version target entryName ?_ r hr
  simp only [GenState.WriteLines_hasError]
  exact hs
theorem HLSLTree.ext_query (tree1 tree2 : HLSLTree) (hroot : tree1.root = tree2.root)
    (hquery : ∀ text, tree1.GetContainsString text = tree2.GetContainsString text) :
    tree1 = tree2 := by
  cases tree1
  cases tree2
  simp only [HLSLTree.GetContainsString] at hroot hquery
  subst hroot
  congr
  funext text
  exact hquery text

theorem Agree_map_eq {α : Type} (R : GenState → GenState → Prop)
    (o1 o2 : Option (Bool × GenState)) (f1 f2 : Bool × GenState → α)
    (h : Agree R (o1.map Prod.snd) (o2.map Prod.snd))
    (hf : ∀ a b, o1 = some a → o2 = some b → R a.2 b.2 → f1 a = f2 b) :
    o1.map f1 = o2.map f2 := by
  cases o1 <;> cases o2
  · rfl
  · exact False.elim h
  · exact False.elim h
  · exact congrArg some (hf _ _ rfl rfl h)

theorem Generate_sameText (cfg : BuildConfig) (s t : GenState) (tree : HLSLTree)
    (version : GLSLVersion) (target : Target) (entryName : String) :
    (Generate cfg s tree version target entryName).map (fun r => r.2.code)
      = (Generate cfg t tree version target entryName).map (fun r => r.2.code) :=
  Agree_map_eq GenState.sameText _ _ _ _
    (Generate_agree sameText_stable cfg s t tree version target entryName rfl)
    (fun _ _ _ _ h => h)

theorem Generate_sameOutcome (cfg : BuildConfig) (s t : GenState) (tree : HLSLTree)
    (version : GLSLVersion) (target : Target) (entryName : String)
    (hflag : s.hasError = t.hasError) :
    (Generate cfg s tree version target entryName).map (fun r => (r.1, r.2.code))
      = (Generate cfg t tree version target entryName).map (fun r => (r.1, r.2.code)) := by
  refine Agree_map_eq GenState.sameOutcome _ _ _ _
    (Generate_agree sameOutcome_stable cfg s t tree version target entryName ⟨rfl, hflag⟩)
    (fun a b h1 h2 h => ?_)
  have ha := Generate_flag cfg s tree version target entryName a h1
  have hb := Generate_flag cfg t tree version target entryName b h2
  obtain ⟨hc, he⟩ := h
  simp only [Prod.mk.injEq]
  exact ⟨by rw [ha, hb, he], hc⟩

/-- C27, the divergence of the code: the run on the empty tree fails for want
of an entry point and leaves the error flag raised; the tree with the
declaration `float x` and an empty `main` is generated with success on a fresh
generator, but on the generator that the failed run left behind `Generate`
returns `false` for it. -/
theorem Generate_reuse_divergence :
    Generate exampleConfig freshState emptyTree .GLSL_100 .TARGET_FRAGMENT "main"
      = some (false, failedState)
    ∧ (Generate exampleConfig freshState (declarationTree (exampleDeclaration "x" .Float))
        .GLSL_100 .TARGET_FRAGMENT "main").map Prod.fst = some true
    ∧ (Generate exampleConfig failedState (declarationTree (exampleDeclaration "x" .Float))
        .GLSL_100 .TARGET_FRAGMENT "main").map Prod.fst = some false := by
  have hprops : ∀ (g : GLESGenerator) (u : GenState), Generate.properties exampleConfig g u
      (declarationTree (exampleDeclaration "x" .Float)).root = some u := fun _ _ => rfl
  have hp : (exampleDeclaration "x" .Float).type.flags.Property = false := rfl
  refine ⟨rfl, ?_, ?_⟩
  · rw [Generate_uniformTree]
    rfl
  · rw [Generate_declarationTree,
      declaration_top _ _ _ (exampleDeclaration "x" .Float) (by decide) (by decide),
      if_neg (by decide), if_pos (by decide), OutputDeclaration_exampleDeclaration]
    simp only [Option.map_some', Option.some_bind, hprops, hp, Bool.false_eq_true, if_false]
    simp [GenState.EndLine, failedState]

/-- What a later call of `Generate` on a used generator does: the writer is
reset, the error flag is never lowered. Whatever state an earlier call left,
a later call returns exactly when the call with the same inputs on a fresh
generator returns, and writes the same text. Its result is the same too when
the flag was not raised before; when the flag was raised before, as every
call that returned `false` leaves it, the later call returns `false` for every
input. -/
theorem Generate_reuse (cfg : BuildConfig) (s fresh : GenState) (tree : HLSLTree)
    (version : GLSLVersion) (target : Target) (entryName : String)
    (hfresh : fresh.hasError = false) :
    (Generate cfg s tree version target entryName).map (fun r => r.2.code)
      = (Generate cfg fresh tree version target entryName).map (fun r => r.2.code)
    ∧ (s.hasError = false →
        (Generate cfg s tree version target entryName).map (fun r => (r.1, r.2.code))
          = (Generate cfg fresh tree version target entryName).map (fun r => (r.1, r.2.code)))
    ∧ (s.hasError = true →
        (Generate cfg s tree version target entryName).map (fun r => (r.1, r.2.code))
          = (Generate cfg fresh tree version target entryName).map
              (fun r => (false, r.2.code)))
    ∧ (∀ (s0 : GenState) (tree0 : HLSLTree) (version0 : GLSLVersion) (target0 : Target)
        (entryName0 : String) (failed : GenState),
        Generate cfg s0 tree0 version0 target0 entryName0 = some (false, failed) →
        failed.hasError = true) := by
  refine ⟨Generate_sameText cfg s fresh tree version target entryName, ?_, ?_, ?_⟩
  · intro hs
    exact Generate_sameOutcome cfg s fresh tree version target entryName (hs.trans hfresh.symm)
  · intro hs
    refine Agree_map_eq GenState.sameText _ _ _ _
      (Generate_agree sameText_stable cfg s fresh tree version target entryName rfl)
      (fun a b h1 _ h => ?_)
    have ha := Generate_flag cfg s tree version target entryName a h1
    have hraised := Generate_raised cfg s tree version target entryName a hs h1
    simp only [Prod.mk.injEq]
    exact ⟨by rw [ha, hraised]; rfl, h⟩
  · intro s0 tree0 version0 target0 entryName0 failed h
    have hf := Generate_flag cfg s0 tree0 version0 target0 entryName0 _ h
    simpa using hf

/-- The lemma on a used generator at a concrete input: the generator that the
failed run on the empty tree left behind, and the tree with the declaration
`float x` and an empty `main`. -/
theorem Generate_reuse_witness :
    freshState.hasError = false
    ∧ failedState.hasError = true
    ∧ (Generate exampleConfig failedState (declarationTree (exampleDeclaration "x" .Float))
        .GLSL_100 .TARGET_FRAGMENT "main").map (fun r => (r.1, r.2.code))
      = (Generate exampleConfig freshState (declarationTree (exampleDeclaration "x" .Float))
          .GLSL_100 .TARGET_FRAGMENT "main").map (fun r => (false, r.2.code)) :=
  ⟨rfl, by simp [failedState],
    (Generate_reuse exampleConfig failedState freshState
      (declarationTree (exampleDeclaration "x" .Float)) .GLSL_100 .TARGET_FRAGMENT "main"
      rfl).2.2.1 (by simp [failedState])⟩

/-- C28: two calls of `Generate` on generators whose error flag is not
raised, whatever older content their writers and logs hold, for the same
build, dialect, stage and entry name and for trees with the same statements
and the same answers of the token query, both end without result or both
return, with the same flag and the same text. -/
theorem Generate_deterministic (cfg : BuildConfig) (s1 s2 : GenState)
    (tree1 tree2 : HLSLTree) (version : GLSLVersion) (target : Target) (entryName : String)
    (hfresh1 : s1.hasError = false) (hfresh2 : s2.hasError = false)
    (hroot : tree1.root = tree2.root)
    (hquery : ∀ text, tree1.GetContainsString text = tree2.GetContainsString text) :
    (Generate cfg s1 tree1 version target entryName).map (fun r => (r.1, r.2.code))
      = (Generate cfg s2 tree2 version target entryName).map (fun r => (r.1, r.2.code)) := by
  rw [HLSLTree.ext_query tree1 tree2 hroot hquery]
  exact Generate_sameOutcome cfg s1 s2 tree2 version target entryName
    (hfresh1.trans hfresh2.symm)

/-- C28 at a concrete input: a fresh generator and one with older content,
for the tree with the declaration `float x` and an empty `main`. -/
theorem Generate_deterministic_witness :
    freshState.hasError = false ∧ usedState.hasError = false
    ∧ (Generate exampleConfig freshState (declarationTree (exampleDeclaration "x" .Float))
        .GLSL_100 .TARGET_FRAGMENT "main").map (fun r => (r.1, r.2.code))
      = (Generate exampleConfig usedState (declarationTree (exampleDeclaration "x" .Float))
          .GLSL_100 .TARGET_FRAGMENT "main").map (fun r => (r.1, r.2.code)) :=
  ⟨rfl, rfl,
    Generate_deterministic exampleConfig freshState usedState
      (declarationTree (exampleDeclaration "x" .Float))
      (declarationTree (exampleDeclaration "x" .Float)) .GLSL_100 .TARGET_FRAGMENT "main"
      rfl rfl rfl (fun _ => rfl)⟩

/-! ## C31: the destination types of a conditional expression -/

theorem OutputExpression_node_conditional (cfg : BuildConfig) (g : GLESGenerator)
    (s : GenState) (t : HLSLType) (c a b : HLSLExpression) (cast : Bool) :
    OutputExpression.node cfg g s (.ConditionalExpression t c a b) cast
      = (OutputExpression cfg g (s.Write "((") c (some (HLSLType.ofBase .Bool))).bind fun s1 =>
          (OutputExpression cfg g (s1.Write ")?(") a none).bind fun s2 =>
            (OutputExpression cfg g (s2.Write "):(") b none).map fun s3 =>
              (s3.Write "))").closeCast cast := by
  rw [OutputExpression.node]
  simp only [Option.bind_eq_bind]
  cases OutputExpression cfg g (s.Write "((") c (some (HLSLType.ofBase .Bool)) with
  | none => rfl
  | some s1 =>
    simp only [Option.some_bind]
    cases OutputExpression cfg g (s1.Write ")?(") a none with
    | none => rfl
    | some s2 =>
      simp only [Option.some_bind]
      cases OutputExpression cfg g (s2.Write "):(") b none <;> rfl

theorem OutputIdentifier_b (cfg : BuildConfig) (g : GLESGenerator) (u : GenState) :
    OutputIdentifier cfg g u "b" = u.Write "b" := by
  have h := GetSafeIdentifierName_of_not_reserved g "b" (by decide)
  simp [OutputIdentifier, String_Equal, h]

/-- C31 fails as stated: in the conditional `b ? i : x` of type `float`, whose
branch `i` has type `int`, the branches are written without destination type,
so the text is `((b)?(i):(x))` and no cast to `float` is written, although the
base type of `i` differs from the type of the conditional. -/
theorem OutputExpression_conditional_counterexample :
    OutputExpression.cast (.IdentifierExpression (HLSLType.ofBase .Int) "i")
        (some (HLSLType.ofBase .Float)) = true
    ∧ (OutputExpression exampleConfig exampleGenerator freshState
        (.ConditionalExpression (HLSLType.ofBase .Float)
          (.IdentifierExpression (HLSLType.ofBase .Bool) "b")
          (.IdentifierExpression (HLSLType.ofBase .Int) "i")
          (.IdentifierExpression (HLSLType.ofBase .Float) "x")) none).map GenState.code
      = some "((b)?(i):(x))" := by
  refine ⟨by decide, ?_⟩
  rw [OutputExpression_none, OutputExpression_node_conditional]
  rw [OutputExpression_identifier _ _ _ _ _ _ (by decide) (by decide), OutputIdentifier_b]
  simp only [Option.some_bind]
  rw [OutputExpression_identifier _ _ _ _ _ none (by decide) (by decide), OutputIdentifier_i]
  simp only [Option.some_bind]
  rw [OutputExpression_identifier _ _ _ _ _ none (by decide) (by decide), OutputIdentifier_x]
  decide

/-- C31, amended: a conditional expression is written as `((`, the condition,
`)?(`, the first branch, `):(`, the second branch and `))`. Only the condition
gets a destination type, the type `bool`; the two branches are written
without destination type, and an expression without destination type is
written without cast, whatever its base type. A condition for which a cast
is due (its base type is not `bool`, no early return at it) is written as
`bool (`, the condition as written without destination type, and `)`. -/
theorem OutputExpression_conditional_hints (cfg : BuildConfig) (g : GLESGenerator)
    (s : GenState) (t : HLSLType) (c a b : HLSLExpression) (cast : Bool) :
    OutputExpression.node cfg g s (.ConditionalExpression t c a b) cast
      = ((OutputExpression cfg g (s.Write "((") c (some (HLSLType.ofBase .Bool))).bind fun s1 =>
          (OutputExpression cfg g (s1.Write ")?(") a none).bind fun s2 =>
            (OutputExpression cfg g (s2.Write "):(") b none).map fun s3 =>
              (s3.Write "))").closeCast cast)
    ∧ (∀ (u : GenState) (e : HLSLExpression),
        OutputExpression.cast e none = false
        ∧ OutputExpression cfg g u e none = OutputExpression.node cfg g u e false)
    ∧ (∀ (u : GenState),
        OutputExpression.cast c (some (HLSLType.ofBase .Bool)) = true →
        OutputExpression.returnsEarly g c = false →
        OutputExpression cfg g u c (some (HLSLType.ofBase .Bool))
          = (OutputExpression cfg g (u.Write "bool (") c none).map
              (fun s1 => s1.Write ")")) := by
  refine ⟨OutputExpression_node_conditional cfg g s t c a b cast,
    fun u e => ⟨by cases e <;> rfl, OutputExpression_none cfg g u e⟩,
    fun u hcast hearly =>
      OutputExpression_wrapped cfg g u c (HLSLType.ofBase .Bool) hcast rfl hearly⟩

/-- C31, amended, at a concrete input: the condition `i` of type `int` gets
the destination type `bool` and is written as `bool (i)`. -/
theorem OutputExpression_conditional_hints_witness :
    OutputExpression.cast (.IdentifierExpression (HLSLType.ofBase .Int) "i")
        (some (HLSLType.ofBase .Bool)) = true
    ∧ OutputExpression exampleConfig exampleGenerator freshState
        (.IdentifierExpression (HLSLType.ofBase .Int) "i") (some (HLSLType.ofBase .Bool))
      = (OutputExpression exampleConfig exampleGenerator (freshState.Write "bool (")
          (.IdentifierExpression (HLSLType.ofBase .Int) "i") none).map
          (fun s1 => s1.Write ")") :=
  ⟨by decide,
    (OutputExpression_conditional_hints exampleConfig exampleGenerator freshState
      (HLSLType.ofBase .Float) (.IdentifierExpression (HLSLType.ofBase .Int) "i")
      (.IdentifierExpression (HLSLType.ofBase .Int) "i")
      (.IdentifierExpression (HLSLType.ofBase .Float) "x") false).2.2 freshState
      (by decide) rfl⟩

/-! ## C34: the precision of a varying on the two sides of the interface -/

/-- C34, the divergence of the code: for the `half3x3` field `m` without
attribute the vertex stage computes the empty prefix and declares
`out  mat3 var_m;`, while the fragment stage computes `mediump` and declares
`in mediump mat3 var_m;`, so the two sides of the interface disagree. -/
theorem Generate_precision_divergence :
    Generate.outputPrecision (typedField "m" .Half3x3 "TEXCOORD0") = ""
    ∧ Generate.inputPrecision (typedField "m" .Half3x3 "TEXCOORD0") = "mediump"
    ∧ Generate.outputPrecision (typedField "m" .Half3x3 "TEXCOORD0")
        ≠ Generate.inputPrecision (typedField "m" .Half3x3 "TEXCOORD0")
    ∧ (Generate.varyingOutFields exampleConfig .GLSL_300 freshState
        [typedField "m" .Half3x3 "TEXCOORD0"]).map GenState.code
        = some "out  mat3 var_m;\n"
    ∧ Generate.varyingInLine .GLSL_300 (typedField "m" .Half3x3 "TEXCOORD0")
        = "in mediump mat3 var_m;" := by
  refine ⟨by decide, by decide, by decide, by decide, by decide⟩

/-- The precision prefixes of the two sides of the interface. The prefix
computed for a field as output of the vertex stage equals the prefix computed
for it as input of the fragment stage exactly when the field has an
attribute or its base type is neither `half3x3` nor `half4x4`. With an
attribute both are `lowp` for the attribute `lowp` (in any letter case) and
empty otherwise; without attribute both are `mediump` for `half`, `half2`,
`half3`, `half4`; for a `half3x3` or `half4x4` field without attribute the
vertex stage computes the empty prefix and the fragment stage computes
`mediump`. -/
theorem Generate_precision_agreement (field : HLSLStructField) :
    (Generate.outputPrecision field = Generate.inputPrecision field
      ↔ (field.attribute_.isSome = true
          ∨ (field.type.baseType ≠ .Half3x3 ∧ field.type.baseType ≠ .Half4x4)))
    ∧ (∀ a, field.attribute_ = some a →
        Generate.outputPrecision field = (if stricmp a.attrText "lowp" = 0 then "lowp" else "")
        ∧ Generate.inputPrecision field = (if stricmp a.attrText "lowp" = 0 then "lowp" else ""))
    ∧ (field.attribute_ = none →
        (field.type.baseType = .Half ∨ field.type.baseType = .Half2
          ∨ field.type.baseType = .Half3 ∨ field.type.baseType = .Half4) →
        Generate.outputPrecision field = "mediump" ∧ Generate.inputPrecision field = "mediump")
    ∧ (field.attribute_ = none →
        (field.type.baseType = .Half3x3 ∨ field.type.baseType = .Half4x4) →
        Generate.outputPrecision field = "" ∧ Generate.inputPrecision field = "mediump") := by
  obtain ⟨name, type, semantic, attribute_⟩ := field
  refine ⟨?_, ?_, ?_, ?_⟩
  · cases attribute_ with
    | some a => simp [Generate.outputPrecision, Generate.inputPrecision]
    | none =>
      simp only [Generate.outputPrecision, Generate.inputPrecision, Option.isSome_none,
        Bool.false_eq_true, false_or]
      generalize type.baseType = b
      cases b <;> decide
  · intro a h
    simp only at h
    subst h
    exact ⟨rfl, rfl⟩
  · intro h hb
    simp only at h hb
    subst h
    simp only [Generate.outputPrecision, Generate.inputPrecision]
    rcases hb with hb | hb | hb | hb <;> rw [hb] <;> decide
  · intro h hb
    simp only at h hb
    subst h
    simp only [Generate.outputPrecision, Generate.inputPrecision]
    rcases hb with hb | hb <;> rw [hb] <;> decide

/-- The lemma on the precision prefixes at concrete inputs: a `half4` field
without attribute gets `mediump` on both sides, a `half4x4` field without
attribute gets the empty prefix as vertex output and `mediump` as fragment
input. -/
theorem Generate_precision_agreement_witness :
    (Generate.outputPrecision (typedField "c" .Half4 "COLOR0") = "mediump"
      ∧ Generate.inputPrecision (typedField "c" .Half4 "COLOR0") = "mediump")
    ∧ (Generate.outputPrecision (typedField "w" .Half4x4 "TEXCOORD1") = ""
      ∧ Generate.inputPrecision (typedField "w" .Half4x4 "TEXCOORD1") = "mediump") :=
  ⟨(Generate_precision_agreement (typedField "c" .Half4 "COLOR0")).2.2.1 rfl
      (Or.inr (Or.inr (Or.inr rfl))),
    (Generate_precision_agreement (typedField "w" .Half4x4 "TEXCOORD1")).2.2.2 rfl
      (Or.inr rfl)⟩

/-! ## C37: a member access on a scalar that is no swizzle of length 2, 3 or 4 -/

theorem swizzleName_other (g : GLESGenerator) (n : Nat) (h2 : n ≠ 2) (h3 : n ≠ 3)
    (h4 : n ≠ 4) : OutputExpression.swizzleName g n = "" := by
  simp [OutputExpression.swizzleName, h2, h3, h4]

theorem OutputIdentifier_s (cfg : BuildConfig) (g : GLESGenerator) (u : GenState) :
    OutputIdentifier cfg g u "s" = u.Write "s" := by
  have h := GetSafeIdentifierName_of_not_reserved g "s" (by decide)
  simp [OutputIdentifier, String_Equal, h]

/-- C37: a member access whose base has scalar base type `float`, `half`,
`int` or `uint` and whose field name has a length other than 2, 3 and 4 is
written as `(`, the base (once, without destination type) and `)`: the helper
name written before the parenthesis is the empty text, and no `.field` is
written after it. The access fails exactly when the base fails. With a
destination type for which no cast is due the text is the same. -/
theorem OutputExpression_scalar_member (cfg : BuildConfig) (g : GLESGenerator) (s : GenState)
    (t : HLSLType) (object : HLSLExpression) (field : String) (dstType : Option HLSLType)
    (hscalar : object.expressionType.baseType = .Float ∨ object.expressionType.baseType = .Half
      ∨ object.expressionType.baseType = .Int ∨ object.expressionType.baseType = .Uint)
    (hlen : field.length ≠ 2 ∧ field.length ≠ 3 ∧ field.length ≠ 4)
    (hcast : OutputExpression.cast (.MemberAccess t object field) dstType = false) :
    OutputExpression.swizzleName g field.length = ""
    ∧ OutputExpression cfg g s (.MemberAccess t object field) dstType
      = (OutputExpression cfg g (s.Write "(") object none).map (fun so => so.Write ")")
    ∧ ∀ s1, OutputExpression cfg g s (.MemberAccess t object field) dstType = some s1 →
        ∃ so text, OutputExpression cfg g (s.Write "(") object none = some so
          ∧ so.code = s.code ++ "(" ++ text ∧ s1.code = s.code ++ "(" ++ text ++ ")" := by
  have hsc : OutputExpression.isScalar object.expressionType.baseType = true := by
    rcases hscalar with h | h | h | h <;> simp [h, OutputExpression.isScalar]
  have hname := swizzleName_other g field.length hlen.1 hlen.2.1 hlen.2.2
  have hmain : OutputExpression cfg g s (.MemberAccess t object field) dstType
      = (OutputExpression cfg g (s.Write "(") object none).map (fun so => so.Write ")") := by
    rw [OutputExpression_of_cast_false _ _ _ _ _ hcast, OutputExpression.node,
      memberBinding_of_scalar cfg g s object field hsc]
    simp only [hsc, if_true, hname, GenState.Write_empty]
    cases OutputExpression cfg g _ object none <;> rfl
  refine ⟨hname, hmain, ?_⟩
  intro s1 h1
  rw [hmain] at h1
  cases hso : OutputExpression cfg g (s.Write "(") object none with
  | none => rw [hso] at h1; cases h1
  | some so =>
    rw [hso] at h1
    obtain ⟨text, htext⟩ := OutputExpression_appends cfg g _ so object none hso
    refine ⟨so, text, rfl, htext, ?_⟩
    cases h1
    simp only [GenState.Write] at htext ⊢
    rw [htext]

/-- C37 at a concrete input: `s.x` for a float identifier `s` is written as
`(s)`. -/
theorem OutputExpression_scalar_member_witness :
    OutputExpression exampleConfig exampleGenerator freshState
        (.MemberAccess (HLSLType.ofBase .Float)
          (.IdentifierExpression (HLSLType.ofBase .Float) "s") "x") none
      = some (freshState.Write "(s)") := by
  have h := (OutputExpression_scalar_member exampleConfig exampleGenerator freshState
    (HLSLType.ofBase .Float) (.IdentifierExpression (HLSLType.ofBase .Float) "s") "x" none
    (Or.inl rfl) (by decide) rfl).2.1
  rw [h, OutputExpression_identifier _ _ _ _ _ none (by decide) (by decide), OutputIdentifier_s]
  rfl

/-! ## C39: declarations and returns of `output` -/

theorem returnsValue_iff (e : HLSLExpression) :
    OutputStatements.returnsValue e = false ↔ ∃ t, e = .IdentifierExpression t "output" := by
  cases e <;> simp [OutputStatements.returnsValue, strcmp_eq_zero]

theorem returnStatement_of_value (cfg : BuildConfig) (g : GLESGenerator) (s : GenState)
    (indent : Nat) (e : HLSLExpression) (returnType : Option HLSLType)
    (h : OutputStatements.returnsValue e = true) :
    OutputStatements.returnStatement cfg g s indent (some e) returnType
      = (OutputExpression cfg g ((s.BeginLine cfg indent).Write "return ") e returnType).map
          (fun s1 => s1.EndLine ";") := by
  have h1 : OutputStatements.returnStatement cfg g s indent (some e) returnType
      = if OutputStatements.returnsValue e = true then
          (OutputExpression cfg g ((s.BeginLine cfg indent).Write "return ") e returnType).bind
            (fun s1 => some (s1.EndLine ";"))
        else some s := by
    cases e <;> rfl
  rw [h1, if_pos h]
  cases OutputExpression cfg g ((s.BeginLine cfg indent).Write "return ") e returnType <;> rfl

theorem returnStatement_of_output (cfg : BuildConfig) (g : GLESGenerator) (s : GenState)
    (indent : Nat) (t : HLSLType) (returnType : Option HLSLType) :
    OutputStatements.returnStatement cfg g s indent (some (.IdentifierExpression t "output"))
      returnType = some s := by
  simp [OutputStatements.returnStatement, strcmp]

theorem declaration_of_output (cfg : BuildConfig) (g : GLESGenerator) (s : GenState)
    (indent : Nat) (d : HLSLDeclaration) (h : d.name = "output") :
    OutputStatements.declaration cfg g s indent d = some s := by
  simp [OutputStatements.declaration, h, strcmp]

/-- C39: in every call of `OutputStatements` (any indentation, any return
type, any generator, so at every nesting level and in every function) a
declaration statement whose name is exactly `output` and a return statement
whose expression is the identifier `output` write nothing and the loop goes
on with the next statement. Every other visible return statement with an
expression `e` writes the indentation, `return `, the expression with the
return type as destination type, and `;` with a line break; it fails only
when the expression does. -/
theorem OutputStatements_output (cfg : BuildConfig) (g : GLESGenerator) (s : GenState)
    (indent : Nat) (returnType : Option HLSLType) :
    (∀ (hidden : Bool) (d : HLSLDeclaration) (rest : List HLSLStatement), d.name = "output" →
        OutputStatements.body cfg g s indent (.Declaration hidden d) returnType = some s
        ∧ OutputStatements cfg g s indent (.Declaration hidden d :: rest) returnType
          = OutputStatements cfg g s indent rest returnType)
    ∧ (∀ (hidden : Bool) (t : HLSLType) (rest : List HLSLStatement),
        OutputStatements.body cfg g s indent
            (.ReturnStatement hidden (some (.IdentifierExpression t "output"))) returnType
          = some s
        ∧ OutputStatements cfg g s indent
            (.ReturnStatement hidden (some (.IdentifierExpression t "output")) :: rest) returnType
          = OutputStatements cfg g s indent rest returnType)
    ∧ (∀ (e : HLSLExpression), (¬ ∃ t, e = .IdentifierExpression t "output") →
        OutputStatements.body cfg g s indent (.ReturnStatement false (some e)) returnType
          = (OutputExpression cfg g ((s.BeginLine cfg indent).Write "return ") e returnType).map
              (fun s1 => s1.EndLine ";")
        ∧ ∀ s1, OutputStatements.body cfg g s indent (.ReturnStatement false (some e)) returnType
              = some s1 →
            ∃ so text, OutputExpression cfg g ((s.BeginLine cfg indent).Write "return ") e
                  returnType = some so
              ∧ so.code = s.code ++ indentText cfg indent ++ "return " ++ text
              ∧ s1.code = s.code ++ indentText cfg indent ++ "return " ++ text ++ ";\n") := by
  refine ⟨?_, ?_, ?_⟩
  · intro hidden d rest hd
    have hb : OutputStatements.body cfg g s indent (.Declaration hidden d) returnType
        = some s := by
      rw [OutputStatements_body_declaration, declaration_of_output cfg g s indent d hd]
      cases hidden <;> rfl
    exact ⟨hb, by rw [OutputStatements_cons, hb]; rfl⟩
  · intro hidden t rest
    have hb : OutputStatements.body cfg g s indent
        (.ReturnStatement hidden (some (.IdentifierExpression t "output"))) returnType
        = some s := by
      rw [OutputStatements_body_return, returnStatement_of_output]
      cases hidden <;> rfl
    exact ⟨hb, by rw [OutputStatements_cons, hb]; rfl⟩
  · intro e he
    have hv : OutputStatements.returnsValue e = true := by
      cases hr : OutputStatements.returnsValue e with
      | true => rfl
      | false => exact absurd ((returnsValue_iff e).mp hr) he
    have hb : OutputStatements.body cfg g s indent (.ReturnStatement false (some e)) returnType
        = (OutputExpression cfg g ((s.BeginLine cfg indent).Write "return ") e returnType).map
            (fun s1 => s1.EndLine ";") := by
      rw [OutputStatements_body_return]
      exact returnStatement_of_value cfg g s indent e returnType hv
    refine ⟨hb, ?_⟩
    intro s1 h1
    rw [hb] at h1
    cases hso : OutputExpression cfg g ((s.BeginLine cfg indent).Write "return ") e
        returnType with
    | none => rw [hso] at h1; cases h1
    | some so =>
      rw [hso] at h1
      obtain ⟨text, htext⟩ := OutputExpression_appends cfg g _ so e returnType hso
      refine ⟨so, text, rfl, htext, ?_⟩
      cases h1
      simp only [GenState.EndLine, GenState.Write_code]
      rw [htext]
      rfl

/-- C39 at concrete inputs: the declaration `float4 output` and the statement
`return output;` write nothing, `return x;` writes its line. -/
theorem OutputStatements_output_witness :
    OutputStatements exampleConfig exampleGenerator freshState 1
        [.Declaration false (exampleDeclaration "output" .Float4),
         .ReturnStatement false (some (.IdentifierExpression (HLSLType.ofBase .Float4) "output"))]
        none = some freshState
    ∧ (OutputStatements.body exampleConfig exampleGenerator freshState 1
        (.ReturnStatement false (some (.IdentifierExpression (HLSLType.ofBase .Float) "x")))
        none).map GenState.code = some "    return x;\n" := by
  have h := OutputStatements_output exampleConfig exampleGenerator freshState 1 none
  refine ⟨?_, ?_⟩
  · rw [(h.1 false (exampleDeclaration "output" .Float4) _ rfl).2,
      (h.2.1 false (HLSLType.ofBase .Float4) []).2]
    rfl
  · rw [(h.2.2 (.IdentifierExpression (HLSLType.ofBase .Float) "x")
        (by rintro ⟨t, ht⟩; injection ht with _ hn; exact absurd hn (by decide))).1,
      OutputExpression_identifier _ _ _ _ _ none (by decide) (by decide), OutputIdentifier_x]
    decide

/-! ## C32: the destination type of a returned expression -/

theorem GenState.WriteLine_zero (s : GenState) (cfg : BuildConfig) (t : String) :
    s.WriteLine cfg 0 t = s.Write (t ++ "\n") := by
  rw [GenState.WriteLine, GenState.BeginLine_zero, GenState.EndLine]

theorem GenState.WriteLine_eq (s : GenState) (cfg : BuildConfig) (n : Nat) (t : String) :
    s.WriteLine cfg n t = s.Write (indentText cfg n ++ (t ++ "\n")) := by
  rw [GenState.WriteLine, GenState.BeginLine, GenState.EndLine, GenState.Write_Write]

/-- The function `float f()` with the given body, at the top level. -/
theorem OutputStatements_exampleFunction (s : GenState) (statement : List HLSLStatement) :
    OutputStatements.body exampleConfig exampleGenerator s 0
        (.Function false "f" (HLSLType.ofBase .Float) none [] statement) none
      = (OutputStatements exampleConfig exampleGenerator (s.Write "float f() \x7b\n") 1
          statement (some (HLSLType.ofBase .Float))).map
          (fun s1 => s1.Write "\x7d\n") := by
  rw [OutputStatements_body_function]
  have hs : ((((s.BeginLine exampleConfig 0).Write
      (GetTypeName (HLSLType.ofBase .Float) ++ " " ++ GetSafeIdentifierName exampleGenerator "f"
        ++ "(")).Write ") \x7b").EndLine "") = s.Write "float f() \x7b\n" := by
    have h1 : (GetTypeName (HLSLType.ofBase .Float) ++ " "
        ++ GetSafeIdentifierName exampleGenerator "f" ++ "(") = "float f(" := by decide
    rw [h1, GenState.BeginLine_zero, GenState.EndLine, GenState.Write_Write,
      GenState.Write_Write]
    rfl
  have he : String_Equal "f" exampleGenerator.entryName = false := by decide
  simp only [Bool.false_eq_true, if_false, he, OutputArguments, Option.some_bind, hs]
  cases OutputStatements exampleConfig exampleGenerator (s.Write "float f() \x7b\n") 1
      statement (some (HLSLType.ofBase .Float)) with
  | none => rfl
  | some s1 =>
    simp only [Option.some_bind, Option.map_some', GenState.WriteLine_zero]
    rfl

theorem OutputStatements_single (cfg : BuildConfig) (g : GLESGenerator) (s : GenState)
    (indent : Nat) (statement : HLSLStatement) (returnType : Option HLSLType) :
    OutputStatements cfg g s indent [statement] returnType
      = OutputStatements.body cfg g s indent statement returnType := by
  rw [OutputStatements_cons]
  cases OutputStatements.body cfg g s indent statement returnType <;> rfl

theorem returnsValue_i :
    OutputStatements.returnsValue (.IdentifierExpression (HLSLType.ofBase .Int) "i") = true := by
  decide

/-- C32, the divergence of the code: in the function `float f()` the
statement `return i;` with `i` of type `int` is written as `return float (i);`
when it stands directly in the body, but as `return i;`, without the cast to
the return type, when it stands in a block statement of the body: the block
statement hands no return type on. -/
theorem OutputStatements_return_divergence :
    OutputExpression.cast (.IdentifierExpression (HLSLType.ofBase .Int) "i")
        (some (HLSLType.ofBase .Float)) = true
    ∧ (OutputStatements.body exampleConfig exampleGenerator freshState 0
        (.Function false "f" (HLSLType.ofBase .Float) none []
          [.ReturnStatement false (some (.IdentifierExpression (HLSLType.ofBase .Int) "i"))])
        none).map GenState.code
      = some "float f() \x7b\n    return float (i);\n\x7d\n"
    ∧ (OutputStatements.body exampleConfig exampleGenerator freshState 0
        (.Function false "f" (HLSLType.ofBase .Float) none []
          [.BlockStatement false
            [.ReturnStatement false (some (.IdentifierExpression (HLSLType.ofBase .Int) "i"))]])
        none).map GenState.code
      = some "float f() \x7b\n    \x7b\n        return i;\n    \x7d\n\x7d\n" := by
  refine ⟨by decide, ?_, ?_⟩
  · rw [OutputStatements_exampleFunction, OutputStatements_single,
      OutputStatements_body_return]
    simp only [Bool.false_eq_true, if_false]
    rw [returnStatement_of_value _ _ _ _ _ _ returnsValue_i,
      OutputExpression_wrapped _ _ _ (.IdentifierExpression (HLSLType.ofBase .Int) "i")
        (HLSLType.ofBase .Float) (by decide) rfl rfl,
      OutputExpression_identifier _ _ _ _ _ none (by decide) (by decide), OutputIdentifier_i]
    decide
  · rw [OutputStatements_exampleFunction, OutputStatements_single,
      OutputStatements_body_block]
    simp only [Bool.false_eq_true, if_false]
    rw [OutputStatements_single, OutputStatements_body_return]
    simp only [Bool.false_eq_true, if_false]
    rw [returnStatement_of_value _ _ _ _ _ _ returnsValue_i,
      OutputExpression_identifier _ _ _ _ _ none (by decide) (by decide), OutputIdentifier_i]
    decide

/-- The return type that reaches a return statement. The body of a visible
function other than the entry function is written with the return type `T`
of the function as return type. A visible return statement with an
expression other than the identifier `output` writes `return `, the
expression with the return type in force as destination type, and `;`. The
if statement hands the return type in force to both branches and the for
statement hands it to its body, but a block statement writes its statements
without return type, whatever type is in force. With the destination type
`T`, an expression for which a cast is due (`T` not an array, no early return)
is written as the name of `T`, ` (`, the expression as written without
destination type, and `)`. -/
theorem OutputStatements_return_hint (cfg : BuildConfig) (g : GLESGenerator) (s : GenState)
    (indent : Nat) (T : HLSLType) (returnType : Option HLSLType) :
    (∀ (name : String) (semantic : Option String) (argument : List HLSLArgument)
        (statement : List HLSLStatement), String_Equal name g.entryName = false →
        OutputStatements.body cfg g s indent
            (.Function false name T semantic argument statement) returnType
          = (OutputArguments cfg g ((s.BeginLine cfg indent).Write
              (GetTypeName T ++ " " ++ GetSafeIdentifierName g name ++ "(")) argument 0).bind
              fun s1 =>
              (OutputStatements cfg g ((s1.Write ") \x7b").EndLine "") (indent + 1) statement
                (some T)).bind fun s2 => some (s2.WriteLine cfg indent "\x7d"))
    ∧ (∀ (e : HLSLExpression), (¬ ∃ t, e = .IdentifierExpression t "output") →
        OutputStatements.body cfg g s indent (.ReturnStatement false (some e)) returnType
          = (OutputExpression cfg g ((s.BeginLine cfg indent).Write "return ") e returnType).map
              (fun s1 => s1.EndLine ";"))
    ∧ (∀ (condition : HLSLExpression) (statement elseStatement : List HLSLStatement),
        OutputStatements.body cfg g s indent
            (.IfStatement false condition statement elseStatement) returnType
          = (OutputExpression cfg g ((s.WriteLine cfg indent "").Write "if (") condition
              (some (HLSLType.ofBase .Bool))).bind fun s1 =>
            (OutputStatements cfg g ((s1.Write ") \x7b").EndLine "") (indent + 1) statement
              returnType).bind fun s2 =>
            if elseStatement.isEmpty then some (s2.WriteLine cfg indent "\x7d")
            else
              (OutputStatements cfg g
                ((s2.WriteLine cfg indent "\x7d").WriteLine cfg indent "else \x7b") (indent + 1)
                elseStatement returnType).bind fun s3 =>
              some (s3.WriteLine cfg indent "\x7d"))
    ∧ (∀ (initialization : HLSLDeclaration) (condition increment : HLSLExpression)
        (statement : List HLSLStatement),
        OutputStatements.body cfg g s indent
            (.ForStatement false initialization condition increment statement) returnType
          = (OutputDeclaration cfg g ((s.BeginLine cfg indent).Write "for (")
              initialization).bind fun s1 =>
            (OutputExpression cfg g (s1.Write "; ") condition
              (some (HLSLType.ofBase .Bool))).bind fun s2 =>
            (OutputExpression cfg g (s2.Write "; ") increment none).bind fun s3 =>
            (OutputStatements cfg g ((s3.Write ") \x7b").EndLine "") (indent + 1) statement
              returnType).bind fun s4 =>
            some (s4.WriteLine cfg indent "\x7d"))
    ∧ (∀ (statement : List HLSLStatement),
        OutputStatements.body cfg g s indent (.BlockStatement false statement) returnType
          = (OutputStatements cfg g (s.WriteLine cfg indent "\x7b") (indent + 1) statement
              none).bind fun s1 => some (s1.WriteLine cfg indent "\x7d"))
    ∧ (∀ (u : GenState) (e : HLSLExpression),
        OutputExpression cfg g u e none = OutputExpression.node cfg g u e false)
    ∧ (∀ (u : GenState) (e : HLSLExpression),
        OutputExpression.cast e (some T) = true → T.array = false →
        OutputExpression.returnsEarly g e = false →
        OutputExpression cfg g u e (some T)
          = (OutputExpression cfg g (u.Write (GetTypeName T ++ " (")) e none).map
              (fun s1 => s1.Write ")")) := by
  refine ⟨?_, ?_, ?_, ?_, ?_, fun u e => OutputExpression_none cfg g u e,
    fun u e hcast harray hearly => OutputExpression_wrapped cfg g u e T hcast harray hearly⟩
  · intro name semantic argument statement hname
    rw [OutputStatements_body_function, if_neg (by decide), if_neg (by simp [hname])]
  · intro e he
    have hv : OutputStatements.returnsValue e = true := by
      cases hr : OutputStatements.returnsValue e with
      | true => rfl
      | false => exact absurd ((returnsValue_iff e).mp hr) he
    rw [OutputStatements_body_return, if_neg (by decide)]
    exact returnStatement_of_value cfg g s indent e returnType hv
  · intro condition statement elseStatement
    rw [OutputStatements_body_if, if_neg (by decide)]
  · intro initialization condition increment statement
    rw [OutputStatements_body_for, if_neg (by decide)]
  · intro statement
    rw [OutputStatements_body_block, if_neg (by decide)]

/-- The lemma on the return type at a concrete input: the returned expression
`i` of type `int` with the destination type `float` is written as `float (i)`. -/
theorem OutputStatements_return_hint_witness :
    OutputExpression.cast (.IdentifierExpression (HLSLType.ofBase .Int) "i")
        (some (HLSLType.ofBase .Float)) = true
    ∧ OutputExpression exampleConfig exampleGenerator freshState
        (.IdentifierExpression (HLSLType.ofBase .Int) "i") (some (HLSLType.ofBase .Float))
      = (OutputExpression exampleConfig exampleGenerator
          (freshState.Write (GetTypeName (HLSLType.ofBase .Float) ++ " ("))
          (.IdentifierExpression (HLSLType.ofBase .Int) "i") none).map
          (fun s1 => s1.Write ")") :=
  ⟨by decide,
    (OutputStatements_return_hint exampleConfig exampleGenerator freshState 1
      (HLSLType.ofBase .Float) (some (HLSLType.ofBase .Float))).2.2.2.2.2.2 freshState
      (.IdentifierExpression (HLSLType.ofBase .Int) "i") (by decide) rfl rfl⟩

/-! ## C33: the name of a variable at its declaration and at its uses -/

theorem OutputDeclaration_plain (cfg : BuildConfig) (g : GLESGenerator) (s : GenState)
    (d : HLSLDeclaration) (hprop : d.type.flags.Property = false)
    (hsampler : IsSamplerType d.type = false) (harray : d.type.array = false)
    (hassign : d.assignment = []) :
    OutputDeclaration cfg g s d
      = some (s.Write (GetTypeName d.type ++ " "
          ++ GetSafeIdentifierName g (GetSafeIdentifierName g d.name))) := by
  unfold OutputDeclaration
  rw [if_neg (by simp [hprop]), if_neg (by simp [hsampler])]
  simp only [Option.bind_eq_bind]
  rw [OutputDeclarationT_not_array cfg g s d.type _ harray, hassign]
  rfl

theorem remapTable_not_reserved (cfg : BuildConfig) (g : GLESGenerator) (name : String)
    (entry : String × String × String)
    (h : (remapTable cfg g).find? (fun entry => entry.1 == name) = some entry) :
    name ∉ ReservedWord := by
  have hmem := List.mem_of_find?_eq_some h
  have hname := List.find?_some h
  simp only [beq_iff_eq] at hname
  subst hname
  simp only [remapTable, List.mem_cons, List.mem_singleton, List.mem_nil_iff, or_false] at hmem
  rcases hmem with h | h | h | h | h | h | h | h | h | h | h | h | h | h | h | h | h <;>
    (rw [h]; dsimp only; decide)

/-- C33, the divergence of the code: the variable `frac` of type `float` is
declared as `float frac`, but an identifier expression that refers to it is
written as `fract`, the remapped name of the intrinsic, so the use does not
name the declared variable. -/
theorem OutputDeclaration_name_divergence :
    OutputDeclaration exampleConfig exampleGenerator freshState
        (exampleDeclaration "frac" .Float) = some (freshState.Write "float frac")
    ∧ OutputExpression exampleConfig exampleGenerator freshState
        (.IdentifierExpression (HLSLType.ofBase .Float) "frac") none
      = some (freshState.Write "fract")
    ∧ ("frac" : String) ≠ "fract" := by
  refine ⟨?_, ?_, by decide⟩
  · rw [OutputDeclaration_plain exampleConfig exampleGenerator freshState
      (exampleDeclaration "frac" .Float) rfl rfl rfl rfl]
    have h : GetTypeName (exampleDeclaration "frac" .Float).type ++ " "
        ++ GetSafeIdentifierName exampleGenerator
            (GetSafeIdentifierName exampleGenerator (exampleDeclaration "frac" .Float).name)
        = "float frac" := by decide
    rw [h]
  · rw [OutputExpression_identifier _ _ _ _ _ none (by decide) (by decide),
      OutputIdentifier_eq_reference]
    have h : referenceRemap exampleConfig exampleGenerator "frac" = "fract" := by decide
    rw [h]

/-- The name of a variable at its declaration and at its uses. A declaration
of a variable `n` that is no property, no sampler, no array and has no
initialiser is written as the type name, a blank and the name `n` sanitized
twice; an identifier expression that refers to `n` is written as the name
that the remap table gives for `n`. When `n` is one of the seventeen names of
the remap table, the declaration shows `n` itself and the uses show the entry
of the table for the dialect. When `n` is not in the table, the uses show the
sanitized name, and the declaration shows the same text provided the
sanitized name is not again a reserved word; in particular both show `n`
itself when `n` is neither in the table nor a reserved word. -/
theorem OutputDeclaration_name (cfg : BuildConfig) (g : GLESGenerator) (s : GenState)
    (d : HLSLDeclaration) (hprop : d.type.flags.Property = false)
    (hsampler : IsSamplerType d.type = false) (harray : d.type.array = false)
    (hassign : d.assignment = []) :
    OutputDeclaration cfg g s d
      = some (s.Write (GetTypeName d.type ++ " "
          ++ GetSafeIdentifierName g (GetSafeIdentifierName g d.name)))
    ∧ (∀ (u : GenState) (t : HLSLType),
        ¬ (t.baseType = .Sampler2D ∨ t.baseType = .SamplerCube ∨ t.baseType = .Sampler2DShadow) →
        OutputExpression cfg g u (.IdentifierExpression t d.name) none
          = some (u.Write (referenceRemap cfg g d.name)))
    ∧ (∀ entry, (remapTable cfg g).find? (fun entry => entry.1 == d.name) = some entry →
        GetSafeIdentifierName g (GetSafeIdentifierName g d.name) = d.name
        ∧ referenceRemap cfg g d.name
          = (if g.version = .GLSL_100 then entry.2.1 else entry.2.2))
    ∧ ((remapTable cfg g).find? (fun entry => entry.1 == d.name) = none →
        referenceRemap cfg g d.name = GetSafeIdentifierName g d.name
        ∧ (GetSafeIdentifierName g d.name ∉ ReservedWord →
            GetSafeIdentifierName g (GetSafeIdentifierName g d.name)
              = referenceRemap cfg g d.name)
        ∧ (d.name ∉ ReservedWord →
            GetSafeIdentifierName g (GetSafeIdentifierName g d.name) = d.name
            ∧ referenceRemap cfg g d.name = d.name)) := by
  refine ⟨OutputDeclaration_plain cfg g s d hprop hsampler harray hassign, ?_, ?_, ?_⟩
  · intro u t ht
    rw [OutputExpression_identifier cfg g u t d.name none rfl ht, OutputIdentifier_eq_reference]
  · intro entry h
    have hr := remapTable_not_reserved cfg g d.name entry h
    refine ⟨?_, ?_⟩
    · rw [GetSafeIdentifierName_of_not_reserved g d.name hr,
        GetSafeIdentifierName_of_not_reserved g d.name hr]
    · unfold referenceRemap
      rw [h]
  · intro h
    have hu : referenceRemap cfg g d.name = GetSafeIdentifierName g d.name := by
      unfold referenceRemap
      rw [h]
    refine ⟨hu, ?_, ?_⟩
    · intro hn
      rw [hu, GetSafeIdentifierName_of_not_reserved g _ hn]
    · intro hn
      rw [hu, GetSafeIdentifierName_of_not_reserved g d.name hn,
        GetSafeIdentifierName_of_not_reserved g d.name hn]
      exact ⟨rfl, rfl⟩

/-- The lemma on the name of a variable at a concrete input: the variable `x`
of type `float` is declared as `float x` and referred to as `x`. -/
theorem OutputDeclaration_name_witness :
    OutputDeclaration exampleConfig exampleGenerator freshState
        (exampleDeclaration "x" .Float)
      = some (freshState.Write (GetTypeName (exampleDeclaration "x" .Float).type ++ " "
          ++ GetSafeIdentifierName exampleGenerator
              (GetSafeIdentifierName exampleGenerator (exampleDeclaration "x" .Float).name)))
    ∧ GetSafeIdentifierName exampleGenerator
        (GetSafeIdentifierName exampleGenerator (exampleDeclaration "x" .Float).name) = "x"
    ∧ referenceRemap exampleConfig exampleGenerator (exampleDeclaration "x" .Float).name
        = "x" :=
  ⟨(OutputDeclaration_name exampleConfig exampleGenerator freshState
      (exampleDeclaration "x" .Float) rfl rfl rfl rfl).1,
    ((OutputDeclaration_name exampleConfig exampleGenerator freshState
      (exampleDeclaration "x" .Float) rfl rfl rfl rfl).2.2.2 (by decide)).2.2 (by decide)⟩

/-! ## C35: one `inout` declaration for every fetched slot -/

theorem targetSlot_lt_ten (maxTargets : Nat) (hmax : maxTargets ≤ 10) (semantic : String)
    (n : Nat) (h : targetSlot maxTargets semantic = some n) : n < 10 := by
  unfold targetSlot at h
  split at h
  · cases h; omega
  · exact lt_of_lt_of_le (List.mem_range.mp (List.mem_of_find?_eq_some h)) hmax

theorem resolveSlots_lines (maxTargets : Nat) (hmax : maxTargets ≤ 10)
    (semantics : List (Option String)) (fetch : List Nat) :
    (resolveOutputs maxTargets semantics fetch).1
        ++ (resolveOutputs maxTargets semantics fetch).2.map (fun k =>
            Generate.layoutLine .GLSL_300 (fmt_d (uint32AsInt k)) "inout" (uint32AsInt k))
      = (resolveSlots maxTargets semantics fetch).map slotLine := by
  induction semantics generalizing fetch with
  | nil => simp [resolveOutputs, resolveSlots, slotLine]
  | cons o rest ih =>
    cases o with
    | none => simp only [resolveOutputs, resolveSlots, ih]
    | some semantic =>
      simp only [resolveOutputs, resolveSlots]
      cases hslot : targetSlot maxTargets semantic with
      | none => exact ih fetch
      | some n =>
        have hn := targetSlot_lt_ten maxTargets hmax semantic n hslot
        simp only [List.map_cons, List.cons_append, ih]
        congr 1
        rw [slotLine, layoutLine_eq_layoutText n _ (by omega)]
        by_cases hm : n ∈ fetch <;> simp [hm]

theorem resolveSlots_not_mem (maxTargets : Nat) (semantics : List (Option String))
    (fetch : List Nat) (k : Nat) (hk : k ∉ fetch) :
    (k, true) ∉ resolveSlots maxTargets semantics fetch := by
  induction semantics generalizing fetch with
  | nil => simpa [resolveSlots] using hk
  | cons o rest ih =>
    cases o with
    | none => simpa only [resolveSlots] using ih fetch hk
    | some semantic =>
      simp only [resolveSlots]
      cases hslot : targetSlot maxTargets semantic with
      | none => exact ih fetch hk
      | some n =>
        simp only [List.mem_cons, not_or]
        refine ⟨?_, ih _ (fun h => hk (List.mem_filter.mp h).1)⟩
        intro heq
        injection heq with h1 h2
        subst h1
        simp [hk] at h2

theorem resolveSlots_mem (maxTargets : Nat) (hmax : maxTargets ≤ 10)
    (semantics : List (Option String)) (fetch : List Nat) (k : Nat) (b : Bool)
    (h : (k, b) ∈ resolveSlots maxTargets semantics fetch) : k ∈ fetch ∨ k < 10 := by
  induction semantics generalizing fetch with
  | nil =>
    simp only [resolveSlots, List.mem_map] at h
    obtain ⟨j, hj, hjk⟩ := h
    injection hjk with h1 _
    exact Or.inl (h1 ▸ hj)
  | cons o rest ih =>
    cases o with
    | none => exact ih fetch (by simpa only [resolveSlots] using h)
    | some semantic =>
      simp only [resolveSlots] at h
      cases hslot : targetSlot maxTargets semantic with
      | none =>
        rw [hslot] at h
        exact ih fetch h
      | some n =>
        rw [hslot] at h
        rcases List.mem_cons.mp h with h | h
        · injection h with h1 _
          exact Or.inr (h1 ▸ targetSlot_lt_ten maxTargets hmax semantic n hslot)
        · rcases ih _ h with h | h
          · exact Or.inl (List.mem_filter.mp h).1
          · exact Or.inr h

theorem count_pair_true (fetch : List Nat) (k : Nat) :
    (fetch.map fun j => (j, true)).count (k, true) = fetch.count k := by
  induction fetch with
  | nil => rfl
  | cons a l ih => simp [List.count_cons, ih]

theorem resolveSlots_count (maxTargets : Nat) (semantics : List (Option String))
    (fetch : List Nat) (hnodup : fetch.Nodup) (k : Nat) (hk : k ∈ fetch) :
    (resolveSlots maxTargets semantics fetch).count (k, true) = 1 := by
  induction semantics generalizing fetch with
  | nil =>
    simp only [resolveSlots]
    rw [count_pair_true]
    exact List.count_eq_one_of_mem hnodup hk
  | cons o rest ih =>
    cases o with
    | none => simpa only [resolveSlots] using ih fetch hnodup hk
    | some semantic =>
      simp only [resolveSlots]
      cases hslot : targetSlot maxTargets semantic with
      | none => exact ih fetch hnodup hk
      | some n =>
        simp only []
        by_cases hkn : k = n
        · subst hkn
          have htail : (k, true) ∉ resolveSlots maxTargets rest
              (fetch.filter fun j => decide (j ≠ k)) :=
            resolveSlots_not_mem _ _ _ _ (by simp)
          rw [List.count_cons, List.count_eq_zero.mpr htail]
          simp [hk]
        · have hmem : k ∈ fetch.filter fun j => decide (j ≠ n) :=
            List.mem_filter.mpr ⟨hk, by simpa using hkn⟩
          rw [List.count_cons, ih _ (hnodup.filter _) hmem]
          have hne : ¬ ((n, decide (n ∈ fetch)) = (k, true)) := by
            intro heq
            injection heq with h1 _
            exact hkn h1.symm
          simp [hne]

theorem fragmentOutDeclarations_slots (cfg : BuildConfig)
    (hmax : cfg.MAX_RENDER_TARGET_COUNT ≤ 10) (tree : HLSLTree) (s : GenState)
    (fragment_out : HLSLStruct)
    (hstruct : tree.FindGlobalStruct (some "fragment_out") = some fragment_out) :
    Generate.fragmentOutDeclarations cfg tree .GLSL_300 s
      = s.WriteLines cfg
          ((resolveSlots cfg.MAX_RENDER_TARGET_COUNT (fragment_out.field.map fun f => f.semantic)
            (Generate.fetchUnits (tree.FindFunctionCall "FramebufferFetch") [])).map
            slotLine) := by
  rw [fragmentOutDeclarations_eq cfg hmax tree s fragment_out hstruct, fetchOnlyUnits_eq,
    ← GenState.WriteLines_append, resolveSlots_lines _ hmax]

/-- C35: in the GLSL_300 fragment stage with a struct `fragment_out`, the
text written is one `layout` declaration for every entry of a list of slots
with qualifiers (the fields that denote a slot, in struct order, then the
fetched slots that no field declares). In that list every slot `k` of the
collected fetch set occurs exactly once with the qualifier `inout`, however
many fields denote `k`, and a slot that is not in the fetch set never occurs
with `inout`, so every declaration for it carries `out`. The number of render
targets is at most 10. -/
theorem Generate_fetch_inout_once (cfg : BuildConfig) (tree : HLSLTree) (s : GenState)
    (fragment_out : HLSLStruct) (hmax : cfg.MAX_RENDER_TARGET_COUNT ≤ 10)
    (hstruct : tree.FindGlobalStruct (some "fragment_out") = some fragment_out) :
    Generate.fragmentOutDeclarations cfg tree .GLSL_300 s
      = s.WriteLines cfg
          ((resolveSlots cfg.MAX_RENDER_TARGET_COUNT (fragment_out.field.map fun f => f.semantic)
            (Generate.fetchUnits (tree.FindFunctionCall "FramebufferFetch") [])).map slotLine)
    ∧ (∀ k, k ∈ Generate.fetchUnits (tree.FindFunctionCall "FramebufferFetch") [] →
        (resolveSlots cfg.MAX_RENDER_TARGET_COUNT (fragment_out.field.map fun f => f.semantic)
          (Generate.fetchUnits (tree.FindFunctionCall "FramebufferFetch") [])).count (k, true)
          = 1)
    ∧ (∀ k b, k ∉ Generate.fetchUnits (tree.FindFunctionCall "FramebufferFetch") [] →
        (k, b) ∈ resolveSlots cfg.MAX_RENDER_TARGET_COUNT
          (fragment_out.field.map fun f => f.semantic)
          (Generate.fetchUnits (tree.FindFunctionCall "FramebufferFetch") []) →
        b = false ∧ slotLine (k, b) = layoutText k "out")
    ∧ (∀ k, k < 2147483648 →
        slotLine (k, true) = layoutText k "inout" ∧ slotLine (k, false) = layoutText k "out")
    := by
  refine ⟨fragmentOutDeclarations_slots cfg hmax tree s fragment_out hstruct, ?_, ?_, ?_⟩
  · intro k hk
    exact resolveSlots_count _ _ _ (fetchUnits_sorted _ [] List.sorted_nil).nodup k hk
  · intro k b hk hmem
    have hb : b = false := by
      cases b with
      | false => rfl
      | true => exact absurd hmem (resolveSlots_not_mem _ _ _ k hk)
    subst hb
    refine ⟨rfl, ?_⟩
    rcases resolveSlots_mem _ hmax _ _ k false hmem with h | h
    · exact absurd h hk
    · exact layoutLine_eq_layoutText k "out" (by omega)
  · intro k hk
    exact ⟨layoutLine_eq_layoutText k "inout" hk, layoutLine_eq_layoutText k "out" hk⟩

/-- C35 at a concrete input: the fields `SV_TARGET` and `SV_TARGET0` both
denote slot 0, which is fetched; the first declaration of slot 0 carries
`inout`, the second `out`. -/
theorem Generate_fetch_inout_once_witness :
    exampleConfig.MAX_RENDER_TARGET_COUNT ≤ 10
    ∧ Generate.fetchUnits (sharedSlotTree.FindFunctionCall "FramebufferFetch") [] = [0]
    ∧ resolveSlots exampleConfig.MAX_RENDER_TARGET_COUNT
        ([exampleField "color" "SV_TARGET", exampleField "color0" "SV_TARGET0"].map
          fun f => f.semantic)
        (Generate.fetchUnits (sharedSlotTree.FindFunctionCall "FramebufferFetch") [])
      = [(0, true), (0, false)]
    ∧ Generate.fragmentOutDeclarations exampleConfig sharedSlotTree .GLSL_300 freshState
      = freshState.WriteLines exampleConfig
          ((resolveSlots exampleConfig.MAX_RENDER_TARGET_COUNT
            ([exampleField "color" "SV_TARGET", exampleField "color0" "SV_TARGET0"].map
              fun f => f.semantic)
            (Generate.fetchUnits (sharedSlotTree.FindFunctionCall "FramebufferFetch") [])).map
            slotLine)
    ∧ [(0, true), (0, false)].map slotLine
      = ["layout (location = 0) inout vec4 out_FragColor0;",
         "layout (location = 0) out vec4 out_FragColor0;"] :=
  ⟨by decide, by decide, by decide,
    (Generate_fetch_inout_once exampleConfig sharedSlotTree freshState
      { name := "fragment_out"
        field := [exampleField "color" "SV_TARGET", exampleField "color0" "SV_TARGET0"]
        usage := .struct_FragmentOut } (by decide) rfl).1,
    by decide⟩

/-! ## C36: the round parentheses of an expression are balanced -/

theorem parenDepth_append (a b : List Char) (d : Nat) :
    parenDepth (a ++ b) d = (parenDepth a d).bind (parenDepth b) := by
  induction a generalizing d with
  | nil => rfl
  | cons c cs ih =>
    simp only [List.cons_append, parenDepth]
    split
    · exact ih _
    · split
      · cases d with
        | zero => rfl
        | succ k => exact ih k
      · exact ih d

theorem parenDepth_shift (a : List Char) (d e k : Nat) (h : parenDepth a d = some e) :
    parenDepth a (d + k) = some (e + k) := by
  induction a generalizing d with
  | nil =>
    simp only [parenDepth, Option.some.injEq] at h ⊢
    omega
  | cons c cs ih =>
    simp only [parenDepth] at h ⊢
    split
    · rename_i hc
      rw [if_pos hc] at h
      have h1 := ih (d + 1) h
      rw [show d + k + 1 = d + 1 + k by omega]
      exact h1
    · rename_i hc
      rw [if_neg hc] at h
      split
      · rename_i hc2
        rw [if_pos hc2] at h
        cases d with
        | zero => cases h
        | succ j =>
          simp only at h
          rw [show j + 1 + k = (j + k) + 1 by omega]
          exact ih j h
      · rename_i hc2
        rw [if_neg hc2] at h
        exact ih d h

theorem parenDepth_counts (a : List Char) (d e : Nat) (h : parenDepth a d = some e) :
    (∀ n, (a.take n).count ')' ≤ d + (a.take n).count '(')
    ∧ d + a.count '(' = e + a.count ')' := by
  induction a generalizing d with
  | nil =>
    simp only [parenDepth, Option.some.injEq] at h
    simp [h]
  | cons c cs ih =>
    simp only [parenDepth] at h
    by_cases hc : c = '('
    · rw [if_pos hc] at h
      obtain ⟨h1, h2⟩ := ih (d + 1) h
      subst hc
      refine ⟨?_, ?_⟩
      · intro n
        cases n with
        | zero => simp
        | succ m =>
          have := h1 m
          simp only [List.take_succ_cons, List.count_cons_self]
          rw [List.count_cons_of_ne (by decide)]
          omega
      · simp only [List.count_cons_self]
        rw [List.count_cons_of_ne (by decide)]
        omega
    · rw [if_neg hc] at h
      by_cases hc2 : c = ')'
      · rw [if_pos hc2] at h
        subst hc2
        cases d with
        | zero => cases h
        | succ j =>
          simp only at h
          obtain ⟨h1, h2⟩ := ih j h
          refine ⟨?_, ?_⟩
          · intro n
            cases n with
            | zero => simp
            | succ m =>
              have := h1 m
              simp only [List.take_succ_cons, List.count_cons_self]
              rw [List.count_cons_of_ne (by decide)]
              omega
          · simp only [List.count_cons_self]
            rw [List.count_cons_of_ne (by decide)]
            omega
      · rw [if_neg hc2] at h
        obtain ⟨h1, h2⟩ := ih d h
        refine ⟨?_, ?_⟩
        · intro n
          cases n with
          | zero => simp
          | succ m =>
            have := h1 m
            simp only [List.take_succ_cons]
            rw [List.count_cons_of_ne (Ne.symm hc2), List.count_cons_of_ne (Ne.symm hc)]
            exact this
        · rw [List.count_cons_of_ne (Ne.symm hc2), List.count_cons_of_ne (Ne.symm hc)]
          exact h2

theorem Balanced_of_parenDepth (t : String) (h : parenDepth t.data 0 = some 0) : Balanced t := by
  obtain ⟨h1, h2⟩ := parenDepth_counts t.data 0 0 h
  refine ⟨fun n => ?_, ?_⟩
  · have := h1 n
    omega
  · omega

theorem parenDepth_of_free (a : List Char) (d : Nat) (h1 : '(' ∉ a) (h2 : ')' ∉ a) :
    parenDepth a d = some d := by
  induction a with
  | nil => rfl
  | cons c cs ih =>
    simp only [List.mem_cons, not_or] at h1 h2
    simp only [parenDepth]
    rw [if_neg (Ne.symm h1.1), if_neg (Ne.symm h2.1)]
    exact ih h1.2 h2.2

theorem parenFree_iff (w : String) : parenFree w = true ↔ '(' ∉ w.data ∧ ')' ∉ w.data := by
  simp [parenFree]

theorem parenDepth_free (w : String) (d : Nat) (h : parenFree w = true) :
    parenDepth w.data d = some d :=
  parenDepth_of_free w.data d ((parenFree_iff w).mp h).1 ((parenFree_iff w).mp h).2

theorem parenFree_append (a b : String) (ha : parenFree a = true) (hb : parenFree b = true) :
    parenFree (a ++ b) = true := by
  rw [parenFree_iff] at ha hb ⊢
  simp only [String.data_append, List.mem_append, not_or]
  exact ⟨⟨ha.1, hb.1⟩, ⟨ha.2, hb.2⟩⟩

theorem ParenInv.pstep {base : String} {d : Nat} {s : GenState} (h : ParenInv base d s)
    (w : String) (e : Nat) (hw : parenDepth w.data d = some e) : ParenInv base e (s.Write w) := by
  intro herr
  obtain ⟨t, ht, hd⟩ := h herr
  refine ⟨t ++ w, ?_, ?_⟩
  · simp only [GenState.Write_code, ht, String.append_assoc]
  · rw [String.data_append, parenDepth_append, hd]
    exact hw

theorem ParenInv.pfree {base : String} {d : Nat} {s : GenState} (h : ParenInv base d s)
    (w : String) (hw : parenFree w = true) : ParenInv base d (s.Write w) :=
  h.pstep w d (parenDepth_free w d hw)

theorem ParenInv.perror (base : String) (d : Nat) (s : GenState) (message : String) :
    ParenInv base d (s.Error message) := by
  intro herr
  exfalso
  unfold GenState.Error at herr
  split at herr
  · rename_i h
    rw [h] at herr
    cases herr
  · cases herr

theorem ParenInv.popen {base : String} {d : Nat} {s : GenState} (h : ParenInv base d s) :
    ParenInv base (d + 1) (s.Write "(") :=
  h.pstep "(" (d + 1) rfl

theorem ParenInv.pclose {base : String} {d : Nat} {s : GenState}
    (h : ParenInv base (d + 1) s) : ParenInv base d (s.Write ")") :=
  h.pstep ")" d rfl

theorem ParenInv.pcloseCast {base : String} {d : Nat} {s : GenState} (c : Bool)
    (h : ParenInv base (if c then d + 1 else d) s) : ParenInv base d (s.closeCast c) := by
  cases c with
  | false => exact h
  | true => exact ParenInv.pclose h

theorem ParenInv.pliteral {base : String} {d : Nat} {s : GenState} (h : ParenInv base d s)
    (w : String) (p : List Char) (hp : w.data = p) (e : Nat) (hw : parenDepth p d = some e) :
    ParenInv base e (s.Write w) :=
  h.pstep w e (hp ▸ hw)

theorem parenDepth_wrap (w : String) (d : Nat) (h : parenFree w = true) :
    parenDepth ("(" ++ w ++ ")").data d = some d := by
  rw [String.data_append, String.data_append, parenDepth_append, parenDepth_append]
  have h1 : parenDepth "(".data d = some (d + 1) := rfl
  rw [h1, Option.some_bind, parenDepth_free w (d + 1) h, Option.some_bind]
  rfl

theorem digitChar_free (n : Nat) (h : n < 10) :
    Nat.digitChar n ≠ '(' ∧ Nat.digitChar n ≠ ')' := by
  interval_cases n <;> decide

theorem toDigitsCore_free (fuel : Nat) :
    ∀ (n : Nat) (ds : List Char), (∀ c ∈ ds, c ≠ '(' ∧ c ≠ ')') →
      ∀ c ∈ Nat.toDigitsCore 10 fuel n ds, c ≠ '(' ∧ c ≠ ')' := by
  induction fuel with
  | zero =>
    intro n ds hds
    simpa [Nat.toDigitsCore] using hds
  | succ fuel ih =>
    intro n ds hds
    have hd := digitChar_free (n % 10) (Nat.mod_lt _ (by decide))
    have hds1 : ∀ c ∈ Nat.digitChar (n % 10) :: ds, c ≠ '(' ∧ c ≠ ')' := by
      intro c hc
      rcases List.mem_cons.mp hc with hc | hc
      · exact hc ▸ hd
      · exact hds c hc
    simp only [Nat.toDigitsCore]
    split
    · exact hds1
    · exact ih _ _ hds1

theorem parenFree_natRepr (n : Nat) : parenFree (Nat.repr n) = true := by
  rw [parenFree_iff]
  have h := toDigitsCore_free (n + 1) n [] (by simp)
  have hdata : (Nat.repr n).data = Nat.toDigitsCore 10 (n + 1) n [] := rfl
  rw [hdata]
  exact ⟨fun hm => (h _ hm).1 rfl, fun hm => (h _ hm).2 rfl⟩

theorem parenFree_fmt_d (i : Int) : parenFree (fmt_d i) = true := by
  cases i with
  | ofNat n => exact parenFree_natRepr n
  | negSucc n =>
    have h : fmt_d (Int.negSucc n) = "-" ++ Nat.repr (n + 1) := rfl
    rw [h]
    exact parenFree_append _ _ (by decide) (parenFree_natRepr _)

theorem parenFree_mrt (version : GLSLVersion) (d : Int) :
    parenFree (FRAGMENT_MRT_OUTPUT_NAME version d) = true := by
  cases version
  · exact parenFree_append _ _ (parenFree_append _ _ (by decide) (parenFree_fmt_d d)) (by decide)
  · exact parenFree_append _ _ (by decide) (parenFree_fmt_d d)

theorem parenFree_indent (cfg : BuildConfig) (n : Nat) : parenFree (indentText cfg n) = true := by
  rw [parenFree_iff]
  simp [indentText, List.mem_replicate]

theorem ParenInv.pWriteLine {base : String} {d : Nat} {s : GenState} (h : ParenInv base d s)
    (cfg : BuildConfig) (n : Nat) (w : String) (hw : parenFree w = true) :
    ParenInv base d (s.WriteLine cfg n w) :=
  (h.pfree _ (parenFree_indent cfg n)).pfree _ (parenFree_append _ _ hw (by decide))

theorem parenDepth_typeName (t : HLSLType) (h : TypeNoParens t) (d : Nat) :
    parenDepth (GetTypeName t).data d = some d := by
  cases h with
  | mk b n a z f hn hz =>
    cases b
    case UserDefined =>
      cases n with
      | none => exact parenDepth_wrap "null" d (by decide)
      | some name => exact parenDepth_free name d (hn name rfl)
    all_goals exact parenDepth_free _ d rfl

theorem parenFree_safeName (g : GLESGenerator) (hg : g.noParens) (name : String)
    (h : parenFree name = true) : parenFree (GetSafeIdentifierName g name) = true := by
  unfold GetSafeIdentifierName
  split
  · rename_i p hp
    have hm := List.mem_of_find?_eq_some hp
    exact hg.2.2.2.2.2.2 p.2 (List.of_mem_zip hm).2
  · exact h

theorem parenFree_remap (cfg : BuildConfig) (g : GLESGenerator) (hg : g.noParens)
    (name : String) (h : parenFree name = true) :
    parenFree (referenceRemap cfg g name) = true := by
  unfold referenceRemap
  split
  · rename_i entry hfind
    have hmem := List.mem_of_find?_eq_some hfind
    simp only [remapTable, List.mem_cons, List.mem_singleton, List.mem_nil_iff,
      or_false] at hmem
    obtain ⟨h1, h2, h3, h4, h5, h6, _⟩ := hg
    rcases hmem with h | h | h | h | h | h | h | h | h | h | h | h | h | h | h | h | h <;>
      (rw [h]; dsimp only; split <;> first | decide | assumption | (split <;> decide))
  · exact parenFree_safeName g hg name h

theorem ParenInv.pIdentifier {base : String} {d : Nat} {s : GenState}
    (h : ParenInv base d s) (cfg : BuildConfig) (g : GLESGenerator) (hg : g.noParens)
    (name : String) (hn : parenFree name = true) :
    ParenInv base d (OutputIdentifier cfg g s name) := by
  rw [OutputIdentifier_eq_reference]
  exact h.pfree _ (parenFree_remap cfg g hg name hn)

theorem parenFree_outputName (version : GLSLVersion) :
    parenFree (FRAGMENT_OUTPUT_NAME version) = true := by
  cases version <;> rfl

theorem ParenInv.pOutField {base : String} {d : Nat} {s : GenState} (h : ParenInv base d s)
    (cfg : BuildConfig) (g : GLESGenerator) (f : HLSLStructField)
    (hf : parenFree f.name = true) : ParenInv base d (OutputExpression.outField cfg g s f) := by
  simp only [OutputExpression.outField]
  repeat' split
  all_goals repeat (first
    | exact h
    | exact ParenInv.pfree (by assumption) _ (parenFree_append _ _ rfl hf)
    | exact ParenInv.pfree (by assumption) _ (parenFree_outputName _)
    | refine ParenInv.pfree ?_ _ rfl
    | refine ParenInv.pWriteLine ?_ cfg 0 _ (parenFree_mrt _ _))

theorem ParenInv.pMemberBinding {base : String} {d : Nat} {s : GenState}
    (hs : ParenInv base d s) (cfg : BuildConfig) (g : GLESGenerator) (s1 : GenState)
    (object : HLSLExpression) (field : String) (b : Bool) (hfield : parenFree field = true)
    (h : OutputExpression.memberBinding cfg g s object field = some (s1, b)) :
    ParenInv base d s1 := by
  have key : ∀ (o : Option HLSLStruct) (w : HLSLStructField → GenState),
      (∀ f, f.name = field → ParenInv base d (w f)) →
      (match o with
        | none => none
        | some st =>
          match st.field.find? (fun f => decide (strcmp f.name field = 0)) with
          | some f => some (w f, false)
          | none => some (s, true)) = some (s1, b) → ParenInv base d s1 := by
    intro o w hw hm
    cases o with
    | none => cases hm
    | some st =>
      simp only at hm
      cases hfind : st.field.find? (fun f => decide (strcmp f.name field = 0)) with
      | none =>
        rw [hfind] at hm
        simp only [Option.some.injEq, Prod.mk.injEq] at hm
        rw [← hm.1]
        exact hs
      | some f =>
        rw [hfind] at hm
        simp only [Option.some.injEq, Prod.mk.injEq] at hm
        rw [← hm.1]
        exact hw f (find?_name _ _ _ hfind)
  cases object with
  | IdentifierExpression t name =>
    simp only [OutputExpression.memberBinding] at h
    split_ifs at h
    all_goals first
      | exact key _ (fun f => OutputExpression.outField cfg g s f)
          (fun f hf => hs.pOutField cfg g f (by rw [hf]; exact hfield)) h
      | exact key _ (fun f => s.Write ("attr_" ++ f.name))
          (fun f hf => hs.pfree _ (parenFree_append _ _ rfl (by rw [hf]; exact hfield))) h
      | exact key _ (fun f => s.Write ("var_" ++ f.name))
          (fun f hf => hs.pfree _ (parenFree_append _ _ rfl (by rw [hf]; exact hfield))) h
      | (simp only [Option.some.injEq, Prod.mk.injEq] at h
         rw [← h.1]
         exact hs)
  | _ =>
    simp only [OutputExpression.memberBinding, Option.some.injEq, Prod.mk.injEq] at h
    rw [← h.1]
    exact hs

theorem ParenInv.pSampler {base : String} {d : Nat} {s : GenState}
    (hs : ParenInv base d s) (g : GLESGenerator) (name : String) :
    Holds (ParenInv base d) (OutputExpression.samplerIdentifier g s name) := by
  unfold OutputExpression.samplerIdentifier
  split
  · exact Holds_none _
  · refine (Holds_some _ _).2 (hs.pfree _ ?_)
    refine parenFree_append _ _ (parenFree_append _ _ ?_ rfl) (parenFree_fmt_d _)
    split <;> rfl

theorem ParenInv.pLiteralCase {base : String} {d : Nat} {s : GenState}
    (hs : ParenInv base d s) (type : HLSLBaseType) (bValue : Bool) (fValue : String)
    (iValue : Int) (hf : parenFree fValue = true) :
    ParenInv base d (OutputExpression.literal s type bValue fValue iValue) := by
  unfold OutputExpression.literal
  split
  all_goals first
    | exact hs
    | exact hs.pfree _ hf
    | exact hs.pfree _ (parenFree_fmt_d _)
    | (refine hs.pfree _ ?_
       split <;> rfl)

theorem Holds_chain {P Q : GenState → Prop} (o : Option GenState)
    (f : GenState → Option GenState) (h1 : Holds P o) (h2 : ∀ s1, P s1 → Holds Q (f s1)) :
    Holds Q (o.bind f) := by
  cases o with
  | none => exact Holds_none Q
  | some s1 => exact h2 s1 (h1 s1 rfl)

theorem Holds_chain_map {P Q : GenState → Prop} (o : Option GenState)
    (f : GenState → GenState) (h1 : Holds P o) (h2 : ∀ s1, P s1 → Q (f s1)) :
    Holds Q (o.map f) := by
  cases o with
  | none => exact Holds_none Q
  | some s1 => exact (Holds_some Q _).2 (h2 s1 (h1 s1 rfl))

theorem parenFree_unaryOp (u : HLSLUnaryOp) :
    parenFree (OutputExpression.unaryOp u).1 = true := by
  cases u <;> rfl

theorem parenFree_binaryOp (u : HLSLBinaryOp) :
    parenFree (OutputExpression.binaryOp u).1 = true := by
  cases u <;> rfl

theorem parenFree_swizzleName (g : GLESGenerator) (hg : g.noParens) (n : Nat) :
    parenFree (OutputExpression.swizzleName g n) = true := by
  unfold OutputExpression.swizzleName
  obtain ⟨_, _, _, h2, h3, h4, _⟩ := hg
  repeat' split
  all_goals first | assumption | rfl

theorem ParenInv.plevel {base : String} {d : Nat} {s : GenState} (c : Bool)
    (h : ParenInv base ((if c then d + 1 else d) + 1) s) :
    ParenInv base d ((s.Write ")").closeCast c) :=
  ParenInv.pcloseCast c (ParenInv.pclose h)

theorem OutputExpression_parens_all (cfg : BuildConfig) (g : GLESGenerator)
    (hg : g.noParens) :
    (∀ (s : GenState) (e : HLSLExpression) (dst : Option HLSLType),
      ExprNoParens e → (∀ t, dst = some t → TypeNoParens t) →
      ∀ base d, ParenInv base d s → Holds (ParenInv base d) (OutputExpression cfg g s e dst))
    ∧ (∀ (s : GenState) (e : HLSLExpression) (c : Bool),
      ExprNoParens e →
      ∀ base d, ParenInv base (if c then d + 1 else d) s →
        Holds (ParenInv base d) (OutputExpression.node cfg g s e c))
    ∧ (∀ (s : GenState) (t : HLSLType) (name : String),
      TypeNoParens t → parenFree name = true →
      ∀ base d, ParenInv base d s → Holds (ParenInv base d) (OutputDeclarationT cfg g s t name))
    ∧ (∀ (s : GenState) (l : List HLSLExpression) (a : List HLSLType) (k : Nat),
      (∀ e, e ∈ l → ExprNoParens e) → (∀ t, t ∈ a → TypeNoParens t) →
      ∀ base d, ParenInv base d s →
        Holds (ParenInv base d) (OutputExpressionList cfg g s l a k)) := by
  apply OutputExpression.mutual_induct cfg g
    (fun s e dst => ExprNoParens e → (∀ t, dst = some t → TypeNoParens t) →
      ∀ base d, ParenInv base d s → Holds (ParenInv base d) (OutputExpression cfg g s e dst))
    (fun s e c => ExprNoParens e →
      ∀ base d, ParenInv base (if c then d + 1 else d) s →
        Holds (ParenInv base d) (OutputExpression.node cfg g s e c))
    (fun s t name => TypeNoParens t → parenFree name = true →
      ∀ base d, ParenInv base d s → Holds (ParenInv base d) (OutputDeclarationT cfg g s t name))
    (fun s l a k => (∀ e, e ∈ l → ExprNoParens e) → (∀ t, t ∈ a → TypeNoParens t) →
      ∀ base d, ParenInv base d s →
        Holds (ParenInv base d) (OutputExpressionList cfg g s l a k))
  -- 1: a cast is opened
  · intro s e dt hcast ih3 ih2 he hd base d hs
    rw [OutputExpression_of_cast_true cfg g s e dt hcast]
    exact Holds_chain _ _ (ih3 (hd dt rfl) rfl base d hs)
      (fun s1 h1 => ih2 s1 he base d (ParenInv.popen h1))
  -- 2: no cast
  · intro s e dst hno ih he hd base d hs
    have hc : OutputExpression.cast e dst = false := by
      cases hcast : OutputExpression.cast e dst with
      | false => rfl
      | true =>
        cases dst with
        | none => cases e <;> simp [OutputExpression.cast] at hcast
        | some dt => exact (hno dt hcast rfl).elim
    rw [OutputExpression_of_cast_false cfg g s e dst hc]
    exact ih he base d hs
  -- 3: sampler identifier
  · intro s t name c hsam he base d hs
    rw [OutputExpression.node, if_pos hsam]
    exact Holds_chain_map _ _ (ParenInv.pSampler hs g name)
      (fun s1 h1 => ParenInv.pcloseCast c h1)
  -- 4: identifier
  · intro s t name c hsam he base d hs
    cases he with
    | identifier _ _ hn =>
      rw [OutputExpression.node, if_neg hsam, Holds_some]
      exact ParenInv.pcloseCast c (hs.pIdentifier cfg g hg name hn)
  -- 5: constructor
  · intro s t type argument c ih he base d hs
    cases he with
    | constructor _ _ _ ht ha =>
      rw [OutputExpression.node]
      simp only [Option.bind_eq_bind]
      refine Holds_chain _ _ (ih ha (fun _ h => by cases h) base _ ?_)
        (fun s1 h1 => (Holds_some _ _).2 (ParenInv.plevel c h1))
      rw [← GenState.Write_Write]
      exact ParenInv.popen (hs.pstep _ _ (parenDepth_typeName type ht _))
  -- 6: casting expression
  · intro s t type inner c ih3 ih1 he base d hs
    cases he with
    | casting _ _ _ ht hi =>
      rw [OutputExpression.node]
      simp only [Option.bind_eq_bind]
      refine Holds_chain _ _ (ih3 ht rfl base _ hs) (fun s1 h1 => ?_)
      exact Holds_chain _ _ (ih1 s1 hi (fun _ h => by cases h) base _ (ParenInv.popen h1))
        (fun s2 h2 => (Holds_some _ _).2 (ParenInv.plevel c h2))
  -- 7: literal
  · intro s t type bValue fValue iValue c he base d hs
    cases he with
    | literal _ _ _ _ _ hf =>
      rw [OutputExpression.node, Holds_some]
      exact ParenInv.pcloseCast c (hs.pLiteralCase type bValue fValue iValue hf)
  -- 8: unary, operator first
  · intro s t u inner c op hint hop ih he base d hs
    cases he with
    | unary _ _ _ ht hi =>
      have hfree : parenFree op = true := by
        have h := parenFree_unaryOp u
        rw [hop] at h
        exact h
      rw [OutputExpression.node]
      simp only [hop, Option.bind_eq_bind]
      refine Holds_chain _ _ (ih hi ?_ base _ ((ParenInv.popen hs).pfree op hfree))
        (fun s1 h1 => (Holds_some _ _).2 (ParenInv.plevel c h1))
      intro t1 h1
      split at h1
      · cases h1; exact ht
      · cases h1
  -- 9: unary, operator last
  · intro s t u inner c op hint hop ih he base d hs
    cases he with
    | unary _ _ _ ht hi =>
      have hfree : parenFree op = true := by
        have h := parenFree_unaryOp u
        rw [hop] at h
        exact h
      rw [OutputExpression.node]
      simp only [hop, Option.bind_eq_bind]
      refine Holds_chain _ _ (ih hi ?_ base _ (ParenInv.popen hs))
        (fun s1 h1 => (Holds_some _ _).2 (ParenInv.plevel c (h1.pfree op hfree)))
      intro t1 h1
      split at h1
      · cases h1; exact ht
      · cases h1
  -- 10: binary
  · intro s t u e1 e2 c op hint1 hint2 hop ih1 ih2 he base d hs
    cases he with
    | binary _ _ _ _ ht h1 h2 =>
      have hfree : parenFree op = true := by
        have h := parenFree_binaryOp u
        rw [hop] at h
        exact h
      rw [OutputExpression.node]
      simp only [hop, Option.bind_eq_bind]
      refine Holds_chain _ _ (ih1 h1 ?_ base _ (ParenInv.popen hs)) (fun s1 hs1 => ?_)
      · intro t1 ht1
        split at ht1
        · cases ht1; exact ht
        · cases ht1
      · refine Holds_chain _ _ (ih2 _ h2 ?_ base _ (hs1.pfree op hfree))
          (fun s2 hs2 => (Holds_some _ _).2 (ParenInv.plevel c hs2))
        intro t1 ht1
        split at ht1
        · cases ht1; exact ht
        · cases ht1
  -- 11: conditional
  · intro s t cond e1 e2 c ih1 ih2 ih3 he base d hs
    cases he with
    | conditional _ _ _ _ hc h1 h2 =>
      have hbool : ∀ t1, some (HLSLType.ofBase .Bool) = some t1 → TypeNoParens t1 := by
        intro t1 ht1
        cases ht1
        exact TypeNoParens.mk _ _ _ _ _ (fun _ h => by cases h) (fun _ h => by cases h)
      rw [OutputExpression.node]
      simp only [Option.bind_eq_bind]
      refine Holds_chain _ _ (ih1 hc hbool base ((if c then d + 1 else d) + 2)
        (hs.pstep "((" _ rfl)) (fun s1 hs1 => ?_)
      refine Holds_chain _ _ (ih2 _ h1 (fun _ h => by cases h) base
        ((if c then d + 1 else d) + 2) (hs1.pstep ")?(" _ rfl)) (fun s2 hs2 => ?_)
      refine Holds_chain _ _ (ih3 _ h2 (fun _ h => by cases h) base
        ((if c then d + 1 else d) + 2) (hs2.pstep "):(" _ rfl)) (fun s3 hs3 => ?_)
      exact (Holds_some _ _).2 (ParenInv.pcloseCast c (hs3.pstep "))" _ rfl))
  -- 12: member access, null struct
  · intro s t object field c hx he base d hs
    rw [OutputExpression.node]
    simp only [hx]
    exact Holds_none _
  -- 13: member access bound to a stage variable
  · intro s t object field c s1 hx he base d hs
    cases he with
    | member _ _ _ ho hf =>
      rw [OutputExpression.node]
      simp only [hx]
      exact (Holds_some _ _).2
        (ParenInv.pcloseCast c (hs.pMemberBinding cfg g s1 object field false hf hx))
  -- 14: member access on a scalar
  · intro s t object field c s1 hx hsc s2 ih he base d hs
    cases he with
    | member _ _ _ ho hf =>
      rw [OutputExpression.node]
      simp only [hx, hsc, if_true, Option.bind_eq_bind]
      refine Holds_chain _ _ (ih ho (fun _ h => by cases h) base _
        (ParenInv.popen ((hs.pMemberBinding cfg g s1 object field true hf hx).pfree _
          (parenFree_swizzleName g hg _))))
        (fun s2 h2 => (Holds_some _ _).2 (ParenInv.plevel c h2))
  -- 15: member access
  · intro s t object field c s1 hx hsc ih he base d hs
    cases he with
    | member _ _ _ ho hf =>
      rw [OutputExpression.node]
      simp only [hx, hsc, if_false, Option.bind_eq_bind]
      refine Holds_chain _ _ (ih ho (fun _ h => by cases h) base _
        (ParenInv.popen (hs.pMemberBinding cfg g s1 object field true hf hx)))
        (fun s2 h2 => (Holds_some _ _).2 (ParenInv.pcloseCast c
          ((ParenInv.pclose h2).pfree _ (parenFree_append _ _ rfl hf))))
  -- 16: array access
  · intro s t array index c ih1 ih2 he base d hs
    cases he with
    | array _ _ _ ha hi =>
      rw [OutputExpression.node]
      simp only [Option.bind_eq_bind]
      refine Holds_chain _ _ (ih1 ha (fun _ h => by cases h) base _ hs) (fun s1 hs1 => ?_)
      refine Holds_chain _ _ (ih2 _ hi (fun _ h => by cases h) base _ (hs1.pfree "[" rfl))
        (fun s2 hs2 => (Holds_some _ _).2 (ParenInv.pcloseCast c (hs2.pfree "]" rfl)))
  -- 17: mul
  · intro s t functionName c hm a0 a1 type0 type1 tail ih1 ih2 he base d hs
    cases he with
    | call _ _ _ _ hn ht ha =>
      rw [OutputExpression_node_call, if_pos hm]
      refine Holds_chain _ _ (ih1 (ha a1 (by simp)) ?_ base ((if c then d + 1 else d) + 2)
        (hs.pstep "((" _ rfl)) (fun s1 hs1 => ?_)
      · intro t1 ht1
        cases ht1
        exact ht _ (by simp)
      · refine Holds_chain _ _ (ih2 _ (ha a0 (by simp)) ?_ base
          ((if c then d + 1 else d) + 2) (hs1.pstep ") * (" _ rfl))
          (fun s2 hs2 => (Holds_some _ _).2 (ParenInv.pcloseCast c (hs2.pstep "))" _ rfl)))
        intro t1 ht1
        cases ht1
        exact ht _ (by simp)
  -- 18: mul without two expected types
  · intro s t functionName functionArgument c hm a0 a1 hx he base d hs
    rw [OutputExpression_node_call, if_pos hm]
    simp only
    first
      | exact Holds_none _
      | (split
         · exact (hx _ _ _ rfl).elim
         · exact Holds_none _)
  -- 19: mul with a wrong number of arguments
  · intro s t functionName functionArgument argument c hm hx he base d hs
    rw [OutputExpression_node_call, if_pos hm]
    split
    · exact absurd rfl (hx _ _)
    · exact (Holds_some _ _).2 (ParenInv.perror _ _ _ _)
  -- 20: saturate
  · intro s t functionName functionArgument c hm hsat a0 ih he base d hs
    cases he with
    | call _ _ _ _ hn ht ha =>
      rw [OutputExpression_node_call, if_neg hm, if_pos hsat]
      refine Holds_chain _ _ (ih (ha a0 (by simp)) (fun _ h => by cases h) base
        ((if c then d + 1 else d) + 1) (hs.pstep "clamp(" _ rfl))
        (fun s1 hs1 => (Holds_some _ _).2
          (ParenInv.pcloseCast c (hs1.pstep ", 0.0, 1.0)" _ rfl)))
  -- 21: saturate with a wrong number of arguments
  · intro s t functionName functionArgument argument c hm hsat hx he base d hs
    rw [OutputExpression_node_call, if_neg hm, if_pos hsat]
    split
    · exact absurd rfl (hx _)
    · exact (Holds_some _ _).2 (ParenInv.perror _ _ _ _)
  -- 22: FramebufferFetch
  · intro s t functionName functionArgument c hm hsat hf t1 bValue fValue iValue he base d hs
    rw [OutputExpression_node_call, if_neg hm, if_neg hsat, if_pos hf]
    exact (Holds_some _ _).2 (ParenInv.pcloseCast c (hs.pfree _ (parenFree_mrt _ _)))
  -- 23: FramebufferFetch with a wrong argument list
  · intro s t functionName functionArgument argument c hm hsat hf hx he base d hs
    rw [OutputExpression_node_call, if_neg hm, if_neg hsat, if_pos hf]
    split
    · exact absurd rfl (hx _ _ _ _)
    · exact (Holds_some _ _).2 (ParenInv.perror _ _ _ _)
  -- 24: any other call
  · intro s t functionName functionArgument argument c hm hsat hf s2 ih he base d hs
    cases he with
    | call _ _ _ _ hn ht ha =>
      rw [OutputExpression_node_call, if_neg hm, if_neg hsat, if_neg hf]
      exact Holds_chain _ _ (ih ha ht base _
        (ParenInv.popen (hs.pIdentifier cfg g hg functionName hn)))
        (fun s1 hs1 => (Holds_some _ _).2 (ParenInv.plevel c hs1))
  -- 25: unknown expression
  · intro s t c he base d hs
    rw [OutputExpression.node, Holds_some]
    exact ParenInv.pcloseCast c (hs.pfree _ rfl)
  -- 26: declaration of a type that is no array
  · intro s b n z f name ht hn base d hs
    rw [OutputDeclarationT, Holds_some]
    rw [String.append_assoc, ← GenState.Write_Write]
    exact (hs.pstep _ _ (parenDepth_typeName _ ht _)).pfree _
      (parenFree_append " " _ rfl (parenFree_safeName g hg name hn))
  -- 27: declaration of an array without size
  · intro s b n f name ht hn base d hs
    rw [OutputDeclarationT, Holds_some]
    rw [String.append_assoc, String.append_assoc, ← GenState.Write_Write]
    exact ((hs.pstep _ _ (parenDepth_typeName _ ht _)).pfree _
      (parenFree_append " " _ rfl
        (parenFree_append _ "[" (parenFree_safeName g hg name hn) rfl))).pfree "]" rfl
  -- 28: declaration of an array with a size
  · intro s b n size f name ih ht hn base d hs
    have hsize : ExprNoParens size := by
      cases ht with
      | mk _ _ _ _ _ _ hz => exact hz size rfl
    rw [OutputDeclarationT]
    simp only [Option.bind_eq_bind]
    refine Holds_chain _ _ (ih hsize (fun _ h => by cases h) base d ?_)
      (fun s1 hs1 => (Holds_some _ _).2 (hs1.pfree "]" rfl))
    rw [String.append_assoc, String.append_assoc, ← GenState.Write_Write]
    exact (hs.pstep _ _ (parenDepth_typeName _ ht _)).pfree _
      (parenFree_append " " _ rfl
        (parenFree_append _ "[" (parenFree_safeName g hg name hn) rfl))
  -- 29: the empty list
  · intro s a k hl ha base d hs
    rw [OutputExpressionList, Holds_some]
    exact hs
  -- 30: a list without expected types
  · intro s e rest k ih1 ih2 hl ha base d hs
    rw [OutputExpressionList]
    simp only [Option.bind_eq_bind]
    refine Holds_chain _ _ (ih1 (hl e (by simp)) (fun _ h => by cases h) base d ?_)
      (fun s1 hs1 => ih2 s1 (fun x hx => hl x (List.mem_cons_of_mem _ hx)) ha base d hs1)
    split
    · exact hs.pfree ", " rfl
    · exact hs
  -- 31: a list with expected types
  · intro s e rest expectedType nextArgument k ih1 ih2 hl ha base d hs
    rw [OutputExpressionList]
    simp only [Option.bind_eq_bind]
    refine Holds_chain _ _ (ih1 (hl e (by simp)) ?_ base d ?_)
      (fun s1 hs1 => ih2 s1 (fun x hx => hl x (List.mem_cons_of_mem _ hx))
        (fun x hx => ha x (List.mem_cons_of_mem _ hx)) base d hs1)
    · intro t1 ht1
      cases ht1
      exact ha _ (by simp)
    · split
      · exact hs.pfree ", " rfl
      · exact hs

theorem parenFree_Snprintf (dstLength : Nat) (base : String) (i : Nat)
    (h : parenFree base = true) : parenFree (Snprintf_s_d dstLength base i) = true := by
  have h1 : parenFree (base ++ toString i) = true :=
    parenFree_append _ _ h (parenFree_natRepr i)
  rw [parenFree_iff] at h1 ⊢
  simp only [Snprintf_s_d]
  exact ⟨fun hm => h1.1 (List.mem_of_mem_take hm), fun hm => h1.2 (List.mem_of_mem_take hm)⟩

theorem parenFree_loop (tree : HLSLTree) (base : String) (dstLength : Nat)
    (h : parenFree base = true) (remaining : Nat) :
    ∀ (i : Nat) (dst : String), parenFree dst = true →
      parenFree (ChooseUniqueName.loop tree base dstLength remaining i dst).2 = true := by
  induction remaining with
  | zero =>
    intro i dst hdst
    exact hdst
  | succ n ih =>
    intro i dst hdst
    simp only [ChooseUniqueName.loop]
    split
    · exact parenFree_Snprintf dstLength base i h
    · exact ih _ _ (parenFree_Snprintf dstLength base i h)

theorem parenFree_ChooseUniqueName (tree : HLSLTree) (base : String) (dstLength : Nat)
    (h : parenFree base = true) : parenFree (ChooseUniqueName tree base dstLength).2 = true :=
  parenFree_loop tree base dstLength h 1024 0 "" rfl

theorem members_noParens (cfg : BuildConfig) (tree : HLSLTree) (version : GLSLVersion)
    (target : Target) (entryName : String) :
    (Generate.members cfg tree version target entryName).noParens := by
  refine ⟨parenFree_ChooseUniqueName _ _ _ rfl, parenFree_ChooseUniqueName _ _ _ rfl,
    parenFree_ChooseUniqueName _ _ _ rfl, parenFree_ChooseUniqueName _ _ _ rfl,
    parenFree_ChooseUniqueName _ _ _ rfl, parenFree_ChooseUniqueName _ _ _ rfl, ?_⟩
  intro w hw
  simp only [Generate.members, List.mem_map] at hw
  obtain ⟨b, hb, hbw⟩ := hw
  rw [← hbw]
  refine parenFree_ChooseUniqueName _ _ _ ?_
  simp only [ReservedWord, List.mem_cons, List.mem_singleton, List.mem_nil_iff,
    or_false] at hb
  rcases hb with h | h | h | h | h <;> (rw [h]; rfl)

/-- C36: for every expression and destination type in which the identifier
names, field names, function names, formatted float literals and the names of
user-defined types contain no round parenthesis, if `OutputExpression`
returns and no error is raised at the end, then the text it has written
after the text present before has balanced round parentheses: every prefix
has at least as many `(` as `)`, and the totals are equal. The generator is
the one that `Generate` sets up, whose helper names and aliases contain no
parenthesis for every tree. -/
theorem OutputExpression_balanced (cfg : BuildConfig) (tree : HLSLTree) (version : GLSLVersion)
    (target : Target) (entryName : String) (s s1 : GenState) (e : HLSLExpression)
    (dst : Option HLSLType) (he : ExprNoParens e) (hd : ∀ t, dst = some t → TypeNoParens t)
    (h : OutputExpression cfg (Generate.members cfg tree version target entryName) s e dst
      = some s1)
    (herr : s1.hasError = false) :
    ∃ text, s1.code = s.code ++ text ∧ Balanced text := by
  have hs : ParenInv s.code 0 s := fun _ => ⟨"", by simp, rfl⟩
  obtain ⟨text, h1, h2⟩ :=
    (OutputExpression_parens_all cfg _
      (members_noParens cfg tree version target entryName)).1 s e dst he hd s.code 0 hs s1 h
      herr
  exact ⟨text, h1, Balanced_of_parenDepth text h2⟩

theorem OutputExpression_exampleSum (s : GenState) :
    OutputExpression exampleConfig exampleGenerator s exampleSum none
      = some (s.Write "(float (i) + x)") := by
  rw [exampleSum, OutputExpression_none, OutputExpression_node_binary]
  simp only [OutputExpression.binaryOp, if_true]
  rw [OutputExpression_wrapped _ _ _ (.IdentifierExpression (HLSLType.ofBase .Int) "i")
      (HLSLType.ofBase .Float) (by decide) rfl rfl,
    OutputExpression_identifier _ _ _ _ _ none (by decide) (by decide), OutputIdentifier_i]
  simp only [Option.map_some', Option.some_bind]
  rw [OutputExpression_identifier _ _ _ _ _ _ (by decide) (by decide), OutputIdentifier_x]
  simp only [Option.map_some', GenState.closeCast, GenState.Write_Write]
  rfl

theorem exampleSum_noParens : ExprNoParens exampleSum :=
  ExprNoParens.binary _ _ _ _
    (TypeNoParens.mk _ _ _ _ _ (fun _ h => by cases h) (fun _ h => by cases h))
    (ExprNoParens.identifier _ _ rfl) (ExprNoParens.identifier _ _ rfl)

/-- C36 at a concrete input: the sum `i + x` is written as `(float (i) + x)`,
a text with balanced parentheses. -/
theorem OutputExpression_balanced_witness :
    ExprNoParens exampleSum
    ∧ OutputExpression exampleConfig exampleGenerator freshState exampleSum none
        = some (freshState.Write "(float (i) + x)")
    ∧ ∃ text, (freshState.Write "(float (i) + x)").code = freshState.code ++ text
        ∧ Balanced text :=
  ⟨exampleSum_noParens, OutputExpression_exampleSum freshState,
    OutputExpression_balanced exampleConfig emptyTree .GLSL_300 .TARGET_FRAGMENT "main"
      freshState (freshState.Write "(float (i) + x)") exampleSum none exampleSum_noParens
      (fun _ h => by cases h) (OutputExpression_exampleSum freshState) rfl⟩

end sl

namespace DAVA

/-! ## C40: device exclusivity of the bound action sets -/

theorem removeDevice_mem (devices : List Nat) (l : List Nat) (d : Nat) :
    d ∈ devices.foldl BindSet.removeDevice l ↔ d ∈ l ∧ d ∉ devices := by
  induction devices generalizing l with
  | nil => simp
  | cons x xs ih =>
    rw [List.foldl_cons, ih]
    simp only [BindSet.removeDevice, List.mem_filter, decide_eq_true_eq, List.mem_cons, not_or]
    tauto

theorem unbind_mem {α : Type} (devices : List Nat) (boundSets : List (BoundActionSet α))
    (b : BoundActionSet α) (h : b ∈ BindSet.unbind devices boundSets) :
    (b ∈ boundSets ∧ b.devices = [])
    ∨ (b.devices ≠ [] ∧ ∃ a ∈ boundSets, a.devices ≠ []
        ∧ b = { a with devices := devices.foldl BindSet.removeDevice a.devices }) := by
  induction boundSets with
  | nil => simp [BindSet.unbind] at h
  | cons a rest ih =>
    have hrest : b ∈ BindSet.unbind devices rest →
        (b ∈ a :: rest ∧ b.devices = [])
        ∨ (b.devices ≠ [] ∧ ∃ a1 ∈ a :: rest, a1.devices ≠ []
            ∧ b = { a1 with devices := devices.foldl BindSet.removeDevice a1.devices }) := by
      intro hb
      rcases ih hb with ⟨h1, h2⟩ | ⟨h1, a1, h2, h3⟩
      · exact Or.inl ⟨List.mem_cons_of_mem _ h1, h2⟩
      · exact Or.inr ⟨h1, a1, List.mem_cons_of_mem _ h2, h3⟩
    unfold BindSet.unbind at h
    by_cases hlen : a.devices.length > 0
    · rw [if_pos hlen] at h
      have hne : a.devices ≠ [] := by
        intro h0
        rw [h0] at hlen
        exact absurd hlen (by decide)
      by_cases hz : (devices.foldl BindSet.removeDevice a.devices).length = 0
      · simp only [hz, if_true] at h
        exact hrest h
      · simp only [hz, if_false] at h
        rcases List.mem_cons.mp h with h | h
        · refine Or.inr ⟨?_, a, List.mem_cons_self _ _, hne, h⟩
          rw [h]
          intro h0
          simp only at h0
          exact hz (by rw [h0]; rfl)
        · exact hrest h
    · rw [if_neg hlen] at h
      rcases List.mem_cons.mp h with h | h
      · refine Or.inl ⟨h ▸ List.mem_cons_self _ _, ?_⟩
        rw [h]
        exact List.length_eq_zero.mp (by omega)
      · exact hrest h

theorem unbind_devices {α : Type} (devices : List Nat) (boundSets : List (BoundActionSet α))
    (b : BoundActionSet α) (h : b ∈ BindSet.unbind devices boundSets) :
    ∃ a ∈ boundSets, ∀ d, d ∈ b.devices ↔ d ∈ a.devices ∧ d ∉ devices := by
  rcases unbind_mem devices boundSets b h with ⟨h1, h2⟩ | ⟨_, a, h2, _, h3⟩
  · exact ⟨b, h1, fun d => by simp [h2]⟩
  · refine ⟨a, h2, fun d => ?_⟩
    rw [h3]
    exact removeDevice_mem devices a.devices d

theorem unbind_exclusive {α : Type} (devices : List Nat) (boundSets : List (BoundActionSet α))
    (h : Exclusive boundSets) : Exclusive (BindSet.unbind devices boundSets) := by
  induction boundSets with
  | nil => simp [BindSet.unbind, Exclusive]
  | cons a rest ih =>
    have hp := List.pairwise_cons.mp h
    have hrest : Exclusive (BindSet.unbind devices rest) := ih hp.2
    unfold BindSet.unbind
    by_cases hlen : a.devices.length > 0
    · rw [if_pos hlen]
      by_cases hz : (devices.foldl BindSet.removeDevice a.devices).length = 0
      · simp only [hz, if_true]
        exact hrest
      · simp only [hz, if_false]
        refine List.pairwise_cons.mpr ⟨?_, hrest⟩
        intro b hb d hd hdb
        obtain ⟨a1, ha1, hiff⟩ := unbind_devices devices rest b hb
        simp only at hd
        exact hp.1 a1 ha1 d ((removeDevice_mem devices a.devices d).mp hd).1
          ((hiff d).mp hdb).1
    · rw [if_neg hlen]
      refine List.pairwise_cons.mpr ⟨?_, hrest⟩
      intro b hb d hd
      have h0 : a.devices = [] := List.length_eq_zero.mp (by omega)
      rw [h0] at hd
      cases hd

theorem BindSet_exclusive {α : Type} [Inhabited α] (self : ActionSystemImpl α)
    (set : ActionSet α) (devices : List Nat) (h : Exclusive self.boundSets) :
    Exclusive (self.BindSet set devices).boundSets := by
  unfold ActionSystemImpl.BindSet Exclusive
  simp only
  rw [List.pairwise_append]
  by_cases hlen : devices.length > 0
  · rw [if_pos hlen]
    refine ⟨unbind_exclusive devices _ h, List.pairwise_singleton _ _, ?_⟩
    intro b hb c hc d hd hdc
    rw [List.mem_singleton] at hc
    subst hc
    obtain ⟨a, _, hiff⟩ := unbind_devices devices _ b hb
    exact ((hiff d).mp hd).2 hdc
  · rw [if_neg hlen]
    refine ⟨h, List.pairwise_singleton _ _, ?_⟩
    intro b hb c hc d hd hdc
    rw [List.mem_singleton] at hc
    subst hc
    have h0 : devices = [] := List.length_eq_zero.mp (by omega)
    simp only [BindSet.boundSet, h0] at hdc
    cases hdc

theorem run_append {α : Type} [Inhabited α] (self : ActionSystemImpl α)
    (calls : List (BindCall α)) (c : BindCall α) :
    self.run (calls ++ [c]) = (self.run calls).call c := by
  simp [ActionSystemImpl.run, List.foldl_append]

theorem run_exclusive {α : Type} [Inhabited α] (calls : List (BindCall α)) :
    Exclusive ((ActionSystemImpl.initial : ActionSystemImpl α).run calls).boundSets := by
  induction calls using List.reverseRecOn with
  | nil => exact List.Pairwise.nil
  | append_singleton calls c ih =>
    rw [run_append]
    cases c with
    | BindSet set devices => exact BindSet_exclusive _ set devices ih
    | UnbindAllSets => exact List.Pairwise.nil

theorem BindSet_boundSets_mem {α : Type} [Inhabited α] (self : ActionSystemImpl α)
    (set : ActionSet α) (devices : List Nat) (b : BoundActionSet α)
    (h : b ∈ (self.BindSet set devices).boundSets) (hb : b.devices = []) :
    b ∈ self.boundSets ∨ (devices = [] ∧ b = BindSet.boundSet set []) := by
  unfold ActionSystemImpl.BindSet at h
  simp only [List.mem_append, List.mem_singleton] at h
  rcases h with h | h
  · left
    by_cases hlen : devices.length > 0
    · rw [if_pos hlen] at h
      rcases unbind_mem devices _ b h with ⟨h1, _⟩ | ⟨h1, _⟩
      · exact h1
      · exact absurd hb h1
    · rw [if_neg hlen] at h
      exact h
  · right
    rw [h] at hb
    simp only [BindSet.boundSet] at hb
    exact ⟨hb, by rw [h, hb]⟩

theorem run_unbound {α : Type} [Inhabited α] (calls : List (BindCall α))
    (b : BoundActionSet α)
    (h : b ∈ ((ActionSystemImpl.initial : ActionSystemImpl α).run calls).boundSets)
    (hb : b.devices = []) :
    ∃ set, BindCall.BindSet set [] ∈ calls ∧ b = BindSet.boundSet set [] := by
  induction calls using List.reverseRecOn with
  | nil => cases h
  | append_singleton calls c ih =>
    rw [run_append] at h
    cases c with
    | BindSet set devices =>
      rcases BindSet_boundSets_mem _ set devices b h hb with h1 | ⟨h1, h2⟩
      · obtain ⟨set1, hm, he⟩ := ih h1
        exact ⟨set1, List.mem_append_left _ hm, he⟩
      · exact ⟨set, by simp [h1], h2⟩
    | UnbindAllSets => cases h

/-- C40 fails as stated: after `BindSet(A, {1})` followed by `UnbindAllSets()`
the bound list is empty, so the set passed to the latest `BindSet` is not its
last element. -/
theorem BindSet_latest_counterexample :
    ((ActionSystemImpl.initial : ActionSystemImpl Nat).run
        [.BindSet (exampleSet "A") [1], .UnbindAllSets]).boundSets = []
    ∧ ((ActionSystemImpl.initial : ActionSystemImpl Nat).run
        [.BindSet (exampleSet "A") [1], .UnbindAllSets]).boundSets.getLast?
      ≠ some (BindSet.boundSet (exampleSet "A") [1]) := by
  constructor
  · rfl
  · intro h
    cases h

/-- C40, amended: after any sequence of `BindSet` and `UnbindAllSets` calls on
a new action system, no device id occurs in the device lists of two different
bound sets, and every set of the bound list with an empty device list is the
set of a `BindSet` call of the sequence that named no devices (a set that
loses all of its devices to a later `BindSet` is erased). Immediately after a
call `BindSet(set, devices)` the last element of the bound list is that set
with exactly the requested devices; after `UnbindAllSets` the bound list is
empty, whatever was bound before. -/
theorem BindSet_device_exclusivity {α : Type} [Inhabited α] (calls : List (BindCall α)) :
    Exclusive ((ActionSystemImpl.initial : ActionSystemImpl α).run calls).boundSets
    ∧ (∀ b, b ∈ ((ActionSystemImpl.initial : ActionSystemImpl α).run calls).boundSets →
        b.devices = [] →
        ∃ set, BindCall.BindSet set [] ∈ calls ∧ b = BindSet.boundSet set [])
    ∧ (∀ (set : ActionSet α) (devices : List Nat),
        ((ActionSystemImpl.initial : ActionSystemImpl α).run
            (calls ++ [.BindSet set devices])).boundSets.getLast?
          = some (BindSet.boundSet set devices)
        ∧ (BindSet.boundSet set devices).devices = devices
        ∧ (BindSet.boundSet set devices).name = set.name)
    ∧ ((ActionSystemImpl.initial : ActionSystemImpl α).run
          (calls ++ [.UnbindAllSets])).boundSets = [] := by
  refine ⟨run_exclusive calls, fun b h hb => run_unbound calls b h hb, ?_, ?_⟩
  · intro set devices
    refine ⟨?_, rfl, rfl⟩
    rw [run_append]
    simp [ActionSystemImpl.call, ActionSystemImpl.BindSet]
  · rw [run_append]
    rfl

/-- C40, amended, at a concrete input: set `A` is bound to the devices 1 and
2, then set `B` to device 1 and set `C` to device 2; `A` has lost both
devices and is erased, `B` and `C` remain with their devices. -/
theorem BindSet_device_exclusivity_witness :
    ((ActionSystemImpl.initial : ActionSystemImpl Nat).run
        [.BindSet (exampleSet "A") [1, 2], .BindSet (exampleSet "B") [1],
         .BindSet (exampleSet "C") [2]]).boundSets.map (fun b => (b.name, b.devices))
      = [("B", [1]), ("C", [2])]
    ∧ Exclusive ((ActionSystemImpl.initial : ActionSystemImpl Nat).run
        [.BindSet (exampleSet "A") [1, 2], .BindSet (exampleSet "B") [1],
         .BindSet (exampleSet "C") [2]]).boundSets :=
  ⟨by decide,
    (BindSet_device_exclusivity
      [.BindSet (exampleSet "A") [1, 2], .BindSet (exampleSet "B") [1],
        .BindSet (exampleSet "C") [2]]).1⟩

end DAVA
